import Mathlib

/-!
nexus-operator: a shallow embedding of the reconciliation core.

The development follows the Go sources:

* `pkg/nexus/client.go` — error values and the lazily initialised client;
* `api/v1alpha1/*_types.go` — the spec records;
* `pkg/nexus/{repository,privilege,role,contentselector}.go` — translation of a
  spec to a remote payload and the HTTP operations;
* `internal/controller/*_controller.go` — the four reconcilers.

Payloads are Go values of type `map[string]interface{}`.  Their comparison is
done by `cmp.Equal` of go-cmp, whose rules are embedded in `cmpAny` below.
-/

set_option autoImplicit false

namespace NexusOperator

/-! ## Errors (`pkg/nexus/client.go`) -/

/-- The package-level error values of `pkg/nexus/client.go`. -/
inductive Sentinel where
  | ErrMissingEnvVars
  | ErrUnexpectedResponse
  | ErrRepositoryNotFound
  | ErrUnsupportedRepoType
  | ErrContentSelectorNotFound
  | ErrContentSelectorAlreadyExists
  | ErrPrivilegeNotFound
  | ErrInvalidPrivilegeType
  | ErrWildcardConfigRequired
  | ErrApplicationConfigRequired
  | ErrRepoViewConfigRequired
  | ErrRepoAdminConfigRequired
  | ErrRepoContentSelConfigRequired
  | ErrScriptConfigRequired
  | ErrUnsupportedPrivilegeType
  | ErrRoleNotFound
  | ErrRoleAlreadyExists
  deriving DecidableEq, Repr

/-- The text given to `errors.New` for each error value. -/
def Sentinel.text : Sentinel → String
  | .ErrMissingEnvVars => "не заданы необходимые переменные окружения для клиента Nexus"
  | .ErrUnexpectedResponse => "неожиданный статус ответа"
  | .ErrRepositoryNotFound => "репозиторий не найден"
  | .ErrUnsupportedRepoType => "неподдерживаемый тип репозитория"
  | .ErrContentSelectorNotFound => "content-selector не найден"
  | .ErrContentSelectorAlreadyExists => "content-selector уже существует"
  | .ErrPrivilegeNotFound => "привелегия не найдена"
  | .ErrInvalidPrivilegeType => "неподдерживаемый тип привелегии"
  | .ErrWildcardConfigRequired => "требуется конфигурация для wildcard-привелегии"
  | .ErrApplicationConfigRequired => "требуется конфигурация для application-привелегии"
  | .ErrRepoViewConfigRequired => "требуется конфигурация для repository-view-привелегии"
  | .ErrRepoAdminConfigRequired => "требуется конфигурация для repository-admin-привелегии"
  | .ErrRepoContentSelConfigRequired =>
      "требуется конфигурация для repository-content-selector-привелегии"
  | .ErrScriptConfigRequired => "требуется конфигурация для script-привелегии"
  | .ErrUnsupportedPrivilegeType => "неподдерживаемый тип привелегии"
  | .ErrRoleNotFound => "роль не найдена"
  | .ErrRoleAlreadyExists => "роль уже существует"

/-- What the API server's error says about its cause, as read by
`k8serrors.IsNotFound` and `k8serrors.IsConflict`. -/
inductive StatusReason where
  | NotFound
  | Conflict
  | Other
  deriving DecidableEq, Repr

/-- A Go `error`: its message, the package error value found in its `%w` chain
(what `errors.Is` looks for) and, for an error of the record store, its status
reason. -/
structure GoError where
  msg : String
  sentinel : Option Sentinel
  reason : Option StatusReason
  deriving DecidableEq, Repr

/-- The error value itself, as returned by `return ErrRoleNotFound`. -/
def Sentinel.toError (s : Sentinel) : GoError :=
  { msg := s.text, sentinel := some s, reason := none }

/-- Wrapping `fmt.Errorf(ctx + ": %w", err)`: the message gets a prefix, the
chain is kept. -/
def GoError.wrap (ctx : String) (e : GoError) : GoError :=
  { e with msg := ctx ++ ": " ++ e.msg }

/-- Unwrapping test `errors.Is(err, target)`. -/
def GoError.is (e : GoError) (target : Sentinel) : Bool :=
  e.sentinel == some target

/-- Store test `k8serrors.IsNotFound(err)`. -/
def GoError.isNotFound (e : GoError) : Bool :=
  e.reason == some StatusReason.NotFound

/-- Store test `k8serrors.IsConflict(err)`. -/
def GoError.isConflict (e : GoError) : Bool :=
  e.reason == some StatusReason.Conflict

/-- Constructor `NewUnexpectedResponseError(statusCode, responseText)`:
`fmt.Errorf("%w: статус %d, текст: %s", ErrUnexpectedResponse, ...)`. -/
def NewUnexpectedResponseError (statusCode : Nat) (responseText : String) : GoError :=
  { msg := Sentinel.ErrUnexpectedResponse.text ++ ": статус " ++ toString statusCode
      ++ ", текст: " ++ responseText
    sentinel := some Sentinel.ErrUnexpectedResponse
    reason := none }

/-! ## Go values held in a payload -/

/-- The struct types of `api/v1alpha1/repository_types.go` whose values are put
into a repository payload. -/
inductive StructType where
  | StorageConfig
  | MavenConfig
  | NpmConfig
  | GroupConfig
  | HttpClientConfig
  | AuthConfig
  | NegativeCacheConfig
  deriving DecidableEq, Repr

/-- The Go field names of those struct types. -/
inductive Field where
  | BlobStoreName
  | StrictContentTypeValidation
  | WritePolicy
  | VersionPolicy
  | LayoutPolicy
  | ContentDisposition
  | RemoveNonCataloged
  | RemoveQuarantined
  | MemberNames
  | Blocked
  | AutoBlock
  | Authentication
  | Type_
  | Username
  | Password
  | Enabled
  | TimeToLive
  deriving DecidableEq, Repr

/-- The Go identifier of a field, as `cmp.Path` prints it. -/
def Field.goName : Field → String
  | .BlobStoreName => "BlobStoreName"
  | .StrictContentTypeValidation => "StrictContentTypeValidation"
  | .WritePolicy => "WritePolicy"
  | .VersionPolicy => "VersionPolicy"
  | .LayoutPolicy => "LayoutPolicy"
  | .ContentDisposition => "ContentDisposition"
  | .RemoveNonCataloged => "RemoveNonCataloged"
  | .RemoveQuarantined => "RemoveQuarantined"
  | .MemberNames => "MemberNames"
  | .Blocked => "Blocked"
  | .AutoBlock => "AutoBlock"
  | .Authentication => "Authentication"
  | .Type_ => "Type"
  | .Username => "Username"
  | .Password => "Password"
  | .Enabled => "Enabled"
  | .TimeToLive => "TimeToLive"

/-- The key of the field's `json:"..."` tag. -/
def Field.jsonName : Field → String
  | .BlobStoreName => "blobStoreName"
  | .StrictContentTypeValidation => "strictContentTypeValidation"
  | .WritePolicy => "writePolicy"
  | .VersionPolicy => "versionPolicy"
  | .LayoutPolicy => "layoutPolicy"
  | .ContentDisposition => "contentDisposition"
  | .RemoveNonCataloged => "removeNonCataloged"
  | .RemoveQuarantined => "removeQuarantined"
  | .MemberNames => "memberNames"
  | .Blocked => "blocked"
  | .AutoBlock => "autoBlock"
  | .Authentication => "authentication"
  | .Type_ => "type"
  | .Username => "username"
  | .Password => "password"
  | .Enabled => "enabled"
  | .TimeToLive => "timeToLive"

/-- Whether the field's json tag carries `omitempty`. -/
def Field.omitEmpty : Field → Bool
  | .ContentDisposition => true
  | .RemoveNonCataloged => true
  | .RemoveQuarantined => true
  | .Authentication => true
  | .Type_ => true
  | .TimeToLive => true
  | _ => false

/-- The dynamic values that an `interface{}` slot of a payload can hold: what
`BuildRepositoryConfig` and `BuildPrivilegeConfig` store and what
`json.Unmarshal` produces.  A `float64` is a finite one, given by the rational
it denotes (neither translation nor decoding yields NaN or an infinity).  A
map is an association list read by first match. -/
inductive GoValue where
  | nil
  | bool (b : Bool)
  | string (s : String)
  | int (n : Int)
  | float64 (x : ℚ)
  | nilIntPtr
  | intPtr (n : Int)
  | nilStrings
  | strings (xs : List String)
  | struct (ty : StructType) (fields : List (Field × GoValue))
  | nilPtr (ty : StructType)
  | ptr (ty : StructType) (fields : List (Field × GoValue))
  | nilMap
  | map (entries : List (String × GoValue))
  | nilSlice
  | slice (elems : List GoValue)

/-- A non-nil `map[string]interface{}`. -/
abbrev Config := List (String × GoValue)

/-- A Go value of type `map[string]interface{}`; `none` is the nil map. -/
abbrev GoMap := Option Config

/-- The map as an `interface{}`-held value. -/
def GoMap.toValue : GoMap → GoValue
  | none => GoValue.nilMap
  | some es => GoValue.map es

/-- Reading `m[k]` with presence: the first entry under the key. -/
def lookup (k : String) : Config → Option GoValue
  | [] => none
  | (k', v) :: rest => if k' = k then some v else lookup k rest

/-- Reading on a possibly nil map. -/
def GoMap.get (m : GoMap) (k : String) : Option GoValue :=
  match m with
  | none => none
  | some es => lookup k es

/-- The keys of a map. -/
def keysOf (es : Config) : List String := es.map Prod.fst

/-- Assignment `m[k] = v`: replaces the value under an existing key, adds the
entry otherwise. -/
def setKey (k : String) (v : GoValue) : Config → Config
  | [] => [(k, v)]
  | (k', v') :: rest => if k' = k then (k, v) :: rest else (k', v') :: setKey k v rest

/-- Removal `delete(m, k)`. -/
def deleteKey (k : String) (es : Config) : Config :=
  es.filter (fun p => !(p.1 == k))

/-! ## `cmp.Equal` (go-cmp) -/

/-- Printing `cmp.Path.String()`: only struct-field steps are printed, each as
`.Name`, and one leading dot is trimmed. -/
def Path.String : List Field → String
  | [] => ""
  | f :: rest => f.goName ++ String.join (rest.map (fun g => "." ++ g.goName))

/-- The options given to `cmp.Equal` in this repository: the key predicate of
`cmpopts.IgnoreMapEntries` (neither use looks at the value) and the predicate on
`p.String()` of a `cmp.FilterPath(..., cmp.Ignore())`. -/
structure Options where
  ignoreMapEntries : String → Bool
  filterPath : String → Bool

/-- No option: plain `cmp.Equal(x, y)`. -/
def noOptions : Options :=
  { ignoreMapEntries := fun _ => false, filterPath := fun _ => false }

mutual
/-- Rule 3 of `compareAny` on a node no option applied to, after the check of
`compareInterface` that both dynamic types agree: scalars by `==`; pointers,
maps and slices equal when both nil or both non-nil with equal contents;
structs field by field. -/
def cmpAny (o : Options) (path : List Field) : GoValue → GoValue → Bool
  | .nil, y => (match y with | .nil => true | _ => false)
  | .bool a, y => (match y with | .bool b => a == b | _ => false)
  | .string a, y => (match y with | .string b => a == b | _ => false)
  | .int a, y => (match y with | .int b => a == b | _ => false)
  | .float64 a, y => (match y with | .float64 b => a == b | _ => false)
  | .nilIntPtr, y => (match y with | .nilIntPtr => true | _ => false)
  | .intPtr a, y => (match y with | .intPtr b => a == b | _ => false)
  | .nilStrings, y => (match y with | .nilStrings => true | _ => false)
  | .strings a, y => (match y with | .strings b => a == b | _ => false)
  | .struct t fs, y =>
      (match y with | .struct u gs => t == u && cmpFields o path fs gs | _ => false)
  | .nilPtr t, y => (match y with | .nilPtr u => t == u | _ => false)
  | .ptr t fs, y =>
      (match y with | .ptr u gs => t == u && cmpFields o path fs gs | _ => false)
  | .nilMap, y => (match y with | .nilMap => true | _ => false)
  | .map es, y =>
      (match y with
       | .map fs =>
           cmpEntries o path [] es fs &&
             fs.all (fun p => o.ignoreMapEntries p.1 || (keysOf es).contains p.1)
       | _ => false)
  | .nilSlice, y => (match y with | .nilSlice => true | _ => false)
  | .slice xs, y => (match y with | .slice ys => cmpElems o path xs ys | _ => false)
termination_by structural x => x
/-- The struct-field steps of `compareStruct`: the fields in declaration order,
each first offered to the options under the path extended by its name. -/
def cmpFields (o : Options) (path : List Field) :
    List (Field × GoValue) → List (Field × GoValue) → Bool
  | [], gs => (match gs with | [] => true | _ => false)
  | p :: fs, gs =>
      (match gs with
       | [] => false
       | q :: gs' => cmpField o path p q && cmpFields o path fs gs')
termination_by structural x => x
/-- One struct-field step. -/
def cmpField (o : Options) (path : List Field) : Field × GoValue → Field × GoValue → Bool
  | (f, v), q =>
      f == q.1 && (o.filterPath (Path.String (path ++ [f])) || cmpAny o (path ++ [f]) v q.2)
termination_by structural x => x
/-- The map-index steps of `compareMap` for the keys of the left map (`seen`
holds the keys already visited, each key being visited once): an entry is
ignored when the `IgnoreMapEntries` predicate holds of its key, differs when the
right map lacks the key, and is compared otherwise. -/
def cmpEntries (o : Options) (path : List Field) (seen : List String) :
    Config → Config → Bool
  | [], _ => true
  | p :: rest, other => cmpEntry o path seen p other && cmpEntries o path (p.1 :: seen) rest other
termination_by structural x => x
/-- One map-index step. -/
def cmpEntry (o : Options) (path : List Field) (seen : List String) :
    String × GoValue → Config → Bool
  | (k, v), other =>
      seen.contains k || o.ignoreMapEntries k ||
        (match lookup k other with
         | some w => cmpAny o path v w
         | none => false)
termination_by structural x => x
/-- The slice-index steps of `compareSlice` when no element is ignored on its
own: same length and equal elements in order. -/
def cmpElems (o : Options) (path : List Field) : List GoValue → List GoValue → Bool
  | [], ys => (match ys with | [] => true | _ => false)
  | x :: xs, ys =>
      (match ys with
       | [] => false
       | y :: ys' => cmpAny o path x y && cmpElems o path xs ys')
termination_by structural x => x
end

/-- Entry point `cmp.Equal(x, y, opts...)`: the root node is offered to the
options, then compared. -/
def cmpEqual (o : Options) (x y : GoValue) : Bool :=
  o.filterPath (Path.String []) || cmpAny o [] x y

/-! ## Repository specs (`api/v1alpha1/repository_types.go`) -/

/-- Go struct `StorageConfig`. -/
structure StorageConfig where
  BlobStoreName : String
  StrictContentTypeValidation : Bool
  WritePolicy : String
  deriving DecidableEq, Repr

/-- Go struct `MavenConfig`. -/
structure MavenConfig where
  VersionPolicy : String
  LayoutPolicy : String
  ContentDisposition : String
  deriving DecidableEq, Repr

/-- Go struct `NpmConfig`. -/
structure NpmConfig where
  RemoveNonCataloged : Bool
  RemoveQuarantined : Bool
  deriving DecidableEq, Repr

/-- Go struct `DockerConfig`; the ports are `*int`. -/
structure DockerConfig where
  HttpPort : Option Int
  HttpsPort : Option Int
  ForceBasicAuth : Bool
  V1Enabled : Bool
  Subdomain : String
  deriving DecidableEq, Repr

/-- Go struct `RawConfig`. -/
structure RawConfig where
  ContentDisposition : String
  deriving DecidableEq, Repr

/-- Go struct `ProxyConfig`. -/
structure ProxyConfig where
  RemoteUrl : String
  ContentMaxAge : Int
  MetadataMaxAge : Int
  deriving DecidableEq, Repr

/-- Go struct `AuthConfig`. -/
structure AuthConfig where
  Type_ : String
  Username : String
  Password : String
  deriving DecidableEq, Repr

/-- Go struct `HttpClientConfig`. -/
structure HttpClientConfig where
  Blocked : Bool
  AutoBlock : Bool
  Authentication : Option AuthConfig
  deriving DecidableEq, Repr

/-- Go struct `NegativeCacheConfig`. -/
structure NegativeCacheConfig where
  Enabled : Bool
  TimeToLive : Int
  deriving DecidableEq, Repr

/-- Go struct `GroupConfig`; `MemberNames` is a `[]string`, `none` the nil slice. -/
structure GroupConfig where
  MemberNames : Option (List String)
  deriving DecidableEq, Repr

/-- Go struct `CleanupPolicy`. -/
structure CleanupPolicy where
  PolicyNames : Option (List String)
  deriving DecidableEq, Repr

/-- Go struct `RepositorySpec`; an optional sub-block is a pointer, `none` when
nil. -/
structure RepositorySpec where
  Name : String
  Type_ : String
  Online : Bool
  Storage : StorageConfig
  Maven : Option MavenConfig
  Npm : Option NpmConfig
  Docker : Option DockerConfig
  Raw : Option RawConfig
  Proxy : Option ProxyConfig
  Group : Option GroupConfig
  Cleanup : Option CleanupPolicy
  HttpClient : Option HttpClientConfig
  NegativeCache : Option NegativeCacheConfig
  deriving DecidableEq, Repr

/-- A `[]string` as a payload value. -/
def stringsValue : Option (List String) → GoValue
  | none => GoValue.nilStrings
  | some xs => GoValue.strings xs

/-- An `*int` as a payload value. -/
def intPtrValue : Option Int → GoValue
  | none => GoValue.nilIntPtr
  | some n => GoValue.intPtr n

/-- The fields of a `StorageConfig` value. -/
def StorageConfig.fields (s : StorageConfig) : List (Field × GoValue) :=
  [(Field.BlobStoreName, GoValue.string s.BlobStoreName),
   (Field.StrictContentTypeValidation, GoValue.bool s.StrictContentTypeValidation),
   (Field.WritePolicy, GoValue.string s.WritePolicy)]

/-- A `StorageConfig` stored by value. -/
def StorageConfig.toValue (s : StorageConfig) : GoValue :=
  GoValue.struct StructType.StorageConfig s.fields

/-- A `*MavenConfig` stored as such. -/
def mavenValue : Option MavenConfig → GoValue
  | none => GoValue.nilPtr StructType.MavenConfig
  | some m =>
      GoValue.ptr StructType.MavenConfig
        [(Field.VersionPolicy, GoValue.string m.VersionPolicy),
         (Field.LayoutPolicy, GoValue.string m.LayoutPolicy),
         (Field.ContentDisposition, GoValue.string m.ContentDisposition)]

/-- A `*NpmConfig` stored as such. -/
def npmValue : Option NpmConfig → GoValue
  | none => GoValue.nilPtr StructType.NpmConfig
  | some n =>
      GoValue.ptr StructType.NpmConfig
        [(Field.RemoveNonCataloged, GoValue.bool n.RemoveNonCataloged),
         (Field.RemoveQuarantined, GoValue.bool n.RemoveQuarantined)]

/-- A `*GroupConfig` stored as such. -/
def groupValue : Option GroupConfig → GoValue
  | none => GoValue.nilPtr StructType.GroupConfig
  | some g => GoValue.ptr StructType.GroupConfig [(Field.MemberNames, stringsValue g.MemberNames)]

/-- An `*AuthConfig` field. -/
def authValue : Option AuthConfig → GoValue
  | none => GoValue.nilPtr StructType.AuthConfig
  | some a =>
      GoValue.ptr StructType.AuthConfig
        [(Field.Type_, GoValue.string a.Type_),
         (Field.Username, GoValue.string a.Username),
         (Field.Password, GoValue.string a.Password)]

/-- A `*HttpClientConfig` stored as such. -/
def httpClientValue : Option HttpClientConfig → GoValue
  | none => GoValue.nilPtr StructType.HttpClientConfig
  | some h =>
      GoValue.ptr StructType.HttpClientConfig
        [(Field.Blocked, GoValue.bool h.Blocked),
         (Field.AutoBlock, GoValue.bool h.AutoBlock),
         (Field.Authentication, authValue h.Authentication)]

/-- A `*NegativeCacheConfig` stored as such. -/
def negativeCacheValue : Option NegativeCacheConfig → GoValue
  | none => GoValue.nilPtr StructType.NegativeCacheConfig
  | some n =>
      GoValue.ptr StructType.NegativeCacheConfig
        [(Field.Enabled, GoValue.bool n.Enabled),
         (Field.TimeToLive, GoValue.int n.TimeToLive)]

/-! ## Translation of a repository spec (`pkg/nexus/repository.go`) -/

/-- How a translation can end other than with a payload: a returned error, or
the run-time panic of a field access through a nil pointer. -/
inductive Failure where
  | error (e : GoError)
  | nilDereference
  deriving DecidableEq, Repr

/-- Field access `p.F` through a pointer: panics when the pointer is nil. -/
def deref {α : Type} : Option α → Except Failure α
  | some a => Except.ok a
  | none => Except.error Failure.nilDereference

/-- Function `buildProxyConfig`. -/
def buildProxyConfig (proxy : ProxyConfig) : Config :=
  [("remoteUrl", GoValue.string proxy.RemoteUrl),
   ("contentMaxAge", GoValue.int proxy.ContentMaxAge),
   ("metadataMaxAge", GoValue.int proxy.MetadataMaxAge)]

/-- The `storage` map literal of the npm-group and raw-hosted cases. -/
def storageMap (s : StorageConfig) : GoValue :=
  GoValue.map
    [("blobStoreName", GoValue.string s.BlobStoreName),
     ("strictContentTypeValidation", GoValue.bool s.StrictContentTypeValidation),
     ("writePolicy", GoValue.string s.WritePolicy)]

/-- The statements of `BuildRepositoryConfig` before its `switch`: the map
literal and the four optional blocks. -/
def commonConfig (spec : RepositorySpec) : Config :=
  let config : Config :=
    [("name", GoValue.string spec.Name),
     ("online", GoValue.bool spec.Online),
     ("storage", spec.Storage.toValue)]
  let config :=
    match spec.Proxy with
    | some proxy => setKey "proxy" (GoValue.map (buildProxyConfig proxy)) config
    | none => config
  let config :=
    match spec.Group with
    | some g => setKey "group" (groupValue (some g)) config
    | none => config
  let config :=
    match spec.HttpClient with
    | some h => setKey "httpClient" (httpClientValue (some h)) config
    | none => config
  match spec.NegativeCache with
  | some n => setKey "negativeCache" (negativeCacheValue (some n)) config
  | none => config

/-- Function `BuildRepositoryConfig`. -/
def BuildRepositoryConfig (spec : RepositorySpec) : Except Failure Config :=
  let config := commonConfig spec
  if spec.Type_ = "maven-proxy" then
    Except.ok (setKey "maven" (mavenValue spec.Maven) config)
  else if spec.Type_ = "maven-hosted" then
    Except.ok (setKey "maven" (mavenValue spec.Maven) config)
  else if spec.Type_ = "maven-group" then
    match spec.Maven with
    | some m => Except.ok (setKey "maven" (mavenValue (some m)) config)
    | none => Except.ok config
  else if spec.Type_ = "npm-hosted" then
    Except.ok (setKey "npm" (npmValue spec.Npm) config)
  else if spec.Type_ = "npm-proxy" then
    Except.ok (setKey "npm" (npmValue spec.Npm) config)
  else if spec.Type_ = "npm-group" then
    let config := setKey "storage" (storageMap spec.Storage) config
    let config := setKey "group" (groupValue spec.Group) config
    match spec.Npm with
    | some n =>
        Except.ok (setKey "npm"
          (GoValue.map
            [("removeNonCataloged", GoValue.bool n.RemoveNonCataloged),
             ("removeQuarantined", GoValue.bool n.RemoveQuarantined)]) config)
    | none => Except.ok config
  else if spec.Type_ = "docker-proxy" then do
    let docker ← deref spec.Docker
    let dockerProxyConfig : Config :=
      [("httpPort", intPtrValue docker.HttpPort),
       ("httpsPort", intPtrValue docker.HttpsPort),
       ("forceBasicAuth", GoValue.bool docker.ForceBasicAuth),
       ("v1Enabled", GoValue.bool docker.V1Enabled),
       ("subdomain", GoValue.string docker.Subdomain)]
    let config := setKey "docker" (GoValue.map dockerProxyConfig) config
    let proxy ← deref spec.Proxy
    let config := setKey "dockerProxy"
      (GoValue.map
        [("contentMaxAge", GoValue.int proxy.ContentMaxAge),
         ("metadataMaxAge", GoValue.int proxy.MetadataMaxAge),
         ("remoteUrl", GoValue.string proxy.RemoteUrl),
         ("indexType", GoValue.string "REGISTRY")]) config
    match spec.HttpClient with
    | some h => Except.ok (setKey "httpClient" (httpClientValue (some h)) config)
    | none => Except.ok config
  else if spec.Type_ = "docker-group" then
    Except.ok (setKey "group" (groupValue spec.Group) config)
  else if spec.Type_ = "docker-hosted" then do
    let docker ← deref spec.Docker
    let dockerConfig : Config :=
      [("forceBasicAuth", GoValue.bool docker.ForceBasicAuth),
       ("v1Enabled", GoValue.bool docker.V1Enabled),
       ("subdomain", GoValue.string docker.Subdomain)]
    let dockerConfig :=
      match docker.HttpPort with
      | some port => setKey "httpPort" (GoValue.int port) dockerConfig
      | none => dockerConfig
    let dockerConfig :=
      match docker.HttpsPort with
      | some port => setKey "httpsPort" (GoValue.int port) dockerConfig
      | none => dockerConfig
    Except.ok (setKey "docker" (GoValue.map dockerConfig) config)
  else if spec.Type_ = "raw-hosted" then
    Except.ok (setKey "storage" (storageMap spec.Storage) config)
  else if spec.Type_ = "raw-proxy" then do
    let proxy ← deref spec.Proxy
    let config := setKey "proxy"
      (GoValue.map
        [("remoteUrl", GoValue.string proxy.RemoteUrl),
         ("contentMaxAge", GoValue.int proxy.ContentMaxAge),
         ("metadataMaxAge", GoValue.int proxy.MetadataMaxAge)]) config
    match spec.HttpClient with
    | some h => Except.ok (setKey "httpClient" (httpClientValue (some h)) config)
    | none => Except.ok config
  else if spec.Type_ = "raw-group" then do
    let g ← deref spec.Group
    Except.ok (setKey "group" (GoValue.map [("memberNames", stringsValue g.MemberNames)]) config)
  else
    Except.error (Failure.error
      { msg := Sentinel.ErrUnsupportedRepoType.text ++ ": " ++ spec.Type_
        sentinel := some Sentinel.ErrUnsupportedRepoType
        reason := none })

/-! ## The repository diff (`internal/controller/repository_controller.go`) -/

/-- The `ignoreFields` options of `RepositoryReconciler.needsUpdate`. -/
def repositoryIgnoreFields : Options :=
  { ignoreMapEntries := fun k =>
      k == "lastUpdated" || k == "taskId" || k == "url" || k == "contentDisposition"
    filterPath := fun p => p == "Attributes.checksum" || p == "raw.contentDisposition" }

/-- Method `RepositoryReconciler.needsUpdate`. -/
def RepositoryReconciler.needsUpdate (desired current : GoMap) : Bool :=
  !cmpEqual repositoryIgnoreFields desired.toValue current.toValue

/-! ## `encoding/json`: what a payload becomes on the wire and back -/

/-- The `float64` that `json.Unmarshal` yields for the decimal digits of a Go
`int`: the integer itself up to 53 bits, rounded to nearest-even beyond. -/
def roundToFloat64 (n : Int) : ℚ :=
  let m := n.natAbs
  if m < 2 ^ 53 then (n : ℚ)
  else
    let k := Nat.log2 m - 52
    let q := m / 2 ^ k
    let r := m % 2 ^ k
    let half := 2 ^ (k - 1)
    let q' := if half < r ∨ (r = half ∧ q % 2 = 1) then q + 1 else q
    (if n < 0 then (-1 : ℚ) else 1) * ((q' * 2 ^ k : Nat) : ℚ)

/-- The test `isEmptyValue` of `encoding/json` behind `omitempty`: false, zero,
the empty string, a nil pointer or interface, an empty or nil map or slice. -/
def isEmptyValue : GoValue → Bool
  | .nil => true
  | .bool b => !b
  | .string s => s == ""
  | .int n => n == 0
  | .float64 x => x == 0
  | .nilIntPtr => true
  | .intPtr _ => false
  | .nilStrings => true
  | .strings xs => xs.isEmpty
  | .struct _ _ => false
  | .nilPtr _ => true
  | .ptr _ _ => false
  | .nilMap => true
  | .map es => es.isEmpty
  | .nilSlice => true
  | .slice xs => xs.isEmpty

mutual
/-- The value `json.Unmarshal` stores in an `interface{}` for the output of
`json.Marshal` on a value: numbers come back as `float64`, structs and maps as
`map[string]interface{}` keyed by json tag, slices as `[]interface{}`, and
every nil pointer, map or slice as the nil interface. -/
def jsonRoundTrip : GoValue → GoValue
  | .nil => .nil
  | .bool b => .bool b
  | .string s => .string s
  | .int n => .float64 (roundToFloat64 n)
  | .float64 x => .float64 x
  | .nilIntPtr => .nil
  | .intPtr n => .float64 (roundToFloat64 n)
  | .nilStrings => .nil
  | .strings xs => .slice (xs.map GoValue.string)
  | .struct _ fs => .map (jsonFields fs)
  | .nilPtr _ => .nil
  | .ptr _ fs => .map (jsonFields fs)
  | .nilMap => .nil
  | .map es => .map (jsonEntries es)
  | .nilSlice => .nil
  | .slice xs => .slice (jsonElems xs)
termination_by structural x => x
/-- The members written for the fields of a struct. -/
def jsonFields : List (Field × GoValue) → Config
  | [] => []
  | p :: rest => jsonField p ++ jsonFields rest
termination_by structural x => x
/-- The member written for one field, none when `omitempty` drops it. -/
def jsonField : Field × GoValue → Config
  | (f, v) => if f.omitEmpty && isEmptyValue v then [] else [(f.jsonName, jsonRoundTrip v)]
termination_by structural x => x
/-- The members written for the entries of a map. -/
def jsonEntries : Config → Config
  | [] => []
  | p :: rest => jsonEntry p :: jsonEntries rest
termination_by structural x => x
/-- The member written for one entry. -/
def jsonEntry : String × GoValue → String × GoValue
  | (k, v) => (k, jsonRoundTrip v)
termination_by structural x => x
/-- The elements written for a slice. -/
def jsonElems : List GoValue → List GoValue
  | [] => []
  | x :: xs => jsonRoundTrip x :: jsonElems xs
termination_by structural x => x
end

/-- What `GetRepository` and `GetPrivilege` read into their
`map[string]interface{}` when the body is the JSON encoding of a payload. -/
def decodeEncoded : GoMap → GoMap
  | none => none
  | some es => some (jsonEntries es)

/-! ## Privileges (`api/v1alpha1/privilege_types.go`, `pkg/nexus/privilege.go`) -/

/-- Go struct `WildcardConfig`. -/
structure WildcardConfig where
  Pattern : String
  deriving DecidableEq, Repr

/-- Go struct `ApplicationConfig`. -/
structure ApplicationConfig where
  Domain : String
  Actions : Option (List String)
  deriving DecidableEq, Repr

/-- Go struct `RepositoryViewConfig`. -/
structure RepositoryViewConfig where
  Repository : String
  Actions : Option (List String)
  deriving DecidableEq, Repr

/-- Go struct `RepositoryAdminConfig`. -/
structure RepositoryAdminConfig where
  Repository : String
  deriving DecidableEq, Repr

/-- Go struct `RepositoryContentSelectorConfig`. -/
structure RepositoryContentSelectorConfig where
  Repository : String
  ContentSelector : String
  Format : String
  Actions : Option (List String)
  deriving DecidableEq, Repr

/-- Go struct `ScriptConfig`. -/
structure ScriptConfig where
  ScriptName : String
  deriving DecidableEq, Repr

/-- Go struct `PrivilegeSpec`. -/
structure PrivilegeSpec where
  Name : String
  Type_ : String
  Description : String
  Wildcard : Option WildcardConfig
  Application : Option ApplicationConfig
  RepositoryView : Option RepositoryViewConfig
  RepositoryAdmin : Option RepositoryAdminConfig
  RepositoryContentSelector : Option RepositoryContentSelectorConfig
  Script : Option ScriptConfig
  deriving DecidableEq, Repr

/-- Function `BuildPrivilegeConfig`. -/
def BuildPrivilegeConfig (spec : PrivilegeSpec) : Except GoError Config :=
  let config : Config :=
    [("name", GoValue.string spec.Name),
     ("description", GoValue.string spec.Description),
     ("type", GoValue.string spec.Type_)]
  if spec.Type_ = "wildcard" then
    match spec.Wildcard with
    | none => Except.error Sentinel.ErrWildcardConfigRequired.toError
    | some w => Except.ok (setKey "pattern" (GoValue.string w.Pattern) config)
  else if spec.Type_ = "application" then
    match spec.Application with
    | none => Except.error Sentinel.ErrApplicationConfigRequired.toError
    | some a =>
        Except.ok (setKey "actions" (stringsValue a.Actions)
          (setKey "domain" (GoValue.string a.Domain) config))
  else if spec.Type_ = "repository-view" then
    match spec.RepositoryView with
    | none => Except.error Sentinel.ErrRepoViewConfigRequired.toError
    | some v =>
        Except.ok (setKey "actions" (stringsValue v.Actions)
          (setKey "repository" (GoValue.string v.Repository) config))
  else if spec.Type_ = "repository-admin" then
    match spec.RepositoryAdmin with
    | none => Except.error Sentinel.ErrRepoAdminConfigRequired.toError
    | some a => Except.ok (setKey "repository" (GoValue.string a.Repository) config)
  else if spec.Type_ = "repository-content-selector" then
    match spec.RepositoryContentSelector with
    | none => Except.error Sentinel.ErrRepoContentSelConfigRequired.toError
    | some c =>
        Except.ok (setKey "actions" (stringsValue c.Actions)
          (setKey "format" (GoValue.string c.Format)
            (setKey "contentSelector" (GoValue.string c.ContentSelector)
              (setKey "repository" (GoValue.string c.Repository) config))))
  else if spec.Type_ = "script" then
    match spec.Script with
    | none => Except.error Sentinel.ErrScriptConfigRequired.toError
    | some sc => Except.ok (setKey "scriptName" (GoValue.string sc.ScriptName) config)
  else
    Except.error
      { msg := Sentinel.ErrUnsupportedPrivilegeType.text ++ ": " ++ spec.Type_
        sentinel := some Sentinel.ErrUnsupportedPrivilegeType
        reason := none }

/-! ## Roles and content selectors (`pkg/nexus/types.go`, `role.go`) -/

/-- Go struct `RoleSource`. -/
structure RoleSource where
  Type_ : String
  Name : String
  deriving DecidableEq, Repr

/-- Go struct `RoleSpec`. -/
structure RoleSpec where
  RoleID : String
  Name : String
  Description : String
  Privileges : Option (List String)
  Roles : Option (List String)
  Source : Option RoleSource
  deriving DecidableEq, Repr

/-- Go struct `nexus.Role`. -/
structure Role where
  ID : String
  Name : String
  Description : String
  Privileges : Option (List String)
  Roles : Option (List String)
  deriving DecidableEq, Repr

/-- Function `BuildRoleConfig`. -/
def BuildRoleConfig (spec : RoleSpec) : Role :=
  { ID := spec.RoleID
    Name := spec.Name
    Description := spec.Description
    Privileges := spec.Privileges
    Roles := spec.Roles }

/-- Go struct `ContentSelectorSpec`. -/
structure ContentSelectorSpec where
  Name : String
  Description : String
  Expression : String
  deriving DecidableEq, Repr

/-- Go struct `nexus.ContentSelectorResponse`. -/
structure ContentSelectorResponse where
  Name : String
  Description : String
  Expression : String
  deriving DecidableEq, Repr

/-! ## Records (`metav1.ObjectMeta`, `metav1.Condition`) -/

/-- Go struct `metav1.Condition`; a time is a number, zero the zero time. -/
structure Condition where
  Type_ : String
  Status : String
  ObservedGeneration : Int
  LastTransitionTime : Nat
  Reason : String
  Message : String
  deriving DecidableEq, Repr

/-- The part of `metav1.ObjectMeta` the reconcilers read or write. -/
structure ObjectMeta where
  Generation : Int
  DeletionTimestamp : Option Nat
  Finalizers : List String
  deriving DecidableEq, Repr

/-- Method `(*metav1.Time).IsZero` on `DeletionTimestamp`: a nil pointer or the
zero time. -/
def ObjectMeta.deletionTimestampIsZero (m : ObjectMeta) : Bool :=
  match m.DeletionTimestamp with
  | none => true
  | some t => t == 0

/-- Go struct `RepositoryStatus`. -/
structure RepositoryStatus where
  Conditions : List Condition
  ObservedGeneration : Int
  deriving DecidableEq, Repr

/-- Go struct `Repository`. -/
structure Repository where
  ObjectMeta : ObjectMeta
  Spec : RepositorySpec
  Status : RepositoryStatus
  deriving DecidableEq, Repr

/-- Go struct `Privilege` with its `PrivilegeStatus`. -/
structure Privilege where
  ObjectMeta : ObjectMeta
  Spec : PrivilegeSpec
  Conditions : List Condition
  deriving DecidableEq, Repr

/-- Go struct `v1alpha1.Role` with its `RoleStatus`. -/
structure RoleCR where
  ObjectMeta : ObjectMeta
  Spec : RoleSpec
  Conditions : List Condition
  Message : String
  deriving DecidableEq, Repr

/-- Go struct `ContentSelector` with its `ContentSelectorStatus`. -/
structure ContentSelector where
  ObjectMeta : ObjectMeta
  Spec : ContentSelectorSpec
  Conditions : List Condition
  deriving DecidableEq, Repr

/-- Function `meta.FindStatusCondition`: the first condition of the type. -/
def FindStatusCondition (conditions : List Condition) (conditionType : String) :
    Option Condition :=
  conditions.find? (fun c => c.Type_ == conditionType)

/-- The in-place update of `meta.SetStatusCondition` on the existing condition:
the transition time moves only when the status changes. -/
def mergeCondition (now : Nat) (existing new : Condition) : Condition :=
  { Type_ := existing.Type_
    Status := new.Status
    ObservedGeneration := new.ObservedGeneration
    LastTransitionTime :=
      if existing.Status ≠ new.Status then
        (if new.LastTransitionTime ≠ 0 then new.LastTransitionTime else now)
      else existing.LastTransitionTime
    Reason := new.Reason
    Message := new.Message }

/-- The list after `meta.SetStatusCondition` found a condition of the type: its
first occurrence is updated in place. -/
def replaceFirst (now : Nat) (new : Condition) : List Condition → List Condition
  | [] => []
  | c :: rest =>
      if c.Type_ == new.Type_ then mergeCondition now c new :: rest
      else c :: replaceFirst now new rest

/-- Function `meta.SetStatusCondition`. -/
def SetStatusCondition (now : Nat) (conditions : List Condition) (new : Condition) :
    List Condition :=
  match FindStatusCondition conditions new.Type_ with
  | none =>
      conditions ++
        [{ new with
            LastTransitionTime := if new.LastTransitionTime = 0 then now else new.LastTransitionTime }]
  | some _ => replaceFirst now new conditions

/-! ## The outside world of one reconcile pass -/

/-- HTTP methods used by the client. -/
inductive Method where
  | GET
  | POST
  | PUT
  | DELETE
  | HEAD
  deriving DecidableEq, Repr

/-- The body given to `SetBody`. -/
inductive Body where
  | empty
  | config (c : Config)
  | role (r : Role)
  | fields (m : List (String × String))

/-- A request as sent by resty: method, path below the base URL (a path
parameter is put in as it is) and body. -/
structure Request where
  method : Method
  url : String
  body : Body

/-- What resty hands back: the transport error if any, the status code, the
body as text (`resp.String()`), and what decoding the body gives for each
target the client decodes into (`json.Unmarshal` into a map or a
`ContentSelectorResponse`, resty's `SetResult(&Role{})`). -/
structure Response where
  err : Option GoError
  StatusCode : Nat
  text : String
  asMap : Except GoError GoMap
  asRole : Role
  asSelector : Except GoError ContentSelectorResponse

/-- What a pass does to the outside, in order. -/
inductive Event where
  | http (req : Request)
  | update (finalizers : List String)
  | statusUpdate (conditions : List Condition)

/-- The outside of a pass: the process environment, the remote's answer to a
request and the record store's answer to a write, each possibly depending on
what the pass did before, and the clock. -/
structure World where
  getenv : String → String
  roundTrip : List Event → Request → Response
  update : List Event → Option GoError
  statusUpdate : List Event → Option GoError
  now : Nat

/-- The package variables `clientInstance` and `initError` of
`pkg/nexus/client.go`, and the events of the pass so far. -/
structure State where
  trace : List Event
  initError : Option GoError
  clientInstance : Bool

/-- The error `fmt.Errorf("%w: baseURL, username или password пусты", ErrMissingEnvVars)`. -/
def missingEnvVarsError : GoError :=
  { msg := Sentinel.ErrMissingEnvVars.text ++ ": baseURL, username или password пусты"
    sentinel := some Sentinel.ErrMissingEnvVars
    reason := none }

/-- Function `initClient`; `NewClient` never returns an error. -/
def initClient (w : World) (s : State) : State :=
  if w.getenv "NEXUS_URL" = "" ∨ w.getenv "NEXUS_USER" = "" ∨ w.getenv "NEXUS_PASSWORD" = "" then
    { s with initError := some missingEnvVarsError }
  else { s with clientInstance := true }

/-- Function `GetClient`: the error when no client is available. -/
def GetClient (w : World) (s : State) : Option GoError × State :=
  match s.initError with
  | some e => (some e, s)
  | none =>
      if s.clientInstance then (none, s)
      else
        let s' := initClient w s
        (s'.initError, s')

/-- Sending a request: the remote answers and the call is recorded. -/
def send (w : World) (s : State) (req : Request) : Response × State :=
  (w.roundTrip s.trace req, { s with trace := s.trace ++ [Event.http req] })

/-- Store write `r.Update(ctx, obj)`. -/
def storeUpdate (w : World) (s : State) (m : ObjectMeta) : Option GoError × State :=
  (w.update s.trace, { s with trace := s.trace ++ [Event.update m.Finalizers] })

/-- Store write `r.Status().Update(ctx, obj)`. -/
def storeStatusUpdate (w : World) (s : State) (conditions : List Condition) :
    Option GoError × State :=
  (w.statusUpdate s.trace, { s with trace := s.trace ++ [Event.statusUpdate conditions] })

/-! ## The remote client: repositories (`pkg/nexus/repository.go`) -/

/-- The error `fmt.Errorf("%w: %s", ErrUnsupportedRepoType, repoType)`. -/
def unsupportedRepoTypeError (repoType : String) : GoError :=
  { msg := Sentinel.ErrUnsupportedRepoType.text ++ ": " ++ repoType
    sentinel := some Sentinel.ErrUnsupportedRepoType
    reason := none }

/-- The `switch` of `CreateRepository`. -/
def createRepositoryEndpoint (repoType : String) : Option String :=
  if repoType = "maven-hosted" then some "/service/rest/v1/repositories/maven/hosted"
  else if repoType = "maven-proxy" then some "/service/rest/v1/repositories/maven/proxy"
  else if repoType = "maven-group" then some "/service/rest/v1/repositories/maven/group"
  else if repoType = "npm-hosted" then some "/service/rest/v1/repositories/npm/hosted"
  else if repoType = "npm-proxy" then some "/service/rest/v1/repositories/npm/proxy"
  else if repoType = "npm-group" then some "/service/rest/v1/repositories/npm/group"
  else if repoType = "docker-hosted" then some "/service/rest/v1/repositories/docker/hosted"
  else if repoType = "docker-proxy" then some "/service/rest/v1/repositories/docker/proxy"
  else if repoType = "docker-group" then some "/service/rest/v1/repositories/docker/group"
  else if repoType = "raw-hosted" then some "/service/rest/v1/repositories/raw/hosted"
  else if repoType = "raw-proxy" then some "/service/rest/v1/repositories/raw/proxy"
  else if repoType = "raw-group" then some "/service/rest/v1/repositories/raw/group"
  else none

/-- The `switch` of `UpdateRepository`. -/
def updateRepositoryEndpoint (repoType name : String) : Option String :=
  if repoType = "maven-hosted" then some ("/service/rest/v1/repositories/maven/hosted/" ++ name)
  else if repoType = "maven-proxy" then some ("/service/rest/v1/repositories/maven/proxy/" ++ name)
  else if repoType = "maven-group" then some ("/service/rest/v1/repositories/maven/group/" ++ name)
  else if repoType = "npm-hosted" then some ("/service/rest/v1/repositories/npm/hosted/" ++ name)
  else if repoType = "npm-proxy" then some ("/service/rest/v1/repositories/npm/proxy/" ++ name)
  else if repoType = "npm-group" then some ("/service/rest/v1/repositories/npm/group/" ++ name)
  else if repoType = "docker-hosted" then
    some ("/service/rest/v1/repositories/docker/hosted/" ++ name)
  else if repoType = "docker-proxy" then
    some ("/service/rest/v1/repositories/docker/proxy/" ++ name)
  else if repoType = "docker-group" then
    some ("/service/rest/v1/repositories/docker/group/" ++ name)
  else if repoType = "raw-hosted" then some ("/service/rest/v1/repositories/raw/hosted/" ++ name)
  else if repoType = "raw-proxy" then some ("/service/rest/v1/repositories/raw/proxy/" ++ name)
  else if repoType = "raw-group" then some ("/service/rest/v1/repositories/raw/group/" ++ name)
  else none

/-- Method `Client.CreateRepository`. -/
def CreateRepository (w : World) (s : State) (repoType : String) (config : Config) :
    Option GoError × State :=
  match createRepositoryEndpoint repoType with
  | none => (some (unsupportedRepoTypeError repoType), s)
  | some endpoint =>
      let (resp, s1) := send w s { method := Method.POST, url := endpoint, body := Body.config config }
      match resp.err with
      | some e => (some (e.wrap "ошибка выполнения запроса"), s1)
      | none =>
          if resp.StatusCode ≠ 201 then
            (some (NewUnexpectedResponseError resp.StatusCode resp.text), s1)
          else (none, s1)

/-- Method `Client.UpdateRepository`. -/
def UpdateRepository (w : World) (s : State) (repoType name : String) (config : Config) :
    Option GoError × State :=
  match updateRepositoryEndpoint repoType name with
  | none => (some (unsupportedRepoTypeError repoType), s)
  | some endpoint =>
      let (resp, s1) := send w s { method := Method.PUT, url := endpoint, body := Body.config config }
      match resp.err with
      | some e => (some (e.wrap "ошибка выполнения запроса"), s1)
      | none =>
          if resp.StatusCode ≠ 200 ∧ resp.StatusCode ≠ 204 then
            (some
              { msg := Sentinel.ErrUnexpectedResponse.text ++ ": " ++ toString resp.StatusCode
                sentinel := some Sentinel.ErrUnexpectedResponse
                reason := none }, s1)
          else (none, s1)

/-- Method `Client.GetRepository`: the status is tested for 404 first, then the
transport error, then the body is decoded whatever the status. -/
def GetRepository (w : World) (s : State) (name : String) : Except GoError GoMap × State :=
  let (resp, s1) := send w s
    { method := Method.GET, url := "/service/rest/v1/repositories/" ++ name, body := Body.empty }
  if resp.StatusCode = 404 then (Except.error Sentinel.ErrRepositoryNotFound.toError, s1)
  else
    match resp.err with
    | some e => (Except.error (e.wrap "ошибка запроса"), s1)
    | none =>
        match resp.asMap with
        | Except.error e => (Except.error (e.wrap "ошибка разбора ответа"), s1)
        | Except.ok result => (Except.ok result, s1)

/-- Method `Client.DeleteRepository`. -/
def DeleteRepository (w : World) (s : State) (name : String) : Option GoError × State :=
  let (resp, s1) := send w s
    { method := Method.DELETE, url := "/service/rest/v1/repositories/" ++ name, body := Body.empty }
  match resp.err with
  | some e => (some (e.wrap "ошибка выполнения запроса"), s1)
  | none =>
      if resp.StatusCode = 404 then (some Sentinel.ErrRepositoryNotFound.toError, s1)
      else if resp.StatusCode ≠ 204 then
        (some (NewUnexpectedResponseError resp.StatusCode resp.text), s1)
      else (none, s1)

/-! ## The remote client: privileges (`pkg/nexus/privilege.go`) -/

/-- Method `Client.GetPrivilege`. -/
def GetPrivilege (w : World) (s : State) (name : String) : Except GoError GoMap × State :=
  let (resp, s1) := send w s
    { method := Method.GET, url := "/service/rest/v1/security/privileges/" ++ name,
      body := Body.empty }
  if resp.StatusCode = 404 then (Except.error Sentinel.ErrPrivilegeNotFound.toError, s1)
  else
    match resp.err with
    | some e => (Except.error (e.wrap "request failed"), s1)
    | none =>
        match resp.asMap with
        | Except.error e => (Except.error (e.wrap "parse error"), s1)
        | Except.ok result => (Except.ok result, s1)

/-- Method `Client.PrivilegeExists`. -/
def PrivilegeExists (w : World) (s : State) (name : String) : Except GoError Bool × State :=
  match GetPrivilege w s name with
  | (Except.error e, s1) =>
      if e.is Sentinel.ErrPrivilegeNotFound then (Except.ok false, s1) else (Except.error e, s1)
  | (Except.ok _, s1) => (Except.ok true, s1)

/-- The type assertion `config["type"].(string)`. -/
def typeOfConfig (config : Config) : Option String :=
  match lookup "type" config with
  | some (GoValue.string t) => some t
  | _ => none

/-- The error `fmt.Errorf("%w: %s", ErrInvalidPrivilegeType, privilegeType)`. -/
def invalidPrivilegeTypeError (privilegeType : String) : GoError :=
  { msg := Sentinel.ErrInvalidPrivilegeType.text ++ ": " ++ privilegeType
    sentinel := some Sentinel.ErrInvalidPrivilegeType
    reason := none }

/-- The `switch` of `CreatePrivilege`. -/
def createPrivilegeEndpoint (privilegeType : String) : Option String :=
  if privilegeType = "wildcard" then some "/service/rest/v1/security/privileges/wildcard"
  else if privilegeType = "application" then
    some "/service/rest/v1/security/privileges/application"
  else if privilegeType = "repository-view" then
    some "/service/rest/v1/security/privileges/repository-view"
  else if privilegeType = "repository-admin" then
    some "/service/rest/v1/security/privileges/repository-admin"
  else if privilegeType = "repository-content-selector" then
    some "/service/rest/v1/security/privileges/repository-content-selector"
  else if privilegeType = "script" then some "/service/rest/v1/security/privileges/script"
  else none

/-- The `switch` of `UpdatePrivilege`. -/
def updatePrivilegeEndpoint (privilegeType name : String) : Option String :=
  if privilegeType = "wildcard" then
    some ("/service/rest/v1/security/privileges/wildcard/" ++ name)
  else if privilegeType = "application" then
    some ("/service/rest/v1/security/privileges/application/" ++ name)
  else if privilegeType = "repository-view" then
    some ("/service/rest/v1/security/privileges/repository-view/" ++ name)
  else if privilegeType = "repository-admin" then
    some ("/service/rest/v1/security/privileges/repository-admin/" ++ name)
  else if privilegeType = "repository-content-selector" then
    some ("/service/rest/v1/security/privileges/repository-content-selector/" ++ name)
  else if privilegeType = "script" then
    some ("/service/rest/v1/security/privileges/script/" ++ name)
  else none

/-- Method `Client.CreatePrivilege`. -/
def CreatePrivilege (w : World) (s : State) (config : Config) : Option GoError × State :=
  match typeOfConfig config with
  | none => (some Sentinel.ErrInvalidPrivilegeType.toError, s)
  | some privilegeType =>
      match createPrivilegeEndpoint privilegeType with
      | none => (some (invalidPrivilegeTypeError privilegeType), s)
      | some endpoint =>
          let (resp, s1) := send w s
            { method := Method.POST, url := endpoint, body := Body.config config }
          match resp.err with
          | some e => (some (e.wrap "request failed"), s1)
          | none =>
              if resp.StatusCode ≠ 201 then
                (some (NewUnexpectedResponseError resp.StatusCode resp.text), s1)
              else (none, s1)

/-- Method `Client.UpdatePrivilege`. -/
def UpdatePrivilege (w : World) (s : State) (name : String) (config : Config) :
    Option GoError × State :=
  match typeOfConfig config with
  | none => (some Sentinel.ErrInvalidPrivilegeType.toError, s)
  | some privilegeType =>
      match updatePrivilegeEndpoint privilegeType name with
      | none => (some (invalidPrivilegeTypeError privilegeType), s)
      | some endpoint =>
          let (resp, s1) := send w s
            { method := Method.PUT, url := endpoint, body := Body.config config }
          match resp.err with
          | some e => (some (e.wrap "request failed"), s1)
          | none =>
              if resp.StatusCode ≠ 204 then
                (some (NewUnexpectedResponseError resp.StatusCode resp.text), s1)
              else (none, s1)

/-- Method `Client.DeletePrivilege`: the transport error is dropped. -/
def DeletePrivilege (w : World) (s : State) (name : String) : Option GoError × State :=
  let (resp, s1) := send w s
    { method := Method.DELETE, url := "/service/rest/v1/security/privileges/" ++ name,
      body := Body.empty }
  if resp.StatusCode = 404 then (some Sentinel.ErrPrivilegeNotFound.toError, s1)
  else if resp.StatusCode ≠ 204 then
    (some (NewUnexpectedResponseError resp.StatusCode resp.text), s1)
  else (none, s1)

/-! ## The remote client: roles (`pkg/nexus/role.go`) -/

/-- Constant `RoleAPIPath`. -/
def RoleAPIPath : String := "/service/rest/v1/security/roles"

/-- Method `Client.GetRole`. -/
def GetRole (w : World) (s : State) (roleID : String) : Except GoError Role × State :=
  let (resp, s1) := send w s
    { method := Method.GET, url := RoleAPIPath ++ "/" ++ roleID, body := Body.empty }
  match resp.err with
  | some e => (Except.error (e.wrap "ошибка выполнения запроса"), s1)
  | none =>
      if resp.StatusCode = 200 then (Except.ok resp.asRole, s1)
      else if resp.StatusCode = 404 then (Except.error Sentinel.ErrRoleNotFound.toError, s1)
      else (Except.error (NewUnexpectedResponseError resp.StatusCode resp.text), s1)

/-- Method `Client.RoleExists`. -/
def RoleExists (w : World) (s : State) (roleID : String) : Except GoError Bool × State :=
  match GetRole w s roleID with
  | (Except.error e, s1) =>
      if e.is Sentinel.ErrRoleNotFound then (Except.ok false, s1) else (Except.error e, s1)
  | (Except.ok _, s1) => (Except.ok true, s1)

/-- Method `Client.CreateRole`. -/
def CreateRole (w : World) (s : State) (role : Role) : Option GoError × State :=
  match RoleExists w s role.ID with
  | (Except.error e, s1) => (some (e.wrap "ошибка проверки существования роли"), s1)
  | (Except.ok true, s1) => (some Sentinel.ErrRoleAlreadyExists.toError, s1)
  | (Except.ok false, s1) =>
      let (resp, s2) := send w s1
        { method := Method.POST, url := RoleAPIPath, body := Body.role role }
      match resp.err with
      | some e => (some (e.wrap "ошибка выполнения запроса"), s2)
      | none =>
          if resp.StatusCode ≠ 201 then
            (some (NewUnexpectedResponseError resp.StatusCode resp.text), s2)
          else (none, s2)

/-- Method `Client.UpdateRole`. -/
def UpdateRole (w : World) (s : State) (roleID : String) (role : Role) :
    Option GoError × State :=
  let (resp, s1) := send w s
    { method := Method.PUT, url := RoleAPIPath ++ "/" ++ roleID, body := Body.role role }
  match resp.err with
  | some e => (some (e.wrap "ошибка выполнения запроса"), s1)
  | none =>
      if resp.StatusCode ≠ 204 then
        (some (NewUnexpectedResponseError resp.StatusCode resp.text), s1)
      else (none, s1)

/-- Method `Client.DeleteRole`. -/
def DeleteRole (w : World) (s : State) (roleID : String) : Option GoError × State :=
  let (resp, s1) := send w s
    { method := Method.DELETE, url := RoleAPIPath ++ "/" ++ roleID, body := Body.empty }
  match resp.err with
  | some e => (some (e.wrap "ошибка выполнения запроса"), s1)
  | none =>
      if resp.StatusCode = 404 then (some Sentinel.ErrRoleNotFound.toError, s1)
      else if resp.StatusCode ≠ 204 then
        (some (NewUnexpectedResponseError resp.StatusCode resp.text), s1)
      else (none, s1)

/-! ## The remote client: content selectors (`pkg/nexus/contentselector.go`) -/

/-- Method `Client.GetContentSelector`. -/
def GetContentSelector (w : World) (s : State) (name : String) :
    Except GoError ContentSelectorResponse × State :=
  let (resp, s1) := send w s
    { method := Method.GET, url := "/service/rest/v1/security/content-selectors/" ++ name,
      body := Body.empty }
  match resp.err with
  | some e => (Except.error (e.wrap "ошибка выполнения запроса"), s1)
  | none =>
      if resp.StatusCode = 200 then
        match resp.asSelector with
        | Except.error e => (Except.error (e.wrap "ошибка разбора ответа"), s1)
        | Except.ok result => (Except.ok result, s1)
      else if resp.StatusCode = 404 then
        (Except.error Sentinel.ErrContentSelectorNotFound.toError, s1)
      else (Except.error (NewUnexpectedResponseError resp.StatusCode resp.text), s1)

/-- Method `Client.ContentSelectorExists`. -/
def ContentSelectorExists (w : World) (s : State) (name : String) :
    Except GoError Bool × State :=
  let (resp, s1) := send w s
    { method := Method.HEAD, url := "/service/rest/v1/security/content-selectors/" ++ name,
      body := Body.empty }
  match resp.err with
  | some e => (Except.error (e.wrap "ошибка выполнения запроса"), s1)
  | none =>
      if resp.StatusCode = 200 then (Except.ok true, s1)
      else if resp.StatusCode = 404 then (Except.ok false, s1)
      else (Except.error (NewUnexpectedResponseError resp.StatusCode resp.text), s1)

/-- Method `Client.CreateContentSelector`. -/
def CreateContentSelector (w : World) (s : State) (name description expression : String) :
    Option GoError × State :=
  match ContentSelectorExists w s name with
  | (Except.error e, s1) => (some (e.wrap "ошибка проверки существования"), s1)
  | (Except.ok true, s1) => (some Sentinel.ErrContentSelectorAlreadyExists.toError, s1)
  | (Except.ok false, s1) =>
      let (resp, s2) := send w s1
        { method := Method.POST, url := "/service/rest/v1/security/content-selectors",
          body := Body.fields
            [("name", name), ("description", description), ("expression", expression)] }
      match resp.err with
      | some e => (some (e.wrap "ошибка выполнения запроса"), s2)
      | none =>
          if 200 ≤ resp.StatusCode ∧ resp.StatusCode < 300 then (none, s2)
          else (some (NewUnexpectedResponseError resp.StatusCode resp.text), s2)

/-- Method `Client.UpdateContentSelector`. -/
def UpdateContentSelector (w : World) (s : State) (name description expression : String) :
    Option GoError × State :=
  let (resp, s1) := send w s
    { method := Method.PUT, url := "/service/rest/v1/security/content-selectors/" ++ name,
      body := Body.fields [("description", description), ("expression", expression)] }
  match resp.err with
  | some e => (some (e.wrap "ошибка выполнения запроса"), s1)
  | none =>
      if resp.StatusCode = 200 ∨ resp.StatusCode = 204 then (none, s1)
      else (some (NewUnexpectedResponseError resp.StatusCode resp.text), s1)

/-- Method `Client.DeleteContentSelector`. -/
def DeleteContentSelector (w : World) (s : State) (name : String) : Option GoError × State :=
  let (resp, s1) := send w s
    { method := Method.DELETE, url := "/service/rest/v1/security/content-selectors/" ++ name,
      body := Body.empty }
  match resp.err with
  | some e => (some (e.wrap "ошибка выполнения запроса"), s1)
  | none =>
      if resp.StatusCode = 404 then (some Sentinel.ErrContentSelectorNotFound.toError, s1)
      else if resp.StatusCode = 204 ∨ resp.StatusCode = 200 then (none, s1)
      else (some (NewUnexpectedResponseError resp.StatusCode resp.text), s1)

/-! ## Shared pieces of the reconcilers (`internal/controller`) -/

/-- The constants `repositoryFinalizer`, `privilegeFinalizer`, `roleFinalizer`
and `contentSelectorFinalizer`, which all hold this string. -/
def finalizerName : String := "finalizer.nexus.operators.dev.kostoed.ru"

/-- Go constant `time.Second`, in nanoseconds. -/
def timeSecond : Nat := 1000000000

/-- The constants `repositoryRequeueDelay`, `privilegeRequeueDelay`,
`roleRequeueDelay` and `contentSelectorRequeueDelay`: `30 * time.Second`. -/
def requeueDelay : Nat := 30 * timeSecond

/-- Modelled from the spec: the constant `successReason` of package
`controller` is declared outside the given sources; the spec fixes the reason
of a successful condition to the token "Success". -/
def successReason : String := "Success"

/-- Modelled from the spec: the constant `errorReason` of package `controller`
is declared outside the given sources; the spec fixes the reason of a failed
condition to the token "Error". -/
def errorReason : String := "Error"

/-- Function `containsString` of `role_controller.go`. -/
def containsString (slice : List String) (s : String) : Bool :=
  match slice with
  | [] => false
  | item :: rest => if item = s then true else containsString rest s

/-- Function `removeString` of `role_controller.go`. -/
def removeString (slice : List String) (s : String) : List String :=
  match slice with
  | [] => []
  | item :: rest => if item ≠ s then item :: removeString rest s else removeString rest s

/-- Modelled from the spec: `utils.ContainsString` of package `pkg/utils` is not
among the given sources; the spec has the finalizer looked up in the record's
finalizer set, as the copy `containsString` kept in `role_controller.go` does. -/
def utilsContainsString (slice : List String) (s : String) : Bool :=
  containsString slice s

/-- Modelled from the spec: `utils.RemoveString` of package `pkg/utils` is not
among the given sources; the spec has the finalizer removed from the record's
finalizer set, as the copy `removeString` kept in `role_controller.go` does. -/
def utilsRemoveString (slice : List String) (s : String) : List String :=
  removeString slice s

/-- Go struct `ctrl.Result`. -/
structure Result where
  Requeue : Bool
  RequeueAfter : Nat
  deriving DecidableEq, Repr

/-- The zero value `ctrl.Result{}`. -/
def Result.empty : Result := { Requeue := false, RequeueAfter := 0 }

/-- How a call ends: it returns `(ctrl.Result, error)`, or a run-time panic
unwinds it. -/
inductive Ending where
  | returned (result : Result) (err : Option GoError)
  | panicked
  deriving DecidableEq, Repr

/-- A finished call on a record: how it ended, the record as the call left it
in memory, and the package state with the events of the pass. -/
structure Outcome (R : Type) where
  ending : Ending
  record : R
  state : State

/-- The same outcome for a caller that may have no record. -/
def Outcome.withRecord {R : Type} (o : Outcome R) : Outcome (Option R) :=
  { ending := o.ending, record := some o.record, state := o.state }

/-! ## The repository reconciler (`repository_controller.go`) -/

/-- Method `RepositoryReconciler.updateStatus`. -/
def RepositoryReconciler.updateStatus (w : World) (s : State) (repo : Repository)
    (ready : Bool) (cause : Option GoError) : Outcome Repository :=
  let newCondition : Condition :=
    if ready then
      { Type_ := "Ready", Status := "True", ObservedGeneration := repo.ObjectMeta.Generation,
        LastTransitionTime := 0, Reason := "Success",
        Message := "Репозиторий успешно синхронизирован" }
    else
      { Type_ := "Ready", Status := "False", ObservedGeneration := repo.ObjectMeta.Generation,
        LastTransitionTime := 0, Reason := "Error",
        Message := match cause with
          | some e => e.msg
          | none => "" }
  let unchanged : Bool :=
    match FindStatusCondition repo.Status.Conditions "Ready" with
    | none => false
    | some currentCondition =>
        currentCondition.Status == newCondition.Status &&
        currentCondition.Reason == newCondition.Reason &&
        currentCondition.Message == newCondition.Message &&
        currentCondition.ObservedGeneration == repo.ObjectMeta.Generation
  if unchanged then
    if ready then { ending := Ending.returned Result.empty none, record := repo, state := s }
    else
      { ending := Ending.returned { Requeue := false, RequeueAfter := requeueDelay } none,
        record := repo, state := s }
  else
    let repo1 : Repository :=
      { repo with Status :=
          { repo.Status with
              Conditions := SetStatusCondition w.now repo.Status.Conditions newCondition } }
    let (err, s1) := storeStatusUpdate w s repo1.Status.Conditions
    match err with
    | some e =>
        if e.isConflict then
          { ending := Ending.returned { Requeue := true, RequeueAfter := 0 } none,
            record := repo1, state := s1 }
        else
          { ending := Ending.returned Result.empty (some (e.wrap "ошибка обновления статуса")),
            record := repo1, state := s1 }
    | none =>
        if ready then { ending := Ending.returned Result.empty none, record := repo1, state := s1 }
        else
          { ending := Ending.returned { Requeue := false, RequeueAfter := requeueDelay } none,
            record := repo1, state := s1 }

/-- Method `RepositoryReconciler.applyConfiguration`. -/
def RepositoryReconciler.applyConfiguration (w : World) (s : State) (repo : Repository)
    (config : Config) (exists_ : Bool) : Outcome Repository :=
  let (clientErr, s1) := GetClient w s
  match clientErr with
  | some e =>
      { ending := Ending.returned Result.empty (some (e.wrap "ошибка получения клиента Nexus")),
        record := repo, state := s1 }
  | none =>
      if exists_ then
        let (err, s2) := UpdateRepository w s1 repo.Spec.Type_ repo.Spec.Name config
        match err with
        | some e =>
            RepositoryReconciler.updateStatus w s2 repo false (some (e.wrap "ошибка обновления"))
        | none => RepositoryReconciler.updateStatus w s2 repo true none
      else
        let (err, s2) := CreateRepository w s1 repo.Spec.Type_ config
        match err with
        | some e =>
            RepositoryReconciler.updateStatus w s2 repo false (some (e.wrap "ошибка создания"))
        | none => RepositoryReconciler.updateStatus w s2 repo true none

/-- Method `RepositoryReconciler.syncRepository`. -/
def RepositoryReconciler.syncRepository (w : World) (s : State) (repo : Repository) :
    Outcome Repository :=
  let (clientErr, s1) := GetClient w s
  match clientErr with
  | some e =>
      RepositoryReconciler.updateStatus w s1 repo false
        (some (e.wrap "не удалось создать клиент Nexus"))
  | none =>
      let (got, s2) := GetRepository w s1 repo.Spec.Name
      let found : Except GoError (Bool × GoMap) :=
        match got with
        | Except.ok currentConfig => Except.ok (true, currentConfig)
        | Except.error e =>
            if e.is Sentinel.ErrRepositoryNotFound then Except.ok (false, none)
            else Except.error e
      match found with
      | Except.error e =>
          RepositoryReconciler.updateStatus w s2 repo false
            (some (e.wrap "ошибка проверки репозитория"))
      | Except.ok (exists_, currentConfig) =>
          match BuildRepositoryConfig repo.Spec with
          | Except.error Failure.nilDereference =>
              { ending := Ending.panicked, record := repo, state := s2 }
          | Except.error (Failure.error e) =>
              RepositoryReconciler.updateStatus w s2 repo false
                (some (e.wrap "ошибка создания конфигурации"))
          | Except.ok desiredConfig =>
              if !exists_ || RepositoryReconciler.needsUpdate (some desiredConfig) currentConfig
              then RepositoryReconciler.applyConfiguration w s2 repo desiredConfig exists_
              else RepositoryReconciler.updateStatus w s2 repo true none

/-- Method `RepositoryReconciler.finalizeRepository`. -/
def RepositoryReconciler.finalizeRepository (w : World) (s : State) (repo : Repository) :
    Outcome Repository :=
  let deleted : Option GoError × State :=
    if w.getenv "ENABLE_REPOSITORY_DELETION" = "true" then
      let (clientErr, s1) := GetClient w s
      match clientErr with
      | some e => (some (e.wrap "ошибка подключения к Nexus"), s1)
      | none =>
          let (err, s2) := DeleteRepository w s1 repo.Spec.Name
          match err with
          | some e =>
              if !e.is Sentinel.ErrRepositoryNotFound then
                (some (e.wrap "ошибка удаления репозитория"), s2)
              else (none, s2)
          | none => (none, s2)
    else (none, s)
  match deleted with
  | (some e, s2) => { ending := Ending.returned Result.empty (some e), record := repo, state := s2 }
  | (none, s2) =>
      let repo1 : Repository :=
        { repo with ObjectMeta :=
            { repo.ObjectMeta with
                Finalizers := utilsRemoveString repo.ObjectMeta.Finalizers finalizerName } }
      let (err, s3) := storeUpdate w s2 repo1.ObjectMeta
      match err with
      | some e =>
          { ending := Ending.returned Result.empty (some (e.wrap "ошибка удаления финализатора")),
            record := repo1, state := s3 }
      | none => { ending := Ending.returned Result.empty none, record := repo1, state := s3 }

/-- Method `RepositoryReconciler.Reconcile`; `stored` is what `r.Get` gives for
the requested name. -/
def RepositoryReconciler.Reconcile (w : World) (s : State)
    (stored : Except GoError Repository) : Outcome (Option Repository) :=
  match stored with
  | Except.error e =>
      if e.isNotFound then
        { ending := Ending.returned Result.empty none, record := none, state := s }
      else
        { ending := Ending.returned Result.empty (some (e.wrap "ошибка получения ресурса")),
          record := none, state := s }
  | Except.ok repoCR =>
      if !repoCR.ObjectMeta.deletionTimestampIsZero then
        (RepositoryReconciler.finalizeRepository w s repoCR).withRecord
      else if !utilsContainsString repoCR.ObjectMeta.Finalizers finalizerName then
        let repo1 : Repository :=
          { repoCR with ObjectMeta :=
              { repoCR.ObjectMeta with
                  Finalizers := repoCR.ObjectMeta.Finalizers ++ [finalizerName] } }
        let (err, s1) := storeUpdate w s repo1.ObjectMeta
        match err with
        | some e =>
            { ending := Ending.returned Result.empty
                (some (e.wrap "не удалось добавить финализатор")),
              record := some repo1, state := s1 }
        | none => (RepositoryReconciler.syncRepository w s1 repo1).withRecord
      else (RepositoryReconciler.syncRepository w s repoCR).withRecord

/-! ## The privilege reconciler (`privilege_controller.go`) -/

/-- The copy loop of `PrivilegeReconciler.needsUpdate`: a fresh non-nil map with
the entries of the argument. -/
def copyMap : GoMap → Config
  | none => []
  | some es => es

/-- Method `PrivilegeReconciler.needsUpdate`. -/
def PrivilegeReconciler.needsUpdate (current desired : GoMap) : Bool :=
  let ignoreFields := ["readOnly", "type", "id"]
  let currentCopy := ignoreFields.foldl (fun m field => deleteKey field m) (copyMap current)
  let desiredCopy := ignoreFields.foldl (fun m field => deleteKey field m) (copyMap desired)
  !cmpEqual noOptions (GoValue.map currentCopy) (GoValue.map desiredCopy)

/-- Method `PrivilegeReconciler.updateStatus`; `cause.Error()` on a nil `cause`
panics. -/
def PrivilegeReconciler.updateStatus (w : World) (s : State) (privilege : Privilege)
    (ready : Bool) (cause : Option GoError) : Outcome Privilege :=
  let built : Option Condition :=
    if ready then
      some { Type_ := "Ready", Status := "True",
             ObservedGeneration := privilege.ObjectMeta.Generation, LastTransitionTime := 0,
             Reason := successReason, Message := "Привелегия успешно синхронизирована" }
    else
      match cause with
      | none => none
      | some e =>
          some { Type_ := "Ready", Status := "False",
                 ObservedGeneration := privilege.ObjectMeta.Generation, LastTransitionTime := 0,
                 Reason := errorReason, Message := e.msg }
  match built with
  | none => { ending := Ending.panicked, record := privilege, state := s }
  | some newCondition =>
      let privilege1 : Privilege :=
        { privilege with
            Conditions := SetStatusCondition w.now privilege.Conditions newCondition }
      let (err, s1) := storeStatusUpdate w s privilege1.Conditions
      match err with
      | some e =>
          { ending := Ending.returned Result.empty (some (e.wrap "ошибка обновления статуса")),
            record := privilege1, state := s1 }
      | none =>
          if ready then
            { ending := Ending.returned Result.empty none, record := privilege1, state := s1 }
          else
            { ending := Ending.returned { Requeue := false, RequeueAfter := requeueDelay } none,
              record := privilege1, state := s1 }

/-- Method `PrivilegeReconciler.syncPrivilege`. -/
def PrivilegeReconciler.syncPrivilege (w : World) (s : State) (privilege : Privilege) :
    Outcome Privilege :=
  let (clientErr, s1) := GetClient w s
  match clientErr with
  | some e =>
      PrivilegeReconciler.updateStatus w s1 privilege false
        (some (e.wrap "ошибка подключения к Nexus"))
  | none =>
      let (found, s2) := PrivilegeExists w s1 privilege.Spec.Name
      match found with
      | Except.error e =>
          PrivilegeReconciler.updateStatus w s2 privilege false
            (some (e.wrap "ошибка проверки привелегии"))
      | Except.ok exists_ =>
          match BuildPrivilegeConfig privilege.Spec with
          | Except.error e =>
              PrivilegeReconciler.updateStatus w s2 privilege false
                (some (e.wrap "ошибка формирования конфигурации"))
          | Except.ok desiredConfig =>
              if !exists_ then
                let (err, s3) := CreatePrivilege w s2 desiredConfig
                match err with
                | some e =>
                    PrivilegeReconciler.updateStatus w s3 privilege false
                      (some (e.wrap "ошибка создания привелегии"))
                | none => PrivilegeReconciler.updateStatus w s3 privilege true none
              else
                let (got, s3) := GetPrivilege w s2 privilege.Spec.Name
                match got with
                | Except.error e =>
                    PrivilegeReconciler.updateStatus w s3 privilege false
                      (some (e.wrap "ошибка получения привелегии"))
                | Except.ok currentConfig =>
                    if PrivilegeReconciler.needsUpdate currentConfig (some desiredConfig) then
                      let (err, s4) := UpdatePrivilege w s3 privilege.Spec.Name desiredConfig
                      match err with
                      | some e =>
                          PrivilegeReconciler.updateStatus w s4 privilege false
                            (some (e.wrap "ошибка обновления привелегии"))
                      | none => PrivilegeReconciler.updateStatus w s4 privilege true none
                    else PrivilegeReconciler.updateStatus w s3 privilege true none

/-- Method `PrivilegeReconciler.finalizePrivilege`. -/
def PrivilegeReconciler.finalizePrivilege (w : World) (s : State) (privilege : Privilege) :
    Outcome Privilege :=
  let (clientErr, s1) := GetClient w s
  match clientErr with
  | some e =>
      { ending := Ending.returned Result.empty (some (e.wrap "ошибка подключения к Nexus")),
        record := privilege, state := s1 }
  | none =>
      let (err, s2) := DeletePrivilege w s1 privilege.Spec.Name
      let failure : Option GoError :=
        match err with
        | some e =>
            if e.is Sentinel.ErrPrivilegeNotFound then none
            else some (e.wrap "ошибка удаления привелегии в Nexus")
        | none => none
      match failure with
      | some e =>
          { ending := Ending.returned Result.empty (some e), record := privilege, state := s2 }
      | none =>
          let privilege1 : Privilege :=
            { privilege with ObjectMeta :=
                { privilege.ObjectMeta with
                    Finalizers :=
                      utilsRemoveString privilege.ObjectMeta.Finalizers finalizerName } }
          let (uerr, s3) := storeUpdate w s2 privilege1.ObjectMeta
          match uerr with
          | some e =>
              { ending := Ending.returned Result.empty
                  (some (e.wrap "ошибка удаления финализатора")),
                record := privilege1, state := s3 }
          | none =>
              { ending := Ending.returned Result.empty none, record := privilege1, state := s3 }

/-- Method `PrivilegeReconciler.Reconcile`; `stored` is what `r.Get` gives for
the requested name. -/
def PrivilegeReconciler.Reconcile (w : World) (s : State)
    (stored : Except GoError Privilege) : Outcome (Option Privilege) :=
  match stored with
  | Except.error e =>
      if e.isNotFound then
        { ending := Ending.returned Result.empty none, record := none, state := s }
      else
        { ending := Ending.returned Result.empty (some (e.wrap "ошибка получения привелегии")),
          record := none, state := s }
  | Except.ok privilegeCR =>
      if !privilegeCR.ObjectMeta.deletionTimestampIsZero then
        (PrivilegeReconciler.finalizePrivilege w s privilegeCR).withRecord
      else if !utilsContainsString privilegeCR.ObjectMeta.Finalizers finalizerName then
        let privilege1 : Privilege :=
          { privilegeCR with ObjectMeta :=
              { privilegeCR.ObjectMeta with
                  Finalizers := privilegeCR.ObjectMeta.Finalizers ++ [finalizerName] } }
        let (err, s1) := storeUpdate w s privilege1.ObjectMeta
        match err with
        | some e =>
            { ending := Ending.returned Result.empty
                (some (e.wrap "ошибка при добавлении финализатора")),
              record := some privilege1, state := s1 }
        | none => (PrivilegeReconciler.syncPrivilege w s1 privilege1).withRecord
      else (PrivilegeReconciler.syncPrivilege w s privilegeCR).withRecord

/-! ## The role reconciler (`role_controller.go`) -/

/-- Length `len(a)` of a `[]string`; the nil slice has length zero. -/
def sliceLen : Option (List String) → Nat
  | none => 0
  | some xs => xs.length

/-- The elements of a `[]string`. -/
def sliceElems : Option (List String) → List String
  | none => []
  | some xs => xs

/-- Function `equalStringSlices`. -/
def equalStringSlices (a b : Option (List String)) : Bool :=
  if sliceLen a ≠ sliceLen b then false
  else (List.zip (sliceElems a) (sliceElems b)).all (fun p => p.1 == p.2)

/-- Method `RoleReconciler.needsUpdate`. -/
def RoleReconciler.needsUpdate (current desired : Role) : Bool :=
  current.Name != desired.Name ||
    current.Description != desired.Description ||
    !equalStringSlices current.Privileges desired.Privileges ||
    !equalStringSlices current.Roles desired.Roles

/-- Method `RoleReconciler.updateStatus`; `cause.Error()` on a nil `cause`
panics. -/
def RoleReconciler.updateStatus (w : World) (s : State) (role : RoleCR)
    (ready : Bool) (cause : Option GoError) : Outcome RoleCR :=
  let built : Option Condition :=
    if ready then
      some { Type_ := "Ready", Status := "True",
             ObservedGeneration := role.ObjectMeta.Generation, LastTransitionTime := 0,
             Reason := "Success", Message := "Роль синхронизирована с Nexus" }
    else
      match cause with
      | none => none
      | some e =>
          some { Type_ := "Ready", Status := "False",
                 ObservedGeneration := role.ObjectMeta.Generation, LastTransitionTime := 0,
                 Reason := "Error", Message := e.msg }
  match built with
  | none => { ending := Ending.panicked, record := role, state := s }
  | some newCondition =>
      let role1 : RoleCR :=
        { role with Conditions := SetStatusCondition w.now role.Conditions newCondition }
      let (err, s1) := storeStatusUpdate w s role1.Conditions
      match err with
      | some e =>
          { ending := Ending.returned { Requeue := true, RequeueAfter := 0 }
              (some (e.wrap "ошибка обновления статуса")),
            record := role1, state := s1 }
      | none =>
          if ready then
            { ending := Ending.returned Result.empty none, record := role1, state := s1 }
          else
            { ending := Ending.returned { Requeue := false, RequeueAfter := requeueDelay } none,
              record := role1, state := s1 }

/-- Method `RoleReconciler.syncRole`. -/
def RoleReconciler.syncRole (w : World) (s : State) (role : RoleCR) : Outcome RoleCR :=
  let (clientErr, s1) := GetClient w s
  match clientErr with
  | some e =>
      RoleReconciler.updateStatus w s1 role false (some (e.wrap "ошибка подключения к Nexus"))
  | none =>
      let desiredRole := BuildRoleConfig role.Spec
      let (found, s2) := RoleExists w s1 role.Spec.RoleID
      match found with
      | Except.error e =>
          RoleReconciler.updateStatus w s2 role false
            (some (e.wrap "ошибка проверки существования роли"))
      | Except.ok exists_ =>
          if !exists_ then
            let (err, s3) := CreateRole w s2 desiredRole
            match err with
            | some e =>
                RoleReconciler.updateStatus w s3 role false (some (e.wrap "ошибка создания роли"))
            | none => RoleReconciler.updateStatus w s3 role true none
          else
            let (got, s3) := GetRole w s2 role.Spec.RoleID
            match got with
            | Except.error e =>
                RoleReconciler.updateStatus w s3 role false
                  (some (e.wrap "ошибка получения роли из Nexus"))
            | Except.ok currentRole =>
                if RoleReconciler.needsUpdate currentRole desiredRole then
                  let (err, s4) := UpdateRole w s3 role.Spec.RoleID desiredRole
                  match err with
                  | some e =>
                      RoleReconciler.updateStatus w s4 role false
                        (some (e.wrap "ошибка обновления роли"))
                  | none => RoleReconciler.updateStatus w s4 role true none
                else RoleReconciler.updateStatus w s3 role true none

/-- Method `RoleReconciler.finalizeRole`. -/
def RoleReconciler.finalizeRole (w : World) (s : State) (role : RoleCR) : Outcome RoleCR :=
  let (clientErr, s1) := GetClient w s
  match clientErr with
  | some e =>
      { ending := Ending.returned Result.empty (some (e.wrap "ошибка подключения к Nexus")),
        record := role, state := s1 }
  | none =>
      let (err, s2) := DeleteRole w s1 role.Spec.RoleID
      let failure : Option GoError :=
        match err with
        | some e =>
            if e.is Sentinel.ErrRoleNotFound then none
            else some (e.wrap "ошибка удаления роли из Nexus")
        | none => none
      match failure with
      | some e => { ending := Ending.returned Result.empty (some e), record := role, state := s2 }
      | none =>
          let role1 : RoleCR :=
            { role with ObjectMeta :=
                { role.ObjectMeta with
                    Finalizers := removeString role.ObjectMeta.Finalizers finalizerName } }
          let (uerr, s3) := storeUpdate w s2 role1.ObjectMeta
          match uerr with
          | some e =>
              { ending := Ending.returned Result.empty
                  (some (e.wrap "ошибка удаления финализатора")),
                record := role1, state := s3 }
          | none => { ending := Ending.returned Result.empty none, record := role1, state := s3 }

/-- Method `RoleReconciler.Reconcile`; `stored` is what `r.Get` gives for the
requested name. -/
def RoleReconciler.Reconcile (w : World) (s : State) (stored : Except GoError RoleCR) :
    Outcome (Option RoleCR) :=
  match stored with
  | Except.error e =>
      if e.isNotFound then
        { ending := Ending.returned Result.empty none, record := none, state := s }
      else
        { ending := Ending.returned Result.empty (some (e.wrap "ошибка получения роли")),
          record := none, state := s }
  | Except.ok roleCR =>
      if !roleCR.ObjectMeta.deletionTimestampIsZero then
        (RoleReconciler.finalizeRole w s roleCR).withRecord
      else if !containsString roleCR.ObjectMeta.Finalizers finalizerName then
        let role1 : RoleCR :=
          { roleCR with ObjectMeta :=
              { roleCR.ObjectMeta with
                  Finalizers := roleCR.ObjectMeta.Finalizers ++ [finalizerName] } }
        let (err, s1) := storeUpdate w s role1.ObjectMeta
        match err with
        | some e =>
            { ending := Ending.returned Result.empty
                (some (e.wrap "ошибка добавления финализатора")),
              record := some role1, state := s1 }
        | none => (RoleReconciler.syncRole w s1 role1).withRecord
      else (RoleReconciler.syncRole w s roleCR).withRecord

/-! ## The content-selector reconciler (`contentselector_controller.go`) -/

/-- Method `ContentSelectorReconciler.needsUpdate`. -/
def ContentSelectorReconciler.needsUpdate (current : ContentSelectorResponse)
    (desired : ContentSelectorSpec) : Bool :=
  current.Description != desired.Description || current.Expression != desired.Expression

/-- Method `ContentSelectorReconciler.updateStatus`; `cause.Error()` on a nil
`cause` panics. -/
def ContentSelectorReconciler.updateStatus (w : World) (s : State) (cs : ContentSelector)
    (ready : Bool) (cause : Option GoError) : Outcome ContentSelector :=
  let built : Option Condition :=
    if ready then
      some { Type_ := "Ready", Status := "True",
             ObservedGeneration := cs.ObjectMeta.Generation, LastTransitionTime := 0,
             Reason := successReason, Message := "Content Selector успешно синхронизирован" }
    else
      match cause with
      | none => none
      | some e =>
          some { Type_ := "Ready", Status := "False",
                 ObservedGeneration := cs.ObjectMeta.Generation, LastTransitionTime := 0,
                 Reason := errorReason, Message := e.msg }
  match built with
  | none => { ending := Ending.panicked, record := cs, state := s }
  | some newCondition =>
      let cs1 : ContentSelector :=
        { cs with Conditions := SetStatusCondition w.now cs.Conditions newCondition }
      let (err, s1) := storeStatusUpdate w s cs1.Conditions
      match err with
      | some e =>
          { ending := Ending.returned Result.empty (some (e.wrap "ошибка обновления статуса")),
            record := cs1, state := s1 }
      | none =>
          if ready then { ending := Ending.returned Result.empty none, record := cs1, state := s1 }
          else
            { ending := Ending.returned { Requeue := false, RequeueAfter := requeueDelay } none,
              record := cs1, state := s1 }

/-- Method `ContentSelectorReconciler.syncContentSelector`. -/
def ContentSelectorReconciler.syncContentSelector (w : World) (s : State)
    (cs : ContentSelector) : Outcome ContentSelector :=
  let (clientErr, s1) := GetClient w s
  match clientErr with
  | some e =>
      ContentSelectorReconciler.updateStatus w s1 cs false
        (some (e.wrap "ошибка подключения к Nexus"))
  | none =>
      let (found, s2) := ContentSelectorExists w s1 cs.Spec.Name
      match found with
      | Except.error e =>
          ContentSelectorReconciler.updateStatus w s2 cs false
            (some (e.wrap "ошибка проверки Content Selector"))
      | Except.ok exists_ =>
          if !exists_ then
            let (err, s3) :=
              CreateContentSelector w s2 cs.Spec.Name cs.Spec.Description cs.Spec.Expression
            match err with
            | some e =>
                ContentSelectorReconciler.updateStatus w s3 cs false
                  (some (e.wrap "ошибка создания Content Selector"))
            | none => ContentSelectorReconciler.updateStatus w s3 cs true none
          else
            let (got, s3) := GetContentSelector w s2 cs.Spec.Name
            match got with
            | Except.error e =>
                ContentSelectorReconciler.updateStatus w s3 cs false
                  (some (e.wrap "ошибка получения Content Selector"))
            | Except.ok current =>
                if ContentSelectorReconciler.needsUpdate current cs.Spec then
                  let (err, s4) :=
                    UpdateContentSelector w s3 cs.Spec.Name cs.Spec.Description cs.Spec.Expression
                  match err with
                  | some e =>
                      ContentSelectorReconciler.updateStatus w s4 cs false
                        (some (e.wrap "ошибка обновления Content Selector"))
                  | none => ContentSelectorReconciler.updateStatus w s4 cs true none
                else ContentSelectorReconciler.updateStatus w s3 cs true none

/-- Method `ContentSelectorReconciler.finalizeContentSelector`. -/
def ContentSelectorReconciler.finalizeContentSelector (w : World) (s : State)
    (cs : ContentSelector) : Outcome ContentSelector :=
  let (clientErr, s1) := GetClient w s
  match clientErr with
  | some e =>
      { ending := Ending.returned Result.empty (some (e.wrap "ошибка подключения к Nexus")),
        record := cs, state := s1 }
  | none =>
      let (err, s2) := DeleteContentSelector w s1 cs.Spec.Name
      let failure : Option GoError :=
        match err with
        | some e =>
            if e.is Sentinel.ErrContentSelectorNotFound then none
            else some (e.wrap "ошибка удаления Content Selector в Nexus")
        | none => none
      match failure with
      | some e => { ending := Ending.returned Result.empty (some e), record := cs, state := s2 }
      | none =>
          let cs1 : ContentSelector :=
            { cs with ObjectMeta :=
                { cs.ObjectMeta with
                    Finalizers := utilsRemoveString cs.ObjectMeta.Finalizers finalizerName } }
          let (uerr, s3) := storeUpdate w s2 cs1.ObjectMeta
          match uerr with
          | some e =>
              { ending := Ending.returned Result.empty
                  (some (e.wrap "ошибка удаления финализатора")),
                record := cs1, state := s3 }
          | none => { ending := Ending.returned Result.empty none, record := cs1, state := s3 }

/-- Method `ContentSelectorReconciler.Reconcile`; `stored` is what `r.Get` gives
for the requested name. -/
def ContentSelectorReconciler.Reconcile (w : World) (s : State)
    (stored : Except GoError ContentSelector) : Outcome (Option ContentSelector) :=
  match stored with
  | Except.error e =>
      if e.isNotFound then
        { ending := Ending.returned Result.empty none, record := none, state := s }
      else
        { ending := Ending.returned Result.empty
            (some (e.wrap "ошибка получения Content Selector")),
          record := none, state := s }
  | Except.ok cs =>
      if !cs.ObjectMeta.deletionTimestampIsZero then
        (ContentSelectorReconciler.finalizeContentSelector w s cs).withRecord
      else if !utilsContainsString cs.ObjectMeta.Finalizers finalizerName then
        let cs1 : ContentSelector :=
          { cs with ObjectMeta :=
              { cs.ObjectMeta with Finalizers := cs.ObjectMeta.Finalizers ++ [finalizerName] } }
        let (err, s1) := storeUpdate w s cs1.ObjectMeta
        match err with
        | some e =>
            { ending := Ending.returned Result.empty
                (some (e.wrap "ошибка при добавлении финализатора")),
              record := some cs1, state := s1 }
        | none => (ContentSelectorReconciler.syncContentSelector w s1 cs1).withRecord
      else (ContentSelectorReconciler.syncContentSelector w s cs).withRecord

/-! ## The diff as the spec words it -/

/-- The volatile keys the spec lists for the repository diff. -/
def volatileKey (k : String) : Bool :=
  k == "lastUpdated" || k == "taskId" || k == "url" || k == "contentDisposition"

/-- Deep equality of two payload values up to the map entries under an ignored
key, as the spec words the diff: a value equals itself; two maps are equal when
every key that is not ignored is present in both or absent from both and, where
present, holds equal values; two slices are equal when they have the same length
and equal elements at every index; two structs (or two pointers to structs) of
one type are equal when they have the same field names in order and equal
values field by field. Values of different kinds, a nil and a non-nil map, slice
or pointer among them, are not equal. The relation does not look at the order
in which the entries of a map are listed. -/
inductive DeepEqual (ignored : String → Bool) : GoValue → GoValue → Prop where
  | same (v : GoValue) : DeepEqual ignored v v
  | map (es fs : Config)
      (keys : ∀ k, ignored k = false → (lookup k es = none ↔ lookup k fs = none))
      (values : ∀ k v w, ignored k = false → lookup k es = some v → lookup k fs = some w →
        DeepEqual ignored v w) :
      DeepEqual ignored (GoValue.map es) (GoValue.map fs)
  | slice (xs ys : List GoValue) (len : xs.length = ys.length)
      (elems : ∀ (i : Nat) (x y : GoValue), xs[i]? = some x → ys[i]? = some y → DeepEqual ignored x y) :
      DeepEqual ignored (GoValue.slice xs) (GoValue.slice ys)
  | struct (t : StructType) (fs gs : List (Field × GoValue))
      (names : fs.map Prod.fst = gs.map Prod.fst)
      (values : ∀ (i : Nat) (p q : Field × GoValue), fs[i]? = some p → gs[i]? = some q → DeepEqual ignored p.2 q.2) :
      DeepEqual ignored (GoValue.struct t fs) (GoValue.struct t gs)
  | ptr (t : StructType) (fs gs : List (Field × GoValue))
      (names : fs.map Prod.fst = gs.map Prod.fst)
      (values : ∀ (i : Nat) (p q : Field × GoValue), fs[i]? = some p → gs[i]? = some q → DeepEqual ignored p.2 q.2) :
      DeepEqual ignored (GoValue.ptr t fs) (GoValue.ptr t gs)

/-- No key is ignored: plain deep equality. -/
def noKey : String → Bool := fun _ => false

mutual
/-- The value with the volatile keys removed from every map in it. -/
def stripVolatile : GoValue → GoValue
  | .nil => .nil
  | .bool b => .bool b
  | .string s => .string s
  | .int n => .int n
  | .float64 x => .float64 x
  | .nilIntPtr => .nilIntPtr
  | .intPtr n => .intPtr n
  | .nilStrings => .nilStrings
  | .strings xs => .strings xs
  | .struct t fs => .struct t (stripFields fs)
  | .nilPtr t => .nilPtr t
  | .ptr t fs => .ptr t (stripFields fs)
  | .nilMap => .nilMap
  | .map es => .map (stripEntries es)
  | .nilSlice => .nilSlice
  | .slice xs => .slice (stripElems xs)
termination_by structural x => x
/-- The fields of a struct, each value stripped. -/
def stripFields : List (Field × GoValue) → List (Field × GoValue)
  | [] => []
  | p :: rest => stripField p :: stripFields rest
termination_by structural x => x
/-- One field, its value stripped. -/
def stripField : Field × GoValue → Field × GoValue
  | (f, v) => (f, stripVolatile v)
termination_by structural x => x
/-- The entries of a map without those under a volatile key, each remaining
value stripped. -/
def stripEntries : Config → Config
  | [] => []
  | p :: rest => stripEntry p ++ stripEntries rest
termination_by structural x => x
/-- One entry: dropped under a volatile key, its value stripped otherwise. -/
def stripEntry : String × GoValue → Config
  | (k, v) => if volatileKey k then [] else [(k, stripVolatile v)]
termination_by structural x => x
/-- The elements of a slice, each stripped. -/
def stripElems : List GoValue → List GoValue
  | [] => []
  | x :: xs => stripVolatile x :: stripElems xs
termination_by structural x => x
end

/-! ## Reading a trace -/

/-- The remote calls of a trace: method and path of each request, in order. -/
def remoteCalls : List Event → List (Method × String)
  | [] => []
  | Event.http req :: rest => (req.method, req.url) :: remoteCalls rest
  | _ :: rest => remoteCalls rest

/-- The record writes of a trace: the finalizer list of each `r.Update`. -/
def recordWrites : List Event → List (List String)
  | [] => []
  | Event.update fs :: rest => fs :: recordWrites rest
  | _ :: rest => recordWrites rest

/-- The status writes of a trace: the condition list of each
`r.Status().Update`. -/
def statusWrites : List Event → List (List Condition)
  | [] => []
  | Event.statusUpdate cs :: rest => cs :: statusWrites rest
  | _ :: rest => statusWrites rest

/-! ## Sample inputs -/

/-- The repository of the spec's scenario: `r1`, maven-hosted, blob store
`default`, write policy `ALLOW`, nothing else set. -/
def scenarioSpec : RepositorySpec :=
  { Name := "r1", Type_ := "maven-hosted", Online := true
    Storage :=
      { BlobStoreName := "default", StrictContentTypeValidation := false, WritePolicy := "ALLOW" }
    Maven := none, Npm := none, Docker := none, Raw := none, Proxy := none, Group := none
    Cleanup := none, HttpClient := none, NegativeCache := none }

/-- The payload `BuildRepositoryConfig` gives for `scenarioSpec`. -/
def scenarioDesired : Config :=
  [("name", GoValue.string "r1"),
   ("online", GoValue.bool true),
   ("storage",
     GoValue.struct StructType.StorageConfig
       [(Field.BlobStoreName, GoValue.string "default"),
        (Field.StrictContentTypeValidation, GoValue.bool false),
        (Field.WritePolicy, GoValue.string "ALLOW")]),
   ("maven", GoValue.nilPtr StructType.MavenConfig)]

/-- What the remote hands back for `scenarioDesired`: its JSON encoding decoded
into a `map[string]interface{}`, plus a `lastUpdated` entry. -/
def scenarioCurrent : Config :=
  [("name", GoValue.string "r1"),
   ("online", GoValue.bool true),
   ("storage",
     GoValue.map
       [("blobStoreName", GoValue.string "default"),
        ("strictContentTypeValidation", GoValue.bool false),
        ("writePolicy", GoValue.string "ALLOW")]),
   ("maven", GoValue.nil),
   ("lastUpdated", GoValue.string "2025-01-01T00:00:00Z")]

/-- A role value for responses that carry none. -/
def noRole : Role :=
  { ID := "", Name := "", Description := "", Privileges := none, Roles := none }

/-- A decoding failure for responses whose body is no content selector. -/
def noSelector : Except GoError ContentSelectorResponse :=
  Except.error { msg := "unexpected end of JSON input", sentinel := none, reason := none }

/-- A stable remote holding `scenarioCurrent`: every GET is answered 200 with
that payload, every other request 204; every store write succeeds. -/
def scenarioWorld : World :=
  { getenv := fun _ => "set"
    roundTrip := fun _ req =>
      if req.method = Method.GET then
        { err := none, StatusCode := 200, text := "", asMap := Except.ok (some scenarioCurrent),
          asRole := noRole, asSelector := noSelector }
      else
        { err := none, StatusCode := 204, text := "", asMap := Except.ok none,
          asRole := noRole, asSelector := noSelector }
    update := fun _ => none
    statusUpdate := fun _ => none
    now := 100 }

/-- A process whose client is initialised, at the start of a pass. -/
def readyState : State :=
  { trace := [], initError := none, clientInstance := true }

/-- The scenario's record after its first successful pass: finalizer set, Ready
condition true. -/
def scenarioRecord : Repository :=
  { ObjectMeta := { Generation := 1, DeletionTimestamp := none, Finalizers := [finalizerName] }
    Spec := scenarioSpec
    Status :=
      { Conditions :=
          [{ Type_ := "Ready", Status := "True", ObservedGeneration := 1, LastTransitionTime := 50,
             Reason := "Success", Message := "Репозиторий успешно синхронизирован" }]
        ObservedGeneration := 0 } }

/-- Two payloads that differ only in the checksum entry of their attributes
block. -/
def checksumDesired : Config :=
  [("name", GoValue.string "r1"),
   ("attributes", GoValue.map [("checksum", GoValue.string "sha1:aaaa")])]

/-- The second of the two payloads. -/
def checksumCurrent : Config :=
  [("name", GoValue.string "r1"),
   ("attributes", GoValue.map [("checksum", GoValue.string "sha1:bbbb")])]

/-! ## The translation contracts as the spec words them -/

/-- The privilege types the spec lists as supported. -/
def supportedPrivilegeTypes : List String :=
  ["wildcard", "application", "repository-view", "repository-admin",
   "repository-content-selector", "script"]

/-- Whether the sub-block matching the declared privilege type is present. -/
def matchingBlockPresent (spec : PrivilegeSpec) : Bool :=
  (spec.Type_ == "wildcard" && spec.Wildcard.isSome) ||
  (spec.Type_ == "application" && spec.Application.isSome) ||
  (spec.Type_ == "repository-view" && spec.RepositoryView.isSome) ||
  (spec.Type_ == "repository-admin" && spec.RepositoryAdmin.isSome) ||
  (spec.Type_ == "repository-content-selector" && spec.RepositoryContentSelector.isSome) ||
  (spec.Type_ == "script" && spec.Script.isSome)

/-- The configuration-required error of each supported privilege type. -/
def configRequiredError (privilegeType : String) : Option Sentinel :=
  if privilegeType = "wildcard" then some Sentinel.ErrWildcardConfigRequired
  else if privilegeType = "application" then some Sentinel.ErrApplicationConfigRequired
  else if privilegeType = "repository-view" then some Sentinel.ErrRepoViewConfigRequired
  else if privilegeType = "repository-admin" then some Sentinel.ErrRepoAdminConfigRequired
  else if privilegeType = "repository-content-selector" then
    some Sentinel.ErrRepoContentSelConfigRequired
  else if privilegeType = "script" then some Sentinel.ErrScriptConfigRequired
  else none

/-- The payload keys the spec gives each privilege type beside name,
description and type. -/
def selectedKeys (privilegeType : String) : List String :=
  if privilegeType = "wildcard" then ["pattern"]
  else if privilegeType = "application" then ["domain", "actions"]
  else if privilegeType = "repository-view" then ["repository", "actions"]
  else if privilegeType = "repository-admin" then ["repository"]
  else if privilegeType = "repository-content-selector" then
    ["repository", "contentSelector", "format", "actions"]
  else if privilegeType = "script" then ["scriptName"]
  else []

/-- A privilege spec with every sub-block absent. -/
def barePrivilege (name privilegeType : String) : PrivilegeSpec :=
  { Name := name, Type_ := privilegeType, Description := ""
    Wildcard := none, Application := none, RepositoryView := none, RepositoryAdmin := none
    RepositoryContentSelector := none, Script := none }

/-- The repository types `BuildRepositoryConfig` has a case for. -/
def supportedRepositoryTypes : List String :=
  ["maven-hosted", "maven-proxy", "maven-group", "npm-hosted", "npm-proxy", "npm-group",
   "docker-hosted", "docker-proxy", "docker-group", "raw-hosted", "raw-proxy", "raw-group"]

/-- A repository spec of the given type with every optional sub-block absent. -/
def bareRepository (repoType : String) : RepositorySpec :=
  { scenarioSpec with Type_ := repoType }

/-! ## Reading the deletion path -/

/-- The request `DeleteRepository` sends. -/
def deleteRepositoryRequest (name : String) : Request :=
  { method := Method.DELETE, url := "/service/rest/v1/repositories/" ++ name, body := Body.empty }

/-- The request `DeletePrivilege` sends. -/
def deletePrivilegeRequest (name : String) : Request :=
  { method := Method.DELETE, url := "/service/rest/v1/security/privileges/" ++ name,
    body := Body.empty }

/-- The request `DeleteRole` sends. -/
def deleteRoleRequest (roleID : String) : Request :=
  { method := Method.DELETE, url := RoleAPIPath ++ "/" ++ roleID, body := Body.empty }

/-- The request `DeleteContentSelector` sends. -/
def deleteContentSelectorRequest (name : String) : Request :=
  { method := Method.DELETE, url := "/service/rest/v1/security/content-selectors/" ++ name,
    body := Body.empty }

/-- The record with the controller's finalizer taken off its list. -/
def withoutFinalizer (m : ObjectMeta) : List String :=
  removeString m.Finalizers finalizerName

/-- A remote that answers every request 404 without a transport error, and a
store whose writes succeed. -/
def notFoundWorld : World :=
  { getenv := fun _ => "true"
    roundTrip := fun _ _ =>
      { err := none, StatusCode := 404, text := "not found", asMap := Except.ok none,
        asRole := noRole, asSelector := noSelector }
    update := fun _ => none
    statusUpdate := fun _ => none
    now := 100 }

/-- A remote that answers every request 500 without a transport error, and a
store whose writes succeed. -/
def serverErrorWorld : World :=
  { getenv := fun _ => "true"
    roundTrip := fun _ _ =>
      { err := none, StatusCode := 500, text := "boom", asMap := Except.ok none,
        asRole := noRole, asSelector := noSelector }
    update := fun _ => none
    statusUpdate := fun _ => none
    now := 100 }

/-- Object metadata of a record under deletion that still carries the
controller's finalizer next to a foreign one. -/
def deletingMeta : ObjectMeta :=
  { Generation := 2, DeletionTimestamp := some 77, Finalizers := ["other", finalizerName] }

/-- A repository record under deletion. -/
def deletingRepository : Repository :=
  { ObjectMeta := deletingMeta, Spec := scenarioSpec
    Status := { Conditions := [], ObservedGeneration := 0 } }

/-- A privilege record under deletion. -/
def deletingPrivilege : Privilege :=
  { ObjectMeta := deletingMeta, Spec := barePrivilege "p1" "wildcard", Conditions := [] }

/-- A role record under deletion. -/
def deletingRole : RoleCR :=
  { ObjectMeta := deletingMeta
    Spec := { RoleID := "dev", Name := "dev", Description := "", Privileges := none,
              Roles := none, Source := none }
    Conditions := [], Message := "" }

/-- A content-selector record under deletion. -/
def deletingContentSelector : ContentSelector :=
  { ObjectMeta := deletingMeta
    Spec := { Name := "cs1", Description := "", Expression := "format == \"raw\"" }
    Conditions := [] }

/-- How many remote delete calls a trace holds. -/
def deleteCalls (tr : List Event) : Nat :=
  ((remoteCalls tr).filter (fun c => c.1 == Method.DELETE)).length

/-- Whether an event is a request to the remote. -/
def Event.isRemote : Event → Bool
  | Event.http _ => true
  | _ => false

/-- Whether an event is a write of the record (`r.Update`). -/
def Event.isRecordWrite : Event → Bool
  | Event.update _ => true
  | _ => false

/-- Whether some remote call comes after a record write in the trace. -/
def remoteAfterWrite : List Event → Bool
  | [] => false
  | e :: rest => (e.isRecordWrite && rest.any Event.isRemote) || remoteAfterWrite rest

/-- The remote delete went through: it returned no error, or the kind's
not-found error. -/
def deletedOrAbsent (result : Option GoError) (notFound : Sentinel) : Prop :=
  result = none ∨ ∃ e, result = some e ∧ e.is notFound = true


/-- The world of `notFoundWorld` with remote deletion of repositories switched
off: the setting is unset and reads as the empty string. -/
def softDeleteWorld : World :=
  { notFoundWorld with
      getenv := fun k => if k = "ENABLE_REPOSITORY_DELETION" then "" else "set" }

/-- The world of `serverErrorWorld` whose setting holds `"TRUE"`, which is not
exactly `"true"`. -/
def upperCaseSettingWorld : World :=
  { serverErrorWorld with
      getenv := fun k => if k = "ENABLE_REPOSITORY_DELETION" then "TRUE" else "set" }
/-! ## Reading the status reporter -/

/-- The success message of `RepositoryReconciler.updateStatus`. -/
def repositorySuccessMessage : String := "Репозиторий успешно синхронизирован"

/-- The success message of `PrivilegeReconciler.updateStatus`. -/
def privilegeSuccessMessage : String := "Привелегия успешно синхронизирована"

/-- The success message of `RoleReconciler.updateStatus`. -/
def roleSuccessMessage : String := "Роль синхронизирована с Nexus"

/-- The success message of `ContentSelectorReconciler.updateStatus`. -/
def contentSelectorSuccessMessage : String := "Content Selector успешно синхронизирован"

/-- The condition an `updateStatus` builds for a record of the given generation:
Ready, true with reason Success and the kind's success message, or false with
reason Error and the text of the cause (empty without a cause). -/
def builtCondition (generation : Int) (ready : Bool) (cause : Option GoError)
    (successMessage : String) : Condition :=
  if ready then
    { Type_ := "Ready", Status := "True", ObservedGeneration := generation,
      LastTransitionTime := 0, Reason := "Success", Message := successMessage }
  else
    { Type_ := "Ready", Status := "False", ObservedGeneration := generation,
      LastTransitionTime := 0, Reason := "Error",
      Message := match cause with
        | some e => e.msg
        | none => "" }

/-- Whether the record's Ready condition, the one `meta.FindStatusCondition`
returns, has the status, reason, message and observed generation of `new`. -/
def readyConditionEquals (conditions : List Condition) (new : Condition) : Bool :=
  match FindStatusCondition conditions "Ready" with
  | none => false
  | some c =>
      c.Status == new.Status && c.Reason == new.Reason && c.Message == new.Message &&
        c.ObservedGeneration == new.ObservedGeneration

/-- The requeue directive after a failure: `ctrl.Result{RequeueAfter: 30 * time.Second}`. -/
def requeueAfterThirtySeconds : Result := { Requeue := false, RequeueAfter := 30 * timeSecond }

/-- The immediate-requeue directive `ctrl.Result{Requeue: true}`. -/
def requeueNow : Result := { Requeue := true, RequeueAfter := 0 }

/-- A conflict error of the record store, as the API server returns on a stale
resource version. -/
def conflictError : GoError :=
  { msg := "Operation cannot be fulfilled: the object has been modified"
    sentinel := none
    reason := some StatusReason.Conflict }

/-- A world whose remote answers 404 and whose status writes fail with a
conflict. -/
def conflictWorld : World :=
  { notFoundWorld with statusUpdate := fun _ => some conflictError }

/-- Object metadata of a live record carrying the controller's finalizer. -/
def liveMeta : ObjectMeta :=
  { Generation := 3, DeletionTimestamp := none, Finalizers := [finalizerName] }

/-- A privilege record that already reports Ready with the success message at
its current generation. -/
def settledPrivilege : Privilege :=
  { ObjectMeta := liveMeta
    Spec := { barePrivilege "p1" "wildcard" with Wildcard := some { Pattern := "nexus:*" } }
    Conditions :=
      [{ Type_ := "Ready", Status := "True", ObservedGeneration := 3, LastTransitionTime := 50,
         Reason := "Success", Message := privilegeSuccessMessage }] }

/-- A role record that already reports Ready with the success message at its
current generation. -/
def settledRole : RoleCR :=
  { ObjectMeta := liveMeta
    Spec := { RoleID := "dev", Name := "dev", Description := "", Privileges := none,
              Roles := none, Source := none }
    Conditions :=
      [{ Type_ := "Ready", Status := "True", ObservedGeneration := 3, LastTransitionTime := 50,
         Reason := "Success", Message := roleSuccessMessage }]
    Message := "" }

/-- A content-selector record that already reports Ready with the success
message at its current generation. -/
def settledContentSelector : ContentSelector :=
  { ObjectMeta := liveMeta
    Spec := { Name := "cs1", Description := "", Expression := "format == \"raw\"" }
    Conditions :=
      [{ Type_ := "Ready", Status := "True", ObservedGeneration := 3, LastTransitionTime := 50,
         Reason := "Success", Message := contentSelectorSuccessMessage }] }

/-- A repository record that already reports Ready with the success message at
its current generation. -/
def settledRepository : Repository :=
  { ObjectMeta := liveMeta
    Spec := scenarioSpec
    Status :=
      { Conditions :=
          [{ Type_ := "Ready", Status := "True", ObservedGeneration := 3,
             LastTransitionTime := 50, Reason := "Success",
             Message := repositorySuccessMessage }]
        ObservedGeneration := 0 } }

/-- The repository record with its condition list replaced. -/
def Repository.withConditions (repo : Repository) (conditions : List Condition) : Repository :=
  { repo with Status := { repo.Status with Conditions := conditions } }

/-- The privilege record with its condition list replaced. -/
def Privilege.withConditions (privilege : Privilege) (conditions : List Condition) : Privilege :=
  { privilege with Conditions := conditions }

/-- The role record with its condition list replaced. -/
def RoleCR.withConditions (role : RoleCR) (conditions : List Condition) : RoleCR :=
  { role with Conditions := conditions }

/-- The content-selector record with its condition list replaced. -/
def ContentSelector.withConditions (cs : ContentSelector) (conditions : List Condition) :
    ContentSelector :=
  { cs with Conditions := conditions }

/-! ## Order of events within a pass -/

/-- The state `s'` continues `s` without writing the record: its trace is the
trace of `s` followed by events none of which is an `r.Update`. -/
def continuesWithoutWrite (s s' : State) : Prop :=
  ∃ new, s'.trace = s.trace ++ new ∧ recordWrites new = []

/-- Whether a remote call is a create or an update: a POST or a PUT. -/
def isCreateOrUpdate (call : Method × String) : Bool :=
  call.1 == Method.POST || call.1 == Method.PUT

/-- Whether the finalizer is in place before the sync path of a pass: either
the stored record carries it and the pass writes no record, or the pass opens
with the write of the record with the finalizer appended, that write succeeded,
and no other record write follows. -/
def finalizerInPlace (stored : List String) (persisted : Option GoError) (new : List Event) :
    Bool :=
  if containsString stored finalizerName then (recordWrites new).isEmpty
  else
    persisted.isNone &&
      match new with
      | Event.update fs :: rest => fs == stored ++ [finalizerName] && (recordWrites rest).isEmpty
      | _ => false

/-- A store whose record writes are refused, in front of the remote of
`notFoundWorld`. -/
def refusedWriteWorld : World :=
  { notFoundWorld with
      update := fun _ => some { msg := "admission webhook denied the request", sentinel := none,
                                reason := none } }

/-- Object metadata of a fresh record: no finalizer yet, not under deletion. -/
def freshMeta : ObjectMeta :=
  { Generation := 1, DeletionTimestamp := none, Finalizers := [] }

/-- A fresh repository record. -/
def freshRepository : Repository :=
  { ObjectMeta := freshMeta, Spec := scenarioSpec
    Status := { Conditions := [], ObservedGeneration := 0 } }

/-- A fresh role record. -/
def freshRole : RoleCR :=
  { ObjectMeta := freshMeta
    Spec := { RoleID := "dev", Name := "dev", Description := "", Privileges := none,
              Roles := none, Source := none }
    Conditions := [], Message := "" }


/-- The object metadata with the controller's finalizer appended, as
`controllerutil.AddFinalizer` leaves it when the finalizer was missing. -/
def ObjectMeta.withFinalizer (m : ObjectMeta) : ObjectMeta :=
  { m with Finalizers := m.Finalizers ++ [finalizerName] }

/-- The state after the record write that adds the finalizer. -/
def State.afterFinalizerWrite (s : State) (m : ObjectMeta) : State :=
  { s with trace := s.trace ++ [Event.update (m.Finalizers ++ [finalizerName])] }

/-- The repo record with the controller's finalizer appended. -/
def Repository.withFinalizer (repo : Repository) : Repository :=
  { repo with ObjectMeta := repo.ObjectMeta.withFinalizer }

/-- The privilege record with the controller's finalizer appended. -/
def Privilege.withFinalizer (privilege : Privilege) : Privilege :=
  { privilege with ObjectMeta := privilege.ObjectMeta.withFinalizer }

/-- The role record with the controller's finalizer appended. -/
def RoleCR.withFinalizer (role : RoleCR) : RoleCR :=
  { role with ObjectMeta := role.ObjectMeta.withFinalizer }

/-- The content-selector record with the controller's finalizer appended. -/
def ContentSelector.withFinalizer (cs : ContentSelector) : ContentSelector :=
  { cs with ObjectMeta := cs.ObjectMeta.withFinalizer }
/-! ## Reading the create path of a repository -/

/-- The request `GetRepository` sends. -/
def getRepositoryRequest (name : String) : Request :=
  { method := Method.GET, url := "/service/rest/v1/repositories/" ++ name, body := Body.empty }

/-- The request `CreateRepository` sends to an endpoint. -/
def createRepositoryRequest (endpoint : String) (config : Config) : Request :=
  { method := Method.POST, url := endpoint, body := Body.config config }

/-- The member `storage.blobStoreName` of a payload as it goes over the wire,
that is in the JSON encoding of the payload. -/
def wireBlobStoreName (config : Config) : Option GoValue :=
  match lookup "storage" (jsonEntries config) with
  | some (GoValue.map es) => lookup "blobStoreName" es
  | _ => none

/-- Whether the Ready condition of a condition list has the given status and
reason. -/
def readyIs (conditions : List Condition) (status reason : String) : Bool :=
  match FindStatusCondition conditions "Ready" with
  | some c => c.Status == status && c.Reason == reason
  | none => false

/-- A remote on which nothing exists yet and every create succeeds: GET and
HEAD are answered 404, everything else 201; every store write succeeds. -/
def createWorld : World :=
  { getenv := fun _ => "set"
    roundTrip := fun _ req =>
      if req.method = Method.GET ∨ req.method = Method.HEAD then
        { err := none, StatusCode := 404, text := "", asMap := Except.ok none,
          asRole := noRole, asSelector := noSelector }
      else
        { err := none, StatusCode := 201, text := "", asMap := Except.ok none,
          asRole := noRole, asSelector := noSelector }
    update := fun _ => none
    statusUpdate := fun _ => none
    now := 100 }

/-- The remote of `createWorld` in front of a store whose status writes
conflict. -/
def conflictCreateWorld : World :=
  { createWorld with statusUpdate := fun _ => some conflictError }

/-- The request `GetPrivilege` sends. -/
def getPrivilegeRequest (name : String) : Request :=
  { method := Method.GET, url := "/service/rest/v1/security/privileges/" ++ name,
    body := Body.empty }

/-- The message of the Ready condition of a condition list, empty when there is
no such condition. -/
def readyMessage (conditions : List Condition) : String :=
  match FindStatusCondition conditions "Ready" with
  | some c => c.Message
  | none => ""

/-- A remote that cannot be reached: every request ends in a transport error. -/
def unreachableWorld : World :=
  { notFoundWorld with
      roundTrip := fun _ _ =>
        { err := some { msg := "dial tcp: connection refused", sentinel := none, reason := none }
          StatusCode := 0, text := "", asMap := Except.ok none
          asRole := noRole, asSelector := noSelector } }

/-- A privilege record of type wildcard without its wildcard block. -/
def blocklessPrivilege : Privilege :=
  { ObjectMeta := liveMeta, Spec := barePrivilege "p1" "wildcard", Conditions := [] }


/-- A process in which the connection settings of the remote are not set; the
remote would answer 404 and the store's writes succeed. -/
def unconfiguredWorld : World :=
  { notFoundWorld with getenv := fun _ => "" }

/-- The package variables before the first call of `GetClient`. -/
def firstCallState : State :=
  { trace := [], initError := none, clientInstance := false }
/-! ## Reading unexpected responses -/

/-- Whether the characters `sub` occur in `s` as a contiguous run. -/
def charsContain : List Char → List Char → Bool
  | [], sub => sub.isEmpty
  | c :: cs, sub => sub.isPrefixOf (c :: cs) || charsContain cs sub

/-- Whether a message contains a text. -/
def containsText (message text : String) : Bool :=
  charsContain message.data text.data

/-- The JSON object a failing remote sends as the body of its 500 answer,
decoded. -/
def errorPayload : Config :=
  [("error", GoValue.string "internal")]

/-- A remote that answers every GET with 500 and an error object as JSON body,
without a transport error, and everything else with 204; every store write
succeeds. -/
def errorBodyWorld : World :=
  { getenv := fun _ => "set"
    roundTrip := fun _ req =>
      if req.method = Method.GET then
        { err := none, StatusCode := 500, text := "\x7b\"error\":\"internal\"\x7d",
          asMap := Except.ok (some errorPayload), asRole := noRole, asSelector := noSelector }
      else
        { err := none, StatusCode := 204, text := "", asMap := Except.ok none,
          asRole := noRole, asSelector := noSelector }
    update := fun _ => none
    statusUpdate := fun _ => none
    now := 100 }

/-- A remote on which nothing exists and every write is refused: GET and HEAD
are answered 404, everything else 500 with the body `boom`; every store write
succeeds. -/
def writeFailsWorld : World :=
  { getenv := fun _ => "set"
    roundTrip := fun _ req =>
      if req.method = Method.GET ∨ req.method = Method.HEAD then
        { err := none, StatusCode := 404, text := "", asMap := Except.ok none,
          asRole := noRole, asSelector := noSelector }
      else
        { err := none, StatusCode := 500, text := "boom", asMap := Except.ok none,
          asRole := noRole, asSelector := noSelector }
    update := fun _ => none
    statusUpdate := fun _ => none
    now := 100 }

/-- The message of an error result, empty when there is no error. -/
def errorMessage (result : Option GoError) : String :=
  match result with
  | some e => e.msg
  | none => ""

/-- A role payload for the calls below. -/
def devRole : Role :=
  { ID := "dev", Name := "dev", Description := "", Privileges := none, Roles := none }

/-! ## The privilege and role diffs as the spec words them -/

/-- The three top-level keys the spec excludes from the privilege diff. -/
def privilegeIgnoredKey (k : String) : Bool :=
  k == "readOnly" || k == "type" || k == "id"

/-- The payload with its top-level entries under readOnly, type and id removed;
the nil map gives the empty one. -/
def withoutIgnoredKeys (m : GoMap) : Config :=
  (copyMap m).filter (fun p => !privilegeIgnoredKey p.1)

/-- Two payloads differ under a key: the key is present in one only, or present
in both with values that are not deeply equal. -/
def differsAt (k : String) (c d : GoMap) : Prop :=
  match c.get k, d.get k with
  | none, none => False
  | some v, some w => ¬ DeepEqual noKey v w
  | _, _ => True

/-- A privilege spec of type application with one action. -/
def applicationSpec : PrivilegeSpec :=
  { barePrivilege "p2" "application" with
      Application := some { Domain := "users", Actions := some ["READ"] } }

/-- The payload `BuildPrivilegeConfig` gives for `applicationSpec`. -/
def applicationDesired : Config :=
  [("name", GoValue.string "p2"),
   ("description", GoValue.string ""),
   ("type", GoValue.string "application"),
   ("domain", GoValue.string "users"),
   ("actions", GoValue.strings ["READ"])]

/-- A live privilege record with `applicationSpec`. -/
def applicationPrivilege : Privilege :=
  { ObjectMeta := liveMeta, Spec := applicationSpec, Conditions := [] }

/-- A stable remote holding a privilege payload: every GET is answered 200 with
the JSON encoding of the payload, decoded, plus a `readOnly` entry; every other
request 204; every store write succeeds. -/
def stablePrivilegeWorld (payload : Config) : World :=
  { getenv := fun _ => "set"
    roundTrip := fun _ req =>
      if req.method = Method.GET then
        { err := none, StatusCode := 200, text := ""
          asMap := Except.ok (some (jsonEntries payload ++ [("readOnly", GoValue.bool false)]))
          asRole := noRole, asSelector := noSelector }
      else
        { err := none, StatusCode := 204, text := "", asMap := Except.ok none,
          asRole := noRole, asSelector := noSelector }
    update := fun _ => none
    statusUpdate := fun _ => none
    now := 100 }

/-- The payload `BuildPrivilegeConfig` gives for the spec of
`settledPrivilege`. -/
def wildcardDesired : Config :=
  [("name", GoValue.string "p1"),
   ("description", GoValue.string ""),
   ("type", GoValue.string "wildcard"),
   ("pattern", GoValue.string "nexus:*")]

/-! ## Reading the proxy and group blocks of a repository payload -/

/-- The proxy types of the spec. -/
def proxyRepositoryTypes : List String :=
  ["maven-proxy", "npm-proxy", "docker-proxy", "raw-proxy"]

/-- The group types of the spec. -/
def groupRepositoryTypes : List String :=
  ["maven-group", "npm-group", "docker-group", "raw-group"]

/-- The member `group.memberNames` of a payload as it goes over the wire, that is
in the JSON encoding of the payload. -/
def wireMemberNames (config : Config) : Option GoValue :=
  match lookup "group" (jsonEntries config) with
  | some (GoValue.map es) => lookup "memberNames" es
  | _ => none

/-- A member list on the wire: a JSON array of strings. -/
def wireStrings (xs : List String) : GoValue :=
  GoValue.slice (xs.map GoValue.string)

/-- The formats of the twelve repository types. -/
def repositoryFormats : List String := ["maven", "npm", "docker", "raw"]

/-- The subtypes of the twelve repository types. -/
def repositorySubtypes : List String := ["hosted", "proxy", "group"]

/-- A repository spec of type raw-hosted with a cleanup policy and a raw
sub-block. -/
def rawSpecWithExtras : RepositorySpec :=
  { bareRepository "raw-hosted" with
      Cleanup := some { PolicyNames := some ["weekly"] }
      Raw := some { ContentDisposition := "ATTACHMENT" } }

/-! ## The condition list as the spec words it -/

/-- The condition types of a list, in order. -/
def conditionTypes (conditions : List Condition) : List String :=
  conditions.map (fun c => c.Type_)

/-- What the spec asks of the condition list after a status update: at most one
entry per condition type, exactly one entry of type Ready and that one with the
status, reason, message and observed generation of the new condition, and the
entries of every other type as they were before. -/
def readyMaintained (before after : List Condition) (new : Condition) : Prop :=
  (conditionTypes after).Nodup ∧
  (∃ c, after.filter (fun x => x.Type_ == "Ready") = [c] ∧ c.Status = new.Status ∧
    c.Reason = new.Reason ∧ c.Message = new.Message ∧
    c.ObservedGeneration = new.ObservedGeneration) ∧
  after.filter (fun x => x.Type_ != "Ready") = before.filter (fun x => x.Type_ != "Ready")

/-- A condition list with a foreign condition next to a stale Ready one. -/
def mixedConditions : List Condition :=
  [{ Type_ := "Synced", Status := "True", ObservedGeneration := 2, LastTransitionTime := 40,
     Reason := "Seen", Message := "" },
   { Type_ := "Ready", Status := "False", ObservedGeneration := 2, LastTransitionTime := 50,
     Reason := "Error", Message := "boom" }]

/-! ## Lemmas on the comparison -/

theorem goName_take_two (f : Field) (X : String) :
    (f.goName ++ X).data.take 2 = f.goName.data.take 2 := by
  cases f <;> simp [Field.goName, String.data_append]

theorem pathString_ne (p : List Field) :
    Path.String p ≠ "Attributes.checksum" ∧ Path.String p ≠ "raw.contentDisposition" := by
  cases p with
  | nil => exact ⟨by decide, by decide⟩
  | cons f rest =>
    constructor
    · intro h
      have h2 := congrArg (fun s => s.data.take 2) h
      simp only [Path.String] at h2
      rw [goName_take_two] at h2
      revert h2
      cases f <;> decide
    · intro h
      have h2 := congrArg (fun s => s.data.take 2) h
      simp only [Path.String] at h2
      rw [goName_take_two] at h2
      revert h2
      cases f <;> decide

theorem filterPath_false (p : List Field) :
    repositoryIgnoreFields.filterPath (Path.String p) = false := by
  have h := pathString_ne p
  simp [repositoryIgnoreFields, h.1, h.2]

theorem lookup_append_first (k : String) (v : GoValue) (pre rest : Config)
    (h : k ∉ keysOf pre) : lookup k (pre ++ (k, v) :: rest) = some v := by
  induction pre with
  | nil => simp [lookup]
  | cons p pre ih =>
    obtain ⟨k', v'⟩ := p
    simp only [keysOf, List.map_cons, List.mem_cons, not_or] at h
    have hne : ¬ k' = k := fun e => h.1 e.symm
    simp only [List.cons_append, lookup, hne, if_false]
    exact ih h.2

mutual
theorem cmpAny_refl (o : Options) (path : List Field) :
    ∀ v : GoValue, cmpAny o path v v = true
  | .nil => by simp [cmpAny]
  | .bool _ => by simp [cmpAny]
  | .string _ => by simp [cmpAny]
  | .int _ => by simp [cmpAny]
  | .float64 _ => by simp [cmpAny]
  | .nilIntPtr => by simp [cmpAny]
  | .intPtr _ => by simp [cmpAny]
  | .nilStrings => by simp [cmpAny]
  | .strings _ => by simp [cmpAny]
  | .struct t fs => by simp [cmpAny, cmpFields_refl o path fs]
  | .nilPtr _ => by simp [cmpAny]
  | .ptr t fs => by simp [cmpAny, cmpFields_refl o path fs]
  | .nilMap => by simp [cmpAny]
  | .map es => by
      have h := cmpEntries_refl o path es [] [] (by simp [keysOf])
      simp only [List.nil_append] at h
      simp [cmpAny, h, keysOf]
      intro a b hab
      exact Or.inr ⟨b, hab⟩
  | .nilSlice => by simp [cmpAny]
  | .slice xs => by simp [cmpAny, cmpElems_refl o path xs]
termination_by structural v => v
theorem cmpFields_refl (o : Options) (path : List Field) :
    ∀ fs : List (Field × GoValue), cmpFields o path fs fs = true
  | [] => by simp [cmpFields]
  | p :: fs => by simp [cmpFields, cmpField_refl o path p, cmpFields_refl o path fs]
termination_by structural fs => fs
theorem cmpField_refl (o : Options) (path : List Field) :
    ∀ p : Field × GoValue, cmpField o path p p = true
  | (f, v) => by simp [cmpField, cmpAny_refl o (path ++ [f]) v]
termination_by structural p => p
theorem cmpEntries_refl (o : Options) (path : List Field) :
    ∀ (suf pre : Config) (seen : List String), (∀ k ∈ keysOf pre, k ∈ seen) →
      cmpEntries o path seen suf (pre ++ suf) = true
  | [], _, _, _ => by simp [cmpEntries]
  | p :: rest, pre, seen, h => by
      have h1 := cmpEntry_refl o path p pre rest seen h
      have h2 := cmpEntries_refl o path rest (pre ++ [p]) (p.1 :: seen) (by
        intro k hk
        simp only [keysOf, List.map_append, List.map_cons, List.map_nil, List.mem_append,
          List.mem_singleton] at hk
        rcases hk with hk | hk
        · exact List.mem_cons_of_mem _ (h k hk)
        · simp [hk])
      simp only [List.append_assoc, List.singleton_append] at h2
      simp [cmpEntries, h1, h2]
termination_by structural suf => suf
theorem cmpEntry_refl (o : Options) (path : List Field) :
    ∀ (p : String × GoValue) (pre rest : Config) (seen : List String),
      (∀ k ∈ keysOf pre, k ∈ seen) → cmpEntry o path seen p (pre ++ p :: rest) = true
  | (k, v), pre, rest, seen, h => by
      by_cases hs : k ∈ seen
      · simp [cmpEntry, hs]
      · have hk : k ∉ keysOf pre := fun hk => hs (h k hk)
        simp [cmpEntry, lookup_append_first k v pre rest hk, cmpAny_refl o path v]
termination_by structural p => p
theorem cmpElems_refl (o : Options) (path : List Field) :
    ∀ xs : List GoValue, cmpElems o path xs xs = true
  | [] => by simp [cmpElems]
  | x :: xs => by simp [cmpElems, cmpAny_refl o path x, cmpElems_refl o path xs]
termination_by structural xs => xs
end

theorem lookup_stripEntries (k : String) (hk : volatileKey k = false) :
    ∀ fs : Config, lookup k (stripEntries fs) = (lookup k fs).map stripVolatile
  | [] => by simp [stripEntries, lookup]
  | (k', v) :: rest => by
      by_cases hv : volatileKey k' = true
      · have hne : ¬ k' = k := by
          intro e; rw [e] at hv; rw [hk] at hv; exact Bool.noConfusion hv
        simp [stripEntries, stripEntry, hv, lookup, hne, lookup_stripEntries k hk rest]
      · simp only [Bool.not_eq_true] at hv
        by_cases e : k' = k
        · subst e
          simp [stripEntries, stripEntry, hv, lookup]
        · simp [stripEntries, stripEntry, hv, lookup, e, lookup_stripEntries k hk rest]

theorem keysOf_stripEntries :
    ∀ es : Config, keysOf (stripEntries es) = (keysOf es).filter (fun k => !volatileKey k)
  | [] => by simp [stripEntries, keysOf]
  | (k, v) :: rest => by
      have ih := keysOf_stripEntries rest
      simp only [keysOf] at ih
      by_cases hv : volatileKey k = true
      · simp [stripEntries, stripEntry, hv, keysOf, ih]
      · simp only [Bool.not_eq_true] at hv
        simp [stripEntries, stripEntry, hv, keysOf, ih]

theorem all_keys_strip (es : Config) :
    ∀ fs : Config,
      fs.all (fun p => repositoryIgnoreFields.ignoreMapEntries p.1 || (keysOf es).contains p.1) =
        (stripEntries fs).all
          (fun p => noOptions.ignoreMapEntries p.1 || (keysOf (stripEntries es)).contains p.1)
  | [] => by simp [stripEntries]
  | (k, v) :: rest => by
      have ih := all_keys_strip es rest
      by_cases hv : volatileKey k = true
      · have hi : repositoryIgnoreFields.ignoreMapEntries k = true := hv
        simp only [List.all_cons, hi, Bool.true_or, Bool.true_and, stripEntries, stripEntry, hv,
          if_true, List.nil_append]
        exact ih
      · simp only [Bool.not_eq_true] at hv
        have hi : repositoryIgnoreFields.ignoreMapEntries k = false := hv
        simp only [List.all_cons, hi, Bool.false_or, stripEntries, stripEntry, hv,
          List.singleton_append, noOptions, ih, keysOf_stripEntries]
        congr 1
        simp [List.mem_filter, hv]

theorem cmpEntry_strip_volatile (path : List Field) :
    ∀ (p : String × GoValue) (fs : Config) (seen : List String),
      volatileKey p.1 = true → cmpEntry repositoryIgnoreFields path seen p fs = true
  | (k, v), fs, seen, hv => by
      have hi : repositoryIgnoreFields.ignoreMapEntries k = true := hv
      simp [cmpEntry, hi]

mutual
theorem cmpAny_strip (path : List Field) :
    ∀ x y : GoValue,
      cmpAny repositoryIgnoreFields path x y =
        cmpAny noOptions path (stripVolatile x) (stripVolatile y)
  | .nil, y => by cases y <;> simp [cmpAny, stripVolatile]
  | .bool _, y => by cases y <;> simp [cmpAny, stripVolatile]
  | .string _, y => by cases y <;> simp [cmpAny, stripVolatile]
  | .int _, y => by cases y <;> simp [cmpAny, stripVolatile]
  | .float64 _, y => by cases y <;> simp [cmpAny, stripVolatile]
  | .nilIntPtr, y => by cases y <;> simp [cmpAny, stripVolatile]
  | .intPtr _, y => by cases y <;> simp [cmpAny, stripVolatile]
  | .nilStrings, y => by cases y <;> simp [cmpAny, stripVolatile]
  | .strings _, y => by cases y <;> simp [cmpAny, stripVolatile]
  | .struct t fs, y => by
      cases y <;> simp [cmpAny, stripVolatile]
      rename_i u gs
      rw [cmpFields_strip path fs gs]
  | .nilPtr _, y => by cases y <;> simp [cmpAny, stripVolatile]
  | .ptr t fs, y => by
      cases y <;> simp [cmpAny, stripVolatile]
      rename_i u gs
      rw [cmpFields_strip path fs gs]
  | .nilMap, y => by cases y <;> simp [cmpAny, stripVolatile]
  | .map es, y => by
      cases y <;> simp only [cmpAny, stripVolatile]
      rename_i fs
      rw [cmpEntries_strip path es fs [] [] (by simp), all_keys_strip es fs]
  | .nilSlice, y => by cases y <;> simp [cmpAny, stripVolatile]
  | .slice xs, y => by
      cases y <;> simp only [cmpAny, stripVolatile]
      rename_i ys
      rw [cmpElems_strip path xs ys]
termination_by structural x => x
theorem cmpFields_strip (path : List Field) :
    ∀ fs gs : List (Field × GoValue),
      cmpFields repositoryIgnoreFields path fs gs =
        cmpFields noOptions path (stripFields fs) (stripFields gs)
  | [], gs => by cases gs <;> simp [cmpFields, stripFields]
  | p :: fs, gs => by
      cases gs with
      | nil => simp [cmpFields, stripFields]
      | cons q gs' =>
        simp only [cmpFields, stripFields]
        rw [cmpField_strip path p q, cmpFields_strip path fs gs']
termination_by structural fs => fs
theorem cmpField_strip (path : List Field) :
    ∀ p q : Field × GoValue,
      cmpField repositoryIgnoreFields path p q =
        cmpField noOptions path (stripField p) (stripField q)
  | (f, v), (g, w) => by
      simp only [cmpField, stripField, filterPath_false, Bool.false_or]
      rw [cmpAny_strip (path ++ [f]) v w]
      simp [noOptions]
termination_by structural p => p
theorem cmpEntries_strip (path : List Field) :
    ∀ (es fs : Config) (seen seen' : List String),
      (∀ k, volatileKey k = false → (k ∈ seen ↔ k ∈ seen')) →
      cmpEntries repositoryIgnoreFields path seen es fs =
        cmpEntries noOptions path seen' (stripEntries es) (stripEntries fs)
  | [], _, _, _, _ => by simp [cmpEntries, stripEntries]
  | p :: rest, fs, seen, seen', h => by
      by_cases hv : volatileKey p.1 = true
      · have h1 := cmpEntry_strip_volatile path p fs seen hv
        have h2 := cmpEntries_strip path rest fs (p.1 :: seen) seen' (by
          intro k hk
          have hne : k ≠ p.1 := by
            intro e; rw [e] at hk; rw [hv] at hk; exact Bool.noConfusion hk
          simp [hne, h k hk])
        have h3 : stripEntry p = [] := by
          obtain ⟨k, v⟩ := p
          simp only [stripEntry]
          simp only at hv
          simp [hv]
        simp only [cmpEntries, h1, Bool.true_and, stripEntries, h3, List.nil_append]
        exact h2
      · simp only [Bool.not_eq_true] at hv
        have h1 := cmpEntry_strip path p fs seen seen' hv h
        have h2 := cmpEntries_strip path rest fs (p.1 :: seen) (p.1 :: seen') (by
          intro k hk
          simp [h k hk])
        have h3 : stripEntry p = [(p.1, stripVolatile p.2)] := by
          obtain ⟨k, v⟩ := p
          simp only [stripEntry]
          simp only at hv
          simp [hv]
        simp only [cmpEntries, stripEntries, h3, List.singleton_append]
        rw [h1, h2]
termination_by structural es => es
theorem cmpEntry_strip (path : List Field) :
    ∀ (p : String × GoValue) (fs : Config) (seen seen' : List String),
      volatileKey p.1 = false →
      (∀ k, volatileKey k = false → (k ∈ seen ↔ k ∈ seen')) →
      cmpEntry repositoryIgnoreFields path seen p fs =
        cmpEntry noOptions path seen' (p.1, stripVolatile p.2) (stripEntries fs)
  | (k, v), fs, seen, seen', hv, h => by
      have hi : repositoryIgnoreFields.ignoreMapEntries k = false := hv
      have hs : seen.contains k = seen'.contains k := by
        have := h k hv
        by_cases hm : k ∈ seen
        · simp [hm, this.mp hm]
        · have hm' : k ∉ seen' := fun x => hm (this.mpr x)
          simp [hm, hm']
      simp only [cmpEntry, hi, Bool.or_false, lookup_stripEntries k hv fs, hs, noOptions]
      cases hl : lookup k fs with
      | none => simp
      | some w => simp [cmpAny_strip path v w, noOptions]
termination_by structural p => p
theorem cmpElems_strip (path : List Field) :
    ∀ xs ys : List GoValue,
      cmpElems repositoryIgnoreFields path xs ys =
        cmpElems noOptions path (stripElems xs) (stripElems ys)
  | [], ys => by cases ys <;> simp [cmpElems, stripElems]
  | x :: xs, ys => by
      cases ys with
      | nil => simp [cmpElems, stripElems]
      | cons y ys' =>
        simp only [cmpElems, stripElems]
        rw [cmpAny_strip path x y, cmpElems_strip path xs ys']
termination_by structural xs => xs
end

theorem lookup_eq_none_iff (k : String) :
    ∀ es : Config, lookup k es = none ↔ k ∉ keysOf es
  | [] => by simp [lookup, keysOf]
  | (k', v) :: rest => by
      have ih := lookup_eq_none_iff k rest
      simp only [keysOf] at ih
      by_cases e : k' = k
      · simp [lookup, keysOf, e]
      · have e' : ¬ k = k' := fun x => e x.symm
        simp [lookup, keysOf, e, e', ih]

theorem lookup_of_mem (k : String) (v : GoValue) :
    ∀ es : Config, (k, v) ∈ es → lookup k es ≠ none
  | [], h => by simp at h
  | (k', v') :: rest, h => by
      by_cases e : k' = k
      · simp [lookup, e]
      · simp only [lookup, e, if_false]
        apply lookup_of_mem k v rest
        simp only [List.mem_cons, Prod.mk.injEq] at h
        rcases h with h | h
        · exact absurd h.1.symm e
        · exact h

theorem cmpEntries_of_same (o : Options) (path : List Field) (fs : Config) :
    ∀ (suf pre : Config) (seen : List String), (∀ k ∈ keysOf pre, k ∈ seen) →
      (∀ k, o.ignoreMapEntries k = false → lookup k (pre ++ suf) = lookup k fs) →
      cmpEntries o path seen suf fs = true
  | [], _, _, _, _ => by simp [cmpEntries]
  | (k, v) :: rest, pre, seen, h, hsame => by
      have h2 := cmpEntries_of_same o path fs rest (pre ++ [(k, v)]) (k :: seen) (by
        intro k' hk
        simp only [keysOf, List.map_append, List.map_cons, List.map_nil, List.mem_append,
          List.mem_singleton] at hk
        rcases hk with hk | hk
        · exact List.mem_cons_of_mem _ (h k' hk)
        · simp [hk]) (by
        intro k' hk'
        have := hsame k' hk'
        simpa [List.append_assoc] using this)
      have h1 : cmpEntry o path seen (k, v) fs = true := by
        by_cases hs : k ∈ seen
        · simp [cmpEntry, hs]
        · by_cases hi : o.ignoreMapEntries k = true
          · simp [cmpEntry, hi]
          · simp only [Bool.not_eq_true] at hi
            have hk : k ∉ keysOf pre := fun hk => hs (h k hk)
            have hl := hsame k hi
            rw [lookup_append_first k v pre rest hk] at hl
            simp [cmpEntry, ← hl, cmpAny_refl o path v]
      simp [cmpEntries, h1, h2]

theorem needsUpdate_eq_not_plain (d c : GoMap) :
    RepositoryReconciler.needsUpdate d c =
      !cmpEqual noOptions (stripVolatile d.toValue) (stripVolatile c.toValue) := by
  have h0 := filterPath_false []
  simp only [RepositoryReconciler.needsUpdate, cmpEqual, h0, Bool.false_or]
  rw [cmpAny_strip [] d.toValue c.toValue]
  simp [noOptions]

/-- A nil map and an empty map are different values for `cmp.Equal`, so a
payload read from a `null` body always differs from a translated one. -/
theorem needsUpdate_nil_against_empty :
    RepositoryReconciler.needsUpdate (some []) none = true := by
  decide

/-! ## Lemmas relating `cmp.Equal` to deep equality -/

theorem cmpEntries_of_related (o : Options) (path : List Field) (fs : Config) :
    ∀ (suf pre : Config) (seen : List String), (∀ k ∈ keysOf pre, k ∈ seen) →
      (∀ k v, o.ignoreMapEntries k = false → lookup k (pre ++ suf) = some v →
        ∃ w, lookup k fs = some w ∧ cmpAny o path v w = true) →
      cmpEntries o path seen suf fs = true
  | [], _, _, _, _ => by simp [cmpEntries]
  | (k, v) :: rest, pre, seen, h, hsame => by
      have h2 := cmpEntries_of_related o path fs rest (pre ++ [(k, v)]) (k :: seen) (by
        intro k' hk
        simp only [keysOf, List.map_append, List.map_cons, List.map_nil, List.mem_append,
          List.mem_singleton] at hk
        rcases hk with hk | hk
        · exact List.mem_cons_of_mem _ (h k' hk)
        · simp [hk]) (by
        intro k' v' hi hk'
        exact hsame k' v' hi (by simpa [List.append_assoc] using hk'))
      have h1 : cmpEntry o path seen (k, v) fs = true := by
        by_cases hs : k ∈ seen
        · simp [cmpEntry, hs]
        · by_cases hi : o.ignoreMapEntries k = true
          · simp [cmpEntry, hi]
          · simp only [Bool.not_eq_true] at hi
            have hk : k ∉ keysOf pre := fun hk => hs (h k hk)
            obtain ⟨w, hw, hc⟩ := hsame k v hi (lookup_append_first k v pre rest hk)
            simp [cmpEntry, hw, hc]
      simp [cmpEntries, h1, h2]

theorem cmpElems_of_index (o : Options) (path : List Field) :
    ∀ (xs ys : List GoValue), xs.length = ys.length →
      (∀ (i : Nat) (x y : GoValue), xs[i]? = some x → ys[i]? = some y → cmpAny o path x y = true) →
      cmpElems o path xs ys = true
  | [], [], _, _ => by simp [cmpElems]
  | [], _ :: _, h, _ => by simp at h
  | _ :: _, [], h, _ => by simp at h
  | x :: xs, y :: ys, hl, h => by
      have h0 := h 0 x y (by simp) (by simp)
      have ih := cmpElems_of_index o path xs ys (by simpa using hl) (by
        intro i a b ha hb
        exact h (i + 1) a b (by simpa using ha) (by simpa using hb))
      simp [cmpElems, h0, ih]

theorem cmpFields_of_index (o : Options) (hfp : ∀ p, o.filterPath (Path.String p) = false)
    (path : List Field) :
    ∀ (fs gs : List (Field × GoValue)), fs.map Prod.fst = gs.map Prod.fst →
      (∀ (i : Nat) (p q : Field × GoValue), fs[i]? = some p → gs[i]? = some q → ∀ path', cmpAny o path' p.2 q.2 = true) →
      cmpFields o path fs gs = true
  | [], [], _, _ => by simp [cmpFields]
  | [], _ :: _, h, _ => by simp at h
  | _ :: _, [], h, _ => by simp at h
  | (f, v) :: fs, (g, u) :: gs, hn, h => by
      simp only [List.map_cons, List.cons.injEq] at hn
      obtain ⟨hfg, hrest⟩ := hn
      subst hfg
      have h0 := h 0 (f, v) (f, u) (by simp) (by simp) (path ++ [f])
      have ih := cmpFields_of_index o hfp path fs gs hrest (by
        intro i a b ha hb
        exact h (i + 1) a b (by simpa using ha) (by simpa using hb))
      simp only at h0
      simp [cmpFields, cmpField, h0, ih]

/-- Deeply equal values, up to the entries the options ignore, are equal for
`cmp.Equal` under those options, when no path filter fires. -/
theorem cmpAny_of_deepEqual (o : Options) (hfp : ∀ p, o.filterPath (Path.String p) = false)
    {x y : GoValue} (h : DeepEqual o.ignoreMapEntries x y) :
    ∀ path, cmpAny o path x y = true := by
  induction h with
  | same v =>
    intro path
    exact cmpAny_refl o path v
  | map es fs keys values ih =>
    intro path
    have h1 := cmpEntries_of_related o path fs es [] [] (by simp [keysOf]) (by
      intro k v hi hl
      simp only [List.nil_append] at hl
      cases hf : lookup k fs with
      | none =>
        rw [(keys k hi).mpr hf] at hl
        cases hl
      | some w => exact ⟨w, rfl, ih k v w hi hl hf path⟩)
    have h2 : fs.all (fun p => o.ignoreMapEntries p.1 || (keysOf es).contains p.1) = true := by
      rw [List.all_eq_true]
      intro p hp
      by_cases hi : o.ignoreMapEntries p.1 = true
      · simp [hi]
      · simp only [Bool.not_eq_true] at hi
        have hne : lookup p.1 fs ≠ none := lookup_of_mem p.1 p.2 fs hp
        have hmem : p.1 ∈ keysOf es := by
          by_contra hc
          exact hne ((keys p.1 hi).mp ((lookup_eq_none_iff p.1 es).mpr hc))
        simp [hmem]
    simp only [cmpAny, h1, h2]
    rfl
  | slice xs ys len elems ih =>
    intro path
    simp only [cmpAny]
    exact cmpElems_of_index o path xs ys len (fun i x y hx hy => ih i x y hx hy path)
  | struct t fs gs names values ih =>
    intro path
    simp only [cmpAny, beq_self_eq_true, Bool.true_and]
    exact cmpFields_of_index o hfp path fs gs names ih
  | ptr t fs gs names values ih =>
    intro path
    simp only [cmpAny, beq_self_eq_true, Bool.true_and]
    exact cmpFields_of_index o hfp path fs gs names ih

mutual
/-- Values equal for `cmp.Equal` under options whose path filter never fires are
deeply equal up to the entries the options ignore. -/
theorem deepEqual_of_cmpAny (o : Options) (hfp : ∀ p, o.filterPath (Path.String p) = false) :
    ∀ (x : GoValue) (path : List Field) (y : GoValue), cmpAny o path x y = true →
      DeepEqual o.ignoreMapEntries x y
  | .nil, _, y, h => by
      cases y <;> simp [cmpAny] at h
      exact DeepEqual.same _
  | .bool a, _, y, h => by
      cases y <;> simp [cmpAny] at h
      subst h
      exact DeepEqual.same _
  | .string a, _, y, h => by
      cases y <;> simp [cmpAny] at h
      subst h
      exact DeepEqual.same _
  | .int a, _, y, h => by
      cases y <;> simp [cmpAny] at h
      subst h
      exact DeepEqual.same _
  | .float64 a, _, y, h => by
      cases y <;> simp [cmpAny] at h
      subst h
      exact DeepEqual.same _
  | .nilIntPtr, _, y, h => by
      cases y <;> simp [cmpAny] at h
      exact DeepEqual.same _
  | .intPtr a, _, y, h => by
      cases y <;> simp [cmpAny] at h
      subst h
      exact DeepEqual.same _
  | .nilStrings, _, y, h => by
      cases y <;> simp [cmpAny] at h
      exact DeepEqual.same _
  | .strings a, _, y, h => by
      cases y <;> simp [cmpAny] at h
      subst h
      exact DeepEqual.same _
  | .struct t fs, path, y, h => by
      cases y <;> simp [cmpAny] at h
      rename_i u gs
      obtain ⟨htu, hf⟩ := h
      subst htu
      obtain ⟨hn, hv⟩ := deepEqual_of_cmpFields o hfp fs path gs hf
      exact DeepEqual.struct t fs gs hn hv
  | .nilPtr t, _, y, h => by
      cases y <;> simp [cmpAny] at h
      subst h
      exact DeepEqual.same _
  | .ptr t fs, path, y, h => by
      cases y <;> simp [cmpAny] at h
      rename_i u gs
      obtain ⟨htu, hf⟩ := h
      subst htu
      obtain ⟨hn, hv⟩ := deepEqual_of_cmpFields o hfp fs path gs hf
      exact DeepEqual.ptr t fs gs hn hv
  | .nilMap, _, y, h => by
      cases y <;> simp [cmpAny] at h
      exact DeepEqual.same _
  | .map es, path, y, h => by
      cases y <;>
        simp only [cmpAny, Bool.and_eq_true, List.all_eq_true, Bool.false_eq_true] at h
      rename_i fs
      obtain ⟨h1, h2⟩ := h
      have hent := deepEqual_of_cmpEntries o hfp es path [] fs h1
      refine DeepEqual.map es fs ?_ ?_
      · intro k hi
        constructor
        · intro he
          cases hf : lookup k fs with
          | none => rfl
          | some w =>
            exfalso
            have hk : k ∉ keysOf es := (lookup_eq_none_iff k es).mp he
            have hmem : ∃ p ∈ fs, p.1 = k := by
              by_contra hc
              have : k ∉ keysOf fs := by
                intro hm
                simp only [keysOf, List.mem_map] at hm
                exact hc hm
              rw [(lookup_eq_none_iff k fs).mpr this] at hf
              cases hf
            obtain ⟨p, hp, hpk⟩ := hmem
            have := h2 p hp
            rw [hpk] at this
            simp only [hi, Bool.false_or] at this
            exact hk (by simpa using this)
        · intro hf
          cases he : lookup k es with
          | none => rfl
          | some v =>
            exfalso
            obtain ⟨w, hw, _⟩ := hent k v (by simp) hi he
            rw [hf] at hw
            cases hw
      · intro k v w hi he hf
        obtain ⟨w2, hw, hd⟩ := hent k v (by simp) hi he
        rw [hf] at hw
        cases hw
        exact hd
  | .nilSlice, _, y, h => by
      cases y <;> simp [cmpAny] at h
      exact DeepEqual.same _
  | .slice xs, path, y, h => by
      cases y <;> simp only [cmpAny, Bool.false_eq_true] at h
      rename_i ys
      obtain ⟨hl, he⟩ := deepEqual_of_cmpElems o hfp xs path ys h
      exact DeepEqual.slice xs ys hl he
termination_by structural x => x
theorem deepEqual_of_cmpFields (o : Options)
    (hfp : ∀ p, o.filterPath (Path.String p) = false) :
    ∀ (fs : List (Field × GoValue)) (path : List Field) (gs : List (Field × GoValue)),
      cmpFields o path fs gs = true →
      fs.map Prod.fst = gs.map Prod.fst ∧
      ∀ (i : Nat) (p q : Field × GoValue), fs[i]? = some p → gs[i]? = some q →
        DeepEqual o.ignoreMapEntries p.2 q.2
  | [], _, gs, h => by
      cases gs with
      | nil => simp
      | cons q gs => simp [cmpFields] at h
  | p :: fs, path, gs, h => by
      cases gs with
      | nil => simp [cmpFields] at h
      | cons q gs =>
        simp only [cmpFields, Bool.and_eq_true] at h
        obtain ⟨h1, h2⟩ := h
        obtain ⟨hn, hd⟩ := deepEqual_of_cmpField o hfp p path q h1
        obtain ⟨hns, hds⟩ := deepEqual_of_cmpFields o hfp fs path gs h2
        refine ⟨by simp [hn, hns], ?_⟩
        intro i a b ha hb
        cases i with
        | zero =>
          simp only [List.getElem?_cons_zero, Option.some.injEq] at ha hb
          subst ha
          subst hb
          exact hd
        | succ j =>
          simp only [List.getElem?_cons_succ] at ha hb
          exact hds j a b ha hb
termination_by structural fs => fs
theorem deepEqual_of_cmpField (o : Options)
    (hfp : ∀ p, o.filterPath (Path.String p) = false) :
    ∀ (p : Field × GoValue) (path : List Field) (q : Field × GoValue),
      cmpField o path p q = true → p.1 = q.1 ∧ DeepEqual o.ignoreMapEntries p.2 q.2
  | (f, v), path, q, h => by
      simp only [cmpField, hfp, Bool.false_or, Bool.and_eq_true, beq_iff_eq] at h
      exact ⟨h.1, deepEqual_of_cmpAny o hfp v (path ++ [f]) q.2 h.2⟩
termination_by structural p => p
theorem deepEqual_of_cmpEntries (o : Options)
    (hfp : ∀ p, o.filterPath (Path.String p) = false) :
    ∀ (es : Config) (path : List Field) (seen : List String) (fs : Config),
      cmpEntries o path seen es fs = true →
      ∀ k v, k ∉ seen → o.ignoreMapEntries k = false → lookup k es = some v →
        ∃ w, lookup k fs = some w ∧ DeepEqual o.ignoreMapEntries v w
  | [], _, _, _, _ => by
      intro k v _ _ hl
      simp [lookup] at hl
  | p :: rest, path, seen, fs, h => by
      intro k v hs hi hl
      simp only [cmpEntries, Bool.and_eq_true] at h
      obtain ⟨h1, h2⟩ := h
      by_cases e : p.1 = k
      · have hv : p.2 = v := by
          obtain ⟨k0, v0⟩ := p
          simp only at e
          subst e
          simpa [lookup] using hl
        subst hv
        have := deepEqual_of_cmpEntry o hfp p path seen fs h1 (by rw [e]; exact hs)
          (by rw [e]; exact hi)
        rw [e] at this
        exact this
      · have hl2 : lookup k rest = some v := by
          obtain ⟨k0, v0⟩ := p
          simp only at e
          simpa [lookup, e] using hl
        exact deepEqual_of_cmpEntries o hfp rest path (p.1 :: seen) fs h2 k v (by
          intro hm
          rcases List.mem_cons.mp hm with hm | hm
          · exact e hm.symm
          · exact hs hm) hi hl2
termination_by structural es => es
theorem deepEqual_of_cmpEntry (o : Options)
    (hfp : ∀ p, o.filterPath (Path.String p) = false) :
    ∀ (p : String × GoValue) (path : List Field) (seen : List String) (fs : Config),
      cmpEntry o path seen p fs = true → p.1 ∉ seen → o.ignoreMapEntries p.1 = false →
        ∃ w, lookup p.1 fs = some w ∧ DeepEqual o.ignoreMapEntries p.2 w
  | (k, v), path, seen, fs, h => by
      intro hs hi
      simp only at hs hi
      have hs2 : seen.contains k = false := by simpa using hs
      simp only [cmpEntry, hs2, hi, Bool.false_or] at h
      cases hf : lookup k fs with
      | none => simp [hf] at h
      | some w =>
        rw [hf] at h
        exact ⟨w, rfl, deepEqual_of_cmpAny o hfp v path w h⟩
termination_by structural p => p
theorem deepEqual_of_cmpElems (o : Options)
    (hfp : ∀ p, o.filterPath (Path.String p) = false) :
    ∀ (xs : List GoValue) (path : List Field) (ys : List GoValue),
      cmpElems o path xs ys = true →
      xs.length = ys.length ∧
      ∀ (i : Nat) (x y : GoValue), xs[i]? = some x → ys[i]? = some y →
        DeepEqual o.ignoreMapEntries x y
  | [], _, ys, h => by
      cases ys with
      | nil => simp
      | cons y ys => simp [cmpElems] at h
  | x :: xs, path, ys, h => by
      cases ys with
      | nil => simp [cmpElems] at h
      | cons y ys =>
        simp only [cmpElems, Bool.and_eq_true] at h
        obtain ⟨h1, h2⟩ := h
        have hd := deepEqual_of_cmpAny o hfp x path y h1
        obtain ⟨hl, hds⟩ := deepEqual_of_cmpElems o hfp xs path ys h2
        refine ⟨by simp [hl], ?_⟩
        intro i a b ha hb
        cases i with
        | zero =>
          simp only [List.getElem?_cons_zero, Option.some.injEq] at ha hb
          subst ha
          subst hb
          exact hd
        | succ j =>
          simp only [List.getElem?_cons_succ] at ha hb
          exact hds j a b ha hb
termination_by structural xs => xs
end

/-- `cmp.Equal` under options whose path filter never fires decides deep
equality up to the entries the options ignore. -/
theorem cmpEqual_iff_deepEqual (o : Options) (hfp : ∀ p, o.filterPath (Path.String p) = false)
    (x y : GoValue) : cmpEqual o x y = true ↔ DeepEqual o.ignoreMapEntries x y := by
  simp only [cmpEqual, hfp, Bool.false_or]
  exact ⟨deepEqual_of_cmpAny o hfp x [] y, fun h => cmpAny_of_deepEqual o hfp h []⟩

theorem repositoryNeedsUpdate_iff (d c : GoMap) :
    RepositoryReconciler.needsUpdate d c = false ↔
      DeepEqual volatileKey d.toValue c.toValue := by
  have h := cmpEqual_iff_deepEqual repositoryIgnoreFields filterPath_false d.toValue c.toValue
  have hk : repositoryIgnoreFields.ignoreMapEntries = volatileKey := rfl
  rw [hk] at h
  rw [← h]
  simp [RepositoryReconciler.needsUpdate]

theorem plainEqual_iff_deepEqual (x y : GoValue) :
    cmpEqual noOptions x y = true ↔ DeepEqual noKey x y :=
  cmpEqual_iff_deepEqual noOptions (fun _ => rfl) x y

theorem lookup_some_mem (k : String) (v : GoValue) (es : Config) (h : lookup k es = some v) :
    ∃ p ∈ es, p.1 = k := by
  have hk : k ∈ keysOf es := by
    by_contra hc
    rw [(lookup_eq_none_iff k es).mpr hc] at h
    cases h
  simpa [keysOf] using hk

/-- Reading two deeply equal maps under a key that is not ignored: absent from
both, or present in both with deeply equal values. -/
theorem deepEqual_map_lookup (ignored : String → Bool) (es fs : Config)
    (h : DeepEqual ignored (GoValue.map es) (GoValue.map fs)) (k : String)
    (hi : ignored k = false) :
    (lookup k es = none ∧ lookup k fs = none) ∨
    ∃ v w, lookup k es = some v ∧ lookup k fs = some w ∧ DeepEqual ignored v w := by
  cases h with
  | same =>
    cases hl : lookup k es with
    | none => exact Or.inl ⟨rfl, rfl⟩
    | some v => exact Or.inr ⟨v, v, rfl, rfl, DeepEqual.same v⟩
  | map _ _ keys values =>
    cases he : lookup k es with
    | none => exact Or.inl ⟨rfl, (keys k hi).mp he⟩
    | some v =>
      cases hf : lookup k fs with
      | none =>
        rw [(keys k hi).mpr hf] at he
        cases he
      | some w => exact Or.inr ⟨v, w, rfl, rfl, values k v w hi he hf⟩

/-- Two maps are deeply equal when every entry of the first under a key that is
not ignored has a deeply equal counterpart in the second, and every such key of
the second is a key of the first. -/
theorem deepEqual_map_of_entries (ignored : String → Bool) (es fs : Config)
    (h1 : ∀ p ∈ es, ignored p.1 = false →
      ∃ w, lookup p.1 fs = some w ∧ ∀ v, lookup p.1 es = some v → DeepEqual ignored v w)
    (h2 : ∀ p ∈ fs, ignored p.1 = false → lookup p.1 es ≠ none) :
    DeepEqual ignored (GoValue.map es) (GoValue.map fs) := by
  refine DeepEqual.map es fs ?_ ?_
  · intro k hi
    constructor
    · intro he
      cases hf : lookup k fs with
      | none => rfl
      | some w =>
        obtain ⟨p, hp, hpk⟩ := lookup_some_mem k w fs hf
        have := h2 p hp (by rw [hpk]; exact hi)
        rw [hpk] at this
        exact absurd he this
    · intro hf
      cases he : lookup k es with
      | none => rfl
      | some v =>
        obtain ⟨p, hp, hpk⟩ := lookup_some_mem k v es he
        obtain ⟨w, hw, _⟩ := h1 p hp (by rw [hpk]; exact hi)
        rw [hpk, hf] at hw
        cases hw
  · intro k v w hi he hf
    obtain ⟨p, hp, hpk⟩ := lookup_some_mem k v es he
    obtain ⟨w2, hw, hd⟩ := h1 p hp (by rw [hpk]; exact hi)
    rw [hpk] at hw hd
    rw [hf] at hw
    cases hw
    exact hd v he

theorem deepEqual_string (ignored : String → Bool) (a : String) (y : GoValue)
    (h : DeepEqual ignored (GoValue.string a) y) : y = GoValue.string a := by
  cases h
  rfl

theorem deepEqual_bool (ignored : String → Bool) (a : Bool) (y : GoValue)
    (h : DeepEqual ignored (GoValue.bool a) y) : y = GoValue.bool a := by
  cases h
  rfl

/-- Reading two deeply equal slices at an index. -/
theorem deepEqual_slice_index (ignored : String → Bool) (xs ys : List GoValue)
    (h : DeepEqual ignored (GoValue.slice xs) (GoValue.slice ys)) (i : Nat) (x y : GoValue)
    (hx : xs[i]? = some x) (hy : ys[i]? = some y) : DeepEqual ignored x y := by
  cases h with
  | same =>
    rw [hx] at hy
    cases hy
    exact DeepEqual.same _
  | slice _ _ _ elems => exact elems i x y hx hy

/-! ## Claims -/

/-- C1, evaluated where the code departs from it: for the scenario repository
`r1` (maven-hosted, blob store `default`) the translation succeeds, the remote
holds exactly the decoded JSON encoding of the translated payload (with or
without an added `lastUpdated`), and still `needsUpdate` is true, because the
translated `storage` is a Go struct and the decoded one a map; the second pass
over a stable remote therefore sends a PUT. -/
theorem C1_scenario_second_pass_sends_update :
    BuildRepositoryConfig scenarioSpec = Except.ok scenarioDesired ∧
    decodeEncoded (some scenarioDesired) = some (scenarioCurrent.take 4) ∧
    RepositoryReconciler.needsUpdate (some scenarioDesired)
      (decodeEncoded (some scenarioDesired)) = true ∧
    RepositoryReconciler.needsUpdate (some scenarioDesired) (some scenarioCurrent) = true ∧
    remoteCalls
        (RepositoryReconciler.syncRepository scenarioWorld readyState scenarioRecord).state.trace =
      [(Method.GET, "/service/rest/v1/repositories/r1"),
       (Method.PUT, "/service/rest/v1/repositories/maven/hosted/r1")] := by
  refine ⟨rfl, rfl, by decide, by decide, by decide⟩

/-- C2: two payloads that have the same entries except for the value or presence
of the keys lastUpdated, taskId, url and contentDisposition, in the payload
itself or in any map nested in it, need no update. -/
theorem C2_needsUpdate_ignores_volatile_keys (d c : GoMap)
    (h : DeepEqual volatileKey d.toValue c.toValue) :
    RepositoryReconciler.needsUpdate d c = false :=
  (repositoryNeedsUpdate_iff d c).mpr h

/-- C2 at a concrete pair: the remote's `url` differs, it adds `lastUpdated`,
and its nested `maven` block holds another `contentDisposition` and lists its
entries in another order. -/
theorem C2_needsUpdate_ignores_volatile_keys_witness :
    DeepEqual volatileKey
        (GoMap.toValue (some
          [("name", GoValue.string "r1"), ("url", GoValue.string "a"),
           ("maven", GoValue.map
             [("layoutPolicy", GoValue.string "STRICT"),
              ("contentDisposition", GoValue.string "INLINE")])]))
        (GoMap.toValue (some
          [("name", GoValue.string "r1"), ("lastUpdated", GoValue.string "t"),
           ("url", GoValue.string "b"),
           ("maven", GoValue.map
             [("contentDisposition", GoValue.string "ATTACHMENT"),
              ("layoutPolicy", GoValue.string "STRICT")])])) ∧
      RepositoryReconciler.needsUpdate
        (some
          [("name", GoValue.string "r1"), ("url", GoValue.string "a"),
           ("maven", GoValue.map
             [("layoutPolicy", GoValue.string "STRICT"),
              ("contentDisposition", GoValue.string "INLINE")])])
        (some
          [("name", GoValue.string "r1"), ("lastUpdated", GoValue.string "t"),
           ("url", GoValue.string "b"),
           ("maven", GoValue.map
             [("contentDisposition", GoValue.string "ATTACHMENT"),
              ("layoutPolicy", GoValue.string "STRICT")])]) = false :=
  have hmaven : DeepEqual volatileKey
      (GoValue.map
        [("layoutPolicy", GoValue.string "STRICT"),
         ("contentDisposition", GoValue.string "INLINE")])
      (GoValue.map
        [("contentDisposition", GoValue.string "ATTACHMENT"),
         ("layoutPolicy", GoValue.string "STRICT")]) := by
    apply deepEqual_map_of_entries
    · intro p hp hi
      simp only [List.mem_cons, List.mem_singleton, List.not_mem_nil, or_false] at hp
      rcases hp with rfl | rfl
      · refine ⟨GoValue.string "STRICT", rfl, ?_⟩
        intro v hv
        cases hv
        exact DeepEqual.same _
      · exact absurd hi (by decide)
    · intro p hp hi
      simp only [List.mem_cons, List.mem_singleton, List.not_mem_nil, or_false] at hp
      rcases hp with rfl | rfl
      · exact absurd hi (by decide)
      · simp [lookup]
  have hw : DeepEqual volatileKey
      (GoMap.toValue (some
        [("name", GoValue.string "r1"), ("url", GoValue.string "a"),
         ("maven", GoValue.map
           [("layoutPolicy", GoValue.string "STRICT"),
            ("contentDisposition", GoValue.string "INLINE")])]))
      (GoMap.toValue (some
        [("name", GoValue.string "r1"), ("lastUpdated", GoValue.string "t"),
         ("url", GoValue.string "b"),
         ("maven", GoValue.map
           [("contentDisposition", GoValue.string "ATTACHMENT"),
            ("layoutPolicy", GoValue.string "STRICT")])])) := by
    simp only [GoMap.toValue]
    apply deepEqual_map_of_entries
    · intro p hp hi
      simp only [List.mem_cons, List.mem_singleton, List.not_mem_nil, or_false] at hp
      rcases hp with rfl | rfl | rfl
      · refine ⟨GoValue.string "r1", rfl, ?_⟩
        intro v hv
        cases hv
        exact DeepEqual.same _
      · exact absurd hi (by decide)
      · refine ⟨_, rfl, ?_⟩
        intro v hv
        cases hv
        exact hmaven
    · intro p hp hi
      simp only [List.mem_cons, List.mem_singleton, List.not_mem_nil, or_false] at hp
      rcases hp with rfl | rfl | rfl | rfl
      · simp [lookup]
      · exact absurd hi (by decide)
      · exact absurd hi (by decide)
      · simp [lookup]
  ⟨hw, C2_needsUpdate_ignores_volatile_keys _ _ hw⟩

/-- C3: when two payloads are not deeply equal once the ignored keys
(lastUpdated, taskId, url, contentDisposition) are removed from every map in
them, because a key was added or removed, a scalar value changed, or the
elements of a list changed or changed places, an update is needed. -/
theorem C3_needsUpdate_detects_difference (d c : GoMap)
    (h : ¬ DeepEqual noKey (stripVolatile d.toValue) (stripVolatile c.toValue)) :
    RepositoryReconciler.needsUpdate d c = true := by
  rw [needsUpdate_eq_not_plain]
  cases hc : cmpEqual noOptions (stripVolatile d.toValue) (stripVolatile c.toValue)
  · rfl
  · exact absurd ((plainEqual_iff_deepEqual _ _).mp hc) h

/-- C3 at three concrete pairs: the scalar `online` changed next to a differing
`url`; a key was added; the members of a list changed places. -/
theorem C3_needsUpdate_detects_difference_witness :
    RepositoryReconciler.needsUpdate
      (some [("online", GoValue.bool true), ("url", GoValue.string "u")])
      (some [("online", GoValue.bool false), ("url", GoValue.string "v")]) = true ∧
    RepositoryReconciler.needsUpdate
      (some [("online", GoValue.bool true)])
      (some [("online", GoValue.bool true), ("format", GoValue.string "maven2")]) = true ∧
    RepositoryReconciler.needsUpdate
      (some [("members", GoValue.slice [GoValue.string "a", GoValue.string "b"])])
      (some [("members", GoValue.slice [GoValue.string "b", GoValue.string "a"])]) = true := by
  refine ⟨C3_needsUpdate_detects_difference _ _ ?_, C3_needsUpdate_detects_difference _ _ ?_,
    C3_needsUpdate_detects_difference _ _ ?_⟩
  · intro h
    have e1 : stripVolatile (GoMap.toValue
        (some [("online", GoValue.bool true), ("url", GoValue.string "u")])) =
        GoValue.map [("online", GoValue.bool true)] := rfl
    have e2 : stripVolatile (GoMap.toValue
        (some [("online", GoValue.bool false), ("url", GoValue.string "v")])) =
        GoValue.map [("online", GoValue.bool false)] := rfl
    rw [e1, e2] at h
    rcases deepEqual_map_lookup noKey _ _ h "online" rfl with ⟨h1, _⟩ | ⟨v, w, h1, h2, h3⟩
    · cases h1
    · cases h1
      cases h2
      have h4 := GoValue.bool.inj (deepEqual_bool noKey _ _ h3)
      exact absurd h4 (by decide)
  · intro h
    have e1 : stripVolatile (GoMap.toValue (some [("online", GoValue.bool true)])) =
        GoValue.map [("online", GoValue.bool true)] := rfl
    have e2 : stripVolatile (GoMap.toValue
        (some [("online", GoValue.bool true), ("format", GoValue.string "maven2")])) =
        GoValue.map [("online", GoValue.bool true), ("format", GoValue.string "maven2")] := rfl
    rw [e1, e2] at h
    rcases deepEqual_map_lookup noKey _ _ h "format" rfl with ⟨_, h2⟩ | ⟨v, w, h1, _, _⟩
    · cases h2
    · cases h1
  · intro h
    have e1 : stripVolatile (GoMap.toValue
        (some [("members", GoValue.slice [GoValue.string "a", GoValue.string "b"])])) =
        GoValue.map [("members", GoValue.slice [GoValue.string "a", GoValue.string "b"])] :=
      rfl
    have e2 : stripVolatile (GoMap.toValue
        (some [("members", GoValue.slice [GoValue.string "b", GoValue.string "a"])])) =
        GoValue.map [("members", GoValue.slice [GoValue.string "b", GoValue.string "a"])] :=
      rfl
    rw [e1, e2] at h
    rcases deepEqual_map_lookup noKey _ _ h "members" rfl with ⟨h1, _⟩ | ⟨v, w, h1, h2, h3⟩
    · cases h1
    · cases h1
      cases h2
      have h0 := deepEqual_slice_index noKey _ _ h3 0 (GoValue.string "a") (GoValue.string "b")
        rfl rfl
      have h4 := GoValue.string.inj (deepEqual_string noKey _ _ h0)
      exact absurd h4 (by decide)

/-- C4, evaluated where the code departs from it: two map payloads that differ
only in the checksum entry of their attributes block do need an update; the
path filter on `Attributes.checksum` sees struct fields only, and no path of a
payload prints as either of its two strings. -/
theorem C4_checksum_difference_needs_update :
    RepositoryReconciler.needsUpdate (some checksumDesired) (some checksumCurrent) = true ∧
    RepositoryReconciler.needsUpdate
      (some [("Attributes", GoValue.map [("checksum", GoValue.string "a")])])
      (some [("Attributes", GoValue.map [("checksum", GoValue.string "b")])]) = true ∧
    ∀ p : List Field, repositoryIgnoreFields.filterPath (Path.String p) = false :=
  ⟨by decide, by decide, filterPath_false⟩

/-- C5: `BuildPrivilegeConfig` succeeds exactly when the type is one of the six
supported ones and the sub-block matching it is present; a supported type whose
sub-block is absent gives that type's configuration-required error, any other
type the unsupported-privilege-type error, and a failure carries no payload. -/
theorem C5_privilege_translation_succeeds_iff (spec : PrivilegeSpec) :
    ((∃ c, BuildPrivilegeConfig spec = Except.ok c) ↔
      (spec.Type_ ∈ supportedPrivilegeTypes ∧ matchingBlockPresent spec = true)) ∧
    (spec.Type_ ∈ supportedPrivilegeTypes → matchingBlockPresent spec = false →
      ∃ e, configRequiredError spec.Type_ = some e ∧
        BuildPrivilegeConfig spec = Except.error e.toError) ∧
    (spec.Type_ ∉ supportedPrivilegeTypes →
      BuildPrivilegeConfig spec = Except.error
        { msg := Sentinel.ErrUnsupportedPrivilegeType.text ++ ": " ++ spec.Type_
          sentinel := some Sentinel.ErrUnsupportedPrivilegeType
          reason := none }) := by
  obtain ⟨name, ty, desc, wc, app, rv, ra, rcs, sc⟩ := spec
  simp only [supportedPrivilegeTypes, List.mem_cons, List.mem_singleton, List.not_mem_nil,
    or_false, matchingBlockPresent, configRequiredError, BuildPrivilegeConfig]
  by_cases h1 : ty = "wildcard"
  · subst h1
    cases wc <;> simp
  by_cases h2 : ty = "application"
  · subst h2
    cases app <;> simp
  by_cases h3 : ty = "repository-view"
  · subst h3
    cases rv <;> simp
  by_cases h4 : ty = "repository-admin"
  · subst h4
    cases ra <;> simp
  by_cases h5 : ty = "repository-content-selector"
  · subst h5
    cases rcs <;> simp
  by_cases h6 : ty = "script"
  · subst h6
    cases sc <;> simp
  simp [h1, h2, h3, h4, h5, h6]

/-- C5 at concrete specs: type wildcard with its block, type wildcard with a
script block only, and an unknown type. -/
theorem C5_privilege_translation_succeeds_iff_witness :
    (∃ c, BuildPrivilegeConfig
      { barePrivilege "p" "wildcard" with Wildcard := some { Pattern := "nexus:*" } } =
        Except.ok c) ∧
    BuildPrivilegeConfig
      { barePrivilege "p" "wildcard" with Script := some { ScriptName := "s" } } =
        Except.error Sentinel.ErrWildcardConfigRequired.toError ∧
    BuildPrivilegeConfig (barePrivilege "p" "ldap") = Except.error
      { msg := Sentinel.ErrUnsupportedPrivilegeType.text ++ ": " ++ "ldap"
        sentinel := some Sentinel.ErrUnsupportedPrivilegeType
        reason := none } := by
  refine ⟨?_, ?_, ?_⟩
  · exact (C5_privilege_translation_succeeds_iff
      { barePrivilege "p" "wildcard" with Wildcard := some { Pattern := "nexus:*" } }).1.mpr
      ⟨by decide, by decide⟩
  · obtain ⟨e, he, hb⟩ := (C5_privilege_translation_succeeds_iff
      { barePrivilege "p" "wildcard" with Script := some { ScriptName := "s" } }).2.1
      (by decide) (by decide)
    have he' : e = Sentinel.ErrWildcardConfigRequired := by
      have h2 : configRequiredError "wildcard" = some Sentinel.ErrWildcardConfigRequired := by
        decide
      have h3 : configRequiredError
          ({ barePrivilege "p" "wildcard" with Script := some { ScriptName := "s" } } :
            PrivilegeSpec).Type_ = configRequiredError "wildcard" := rfl
      rw [h3, h2] at he
      exact (Option.some.inj he).symm
    rw [← he']
    exact hb
  · exact (C5_privilege_translation_succeeds_iff (barePrivilege "p" "ldap")).2.2 (by decide)

/-- C6: a payload built by `BuildPrivilegeConfig` has exactly the keys name,
description, type and those of the selected type, each holding the
corresponding field of the spec (the actions as the spec's string list);
nothing of another sub-block is in it. -/
theorem C6_privilege_payload_keys_and_values (spec : PrivilegeSpec) (c : Config)
    (h : BuildPrivilegeConfig spec = Except.ok c) :
    keysOf c = ["name", "description", "type"] ++ selectedKeys spec.Type_ ∧
    lookup "name" c = some (GoValue.string spec.Name) ∧
    lookup "description" c = some (GoValue.string spec.Description) ∧
    lookup "type" c = some (GoValue.string spec.Type_) ∧
    (spec.Type_ = "wildcard" → ∃ w, spec.Wildcard = some w ∧
      lookup "pattern" c = some (GoValue.string w.Pattern)) ∧
    (spec.Type_ = "application" → ∃ a, spec.Application = some a ∧
      lookup "domain" c = some (GoValue.string a.Domain) ∧
      lookup "actions" c = some (stringsValue a.Actions)) ∧
    (spec.Type_ = "repository-view" → ∃ v, spec.RepositoryView = some v ∧
      lookup "repository" c = some (GoValue.string v.Repository) ∧
      lookup "actions" c = some (stringsValue v.Actions)) ∧
    (spec.Type_ = "repository-admin" → ∃ a, spec.RepositoryAdmin = some a ∧
      lookup "repository" c = some (GoValue.string a.Repository)) ∧
    (spec.Type_ = "repository-content-selector" → ∃ s, spec.RepositoryContentSelector = some s ∧
      lookup "repository" c = some (GoValue.string s.Repository) ∧
      lookup "contentSelector" c = some (GoValue.string s.ContentSelector) ∧
      lookup "format" c = some (GoValue.string s.Format) ∧
      lookup "actions" c = some (stringsValue s.Actions)) ∧
    (spec.Type_ = "script" → ∃ s, spec.Script = some s ∧
      lookup "scriptName" c = some (GoValue.string s.ScriptName)) := by
  obtain ⟨name, ty, desc, wc, app, rv, ra, rcs, sc⟩ := spec
  simp only [BuildPrivilegeConfig] at h
  by_cases h1 : ty = "wildcard"
  · subst h1
    cases wc with
    | none => simp at h
    | some w =>
      simp only [if_true, Except.ok.injEq] at h
      subst h
      simp [setKey, keysOf, lookup, selectedKeys]
  by_cases h2 : ty = "application"
  · subst h2
    cases app with
    | none => simp at h
    | some a =>
      simp only [h1, if_false, if_true, Except.ok.injEq] at h
      subst h
      simp [setKey, keysOf, lookup, selectedKeys]
  by_cases h3 : ty = "repository-view"
  · subst h3
    cases rv with
    | none => simp at h
    | some a =>
      simp only [h1, h2, if_false, if_true, Except.ok.injEq] at h
      subst h
      simp [setKey, keysOf, lookup, selectedKeys]
  by_cases h4 : ty = "repository-admin"
  · subst h4
    cases ra with
    | none => simp at h
    | some a =>
      simp only [h1, h2, h3, if_false, if_true, Except.ok.injEq] at h
      subst h
      simp [setKey, keysOf, lookup, selectedKeys]
  by_cases h5 : ty = "repository-content-selector"
  · subst h5
    cases rcs with
    | none => simp at h
    | some a =>
      simp only [h1, h2, h3, h4, if_false, if_true, Except.ok.injEq] at h
      subst h
      simp [setKey, keysOf, lookup, selectedKeys]
  by_cases h6 : ty = "script"
  · subst h6
    cases sc with
    | none => simp at h
    | some a =>
      simp only [h1, h2, h3, h4, h5, if_false, if_true, Except.ok.injEq] at h
      subst h
      simp [setKey, keysOf, lookup, selectedKeys]
  simp [h1, h2, h3, h4, h5, h6] at h

/-- C6 at a concrete spec: type application with its block and a stray
wildcard block, whose pattern stays out of the payload. -/
theorem C6_privilege_payload_keys_and_values_witness :
    BuildPrivilegeConfig
        { barePrivilege "p" "application" with
            Application := some { Domain := "blobstores", Actions := some ["READ"] }
            Wildcard := some { Pattern := "nexus:*" } } =
      Except.ok
        [("name", GoValue.string "p"), ("description", GoValue.string ""),
         ("type", GoValue.string "application"), ("domain", GoValue.string "blobstores"),
         ("actions", GoValue.strings ["READ"])] ∧
    keysOf
        [("name", GoValue.string "p"), ("description", GoValue.string ""),
         ("type", GoValue.string "application"), ("domain", GoValue.string "blobstores"),
         ("actions", GoValue.strings ["READ"])] =
      ["name", "description", "type"] ++ selectedKeys "application" :=
  ⟨rfl, (C6_privilege_payload_keys_and_values
      { barePrivilege "p" "application" with
          Application := some { Domain := "blobstores", Actions := some ["READ"] }
          Wildcard := some { Pattern := "nexus:*" } } _ rfl).1⟩

/-- C7, evaluated where the code departs from it: with the required sub-block
absent, docker-hosted, docker-proxy, raw-proxy and raw-group end in a nil
dereference panic, and the other proxy and group types return a payload
without the block; the only error `BuildRepositoryConfig` ever returns is the
unsupported-type one, for a type outside the twelve. -/
theorem C7_missing_block_is_no_validation_error :
    BuildRepositoryConfig (bareRepository "docker-hosted") =
      Except.error Failure.nilDereference ∧
    BuildRepositoryConfig (bareRepository "docker-proxy") =
      Except.error Failure.nilDereference ∧
    BuildRepositoryConfig (bareRepository "raw-proxy") = Except.error Failure.nilDereference ∧
    BuildRepositoryConfig (bareRepository "raw-group") = Except.error Failure.nilDereference ∧
    (∃ c, BuildRepositoryConfig (bareRepository "maven-proxy") = Except.ok c ∧
      lookup "proxy" c = none) ∧
    (∃ c, BuildRepositoryConfig (bareRepository "npm-proxy") = Except.ok c ∧
      lookup "proxy" c = none) ∧
    (∃ c, BuildRepositoryConfig (bareRepository "maven-group") = Except.ok c ∧
      lookup "group" c = none) ∧
    (∃ c, BuildRepositoryConfig (bareRepository "docker-group") = Except.ok c ∧
      lookup "group" c = some (GoValue.nilPtr StructType.GroupConfig)) ∧
    (∃ c, BuildRepositoryConfig (bareRepository "npm-group") = Except.ok c ∧
      lookup "group" c = some (GoValue.nilPtr StructType.GroupConfig)) ∧
    ∀ (spec : RepositorySpec) (e : GoError),
      BuildRepositoryConfig spec = Except.error (Failure.error e) →
        spec.Type_ ∉ supportedRepositoryTypes ∧
          e.sentinel = some Sentinel.ErrUnsupportedRepoType := by
  refine ⟨rfl, rfl, rfl, rfl, ⟨_, rfl, rfl⟩, ⟨_, rfl, rfl⟩, ⟨_, rfl, rfl⟩, ⟨_, rfl, rfl⟩,
    ⟨_, rfl, rfl⟩, ?_⟩
  intro spec e h
  simp only [supportedRepositoryTypes, List.mem_cons, List.mem_singleton, List.not_mem_nil,
    or_false, not_or]
  unfold BuildRepositoryConfig at h
  by_cases h1 : spec.Type_ = "maven-proxy"
  · rw [if_pos h1] at h
    cases h
  rw [if_neg h1] at h
  by_cases h2 : spec.Type_ = "maven-hosted"
  · rw [if_pos h2] at h
    cases h
  rw [if_neg h2] at h
  by_cases h3 : spec.Type_ = "maven-group"
  · rw [if_pos h3] at h
    cases hm : spec.Maven <;> rw [hm] at h <;> cases h
  rw [if_neg h3] at h
  by_cases h4 : spec.Type_ = "npm-hosted"
  · rw [if_pos h4] at h
    cases h
  rw [if_neg h4] at h
  by_cases h5 : spec.Type_ = "npm-proxy"
  · rw [if_pos h5] at h
    cases h
  rw [if_neg h5] at h
  by_cases h6 : spec.Type_ = "npm-group"
  · rw [if_pos h6] at h
    cases hm : spec.Npm <;> rw [hm] at h <;> cases h
  rw [if_neg h6] at h
  by_cases h7 : spec.Type_ = "docker-proxy"
  · rw [if_pos h7] at h
    cases hd : spec.Docker <;> cases hp : spec.Proxy <;> cases hh : spec.HttpClient <;>
      rw [hd, hp] at h <;> simp only [hh, deref, bind, Except.bind] at h <;> cases h
  rw [if_neg h7] at h
  by_cases h8 : spec.Type_ = "docker-group"
  · rw [if_pos h8] at h
    cases h
  rw [if_neg h8] at h
  by_cases h9 : spec.Type_ = "docker-hosted"
  · rw [if_pos h9] at h
    cases hd : spec.Docker <;> rw [hd] at h <;> simp only [deref, bind, Except.bind] at h <;>
      cases h
  rw [if_neg h9] at h
  by_cases h10 : spec.Type_ = "raw-hosted"
  · rw [if_pos h10] at h
    cases h
  rw [if_neg h10] at h
  by_cases h11 : spec.Type_ = "raw-proxy"
  · rw [if_pos h11] at h
    cases hp : spec.Proxy <;> cases hh : spec.HttpClient <;>
      rw [hp] at h <;> simp only [hh, deref, bind, Except.bind] at h <;> cases h
  rw [if_neg h11] at h
  by_cases h12 : spec.Type_ = "raw-group"
  · rw [if_pos h12] at h
    cases hg : spec.Group <;> rw [hg] at h <;> simp only [deref, bind, Except.bind] at h <;>
      cases h
  rw [if_neg h12] at h
  simp only [Except.error.injEq, Failure.error.injEq] at h
  subst h
  exact ⟨⟨h2, h1, h3, h4, h5, h6, h9, h7, h8, h10, h11, h12⟩, rfl⟩

/-! ## Lemmas on the deletion path -/

theorem initClient_trace (w : World) (s : State) : (initClient w s).trace = s.trace := by
  unfold initClient
  split <;> rfl

theorem GetClient_trace (w : World) (s : State) : (GetClient w s).2.trace = s.trace := by
  unfold GetClient
  cases h : s.initError with
  | some e => rfl
  | none =>
    by_cases hc : s.clientInstance = true
    · simp [hc]
    · simp [hc, initClient_trace]

theorem containsString_removeString (l : List String) (x : String) :
    containsString (removeString l x) x = false := by
  induction l with
  | nil => simp [removeString, containsString]
  | cons a l ih =>
    by_cases h : a = x
    · simp [removeString, h, ih]
    · simp [removeString, containsString, h, ih]

theorem DeleteRepository_trace (w : World) (s : State) (name : String) :
    (DeleteRepository w s name).2.trace = s.trace ++ [Event.http (deleteRepositoryRequest name)] := by
  unfold DeleteRepository send
  simp only [deleteRepositoryRequest]
  split <;> [rfl; (split <;> [rfl; (split <;> rfl)])]

theorem DeletePrivilege_trace (w : World) (s : State) (name : String) :
    (DeletePrivilege w s name).2.trace = s.trace ++ [Event.http (deletePrivilegeRequest name)] := by
  unfold DeletePrivilege send
  simp only [deletePrivilegeRequest]
  split <;> [rfl; (split <;> rfl)]

theorem DeleteRole_trace (w : World) (s : State) (roleID : String) :
    (DeleteRole w s roleID).2.trace = s.trace ++ [Event.http (deleteRoleRequest roleID)] := by
  unfold DeleteRole send
  simp only [deleteRoleRequest]
  split <;> [rfl; (split <;> [rfl; (split <;> rfl)])]

theorem DeleteContentSelector_trace (w : World) (s : State) (name : String) :
    (DeleteContentSelector w s name).2.trace =
      s.trace ++ [Event.http (deleteContentSelectorRequest name)] := by
  unfold DeleteContentSelector send
  simp only [deleteContentSelectorRequest]
  split <;> [rfl; (split <;> [rfl; (split <;> rfl)])]

theorem DeleteRepository_not_found (w : World) (s : State) (name : String)
    (he : (w.roundTrip s.trace (deleteRepositoryRequest name)).err = none)
    (h404 : (w.roundTrip s.trace (deleteRepositoryRequest name)).StatusCode = 404) :
    (DeleteRepository w s name).1 = some Sentinel.ErrRepositoryNotFound.toError := by
  simp only [deleteRepositoryRequest] at he h404
  simp [DeleteRepository, send, he, h404]

theorem DeletePrivilege_not_found (w : World) (s : State) (name : String)
    (h404 : (w.roundTrip s.trace (deletePrivilegeRequest name)).StatusCode = 404) :
    (DeletePrivilege w s name).1 = some Sentinel.ErrPrivilegeNotFound.toError := by
  simp only [deletePrivilegeRequest] at h404
  simp [DeletePrivilege, send, h404]

theorem DeleteRole_not_found (w : World) (s : State) (roleID : String)
    (he : (w.roundTrip s.trace (deleteRoleRequest roleID)).err = none)
    (h404 : (w.roundTrip s.trace (deleteRoleRequest roleID)).StatusCode = 404) :
    (DeleteRole w s roleID).1 = some Sentinel.ErrRoleNotFound.toError := by
  simp only [deleteRoleRequest] at he h404
  simp [DeleteRole, send, he, h404]

theorem DeleteContentSelector_not_found (w : World) (s : State) (name : String)
    (he : (w.roundTrip s.trace (deleteContentSelectorRequest name)).err = none)
    (h404 : (w.roundTrip s.trace (deleteContentSelectorRequest name)).StatusCode = 404) :
    (DeleteContentSelector w s name).1 = some Sentinel.ErrContentSelectorNotFound.toError := by
  simp only [deleteContentSelectorRequest] at he h404
  simp [DeleteContentSelector, send, he, h404]

/-- The three ways `finalizeRole` can run. -/
theorem finalizeRole_cases (w : World) (s : State) (role : RoleCR) :
    (∃ e, (GetClient w s).1 = some e ∧
      (RoleReconciler.finalizeRole w s role).record = role ∧
      (RoleReconciler.finalizeRole w s role).state.trace = s.trace ∧
      (RoleReconciler.finalizeRole w s role).ending =
        Ending.returned Result.empty (some (e.wrap "ошибка подключения к Nexus"))) ∨
    ((GetClient w s).1 = none ∧
      ∃ e, (DeleteRole w (GetClient w s).2 role.Spec.RoleID).1 = some e ∧
      e.is Sentinel.ErrRoleNotFound = false ∧
      (RoleReconciler.finalizeRole w s role).record = role ∧
      (RoleReconciler.finalizeRole w s role).state.trace =
        s.trace ++ [Event.http (deleteRoleRequest role.Spec.RoleID)] ∧
      (RoleReconciler.finalizeRole w s role).ending =
        Ending.returned Result.empty (some (e.wrap "ошибка удаления роли из Nexus"))) ∨
    ((GetClient w s).1 = none ∧
      deletedOrAbsent (DeleteRole w (GetClient w s).2 role.Spec.RoleID).1
        Sentinel.ErrRoleNotFound ∧
      (RoleReconciler.finalizeRole w s role).record =
        { role with ObjectMeta :=
            { role.ObjectMeta with Finalizers := withoutFinalizer role.ObjectMeta } } ∧
      (RoleReconciler.finalizeRole w s role).state.trace =
        s.trace ++ [Event.http (deleteRoleRequest role.Spec.RoleID),
                    Event.update (withoutFinalizer role.ObjectMeta)] ∧
      (RoleReconciler.finalizeRole w s role).ending =
        Ending.returned Result.empty
          ((w.update (s.trace ++ [Event.http (deleteRoleRequest role.Spec.RoleID)])).map
            (GoError.wrap "ошибка удаления финализатора"))) := by
  have ht := GetClient_trace w s
  have hd := DeleteRole_trace w (GetClient w s).2 role.Spec.RoleID
  rw [ht] at hd
  unfold RoleReconciler.finalizeRole
  rcases hG : GetClient w s with ⟨ce, s1⟩
  rw [hG] at hd
  cases ce with
  | some e => left; exact ⟨e, rfl, rfl, by rw [hG] at ht; exact ht, rfl⟩
  | none =>
    right
    rcases hD : DeleteRole w s1 role.Spec.RoleID with ⟨de, s2⟩
    rw [hD] at hd
    simp only at hd
    simp only [hD]
    cases de with
    | none =>
      right
      refine ⟨trivial, Or.inl rfl, ?_⟩
      simp only [storeUpdate, hd, withoutFinalizer]
      cases hu : w.update (s.trace ++ [Event.http (deleteRoleRequest role.Spec.RoleID)]) <;>
        simp
    | some e =>
      by_cases hn : e.is Sentinel.ErrRoleNotFound = true
      · right
        refine ⟨trivial, Or.inr ⟨e, rfl, hn⟩, ?_⟩
        simp only [hn, if_true, storeUpdate, hd, withoutFinalizer]
        cases hu : w.update (s.trace ++ [Event.http (deleteRoleRequest role.Spec.RoleID)]) <;>
          simp
      · left
        simp only [Bool.not_eq_true] at hn
        refine ⟨trivial, e, rfl, hn, ?_⟩
        simp [hn, hd]


/-- The three ways `finalizePrivilege` can run. -/
theorem finalizePrivilege_cases (w : World) (s : State) (privilege : Privilege) :
    (∃ e, (GetClient w s).1 = some e ∧
      (PrivilegeReconciler.finalizePrivilege w s privilege).record = privilege ∧
      (PrivilegeReconciler.finalizePrivilege w s privilege).state.trace = s.trace ∧
      (PrivilegeReconciler.finalizePrivilege w s privilege).ending =
        Ending.returned Result.empty (some (e.wrap "ошибка подключения к Nexus"))) ∨
    ((GetClient w s).1 = none ∧
      ∃ e, (DeletePrivilege w (GetClient w s).2 privilege.Spec.Name).1 = some e ∧
      e.is Sentinel.ErrPrivilegeNotFound = false ∧
      (PrivilegeReconciler.finalizePrivilege w s privilege).record = privilege ∧
      (PrivilegeReconciler.finalizePrivilege w s privilege).state.trace =
        s.trace ++ [Event.http (deletePrivilegeRequest privilege.Spec.Name)] ∧
      (PrivilegeReconciler.finalizePrivilege w s privilege).ending =
        Ending.returned Result.empty (some (e.wrap "ошибка удаления привелегии в Nexus"))) ∨
    ((GetClient w s).1 = none ∧
      deletedOrAbsent (DeletePrivilege w (GetClient w s).2 privilege.Spec.Name).1
        Sentinel.ErrPrivilegeNotFound ∧
      (PrivilegeReconciler.finalizePrivilege w s privilege).record =
        { privilege with ObjectMeta :=
            { privilege.ObjectMeta with Finalizers := withoutFinalizer privilege.ObjectMeta } } ∧
      (PrivilegeReconciler.finalizePrivilege w s privilege).state.trace =
        s.trace ++ [Event.http (deletePrivilegeRequest privilege.Spec.Name),
                    Event.update (withoutFinalizer privilege.ObjectMeta)] ∧
      (PrivilegeReconciler.finalizePrivilege w s privilege).ending =
        Ending.returned Result.empty
          ((w.update (s.trace ++ [Event.http (deletePrivilegeRequest privilege.Spec.Name)])).map
            (GoError.wrap "ошибка удаления финализатора"))) := by
  have ht := GetClient_trace w s
  have hd := DeletePrivilege_trace w (GetClient w s).2 privilege.Spec.Name
  rw [ht] at hd
  unfold PrivilegeReconciler.finalizePrivilege
  rcases hG : GetClient w s with ⟨ce, s1⟩
  rw [hG] at hd
  cases ce with
  | some e => left; exact ⟨e, rfl, rfl, by rw [hG] at ht; exact ht, rfl⟩
  | none =>
    right
    rcases hD : DeletePrivilege w s1 privilege.Spec.Name with ⟨de, s2⟩
    rw [hD] at hd
    simp only at hd
    simp only [hD]
    cases de with
    | none =>
      right
      refine ⟨trivial, Or.inl rfl, ?_⟩
      simp only [storeUpdate, hd, withoutFinalizer, utilsRemoveString]
      cases hu : w.update (s.trace ++ [Event.http (deletePrivilegeRequest privilege.Spec.Name)]) <;>
        simp
    | some e =>
      by_cases hn : e.is Sentinel.ErrPrivilegeNotFound = true
      · right
        refine ⟨trivial, Or.inr ⟨e, rfl, hn⟩, ?_⟩
        simp only [hn, if_true, storeUpdate, hd, withoutFinalizer, utilsRemoveString]
        cases hu : w.update (s.trace ++ [Event.http (deletePrivilegeRequest privilege.Spec.Name)]) <;>
          simp
      · left
        simp only [Bool.not_eq_true] at hn
        refine ⟨trivial, e, rfl, hn, ?_⟩
        simp [hn, hd]


/-- The three ways `finalizeContentSelector` can run. -/
theorem finalizeContentSelector_cases (w : World) (s : State) (cs : ContentSelector) :
    (∃ e, (GetClient w s).1 = some e ∧
      (ContentSelectorReconciler.finalizeContentSelector w s cs).record = cs ∧
      (ContentSelectorReconciler.finalizeContentSelector w s cs).state.trace = s.trace ∧
      (ContentSelectorReconciler.finalizeContentSelector w s cs).ending =
        Ending.returned Result.empty (some (e.wrap "ошибка подключения к Nexus"))) ∨
    ((GetClient w s).1 = none ∧
      ∃ e, (DeleteContentSelector w (GetClient w s).2 cs.Spec.Name).1 = some e ∧
      e.is Sentinel.ErrContentSelectorNotFound = false ∧
      (ContentSelectorReconciler.finalizeContentSelector w s cs).record = cs ∧
      (ContentSelectorReconciler.finalizeContentSelector w s cs).state.trace =
        s.trace ++ [Event.http (deleteContentSelectorRequest cs.Spec.Name)] ∧
      (ContentSelectorReconciler.finalizeContentSelector w s cs).ending =
        Ending.returned Result.empty (some (e.wrap "ошибка удаления Content Selector в Nexus"))) ∨
    ((GetClient w s).1 = none ∧
      deletedOrAbsent (DeleteContentSelector w (GetClient w s).2 cs.Spec.Name).1
        Sentinel.ErrContentSelectorNotFound ∧
      (ContentSelectorReconciler.finalizeContentSelector w s cs).record =
        { cs with ObjectMeta :=
            { cs.ObjectMeta with Finalizers := withoutFinalizer cs.ObjectMeta } } ∧
      (ContentSelectorReconciler.finalizeContentSelector w s cs).state.trace =
        s.trace ++ [Event.http (deleteContentSelectorRequest cs.Spec.Name),
                    Event.update (withoutFinalizer cs.ObjectMeta)] ∧
      (ContentSelectorReconciler.finalizeContentSelector w s cs).ending =
        Ending.returned Result.empty
          ((w.update (s.trace ++ [Event.http (deleteContentSelectorRequest cs.Spec.Name)])).map
            (GoError.wrap "ошибка удаления финализатора"))) := by
  have ht := GetClient_trace w s
  have hd := DeleteContentSelector_trace w (GetClient w s).2 cs.Spec.Name
  rw [ht] at hd
  unfold ContentSelectorReconciler.finalizeContentSelector
  rcases hG : GetClient w s with ⟨ce, s1⟩
  rw [hG] at hd
  cases ce with
  | some e => left; exact ⟨e, rfl, rfl, by rw [hG] at ht; exact ht, rfl⟩
  | none =>
    right
    rcases hD : DeleteContentSelector w s1 cs.Spec.Name with ⟨de, s2⟩
    rw [hD] at hd
    simp only at hd
    simp only [hD]
    cases de with
    | none =>
      right
      refine ⟨trivial, Or.inl rfl, ?_⟩
      simp only [storeUpdate, hd, withoutFinalizer, utilsRemoveString]
      cases hu : w.update (s.trace ++ [Event.http (deleteContentSelectorRequest cs.Spec.Name)]) <;>
        simp
    | some e =>
      by_cases hn : e.is Sentinel.ErrContentSelectorNotFound = true
      · right
        refine ⟨trivial, Or.inr ⟨e, rfl, hn⟩, ?_⟩
        simp only [hn, if_true, storeUpdate, hd, withoutFinalizer, utilsRemoveString]
        cases hu : w.update (s.trace ++ [Event.http (deleteContentSelectorRequest cs.Spec.Name)]) <;>
          simp
      · left
        simp only [Bool.not_eq_true] at hn
        refine ⟨trivial, e, rfl, hn, ?_⟩
        simp [hn, hd]


/-- The four ways `finalizeRepository` can run. -/
theorem finalizeRepository_cases (w : World) (s : State) (repo : Repository) :
    (w.getenv "ENABLE_REPOSITORY_DELETION" ≠ "true" ∧
      (RepositoryReconciler.finalizeRepository w s repo).record =
        { repo with ObjectMeta :=
            { repo.ObjectMeta with Finalizers := withoutFinalizer repo.ObjectMeta } } ∧
      (RepositoryReconciler.finalizeRepository w s repo).state.trace =
        s.trace ++ [Event.update (withoutFinalizer repo.ObjectMeta)] ∧
      (RepositoryReconciler.finalizeRepository w s repo).ending =
        Ending.returned Result.empty
          ((w.update s.trace).map (GoError.wrap "ошибка удаления финализатора"))) ∨
    (w.getenv "ENABLE_REPOSITORY_DELETION" = "true" ∧
      ∃ e, (GetClient w s).1 = some e ∧
      (RepositoryReconciler.finalizeRepository w s repo).record = repo ∧
      (RepositoryReconciler.finalizeRepository w s repo).state.trace = s.trace ∧
      (RepositoryReconciler.finalizeRepository w s repo).ending =
        Ending.returned Result.empty (some (e.wrap "ошибка подключения к Nexus"))) ∨
    (w.getenv "ENABLE_REPOSITORY_DELETION" = "true" ∧ (GetClient w s).1 = none ∧
      ∃ e, (DeleteRepository w (GetClient w s).2 repo.Spec.Name).1 = some e ∧
      e.is Sentinel.ErrRepositoryNotFound = false ∧
      (RepositoryReconciler.finalizeRepository w s repo).record = repo ∧
      (RepositoryReconciler.finalizeRepository w s repo).state.trace =
        s.trace ++ [Event.http (deleteRepositoryRequest repo.Spec.Name)] ∧
      (RepositoryReconciler.finalizeRepository w s repo).ending =
        Ending.returned Result.empty (some (e.wrap "ошибка удаления репозитория"))) ∨
    (w.getenv "ENABLE_REPOSITORY_DELETION" = "true" ∧ (GetClient w s).1 = none ∧
      deletedOrAbsent (DeleteRepository w (GetClient w s).2 repo.Spec.Name).1
        Sentinel.ErrRepositoryNotFound ∧
      (RepositoryReconciler.finalizeRepository w s repo).record =
        { repo with ObjectMeta :=
            { repo.ObjectMeta with Finalizers := withoutFinalizer repo.ObjectMeta } } ∧
      (RepositoryReconciler.finalizeRepository w s repo).state.trace =
        s.trace ++ [Event.http (deleteRepositoryRequest repo.Spec.Name),
                    Event.update (withoutFinalizer repo.ObjectMeta)] ∧
      (RepositoryReconciler.finalizeRepository w s repo).ending =
        Ending.returned Result.empty
          ((w.update (s.trace ++ [Event.http (deleteRepositoryRequest repo.Spec.Name)])).map
            (GoError.wrap "ошибка удаления финализатора"))) := by
  have ht := GetClient_trace w s
  have hd := DeleteRepository_trace w (GetClient w s).2 repo.Spec.Name
  rw [ht] at hd
  unfold RepositoryReconciler.finalizeRepository
  by_cases henv : w.getenv "ENABLE_REPOSITORY_DELETION" = "true"
  · right
    simp only [henv, if_true]
    rcases hG : GetClient w s with ⟨ce, s1⟩
    rw [hG] at hd
    cases ce with
    | some e => left; exact ⟨trivial, e, rfl, rfl, by rw [hG] at ht; exact ht, rfl⟩
    | none =>
      right
      rcases hD : DeleteRepository w s1 repo.Spec.Name with ⟨de, s2⟩
      rw [hD] at hd
      simp only at hd
      simp only [hD]
      cases de with
      | none =>
        right
        refine ⟨trivial, trivial, Or.inl rfl, ?_⟩
        simp only [storeUpdate, hd, withoutFinalizer, utilsRemoveString]
        cases hu : w.update (s.trace ++ [Event.http (deleteRepositoryRequest repo.Spec.Name)]) <;>
          simp
      | some e =>
        by_cases hn : e.is Sentinel.ErrRepositoryNotFound = true
        · right
          refine ⟨trivial, trivial, Or.inr ⟨e, rfl, hn⟩, ?_⟩
          cases hu : w.update (s.trace ++ [Event.http (deleteRepositoryRequest repo.Spec.Name)]) <;>
            simp [hn, storeUpdate, hd, withoutFinalizer, utilsRemoveString, hu]
        · left
          simp only [Bool.not_eq_true] at hn
          refine ⟨trivial, trivial, e, rfl, hn, ?_⟩
          simp [hn, hd]
  · left
    refine ⟨henv, ?_⟩
    simp only [henv, if_false, storeUpdate, withoutFinalizer, utilsRemoveString]
    cases hu : w.update s.trace <;> simp

theorem RepositoryReconcile_deleting (w : World) (s : State) (repo : Repository)
    (h : repo.ObjectMeta.deletionTimestampIsZero = false) :
    RepositoryReconciler.Reconcile w s (Except.ok repo) =
      (RepositoryReconciler.finalizeRepository w s repo).withRecord := by
  simp [RepositoryReconciler.Reconcile, h]

theorem PrivilegeReconcile_deleting (w : World) (s : State) (privilege : Privilege)
    (h : privilege.ObjectMeta.deletionTimestampIsZero = false) :
    PrivilegeReconciler.Reconcile w s (Except.ok privilege) =
      (PrivilegeReconciler.finalizePrivilege w s privilege).withRecord := by
  simp [PrivilegeReconciler.Reconcile, h]

theorem RoleReconcile_deleting (w : World) (s : State) (role : RoleCR)
    (h : role.ObjectMeta.deletionTimestampIsZero = false) :
    RoleReconciler.Reconcile w s (Except.ok role) =
      (RoleReconciler.finalizeRole w s role).withRecord := by
  simp [RoleReconciler.Reconcile, h]

theorem ContentSelectorReconcile_deleting (w : World) (s : State) (cs : ContentSelector)
    (h : cs.ObjectMeta.deletionTimestampIsZero = false) :
    ContentSelectorReconciler.Reconcile w s (Except.ok cs) =
      (ContentSelectorReconciler.finalizeContentSelector w s cs).withRecord := by
  simp [ContentSelectorReconciler.Reconcile, h]

theorem notFound_is (n : Sentinel) : n.toError.is n = true := by
  simp [Sentinel.toError, GoError.is]

/-- C8: for each kind, when the record is under deletion, a client is
available and the remote answers the delete call with 404, `Reconcile` returns
no error and no requeue once the record write succeeds, the record is left
without the controller's finalizer, and the pass consists of the delete call
followed by the write of the record without that finalizer (for repositories
the delete call is made when `ENABLE_REPOSITORY_DELETION` is `true`). -/
theorem C8_delete_not_found_removes_finalizer (w : World) (s : State)
    (hc : (GetClient w s).1 = none) :
    (∀ repo : Repository, repo.ObjectMeta.deletionTimestampIsZero = false →
      w.getenv "ENABLE_REPOSITORY_DELETION" = "true" →
      (w.roundTrip s.trace (deleteRepositoryRequest repo.Spec.Name)).err = none →
      (w.roundTrip s.trace (deleteRepositoryRequest repo.Spec.Name)).StatusCode = 404 →
      w.update (s.trace ++ [Event.http (deleteRepositoryRequest repo.Spec.Name)]) = none →
      (RepositoryReconciler.Reconcile w s (Except.ok repo)).ending =
        Ending.returned Result.empty none ∧
      (RepositoryReconciler.Reconcile w s (Except.ok repo)).record =
        some { repo with ObjectMeta :=
          { repo.ObjectMeta with Finalizers := withoutFinalizer repo.ObjectMeta } } ∧
      containsString (withoutFinalizer repo.ObjectMeta) finalizerName = false ∧
      (RepositoryReconciler.Reconcile w s (Except.ok repo)).state.trace =
        s.trace ++ [Event.http (deleteRepositoryRequest repo.Spec.Name),
                    Event.update (withoutFinalizer repo.ObjectMeta)]) ∧
    (∀ privilege : Privilege, privilege.ObjectMeta.deletionTimestampIsZero = false →
      (w.roundTrip s.trace (deletePrivilegeRequest privilege.Spec.Name)).StatusCode = 404 →
      w.update (s.trace ++ [Event.http (deletePrivilegeRequest privilege.Spec.Name)]) = none →
      (PrivilegeReconciler.Reconcile w s (Except.ok privilege)).ending =
        Ending.returned Result.empty none ∧
      (PrivilegeReconciler.Reconcile w s (Except.ok privilege)).record =
        some { privilege with ObjectMeta :=
          { privilege.ObjectMeta with Finalizers := withoutFinalizer privilege.ObjectMeta } } ∧
      containsString (withoutFinalizer privilege.ObjectMeta) finalizerName = false ∧
      (PrivilegeReconciler.Reconcile w s (Except.ok privilege)).state.trace =
        s.trace ++ [Event.http (deletePrivilegeRequest privilege.Spec.Name),
                    Event.update (withoutFinalizer privilege.ObjectMeta)]) ∧
    (∀ role : RoleCR, role.ObjectMeta.deletionTimestampIsZero = false →
      (w.roundTrip s.trace (deleteRoleRequest role.Spec.RoleID)).err = none →
      (w.roundTrip s.trace (deleteRoleRequest role.Spec.RoleID)).StatusCode = 404 →
      w.update (s.trace ++ [Event.http (deleteRoleRequest role.Spec.RoleID)]) = none →
      (RoleReconciler.Reconcile w s (Except.ok role)).ending =
        Ending.returned Result.empty none ∧
      (RoleReconciler.Reconcile w s (Except.ok role)).record =
        some { role with ObjectMeta :=
          { role.ObjectMeta with Finalizers := withoutFinalizer role.ObjectMeta } } ∧
      containsString (withoutFinalizer role.ObjectMeta) finalizerName = false ∧
      (RoleReconciler.Reconcile w s (Except.ok role)).state.trace =
        s.trace ++ [Event.http (deleteRoleRequest role.Spec.RoleID),
                    Event.update (withoutFinalizer role.ObjectMeta)]) ∧
    (∀ cs : ContentSelector, cs.ObjectMeta.deletionTimestampIsZero = false →
      (w.roundTrip s.trace (deleteContentSelectorRequest cs.Spec.Name)).err = none →
      (w.roundTrip s.trace (deleteContentSelectorRequest cs.Spec.Name)).StatusCode = 404 →
      w.update (s.trace ++ [Event.http (deleteContentSelectorRequest cs.Spec.Name)]) = none →
      (ContentSelectorReconciler.Reconcile w s (Except.ok cs)).ending =
        Ending.returned Result.empty none ∧
      (ContentSelectorReconciler.Reconcile w s (Except.ok cs)).record =
        some { cs with ObjectMeta :=
          { cs.ObjectMeta with Finalizers := withoutFinalizer cs.ObjectMeta } } ∧
      containsString (withoutFinalizer cs.ObjectMeta) finalizerName = false ∧
      (ContentSelectorReconciler.Reconcile w s (Except.ok cs)).state.trace =
        s.trace ++ [Event.http (deleteContentSelectorRequest cs.Spec.Name),
                    Event.update (withoutFinalizer cs.ObjectMeta)]) := by
  have ht := GetClient_trace w s
  refine ⟨?_, ?_, ?_, ?_⟩
  · intro repo hdel henv he h404 hu
    have hnf := DeleteRepository_not_found w (GetClient w s).2 repo.Spec.Name
      (by rw [ht]; exact he) (by rw [ht]; exact h404)
    rw [RepositoryReconcile_deleting w s repo hdel]
    simp only [Outcome.withRecord]
    rcases finalizeRepository_cases w s repo with ⟨h0, _⟩ | ⟨_, e, h1, _⟩ |
      ⟨_, _, e, h1, h2, _⟩ | ⟨_, _, _, h3, h4, h5⟩
    · exact absurd henv h0
    · rw [hc] at h1; cases h1
    · rw [hnf] at h1
      cases h1
      rw [notFound_is] at h2
      cases h2
    · rw [hu] at h5
      exact ⟨h5, by rw [h3], containsString_removeString _ _, h4⟩
  · intro privilege hdel h404 hu
    have hnf := DeletePrivilege_not_found w (GetClient w s).2 privilege.Spec.Name
      (by rw [ht]; exact h404)
    rw [PrivilegeReconcile_deleting w s privilege hdel]
    simp only [Outcome.withRecord]
    rcases finalizePrivilege_cases w s privilege with ⟨e, h1, _⟩ |
      ⟨_, e, h1, h2, _⟩ | ⟨_, _, h3, h4, h5⟩
    · rw [hc] at h1; cases h1
    · rw [hnf] at h1
      cases h1
      rw [notFound_is] at h2
      cases h2
    · rw [hu] at h5
      exact ⟨h5, by rw [h3], containsString_removeString _ _, h4⟩
  · intro role hdel he h404 hu
    have hnf := DeleteRole_not_found w (GetClient w s).2 role.Spec.RoleID
      (by rw [ht]; exact he) (by rw [ht]; exact h404)
    rw [RoleReconcile_deleting w s role hdel]
    simp only [Outcome.withRecord]
    rcases finalizeRole_cases w s role with ⟨e, h1, _⟩ |
      ⟨_, e, h1, h2, _⟩ | ⟨_, _, h3, h4, h5⟩
    · rw [hc] at h1; cases h1
    · rw [hnf] at h1
      cases h1
      rw [notFound_is] at h2
      cases h2
    · rw [hu] at h5
      exact ⟨h5, by rw [h3], containsString_removeString _ _, h4⟩
  · intro cs hdel he h404 hu
    have hnf := DeleteContentSelector_not_found w (GetClient w s).2 cs.Spec.Name
      (by rw [ht]; exact he) (by rw [ht]; exact h404)
    rw [ContentSelectorReconcile_deleting w s cs hdel]
    simp only [Outcome.withRecord]
    rcases finalizeContentSelector_cases w s cs with ⟨e, h1, _⟩ |
      ⟨_, e, h1, h2, _⟩ | ⟨_, _, h3, h4, h5⟩
    · rw [hc] at h1; cases h1
    · rw [hnf] at h1
      cases h1
      rw [notFound_is] at h2
      cases h2
    · rw [hu] at h5
      exact ⟨h5, by rw [h3], containsString_removeString _ _, h4⟩

/-- C8 at concrete records: a remote that answers 404, for each kind. -/
theorem C8_delete_not_found_removes_finalizer_witness :
    (GetClient notFoundWorld readyState).1 = none ∧
    (RepositoryReconciler.Reconcile notFoundWorld readyState
      (Except.ok deletingRepository)).ending = Ending.returned Result.empty none ∧
    (PrivilegeReconciler.Reconcile notFoundWorld readyState
      (Except.ok deletingPrivilege)).ending = Ending.returned Result.empty none ∧
    (RoleReconciler.Reconcile notFoundWorld readyState
      (Except.ok deletingRole)).ending = Ending.returned Result.empty none ∧
    (ContentSelectorReconciler.Reconcile notFoundWorld readyState
      (Except.ok deletingContentSelector)).ending = Ending.returned Result.empty none ∧
    (RoleReconciler.Reconcile notFoundWorld readyState (Except.ok deletingRole)).state.trace =
      readyState.trace ++ [Event.http (deleteRoleRequest "dev"), Event.update ["other"]] := by
  have h := C8_delete_not_found_removes_finalizer notFoundWorld readyState (by decide)
  refine ⟨by decide, ?_, ?_, ?_, ?_, ?_⟩
  · exact (h.1 deletingRepository (by decide) (by decide) (by decide) (by decide)
      (by decide)).1
  · exact (h.2.1 deletingPrivilege (by decide) (by decide) (by decide)).1
  · exact (h.2.2.1 deletingRole (by decide) (by decide) (by decide) (by decide)).1
  · exact (h.2.2.2 deletingContentSelector (by decide) (by decide) (by decide) (by decide)).1
  · exact (h.2.2.1 deletingRole (by decide) (by decide) (by decide) (by decide)).2.2.2

theorem deletion_events_none :
    deleteCalls [] ≤ 1 ∧ remoteAfterWrite [] = false ∧ recordWrites [] = [] := by
  simp [deleteCalls, remoteCalls, remoteAfterWrite, recordWrites]

theorem deletion_events_delete (req : Request) :
    deleteCalls [Event.http req] ≤ 1 ∧ remoteAfterWrite [Event.http req] = false ∧
      recordWrites [Event.http req] = [] := by
  refine ⟨?_, ?_, ?_⟩
  · simp only [deleteCalls, remoteCalls]
    exact List.length_filter_le _ _
  · simp [remoteAfterWrite, Event.isRecordWrite]
  · simp [recordWrites]

theorem deletion_events_both (req : Request) (fs : List String) :
    deleteCalls [Event.http req, Event.update fs] ≤ 1 ∧
      remoteAfterWrite [Event.http req, Event.update fs] = false ∧
      recordWrites [Event.http req, Event.update fs] = [fs] := by
  refine ⟨?_, ?_, ?_⟩
  · simp only [deleteCalls, remoteCalls]
    exact List.length_filter_le _ _
  · simp [remoteAfterWrite, Event.isRecordWrite]
  · simp [recordWrites]

theorem deletion_events_write (fs : List String) :
    deleteCalls [Event.update fs] ≤ 1 ∧ remoteAfterWrite [Event.update fs] = false ∧
      recordWrites [Event.update fs] = [fs] := by
  simp [deleteCalls, remoteCalls, remoteAfterWrite, recordWrites]

/-- C9: for each kind, when the remote delete call fails with an error other
than not-found, the deletion path returns an error, leaves the record (its
finalizer list included) as it was and writes nothing to the store; and in
every deletion pass the remote delete is called at most once, no remote call
follows a record write, the record is untouched when no record write happens,
and a record write (the finalizer removal) happens only after the delete call
returned no error or not-found, or, for repositories, when remote deletion is
switched off. -/
theorem C9_delete_failure_keeps_finalizer (w : World) (s : State) :
    (∀ repo : Repository,
      (∀ e, w.getenv "ENABLE_REPOSITORY_DELETION" = "true" → (GetClient w s).1 = none →
        (DeleteRepository w (GetClient w s).2 repo.Spec.Name).1 = some e →
        e.is Sentinel.ErrRepositoryNotFound = false →
        (∃ err, (RepositoryReconciler.finalizeRepository w s repo).ending =
          Ending.returned Result.empty (some err)) ∧
        (RepositoryReconciler.finalizeRepository w s repo).record = repo ∧
        (RepositoryReconciler.finalizeRepository w s repo).state.trace =
          s.trace ++ [Event.http (deleteRepositoryRequest repo.Spec.Name)]) ∧
      ∃ new, (RepositoryReconciler.finalizeRepository w s repo).state.trace = s.trace ++ new ∧
        deleteCalls new ≤ 1 ∧ remoteAfterWrite new = false ∧
        (recordWrites new = [] →
          (RepositoryReconciler.finalizeRepository w s repo).record = repo) ∧
        (recordWrites new ≠ [] →
          w.getenv "ENABLE_REPOSITORY_DELETION" ≠ "true" ∨
          ((GetClient w s).1 = none ∧
            deletedOrAbsent (DeleteRepository w (GetClient w s).2 repo.Spec.Name).1
              Sentinel.ErrRepositoryNotFound))) ∧
    (∀ privilege : Privilege,
      (∀ e, (GetClient w s).1 = none →
        (DeletePrivilege w (GetClient w s).2 privilege.Spec.Name).1 = some e →
        e.is Sentinel.ErrPrivilegeNotFound = false →
        (∃ err, (PrivilegeReconciler.finalizePrivilege w s privilege).ending =
          Ending.returned Result.empty (some err)) ∧
        (PrivilegeReconciler.finalizePrivilege w s privilege).record = privilege ∧
        (PrivilegeReconciler.finalizePrivilege w s privilege).state.trace =
          s.trace ++ [Event.http (deletePrivilegeRequest privilege.Spec.Name)]) ∧
      ∃ new, (PrivilegeReconciler.finalizePrivilege w s privilege).state.trace =
          s.trace ++ new ∧
        deleteCalls new ≤ 1 ∧ remoteAfterWrite new = false ∧
        (recordWrites new = [] →
          (PrivilegeReconciler.finalizePrivilege w s privilege).record = privilege) ∧
        (recordWrites new ≠ [] →
          (GetClient w s).1 = none ∧
            deletedOrAbsent (DeletePrivilege w (GetClient w s).2 privilege.Spec.Name).1
              Sentinel.ErrPrivilegeNotFound)) ∧
    (∀ role : RoleCR,
      (∀ e, (GetClient w s).1 = none →
        (DeleteRole w (GetClient w s).2 role.Spec.RoleID).1 = some e →
        e.is Sentinel.ErrRoleNotFound = false →
        (∃ err, (RoleReconciler.finalizeRole w s role).ending =
          Ending.returned Result.empty (some err)) ∧
        (RoleReconciler.finalizeRole w s role).record = role ∧
        (RoleReconciler.finalizeRole w s role).state.trace =
          s.trace ++ [Event.http (deleteRoleRequest role.Spec.RoleID)]) ∧
      ∃ new, (RoleReconciler.finalizeRole w s role).state.trace = s.trace ++ new ∧
        deleteCalls new ≤ 1 ∧ remoteAfterWrite new = false ∧
        (recordWrites new = [] → (RoleReconciler.finalizeRole w s role).record = role) ∧
        (recordWrites new ≠ [] →
          (GetClient w s).1 = none ∧
            deletedOrAbsent (DeleteRole w (GetClient w s).2 role.Spec.RoleID).1
              Sentinel.ErrRoleNotFound)) ∧
    (∀ cs : ContentSelector,
      (∀ e, (GetClient w s).1 = none →
        (DeleteContentSelector w (GetClient w s).2 cs.Spec.Name).1 = some e →
        e.is Sentinel.ErrContentSelectorNotFound = false →
        (∃ err, (ContentSelectorReconciler.finalizeContentSelector w s cs).ending =
          Ending.returned Result.empty (some err)) ∧
        (ContentSelectorReconciler.finalizeContentSelector w s cs).record = cs ∧
        (ContentSelectorReconciler.finalizeContentSelector w s cs).state.trace =
          s.trace ++ [Event.http (deleteContentSelectorRequest cs.Spec.Name)]) ∧
      ∃ new, (ContentSelectorReconciler.finalizeContentSelector w s cs).state.trace =
          s.trace ++ new ∧
        deleteCalls new ≤ 1 ∧ remoteAfterWrite new = false ∧
        (recordWrites new = [] →
          (ContentSelectorReconciler.finalizeContentSelector w s cs).record = cs) ∧
        (recordWrites new ≠ [] →
          (GetClient w s).1 = none ∧
            deletedOrAbsent (DeleteContentSelector w (GetClient w s).2 cs.Spec.Name).1
              Sentinel.ErrContentSelectorNotFound)) := by
  refine ⟨?_, ?_, ?_, ?_⟩
  · intro repo
    rcases finalizeRepository_cases w s repo with ⟨h0, h3, h4, h5⟩ | ⟨h0, e, h1, h3, h4, h5⟩ |
      ⟨h0, hc, e, h1, h2, h3, h4, h5⟩ | ⟨h0, hc, hd, h3, h4, h5⟩
    · refine ⟨fun e henv => absurd henv h0, [Event.update (withoutFinalizer repo.ObjectMeta)],
        h4, (deletion_events_write _).1, (deletion_events_write _).2.1, ?_, fun _ => Or.inl h0⟩
      intro hw
      rw [(deletion_events_write _).2.2] at hw
      cases hw
    · refine ⟨fun e' _ hc' => ?_, [], by simpa using h4, deletion_events_none.1,
        deletion_events_none.2.1, fun _ => h3, fun hw => absurd deletion_events_none.2.2 hw⟩
      rw [hc'] at h1
      cases h1
    · refine ⟨fun e' _ _ hd' _ => ?_, [Event.http (deleteRepositoryRequest repo.Spec.Name)], h4,
        (deletion_events_delete _).1, (deletion_events_delete _).2.1, fun _ => h3,
        fun hw => absurd (deletion_events_delete _).2.2 hw⟩
      exact ⟨⟨_, h5⟩, h3, h4⟩
    · refine ⟨fun e' _ _ hd' hn' => ?_, _, h4, (deletion_events_both _ _).1,
        (deletion_events_both _ _).2.1, ?_, fun _ => Or.inr ⟨hc, hd⟩⟩
      · rcases hd with hd | ⟨e, hd, hn⟩
        · rw [hd] at hd'; cases hd'
        · rw [hd] at hd'; cases hd'; rw [hn] at hn'; cases hn'
      · intro hw
        rw [(deletion_events_both _ _).2.2] at hw
        cases hw
  · intro privilege
    rcases finalizePrivilege_cases w s privilege with ⟨e, h1, h3, h4, h5⟩ |
      ⟨hc, e, h1, h2, h3, h4, h5⟩ | ⟨hc, hd, h3, h4, h5⟩
    · refine ⟨fun e' hc' => ?_, [], by simpa using h4, deletion_events_none.1,
        deletion_events_none.2.1, fun _ => h3, fun hw => absurd deletion_events_none.2.2 hw⟩
      rw [hc'] at h1
      cases h1
    · refine ⟨fun e' _ hd' _ => ?_, [Event.http (deletePrivilegeRequest privilege.Spec.Name)],
        h4, (deletion_events_delete _).1, (deletion_events_delete _).2.1, fun _ => h3,
        fun hw => absurd (deletion_events_delete _).2.2 hw⟩
      exact ⟨⟨_, h5⟩, h3, h4⟩
    · refine ⟨fun e' _ hd' hn' => ?_, _, h4, (deletion_events_both _ _).1,
        (deletion_events_both _ _).2.1, ?_, fun _ => ⟨hc, hd⟩⟩
      · rcases hd with hd | ⟨e, hd, hn⟩
        · rw [hd] at hd'; cases hd'
        · rw [hd] at hd'; cases hd'; rw [hn] at hn'; cases hn'
      · intro hw
        rw [(deletion_events_both _ _).2.2] at hw
        cases hw
  · intro role
    rcases finalizeRole_cases w s role with ⟨e, h1, h3, h4, h5⟩ |
      ⟨hc, e, h1, h2, h3, h4, h5⟩ | ⟨hc, hd, h3, h4, h5⟩
    · refine ⟨fun e' hc' => ?_, [], by simpa using h4, deletion_events_none.1,
        deletion_events_none.2.1, fun _ => h3, fun hw => absurd deletion_events_none.2.2 hw⟩
      rw [hc'] at h1
      cases h1
    · refine ⟨fun e' _ hd' _ => ?_, [Event.http (deleteRoleRequest role.Spec.RoleID)],
        h4, (deletion_events_delete _).1, (deletion_events_delete _).2.1, fun _ => h3,
        fun hw => absurd (deletion_events_delete _).2.2 hw⟩
      exact ⟨⟨_, h5⟩, h3, h4⟩
    · refine ⟨fun e' _ hd' hn' => ?_, _, h4, (deletion_events_both _ _).1,
        (deletion_events_both _ _).2.1, ?_, fun _ => ⟨hc, hd⟩⟩
      · rcases hd with hd | ⟨e, hd, hn⟩
        · rw [hd] at hd'; cases hd'
        · rw [hd] at hd'; cases hd'; rw [hn] at hn'; cases hn'
      · intro hw
        rw [(deletion_events_both _ _).2.2] at hw
        cases hw
  · intro cs
    rcases finalizeContentSelector_cases w s cs with ⟨e, h1, h3, h4, h5⟩ |
      ⟨hc, e, h1, h2, h3, h4, h5⟩ | ⟨hc, hd, h3, h4, h5⟩
    · refine ⟨fun e' hc' => ?_, [], by simpa using h4, deletion_events_none.1,
        deletion_events_none.2.1, fun _ => h3, fun hw => absurd deletion_events_none.2.2 hw⟩
      rw [hc'] at h1
      cases h1
    · refine ⟨fun e' _ hd' _ => ?_, [Event.http (deleteContentSelectorRequest cs.Spec.Name)],
        h4, (deletion_events_delete _).1, (deletion_events_delete _).2.1, fun _ => h3,
        fun hw => absurd (deletion_events_delete _).2.2 hw⟩
      exact ⟨⟨_, h5⟩, h3, h4⟩
    · refine ⟨fun e' _ hd' hn' => ?_, _, h4, (deletion_events_both _ _).1,
        (deletion_events_both _ _).2.1, ?_, fun _ => ⟨hc, hd⟩⟩
      · rcases hd with hd | ⟨e, hd, hn⟩
        · rw [hd] at hd'; cases hd'
        · rw [hd] at hd'; cases hd'; rw [hn] at hn'; cases hn'
      · intro hw
        rw [(deletion_events_both _ _).2.2] at hw
        cases hw

/-- C9 at concrete records: a remote that answers the delete call with 500. -/
theorem C9_delete_failure_keeps_finalizer_witness :
    (GetClient serverErrorWorld readyState).1 = none ∧
    (DeleteRole serverErrorWorld (GetClient serverErrorWorld readyState).2 "dev").1 =
      some (NewUnexpectedResponseError 500 "boom") ∧
    (RoleReconciler.finalizeRole serverErrorWorld readyState deletingRole).record =
      deletingRole ∧
    (RoleReconciler.finalizeRole serverErrorWorld readyState deletingRole).state.trace =
      readyState.trace ++ [Event.http (deleteRoleRequest "dev")] ∧
    (RepositoryReconciler.finalizeRepository serverErrorWorld readyState
      deletingRepository).record = deletingRepository := by
  have h := C9_delete_failure_keeps_finalizer serverErrorWorld readyState
  have hr := (h.2.2.1 deletingRole).1 (NewUnexpectedResponseError 500 "boom") (by decide) rfl
    (by decide)
  have hp := (h.1 deletingRepository).1 (NewUnexpectedResponseError 500 "boom") (by decide)
    (by decide) rfl (by decide)
  exact ⟨by decide, rfl, hr.2.1, hr.2.2, hp.2.1⟩

/-- C10: for each kind, `Reconcile` on a record whose deletion timestamp is set
is the deletion path and returns its result; the only remote call of the pass
is the delete call (no existence check, get, create or update), the only
record write carries the finalizer list without the controller's finalizer,
no status is written, and in memory the spec and status of the record stay as
they were and its finalizer list is the old one or the old one without the
controller's finalizer. -/
theorem C10_deleting_record_runs_only_deletion_path (w : World) (s : State) :
    (∀ repo : Repository, repo.ObjectMeta.deletionTimestampIsZero = false →
      RepositoryReconciler.Reconcile w s (Except.ok repo) =
        (RepositoryReconciler.finalizeRepository w s repo).withRecord ∧
      ∃ new r, (RepositoryReconciler.Reconcile w s (Except.ok repo)).state.trace =
          s.trace ++ new ∧
        (RepositoryReconciler.Reconcile w s (Except.ok repo)).record = some r ∧
        (∀ c ∈ remoteCalls new,
          c = (Method.DELETE, (deleteRepositoryRequest repo.Spec.Name).url)) ∧
        (∀ fs ∈ recordWrites new, fs = withoutFinalizer repo.ObjectMeta) ∧
        statusWrites new = [] ∧
        r.Spec = repo.Spec ∧ r.Status = repo.Status ∧
        (r.ObjectMeta.Finalizers = repo.ObjectMeta.Finalizers ∨
          r.ObjectMeta.Finalizers = withoutFinalizer repo.ObjectMeta)) ∧
    (∀ privilege : Privilege, privilege.ObjectMeta.deletionTimestampIsZero = false →
      PrivilegeReconciler.Reconcile w s (Except.ok privilege) =
        (PrivilegeReconciler.finalizePrivilege w s privilege).withRecord ∧
      ∃ new r, (PrivilegeReconciler.Reconcile w s (Except.ok privilege)).state.trace =
          s.trace ++ new ∧
        (PrivilegeReconciler.Reconcile w s (Except.ok privilege)).record = some r ∧
        (∀ c ∈ remoteCalls new,
          c = (Method.DELETE, (deletePrivilegeRequest privilege.Spec.Name).url)) ∧
        (∀ fs ∈ recordWrites new, fs = withoutFinalizer privilege.ObjectMeta) ∧
        statusWrites new = [] ∧
        r.Spec = privilege.Spec ∧ r.Conditions = privilege.Conditions ∧
        (r.ObjectMeta.Finalizers = privilege.ObjectMeta.Finalizers ∨
          r.ObjectMeta.Finalizers = withoutFinalizer privilege.ObjectMeta)) ∧
    (∀ role : RoleCR, role.ObjectMeta.deletionTimestampIsZero = false →
      RoleReconciler.Reconcile w s (Except.ok role) =
        (RoleReconciler.finalizeRole w s role).withRecord ∧
      ∃ new r, (RoleReconciler.Reconcile w s (Except.ok role)).state.trace = s.trace ++ new ∧
        (RoleReconciler.Reconcile w s (Except.ok role)).record = some r ∧
        (∀ c ∈ remoteCalls new, c = (Method.DELETE, (deleteRoleRequest role.Spec.RoleID).url)) ∧
        (∀ fs ∈ recordWrites new, fs = withoutFinalizer role.ObjectMeta) ∧
        statusWrites new = [] ∧
        r.Spec = role.Spec ∧ r.Conditions = role.Conditions ∧
        (r.ObjectMeta.Finalizers = role.ObjectMeta.Finalizers ∨
          r.ObjectMeta.Finalizers = withoutFinalizer role.ObjectMeta)) ∧
    (∀ cs : ContentSelector, cs.ObjectMeta.deletionTimestampIsZero = false →
      ContentSelectorReconciler.Reconcile w s (Except.ok cs) =
        (ContentSelectorReconciler.finalizeContentSelector w s cs).withRecord ∧
      ∃ new r, (ContentSelectorReconciler.Reconcile w s (Except.ok cs)).state.trace =
          s.trace ++ new ∧
        (ContentSelectorReconciler.Reconcile w s (Except.ok cs)).record = some r ∧
        (∀ c ∈ remoteCalls new,
          c = (Method.DELETE, (deleteContentSelectorRequest cs.Spec.Name).url)) ∧
        (∀ fs ∈ recordWrites new, fs = withoutFinalizer cs.ObjectMeta) ∧
        statusWrites new = [] ∧
        r.Spec = cs.Spec ∧ r.Conditions = cs.Conditions ∧
        (r.ObjectMeta.Finalizers = cs.ObjectMeta.Finalizers ∨
          r.ObjectMeta.Finalizers = withoutFinalizer cs.ObjectMeta)) := by
  refine ⟨?_, ?_, ?_, ?_⟩
  · intro repo hdel
    refine ⟨RepositoryReconcile_deleting w s repo hdel, ?_⟩
    rw [RepositoryReconcile_deleting w s repo hdel]
    simp only [Outcome.withRecord]
    rcases finalizeRepository_cases w s repo with ⟨_, h3, h4, _⟩ | ⟨_, e, _, h3, h4, _⟩ |
      ⟨_, _, e, _, _, h3, h4, _⟩ | ⟨_, _, _, h3, h4, _⟩
    · exact ⟨_, _, h4, rfl, by simp [remoteCalls], by simp [recordWrites],
        by simp [statusWrites], by rw [h3], by rw [h3], Or.inr (by rw [h3])⟩
    · exact ⟨[], _, by simpa using h4, rfl, by simp [remoteCalls], by simp [recordWrites],
        by simp [statusWrites], by rw [h3], by rw [h3], Or.inl (by rw [h3])⟩
    · exact ⟨_, _, h4, rfl, by simp [remoteCalls, deleteRepositoryRequest],
        by simp [recordWrites], by simp [statusWrites], by rw [h3], by rw [h3],
        Or.inl (by rw [h3])⟩
    · exact ⟨_, _, h4, rfl, by simp [remoteCalls, deleteRepositoryRequest],
        by simp [recordWrites], by simp [statusWrites], by rw [h3], by rw [h3],
        Or.inr (by rw [h3])⟩
  · intro privilege hdel
    refine ⟨PrivilegeReconcile_deleting w s privilege hdel, ?_⟩
    rw [PrivilegeReconcile_deleting w s privilege hdel]
    simp only [Outcome.withRecord]
    rcases finalizePrivilege_cases w s privilege with ⟨e, _, h3, h4, _⟩ |
      ⟨_, e, _, _, h3, h4, _⟩ | ⟨_, _, h3, h4, _⟩
    · exact ⟨[], _, by simpa using h4, rfl, by simp [remoteCalls], by simp [recordWrites],
        by simp [statusWrites], by rw [h3], by rw [h3], Or.inl (by rw [h3])⟩
    · exact ⟨_, _, h4, rfl, by simp [remoteCalls, deletePrivilegeRequest],
        by simp [recordWrites], by simp [statusWrites], by rw [h3], by rw [h3],
        Or.inl (by rw [h3])⟩
    · exact ⟨_, _, h4, rfl, by simp [remoteCalls, deletePrivilegeRequest],
        by simp [recordWrites], by simp [statusWrites], by rw [h3], by rw [h3],
        Or.inr (by rw [h3])⟩
  · intro role hdel
    refine ⟨RoleReconcile_deleting w s role hdel, ?_⟩
    rw [RoleReconcile_deleting w s role hdel]
    simp only [Outcome.withRecord]
    rcases finalizeRole_cases w s role with ⟨e, _, h3, h4, _⟩ |
      ⟨_, e, _, _, h3, h4, _⟩ | ⟨_, _, h3, h4, _⟩
    · exact ⟨[], _, by simpa using h4, rfl, by simp [remoteCalls], by simp [recordWrites],
        by simp [statusWrites], by rw [h3], by rw [h3], Or.inl (by rw [h3])⟩
    · exact ⟨_, _, h4, rfl, by simp [remoteCalls, deleteRoleRequest],
        by simp [recordWrites], by simp [statusWrites], by rw [h3], by rw [h3],
        Or.inl (by rw [h3])⟩
    · exact ⟨_, _, h4, rfl, by simp [remoteCalls, deleteRoleRequest],
        by simp [recordWrites], by simp [statusWrites], by rw [h3], by rw [h3],
        Or.inr (by rw [h3])⟩
  · intro cs hdel
    refine ⟨ContentSelectorReconcile_deleting w s cs hdel, ?_⟩
    rw [ContentSelectorReconcile_deleting w s cs hdel]
    simp only [Outcome.withRecord]
    rcases finalizeContentSelector_cases w s cs with ⟨e, _, h3, h4, _⟩ |
      ⟨_, e, _, _, h3, h4, _⟩ | ⟨_, _, h3, h4, _⟩
    · exact ⟨[], _, by simpa using h4, rfl, by simp [remoteCalls], by simp [recordWrites],
        by simp [statusWrites], by rw [h3], by rw [h3], Or.inl (by rw [h3])⟩
    · exact ⟨_, _, h4, rfl, by simp [remoteCalls, deleteContentSelectorRequest],
        by simp [recordWrites], by simp [statusWrites], by rw [h3], by rw [h3],
        Or.inl (by rw [h3])⟩
    · exact ⟨_, _, h4, rfl, by simp [remoteCalls, deleteContentSelectorRequest],
        by simp [recordWrites], by simp [statusWrites], by rw [h3], by rw [h3],
        Or.inr (by rw [h3])⟩

/-- C10 at a concrete record: a repository under deletion whose finalizer list
lacks the controller's finalizer, against a remote that would answer a GET
with 200. -/
theorem C10_deleting_record_runs_only_deletion_path_witness :
    ({ deletingRepository with
        ObjectMeta := { deletingMeta with Finalizers := [] } } :
      Repository).ObjectMeta.deletionTimestampIsZero = false ∧
    RepositoryReconciler.Reconcile scenarioWorld readyState
        (Except.ok { deletingRepository with
          ObjectMeta := { deletingMeta with Finalizers := [] } }) =
      (RepositoryReconciler.finalizeRepository scenarioWorld readyState
        { deletingRepository with
          ObjectMeta := { deletingMeta with Finalizers := [] } }).withRecord :=
  ⟨by decide,
   ((C10_deleting_record_runs_only_deletion_path scenarioWorld readyState).1
      { deletingRepository with ObjectMeta := { deletingMeta with Finalizers := [] } }
      (by decide)).1⟩

/-! ## Lemmas on the status reporter -/

/-- The two ways `RepositoryReconciler.updateStatus` can run: nothing happens
when the Ready condition is as the new one, and otherwise the condition is set
and the status written once. -/
theorem RepositoryUpdateStatus_cases (w : World) (s : State) (repo : Repository)
    (ready : Bool) (cause : Option GoError) :
    (readyConditionEquals repo.Status.Conditions
        (builtCondition repo.ObjectMeta.Generation ready cause repositorySuccessMessage) = true ∧
      (RepositoryReconciler.updateStatus w s repo ready cause).record = repo ∧
      (RepositoryReconciler.updateStatus w s repo ready cause).state = s ∧
      (RepositoryReconciler.updateStatus w s repo ready cause).ending =
        Ending.returned (if ready then Result.empty else requeueAfterThirtySeconds) none) ∨
    (readyConditionEquals repo.Status.Conditions
        (builtCondition repo.ObjectMeta.Generation ready cause repositorySuccessMessage) = false ∧
      (RepositoryReconciler.updateStatus w s repo ready cause).record =
        repo.withConditions (SetStatusCondition w.now repo.Status.Conditions
          (builtCondition repo.ObjectMeta.Generation ready cause repositorySuccessMessage)) ∧
      (RepositoryReconciler.updateStatus w s repo ready cause).state.trace =
        s.trace ++ [Event.statusUpdate (SetStatusCondition w.now repo.Status.Conditions
          (builtCondition repo.ObjectMeta.Generation ready cause repositorySuccessMessage))] ∧
      (RepositoryReconciler.updateStatus w s repo ready cause).ending =
        (match w.statusUpdate s.trace with
         | some e =>
             if e.isConflict then Ending.returned requeueNow none
             else Ending.returned Result.empty (some (e.wrap "ошибка обновления статуса"))
         | none =>
             Ending.returned (if ready then Result.empty else requeueAfterThirtySeconds) none)) := by
  unfold RepositoryReconciler.updateStatus
  cases ready with
  | true =>
    simp only [readyConditionEquals, builtCondition, repositorySuccessMessage, if_true,
      Repository.withConditions]
    cases hf : FindStatusCondition repo.Status.Conditions "Ready" with
    | none =>
      right
      simp only [storeStatusUpdate]
      cases hu : w.statusUpdate s.trace with
      | none => simp
      | some e => by_cases hc : e.isConflict = true <;> simp [hc, requeueNow]
    | some c =>
      simp only
      by_cases hb : (c.Status == "True" && c.Reason == "Success" &&
          c.Message == "Репозиторий успешно синхронизирован" &&
          c.ObservedGeneration == repo.ObjectMeta.Generation) = true
      · left
        simp [hb]
      · right
        simp only [Bool.not_eq_true] at hb
        simp only [hb, storeStatusUpdate]
        cases hu : w.statusUpdate s.trace with
        | none => simp
        | some e => by_cases hc : e.isConflict = true <;> simp [hc, requeueNow]
  | false =>
    simp only [readyConditionEquals, builtCondition, repositorySuccessMessage,
      Repository.withConditions, Bool.false_eq_true, if_false]
    cases hf : FindStatusCondition repo.Status.Conditions "Ready" with
    | none =>
      right
      simp only [storeStatusUpdate]
      cases hu : w.statusUpdate s.trace with
      | none => simp [requeueAfterThirtySeconds, requeueDelay]
      | some e => by_cases hc : e.isConflict = true <;> simp [hc, requeueNow]
    | some c =>
      simp only
      by_cases hb : (c.Status == "False" && c.Reason == "Error" &&
          c.Message == (match cause with | some e => e.msg | none => "") &&
          c.ObservedGeneration == repo.ObjectMeta.Generation) = true
      · left
        simp [hb, requeueAfterThirtySeconds, requeueDelay]
      · right
        simp only [Bool.not_eq_true] at hb
        simp only [hb, storeStatusUpdate]
        cases hu : w.statusUpdate s.trace with
        | none => simp [requeueAfterThirtySeconds, requeueDelay]
        | some e => by_cases hc : e.isConflict = true <;> simp [hc, requeueNow]


/-- The run of `PrivilegeReconciler.updateStatus` when it does not panic: the
condition is set and the status written once, whatever the conditions were. -/
theorem PrivilegeUpdateStatus_run (w : World) (s : State) (privilege : Privilege)
    (ready : Bool) (cause : Option GoError) (h : ready = true ∨ cause.isSome = true) :
    (PrivilegeReconciler.updateStatus w s privilege ready cause).record =
      privilege.withConditions (SetStatusCondition w.now privilege.Conditions
        (builtCondition privilege.ObjectMeta.Generation ready cause privilegeSuccessMessage)) ∧
    (PrivilegeReconciler.updateStatus w s privilege ready cause).state.trace =
      s.trace ++ [Event.statusUpdate (SetStatusCondition w.now privilege.Conditions
        (builtCondition privilege.ObjectMeta.Generation ready cause privilegeSuccessMessage))] ∧
    (PrivilegeReconciler.updateStatus w s privilege ready cause).ending =
      (match w.statusUpdate s.trace with
       | some e => Ending.returned Result.empty (some (e.wrap "ошибка обновления статуса"))
       | none =>
           Ending.returned (if ready then Result.empty else requeueAfterThirtySeconds) none) := by
  unfold PrivilegeReconciler.updateStatus
  cases ready with
  | true =>
    simp only [builtCondition, privilegeSuccessMessage, successReason, if_true, storeStatusUpdate,
      Privilege.withConditions]
    cases hu : w.statusUpdate s.trace <;> simp [requeueNow]
  | false =>
    cases cause with
    | none => simp at h
    | some e =>
      simp only [builtCondition, privilegeSuccessMessage, errorReason, Bool.false_eq_true, if_false,
        storeStatusUpdate, Privilege.withConditions]
      cases hu : w.statusUpdate s.trace <;>
        simp [requeueAfterThirtySeconds, requeueDelay, requeueNow]

/-- The call `PrivilegeReconciler.updateStatus` with `ready` false and a nil
cause panics on `cause.Error()` before anything is written. -/
theorem PrivilegeUpdateStatus_panic (w : World) (s : State) (privilege : Privilege) :
    (PrivilegeReconciler.updateStatus w s privilege false none).ending = Ending.panicked ∧
    (PrivilegeReconciler.updateStatus w s privilege false none).record = privilege ∧
    (PrivilegeReconciler.updateStatus w s privilege false none).state = s := by
  unfold PrivilegeReconciler.updateStatus
  simp

/-- The run of `RoleReconciler.updateStatus` when it does not panic: the
condition is set and the status written once, whatever the conditions were. -/
theorem RoleUpdateStatus_run (w : World) (s : State) (role : RoleCR)
    (ready : Bool) (cause : Option GoError) (h : ready = true ∨ cause.isSome = true) :
    (RoleReconciler.updateStatus w s role ready cause).record =
      role.withConditions (SetStatusCondition w.now role.Conditions
        (builtCondition role.ObjectMeta.Generation ready cause roleSuccessMessage)) ∧
    (RoleReconciler.updateStatus w s role ready cause).state.trace =
      s.trace ++ [Event.statusUpdate (SetStatusCondition w.now role.Conditions
        (builtCondition role.ObjectMeta.Generation ready cause roleSuccessMessage))] ∧
    (RoleReconciler.updateStatus w s role ready cause).ending =
      (match w.statusUpdate s.trace with
       | some e => Ending.returned requeueNow (some (e.wrap "ошибка обновления статуса"))
       | none =>
           Ending.returned (if ready then Result.empty else requeueAfterThirtySeconds) none) := by
  unfold RoleReconciler.updateStatus
  cases ready with
  | true =>
    simp only [builtCondition, roleSuccessMessage, successReason, if_true, storeStatusUpdate,
      RoleCR.withConditions]
    cases hu : w.statusUpdate s.trace <;> simp [requeueNow]
  | false =>
    cases cause with
    | none => simp at h
    | some e =>
      simp only [builtCondition, roleSuccessMessage, errorReason, Bool.false_eq_true, if_false,
        storeStatusUpdate, RoleCR.withConditions]
      cases hu : w.statusUpdate s.trace <;>
        simp [requeueAfterThirtySeconds, requeueDelay, requeueNow]

/-- The call `RoleReconciler.updateStatus` with `ready` false and a nil
cause panics on `cause.Error()` before anything is written. -/
theorem RoleUpdateStatus_panic (w : World) (s : State) (role : RoleCR) :
    (RoleReconciler.updateStatus w s role false none).ending = Ending.panicked ∧
    (RoleReconciler.updateStatus w s role false none).record = role ∧
    (RoleReconciler.updateStatus w s role false none).state = s := by
  unfold RoleReconciler.updateStatus
  simp

/-- The run of `ContentSelectorReconciler.updateStatus` when it does not panic: the
condition is set and the status written once, whatever the conditions were. -/
theorem ContentSelectorUpdateStatus_run (w : World) (s : State) (cs : ContentSelector)
    (ready : Bool) (cause : Option GoError) (h : ready = true ∨ cause.isSome = true) :
    (ContentSelectorReconciler.updateStatus w s cs ready cause).record =
      cs.withConditions (SetStatusCondition w.now cs.Conditions
        (builtCondition cs.ObjectMeta.Generation ready cause contentSelectorSuccessMessage)) ∧
    (ContentSelectorReconciler.updateStatus w s cs ready cause).state.trace =
      s.trace ++ [Event.statusUpdate (SetStatusCondition w.now cs.Conditions
        (builtCondition cs.ObjectMeta.Generation ready cause contentSelectorSuccessMessage))] ∧
    (ContentSelectorReconciler.updateStatus w s cs ready cause).ending =
      (match w.statusUpdate s.trace with
       | some e => Ending.returned Result.empty (some (e.wrap "ошибка обновления статуса"))
       | none =>
           Ending.returned (if ready then Result.empty else requeueAfterThirtySeconds) none) := by
  unfold ContentSelectorReconciler.updateStatus
  cases ready with
  | true =>
    simp only [builtCondition, contentSelectorSuccessMessage, successReason, if_true, storeStatusUpdate,
      ContentSelector.withConditions]
    cases hu : w.statusUpdate s.trace <;> simp [requeueNow]
  | false =>
    cases cause with
    | none => simp at h
    | some e =>
      simp only [builtCondition, contentSelectorSuccessMessage, errorReason, Bool.false_eq_true, if_false,
        storeStatusUpdate, ContentSelector.withConditions]
      cases hu : w.statusUpdate s.trace <;>
        simp [requeueAfterThirtySeconds, requeueDelay, requeueNow]

/-- The call `ContentSelectorReconciler.updateStatus` with `ready` false and a nil
cause panics on `cause.Error()` before anything is written. -/
theorem ContentSelectorUpdateStatus_panic (w : World) (s : State) (cs : ContentSelector) :
    (ContentSelectorReconciler.updateStatus w s cs false none).ending = Ending.panicked ∧
    (ContentSelectorReconciler.updateStatus w s cs false none).record = cs ∧
    (ContentSelectorReconciler.updateStatus w s cs false none).state = s := by
  unfold ContentSelectorReconciler.updateStatus
  simp

/-- C13: for each of the four kinds, when the status write succeeds,
`updateStatus` returns no requeue and no error if `ready` is true, and a requeue
after exactly 30 seconds and no error if `ready` is false, whatever the cause
is. -/
theorem C13_requeue_after_status_write (w : World) (s : State)
    (hw : w.statusUpdate s.trace = none) :
    (∀ (repo : Repository) (cause : Option GoError),
      (RepositoryReconciler.updateStatus w s repo true cause).ending =
        Ending.returned { Requeue := false, RequeueAfter := 0 } none ∧
      (RepositoryReconciler.updateStatus w s repo false cause).ending =
        Ending.returned { Requeue := false, RequeueAfter := 30 * timeSecond } none) ∧
    (∀ (privilege : Privilege) (cause : Option GoError) (e : GoError),
      (PrivilegeReconciler.updateStatus w s privilege true cause).ending =
        Ending.returned { Requeue := false, RequeueAfter := 0 } none ∧
      (PrivilegeReconciler.updateStatus w s privilege false (some e)).ending =
        Ending.returned { Requeue := false, RequeueAfter := 30 * timeSecond } none) ∧
    (∀ (role : RoleCR) (cause : Option GoError) (e : GoError),
      (RoleReconciler.updateStatus w s role true cause).ending =
        Ending.returned { Requeue := false, RequeueAfter := 0 } none ∧
      (RoleReconciler.updateStatus w s role false (some e)).ending =
        Ending.returned { Requeue := false, RequeueAfter := 30 * timeSecond } none) ∧
    (∀ (cs : ContentSelector) (cause : Option GoError) (e : GoError),
      (ContentSelectorReconciler.updateStatus w s cs true cause).ending =
        Ending.returned { Requeue := false, RequeueAfter := 0 } none ∧
      (ContentSelectorReconciler.updateStatus w s cs false (some e)).ending =
        Ending.returned { Requeue := false, RequeueAfter := 30 * timeSecond } none) := by
  refine ⟨?_, ?_, ?_, ?_⟩
  · intro repo cause
    constructor
    · rcases RepositoryUpdateStatus_cases w s repo true cause with ⟨_, _, _, h⟩ | ⟨_, _, _, h⟩
      · rw [h]; rfl
      · rw [h, hw]; rfl
    · rcases RepositoryUpdateStatus_cases w s repo false cause with ⟨_, _, _, h⟩ | ⟨_, _, _, h⟩
      · rw [h]; rfl
      · rw [h, hw]; rfl
  · intro privilege cause e
    constructor
    · rw [(PrivilegeUpdateStatus_run w s privilege true cause (Or.inl rfl)).2.2, hw]; rfl
    · rw [(PrivilegeUpdateStatus_run w s privilege false (some e) (Or.inr rfl)).2.2, hw]; rfl
  · intro role cause e
    constructor
    · rw [(RoleUpdateStatus_run w s role true cause (Or.inl rfl)).2.2, hw]; rfl
    · rw [(RoleUpdateStatus_run w s role false (some e) (Or.inr rfl)).2.2, hw]; rfl
  · intro cs cause e
    constructor
    · rw [(ContentSelectorUpdateStatus_run w s cs true cause (Or.inl rfl)).2.2, hw]; rfl
    · rw [(ContentSelectorUpdateStatus_run w s cs false (some e) (Or.inr rfl)).2.2, hw]; rfl

/-- C13 at concrete causes: a validation error and a remote error give the same
requeue after 30 seconds, that is 30000000000 nanoseconds. -/
theorem C13_requeue_after_status_write_witness :
    notFoundWorld.statusUpdate readyState.trace = none ∧
    (PrivilegeReconciler.updateStatus notFoundWorld readyState settledPrivilege false
      (some Sentinel.ErrWildcardConfigRequired.toError)).ending =
      Ending.returned { Requeue := false, RequeueAfter := 30 * timeSecond } none ∧
    (PrivilegeReconciler.updateStatus notFoundWorld readyState settledPrivilege false
      (some (NewUnexpectedResponseError 500 "boom"))).ending =
      Ending.returned { Requeue := false, RequeueAfter := 30 * timeSecond } none ∧
    30 * timeSecond = 30000000000 := by
  have h := (C13_requeue_after_status_write notFoundWorld readyState (by decide)).2.1
    settledPrivilege none
  exact ⟨by decide, (h Sentinel.ErrWildcardConfigRequired.toError).2,
    (h (NewUnexpectedResponseError 500 "boom")).2, by decide⟩

/-- C14 at records that already carry the very Ready condition being built: the
repository reconciler writes nothing, while the privilege, role and
content-selector reconcilers each write the unchanged status once. -/
theorem C14_unchanged_status_is_written :
    statusWrites (RepositoryReconciler.updateStatus notFoundWorld readyState settledRepository
      true none).state.trace = [] ∧
    readyConditionEquals settledPrivilege.Conditions
      (builtCondition settledPrivilege.ObjectMeta.Generation true none
        privilegeSuccessMessage) = true ∧
    statusWrites (PrivilegeReconciler.updateStatus notFoundWorld readyState settledPrivilege
      true none).state.trace = [settledPrivilege.Conditions] ∧
    readyConditionEquals settledRole.Conditions
      (builtCondition settledRole.ObjectMeta.Generation true none roleSuccessMessage) = true ∧
    statusWrites (RoleReconciler.updateStatus notFoundWorld readyState settledRole
      true none).state.trace = [settledRole.Conditions] ∧
    readyConditionEquals settledContentSelector.Conditions
      (builtCondition settledContentSelector.ObjectMeta.Generation true none
        contentSelectorSuccessMessage) = true ∧
    statusWrites (ContentSelectorReconciler.updateStatus notFoundWorld readyState
      settledContentSelector true none).state.trace = [settledContentSelector.Conditions] := by
  refine ⟨by decide, by decide, by decide, by decide, by decide, by decide, by decide⟩

/-- Status writes of the four kinds: `RepositoryReconciler.updateStatus` performs no status write
when the record's Ready condition has the status, reason, message and observed
generation of the newly built one, and writes the status once when one of them
differs or no Ready condition exists; the `updateStatus` of the privilege, role
and content-selector reconcilers writes the status once in every call that
builds a condition, whatever the record's conditions are. -/
theorem status_write_per_kind (w : World) (s : State) :
    (∀ (repo : Repository) (ready : Bool) (cause : Option GoError),
      (readyConditionEquals repo.Status.Conditions
          (builtCondition repo.ObjectMeta.Generation ready cause repositorySuccessMessage) =
            true →
        (RepositoryReconciler.updateStatus w s repo ready cause).state.trace = s.trace) ∧
      (readyConditionEquals repo.Status.Conditions
          (builtCondition repo.ObjectMeta.Generation ready cause repositorySuccessMessage) =
            false →
        (RepositoryReconciler.updateStatus w s repo ready cause).state.trace =
          s.trace ++ [Event.statusUpdate (SetStatusCondition w.now repo.Status.Conditions
            (builtCondition repo.ObjectMeta.Generation ready cause
              repositorySuccessMessage))])) ∧
    (∀ (privilege : Privilege) (ready : Bool) (cause : Option GoError),
      ready = true ∨ cause.isSome = true →
      (PrivilegeReconciler.updateStatus w s privilege ready cause).state.trace =
        s.trace ++ [Event.statusUpdate (SetStatusCondition w.now privilege.Conditions
          (builtCondition privilege.ObjectMeta.Generation ready cause
            privilegeSuccessMessage))]) ∧
    (∀ (role : RoleCR) (ready : Bool) (cause : Option GoError),
      ready = true ∨ cause.isSome = true →
      (RoleReconciler.updateStatus w s role ready cause).state.trace =
        s.trace ++ [Event.statusUpdate (SetStatusCondition w.now role.Conditions
          (builtCondition role.ObjectMeta.Generation ready cause roleSuccessMessage))]) ∧
    (∀ (cs : ContentSelector) (ready : Bool) (cause : Option GoError),
      ready = true ∨ cause.isSome = true →
      (ContentSelectorReconciler.updateStatus w s cs ready cause).state.trace =
        s.trace ++ [Event.statusUpdate (SetStatusCondition w.now cs.Conditions
          (builtCondition cs.ObjectMeta.Generation ready cause
            contentSelectorSuccessMessage))]) := by
  refine ⟨?_, ?_, ?_, ?_⟩
  · intro repo ready cause
    rcases RepositoryUpdateStatus_cases w s repo ready cause with ⟨h0, _, h2, _⟩ | ⟨h0, _, h2, _⟩
    · refine ⟨fun _ => by rw [h2], fun hf => ?_⟩
      rw [h0] at hf
      cases hf
    · refine ⟨fun ht => ?_, fun _ => h2⟩
      rw [h0] at ht
      cases ht
  · intro privilege ready cause h
    exact (PrivilegeUpdateStatus_run w s privilege ready cause h).2.1
  · intro role ready cause h
    exact (RoleUpdateStatus_run w s role ready cause h).2.1
  · intro cs ready cause h
    exact (ContentSelectorUpdateStatus_run w s cs ready cause h).2.1

/-- C15: `RepositoryReconciler.updateStatus` on a record whose Ready condition
already has the status, reason, message and observed generation of the new one
writes nothing and leaves the record as it is; with `ready` false it still
returns a requeue after 30 seconds and no error, with `ready` true no requeue
and no error. -/
theorem C15_repository_unchanged_status (w : World) (s : State) (repo : Repository)
    (cause : Option GoError) :
    (readyConditionEquals repo.Status.Conditions
        (builtCondition repo.ObjectMeta.Generation false cause repositorySuccessMessage) =
          true →
      (RepositoryReconciler.updateStatus w s repo false cause).state = s ∧
      (RepositoryReconciler.updateStatus w s repo false cause).record = repo ∧
      (RepositoryReconciler.updateStatus w s repo false cause).ending =
        Ending.returned { Requeue := false, RequeueAfter := 30 * timeSecond } none) ∧
    (readyConditionEquals repo.Status.Conditions
        (builtCondition repo.ObjectMeta.Generation true cause repositorySuccessMessage) =
          true →
      (RepositoryReconciler.updateStatus w s repo true cause).state = s ∧
      (RepositoryReconciler.updateStatus w s repo true cause).record = repo ∧
      (RepositoryReconciler.updateStatus w s repo true cause).ending =
        Ending.returned { Requeue := false, RequeueAfter := 0 } none) := by
  constructor
  · intro h
    rcases RepositoryUpdateStatus_cases w s repo false cause with ⟨_, h1, h2, h3⟩ | ⟨h0, _⟩
    · exact ⟨h2, h1, by rw [h3]; rfl⟩
    · rw [h0] at h
      cases h
  · intro h
    rcases RepositoryUpdateStatus_cases w s repo true cause with ⟨_, h1, h2, h3⟩ | ⟨h0, _⟩
    · exact ⟨h2, h1, by rw [h3]; rfl⟩
    · rw [h0] at h
      cases h

/-- C15 at concrete records: a repository whose last pass failed with the same
error, in a world whose status writes would fail, and a settled one. -/
theorem C15_repository_unchanged_status_witness :
    (RepositoryReconciler.updateStatus conflictWorld readyState
      (settledRepository.withConditions
        [{ Type_ := "Ready", Status := "False", ObservedGeneration := 3,
           LastTransitionTime := 50, Reason := "Error", Message := "boom" }])
      false (some { msg := "boom", sentinel := none, reason := none })).ending =
      Ending.returned { Requeue := false, RequeueAfter := 30 * timeSecond } none ∧
    (RepositoryReconciler.updateStatus conflictWorld readyState settledRepository
      true none).ending = Ending.returned { Requeue := false, RequeueAfter := 0 } none :=
  ⟨((C15_repository_unchanged_status conflictWorld readyState
      (settledRepository.withConditions
        [{ Type_ := "Ready", Status := "False", ObservedGeneration := 3,
           LastTransitionTime := 50, Reason := "Error", Message := "boom" }])
      (some { msg := "boom", sentinel := none, reason := none })).1 (by decide)).2.2,
   ((C15_repository_unchanged_status conflictWorld readyState settledRepository none).2
      (by decide)).2.2⟩

/-- C16 in a world whose status writes conflict: the repository reconciler
returns an immediate requeue and no error, while the privilege and
content-selector reconcilers return the wrapped conflict as an error with an
empty directive, and the role reconciler returns it as an error next to the
requeue flag. -/
theorem C16_conflict_is_returned_as_error :
    conflictError.isConflict = true ∧
    (RepositoryReconciler.updateStatus conflictWorld readyState settledRepository false
      (some (NewUnexpectedResponseError 500 "boom"))).ending =
      Ending.returned requeueNow none ∧
    (PrivilegeReconciler.updateStatus conflictWorld readyState settledPrivilege
      true none).ending =
      Ending.returned Result.empty (some (conflictError.wrap "ошибка обновления статуса")) ∧
    (ContentSelectorReconciler.updateStatus conflictWorld readyState settledContentSelector
      true none).ending =
      Ending.returned Result.empty (some (conflictError.wrap "ошибка обновления статуса")) ∧
    (RoleReconciler.updateStatus conflictWorld readyState settledRole true none).ending =
      Ending.returned requeueNow (some (conflictError.wrap "ошибка обновления статуса")) := by
  refine ⟨by decide, by decide, by decide, by decide, by decide⟩

/-- Conflicts of the four kinds: when writing the status fails with a conflict,
`RepositoryReconciler.updateStatus` returns an immediate requeue and no error;
the privilege and content-selector reconcilers return the wrapped error with an
empty directive, and the role reconciler returns the wrapped error together
with an immediate requeue. -/
theorem conflict_per_kind (w : World) (s : State) (e : GoError)
    (hu : w.statusUpdate s.trace = some e) (hc : e.isConflict = true) :
    (∀ (repo : Repository) (ready : Bool) (cause : Option GoError),
      readyConditionEquals repo.Status.Conditions
        (builtCondition repo.ObjectMeta.Generation ready cause repositorySuccessMessage) =
          false →
      (RepositoryReconciler.updateStatus w s repo ready cause).ending =
        Ending.returned { Requeue := true, RequeueAfter := 0 } none) ∧
    (∀ (privilege : Privilege) (ready : Bool) (cause : Option GoError),
      ready = true ∨ cause.isSome = true →
      (PrivilegeReconciler.updateStatus w s privilege ready cause).ending =
        Ending.returned { Requeue := false, RequeueAfter := 0 }
          (some (e.wrap "ошибка обновления статуса"))) ∧
    (∀ (role : RoleCR) (ready : Bool) (cause : Option GoError),
      ready = true ∨ cause.isSome = true →
      (RoleReconciler.updateStatus w s role ready cause).ending =
        Ending.returned { Requeue := true, RequeueAfter := 0 }
          (some (e.wrap "ошибка обновления статуса"))) ∧
    (∀ (cs : ContentSelector) (ready : Bool) (cause : Option GoError),
      ready = true ∨ cause.isSome = true →
      (ContentSelectorReconciler.updateStatus w s cs ready cause).ending =
        Ending.returned { Requeue := false, RequeueAfter := 0 }
          (some (e.wrap "ошибка обновления статуса"))) := by
  refine ⟨?_, ?_, ?_, ?_⟩
  · intro repo ready cause hne
    rcases RepositoryUpdateStatus_cases w s repo ready cause with ⟨h0, _⟩ | ⟨_, _, _, h⟩
    · rw [h0] at hne
      cases hne
    · rw [h, hu]
      simp [hc, requeueNow]
  · intro privilege ready cause h
    rw [(PrivilegeUpdateStatus_run w s privilege ready cause h).2.2, hu]
    rfl
  · intro role ready cause h
    rw [(RoleUpdateStatus_run w s role ready cause h).2.2, hu]
    rfl
  · intro cs ready cause h
    rw [(ContentSelectorUpdateStatus_run w s cs ready cause h).2.2, hu]
    rfl

/-- C12: for a repository record under deletion, when the setting
`ENABLE_REPOSITORY_DELETION` is anything but exactly `"true"` (an unset
variable reads as the empty string), `finalizeRepository` makes no remote call,
takes the finalizer off the record and persists it; when the setting is exactly
`"true"` and the client is available, the remote delete is called exactly once,
as the first event of the pass, and a record write, if any, comes after it and
is the one that drops the finalizer; without a client nothing is called or
written. -/
theorem C12_soft_delete_skips_remote_delete (w : World) (s : State) (repo : Repository) :
    (w.getenv "ENABLE_REPOSITORY_DELETION" ≠ "true" →
      ∃ new, (RepositoryReconciler.finalizeRepository w s repo).state.trace = s.trace ++ new ∧
        remoteCalls new = [] ∧
        recordWrites new = [withoutFinalizer repo.ObjectMeta] ∧
        (RepositoryReconciler.finalizeRepository w s repo).record.ObjectMeta.Finalizers =
          withoutFinalizer repo.ObjectMeta ∧
        containsString
          (RepositoryReconciler.finalizeRepository w s repo).record.ObjectMeta.Finalizers
          finalizerName = false) ∧
    (w.getenv "ENABLE_REPOSITORY_DELETION" = "true" →
      ((GetClient w s).1 = none →
        ∃ rest, (RepositoryReconciler.finalizeRepository w s repo).state.trace =
            s.trace ++ Event.http (deleteRepositoryRequest repo.Spec.Name) :: rest ∧
          remoteCalls rest = [] ∧
          (rest = [] ∧ (RepositoryReconciler.finalizeRepository w s repo).record = repo ∨
           rest = [Event.update (withoutFinalizer repo.ObjectMeta)] ∧
             (RepositoryReconciler.finalizeRepository w s repo).record.ObjectMeta.Finalizers =
               withoutFinalizer repo.ObjectMeta)) ∧
      ((GetClient w s).1 ≠ none →
        (RepositoryReconciler.finalizeRepository w s repo).state.trace = s.trace ∧
        (RepositoryReconciler.finalizeRepository w s repo).record = repo ∧
        ∃ e, (RepositoryReconciler.finalizeRepository w s repo).ending =
          Ending.returned Result.empty (some e))) := by
  rcases finalizeRepository_cases w s repo with
    ⟨henv, hr, ht, _⟩ | ⟨henv, e, hg, hr, ht, he⟩ | ⟨henv, hg, e, _, _, hr, ht, _⟩ |
    ⟨henv, hg, _, hr, ht, _⟩
  · refine ⟨fun _ => ⟨_, ht, rfl, rfl, ?_, ?_⟩, fun h => absurd h henv⟩
    · rw [hr]
    · rw [hr]
      exact containsString_removeString _ _
  · refine ⟨fun h => absurd henv h, fun _ => ⟨fun h => ?_, fun _ => ⟨ht, hr, _, he⟩⟩⟩
    rw [hg] at h
    cases h
  · refine ⟨fun h => absurd henv h, fun _ => ⟨fun _ => ⟨[], ht, rfl, Or.inl ⟨rfl, hr⟩⟩,
      fun h => absurd hg h⟩⟩
  · refine ⟨fun h => absurd henv h, fun _ => ⟨fun _ => ⟨_, ht, rfl, Or.inr ⟨rfl, ?_⟩⟩,
      fun h => absurd hg h⟩⟩
    rw [hr]

/-- C12 at concrete worlds: with the setting unset and with the setting
`"TRUE"` the pass holds the record write alone; with `"true"` the delete call
comes first. -/
theorem C12_soft_delete_skips_remote_delete_witness :
    (RepositoryReconciler.finalizeRepository softDeleteWorld readyState
      deletingRepository).state.trace = [Event.update ["other"]] ∧
    (RepositoryReconciler.finalizeRepository upperCaseSettingWorld readyState
      deletingRepository).state.trace = [Event.update ["other"]] ∧
    (RepositoryReconciler.finalizeRepository notFoundWorld readyState
      deletingRepository).state.trace =
      [Event.http (deleteRepositoryRequest "r1"), Event.update ["other"]] ∧
    (∃ new, (RepositoryReconciler.finalizeRepository softDeleteWorld readyState
        deletingRepository).state.trace = readyState.trace ++ new ∧
      remoteCalls new = [] ∧
      recordWrites new = [withoutFinalizer deletingRepository.ObjectMeta] ∧
      (RepositoryReconciler.finalizeRepository softDeleteWorld readyState
        deletingRepository).record.ObjectMeta.Finalizers =
        withoutFinalizer deletingRepository.ObjectMeta ∧
      containsString
        (RepositoryReconciler.finalizeRepository softDeleteWorld readyState
          deletingRepository).record.ObjectMeta.Finalizers
        finalizerName = false) ∧
    (∃ rest, (RepositoryReconciler.finalizeRepository notFoundWorld readyState
        deletingRepository).state.trace =
        readyState.trace ++
          Event.http (deleteRepositoryRequest deletingRepository.Spec.Name) :: rest ∧
      remoteCalls rest = [] ∧
      (rest = [] ∧ (RepositoryReconciler.finalizeRepository notFoundWorld readyState
          deletingRepository).record = deletingRepository ∨
       rest = [Event.update (withoutFinalizer deletingRepository.ObjectMeta)] ∧
         (RepositoryReconciler.finalizeRepository notFoundWorld readyState
           deletingRepository).record.ObjectMeta.Finalizers =
           withoutFinalizer deletingRepository.ObjectMeta)) :=
  ⟨rfl, rfl, rfl,
   (C12_soft_delete_skips_remote_delete softDeleteWorld readyState deletingRepository).1
     (by decide),
   ((C12_soft_delete_skips_remote_delete notFoundWorld readyState deletingRepository).2
     (by decide)).1 (by decide)⟩

/-! ## Lemmas on the order of events -/

theorem recordWrites_append (a b : List Event) :
    recordWrites (a ++ b) = recordWrites a ++ recordWrites b := by
  induction a with
  | nil => rfl
  | cons e a ih => cases e <;> simp [recordWrites, ih]

theorem remoteCalls_append (a b : List Event) :
    remoteCalls (a ++ b) = remoteCalls a ++ remoteCalls b := by
  induction a with
  | nil => rfl
  | cons e a ih => cases e <;> simp [remoteCalls, ih]

theorem continues_refl (s : State) : continuesWithoutWrite s s :=
  ⟨[], by simp, rfl⟩

theorem continues_of_trace_eq {s s' : State} (h : s'.trace = s.trace) :
    continuesWithoutWrite s s' :=
  ⟨[], by simp [h], rfl⟩

theorem continues_trans {a b c : State} (h1 : continuesWithoutWrite a b)
    (h2 : continuesWithoutWrite b c) : continuesWithoutWrite a c := by
  obtain ⟨n1, e1, r1⟩ := h1
  obtain ⟨n2, e2, r2⟩ := h2
  exact ⟨n1 ++ n2, by rw [e2, e1, List.append_assoc], by rw [recordWrites_append, r1, r2]; rfl⟩

theorem continues_send (w : World) (s : State) (req : Request) :
    continuesWithoutWrite s (send w s req).2 :=
  ⟨[Event.http req], rfl, rfl⟩

theorem continues_http (s : State) (req : Request) :
    continuesWithoutWrite s { s with trace := s.trace ++ [Event.http req] } :=
  ⟨[Event.http req], rfl, rfl⟩

theorem continues_statusUpdate (w : World) (s : State) (cs : List Condition) :
    continuesWithoutWrite s (storeStatusUpdate w s cs).2 :=
  ⟨[Event.statusUpdate cs], rfl, rfl⟩

theorem GetClient_continues {w : World} {s s1 : State} {e : Option GoError}
    (h : GetClient w s = (e, s1)) : continuesWithoutWrite s s1 := by
  have ht := GetClient_trace w s
  rw [h] at ht
  exact continues_of_trace_eq ht

theorem GetRepository_continues {w : World} {s s1 : State} {name : String}
    {r : Except GoError GoMap} (h : GetRepository w s name = (r, s1)) :
    continuesWithoutWrite s s1 := by
  have : continuesWithoutWrite s (GetRepository w s name).2 := by
    unfold GetRepository send
    dsimp only
    repeat' split
    all_goals exact continues_http _ _
  rw [h] at this
  exact this

theorem CreateRepository_continues {w : World} {s s1 : State} {repoType : String}
    {config : Config} {r : Option GoError} (h : CreateRepository w s repoType config = (r, s1)) :
    continuesWithoutWrite s s1 := by
  have : continuesWithoutWrite s (CreateRepository w s repoType config).2 := by
    unfold CreateRepository send
    dsimp only
    repeat' split
    all_goals first | exact continues_refl _ | exact continues_http _ _
  rw [h] at this
  exact this

theorem UpdateRepository_continues {w : World} {s s1 : State} {repoType name : String}
    {config : Config} {r : Option GoError}
    (h : UpdateRepository w s repoType name config = (r, s1)) :
    continuesWithoutWrite s s1 := by
  have : continuesWithoutWrite s (UpdateRepository w s repoType name config).2 := by
    unfold UpdateRepository send
    dsimp only
    repeat' split
    all_goals first | exact continues_refl _ | exact continues_http _ _
  rw [h] at this
  exact this

theorem GetPrivilege_continues {w : World} {s s1 : State} {name : String}
    {r : Except GoError GoMap} (h : GetPrivilege w s name = (r, s1)) :
    continuesWithoutWrite s s1 := by
  have : continuesWithoutWrite s (GetPrivilege w s name).2 := by
    unfold GetPrivilege send
    dsimp only
    repeat' split
    all_goals exact continues_http _ _
  rw [h] at this
  exact this

theorem PrivilegeExists_continues {w : World} {s s1 : State} {name : String}
    {r : Except GoError Bool} (h : PrivilegeExists w s name = (r, s1)) :
    continuesWithoutWrite s s1 := by
  unfold PrivilegeExists at h
  rcases hg : GetPrivilege w s name with ⟨g, s2⟩
  have hc := GetPrivilege_continues hg
  rw [hg] at h
  cases g with
  | error e =>
    dsimp only at h
    split at h <;> (cases h; exact hc)
  | ok v =>
    cases h
    exact hc

theorem CreatePrivilege_continues {w : World} {s s1 : State} {config : Config}
    {r : Option GoError} (h : CreatePrivilege w s config = (r, s1)) :
    continuesWithoutWrite s s1 := by
  have : continuesWithoutWrite s (CreatePrivilege w s config).2 := by
    unfold CreatePrivilege send
    dsimp only
    repeat' split
    all_goals first | exact continues_refl _ | exact continues_http _ _
  rw [h] at this
  exact this

theorem UpdatePrivilege_continues {w : World} {s s1 : State} {name : String} {config : Config}
    {r : Option GoError} (h : UpdatePrivilege w s name config = (r, s1)) :
    continuesWithoutWrite s s1 := by
  have : continuesWithoutWrite s (UpdatePrivilege w s name config).2 := by
    unfold UpdatePrivilege send
    dsimp only
    repeat' split
    all_goals first | exact continues_refl _ | exact continues_http _ _
  rw [h] at this
  exact this

theorem GetRole_continues {w : World} {s s1 : State} {roleID : String}
    {r : Except GoError Role} (h : GetRole w s roleID = (r, s1)) :
    continuesWithoutWrite s s1 := by
  have : continuesWithoutWrite s (GetRole w s roleID).2 := by
    unfold GetRole send
    dsimp only
    repeat' split
    all_goals exact continues_http _ _
  rw [h] at this
  exact this

theorem RoleExists_continues {w : World} {s s1 : State} {roleID : String}
    {r : Except GoError Bool} (h : RoleExists w s roleID = (r, s1)) :
    continuesWithoutWrite s s1 := by
  unfold RoleExists at h
  rcases hg : GetRole w s roleID with ⟨g, s2⟩
  have hc := GetRole_continues hg
  rw [hg] at h
  cases g with
  | error e =>
    dsimp only at h
    split at h <;> (cases h; exact hc)
  | ok v =>
    cases h
    exact hc

theorem UpdateRole_continues {w : World} {s s1 : State} {roleID : String} {role : Role}
    {r : Option GoError} (h : UpdateRole w s roleID role = (r, s1)) :
    continuesWithoutWrite s s1 := by
  have : continuesWithoutWrite s (UpdateRole w s roleID role).2 := by
    unfold UpdateRole send
    dsimp only
    repeat' split
    all_goals exact continues_http _ _
  rw [h] at this
  exact this

theorem CreateRole_continues {w : World} {s s1 : State} {role : Role}
    {r : Option GoError} (h : CreateRole w s role = (r, s1)) :
    continuesWithoutWrite s s1 := by
  unfold CreateRole at h
  rcases hg : RoleExists w s role.ID with ⟨g, s2⟩
  have hc := RoleExists_continues hg
  rw [hg] at h
  rcases g with e | b
  · cases h
    exact hc
  · cases b
    · have : continuesWithoutWrite s2 s1 := by
        dsimp only [send] at h
        repeat' split at h
        all_goals (cases h; exact continues_http _ _)
      exact continues_trans hc this
    · cases h
      exact hc

theorem GetContentSelector_continues {w : World} {s s1 : State} {name : String}
    {r : Except GoError ContentSelectorResponse} (h : GetContentSelector w s name = (r, s1)) :
    continuesWithoutWrite s s1 := by
  have : continuesWithoutWrite s (GetContentSelector w s name).2 := by
    unfold GetContentSelector send
    dsimp only
    repeat' split
    all_goals exact continues_http _ _
  rw [h] at this
  exact this

theorem ContentSelectorExists_continues {w : World} {s s1 : State} {name : String}
    {r : Except GoError Bool} (h : ContentSelectorExists w s name = (r, s1)) :
    continuesWithoutWrite s s1 := by
  have : continuesWithoutWrite s (ContentSelectorExists w s name).2 := by
    unfold ContentSelectorExists send
    dsimp only
    repeat' split
    all_goals exact continues_http _ _
  rw [h] at this
  exact this

theorem UpdateContentSelector_continues {w : World} {s s1 : State}
    {name description expression : String} {r : Option GoError}
    (h : UpdateContentSelector w s name description expression = (r, s1)) :
    continuesWithoutWrite s s1 := by
  have : continuesWithoutWrite s (UpdateContentSelector w s name description expression).2 := by
    unfold UpdateContentSelector send
    dsimp only
    repeat' split
    all_goals exact continues_http _ _
  rw [h] at this
  exact this

theorem CreateContentSelector_continues {w : World} {s s1 : State}
    {name description expression : String} {r : Option GoError}
    (h : CreateContentSelector w s name description expression = (r, s1)) :
    continuesWithoutWrite s s1 := by
  unfold CreateContentSelector at h
  rcases hg : ContentSelectorExists w s name with ⟨g, s2⟩
  have hc := ContentSelectorExists_continues hg
  rw [hg] at h
  rcases g with e | b
  · cases h
    exact hc
  · cases b
    · have : continuesWithoutWrite s2 s1 := by
        dsimp only [send] at h
        repeat' split at h
        all_goals (cases h; exact continues_http _ _)
      exact continues_trans hc this
    · cases h
      exact hc

/-- Whatever `RepositoryReconciler.updateStatus` does, it writes no record and
leaves the object metadata alone. -/
theorem RepositoryUpdateStatus_keeps {s0 : State} (w : World) (s : State) (repo : Repository)
    (ready : Bool) (cause : Option GoError) (h0 : continuesWithoutWrite s0 s) :
    continuesWithoutWrite s0 (RepositoryReconciler.updateStatus w s repo ready cause).state ∧
    (RepositoryReconciler.updateStatus w s repo ready cause).record.ObjectMeta =
      repo.ObjectMeta := by
  rcases RepositoryUpdateStatus_cases w s repo ready cause with ⟨_, hr, hs, _⟩ | ⟨_, hr, ht, _⟩
  · rw [hr, hs]
    exact ⟨h0, rfl⟩
  · rw [hr]
    exact ⟨continues_trans h0 ⟨_, ht, rfl⟩, rfl⟩

/-- Whatever `PrivilegeReconciler.updateStatus` does, it writes no record and leaves
the object metadata alone. -/
theorem PrivilegeUpdateStatus_keeps {s0 : State} (w : World) (s : State) (privilege : Privilege)
    (ready : Bool) (cause : Option GoError) (h0 : continuesWithoutWrite s0 s) :
    continuesWithoutWrite s0 (PrivilegeReconciler.updateStatus w s privilege ready cause).state ∧
    (PrivilegeReconciler.updateStatus w s privilege ready cause).record.ObjectMeta = privilege.ObjectMeta := by
  by_cases h : ready = true ∨ cause.isSome = true
  · obtain ⟨hr, ht, _⟩ := PrivilegeUpdateStatus_run w s privilege ready cause h
    rw [hr]
    exact ⟨continues_trans h0 ⟨_, ht, rfl⟩, rfl⟩
  · have hready : ready = false := by
      cases ready
      · rfl
      · exact absurd (Or.inl rfl) h
    have hcause : cause = none := by
      cases cause
      · rfl
      · exact absurd (Or.inr rfl) h
    subst hready
    subst hcause
    obtain ⟨_, hr, hs⟩ := PrivilegeUpdateStatus_panic w s privilege
    rw [hr, hs]
    exact ⟨h0, rfl⟩

/-- Whatever `RoleReconciler.updateStatus` does, it writes no record and leaves
the object metadata alone. -/
theorem RoleUpdateStatus_keeps {s0 : State} (w : World) (s : State) (role : RoleCR)
    (ready : Bool) (cause : Option GoError) (h0 : continuesWithoutWrite s0 s) :
    continuesWithoutWrite s0 (RoleReconciler.updateStatus w s role ready cause).state ∧
    (RoleReconciler.updateStatus w s role ready cause).record.ObjectMeta = role.ObjectMeta := by
  by_cases h : ready = true ∨ cause.isSome = true
  · obtain ⟨hr, ht, _⟩ := RoleUpdateStatus_run w s role ready cause h
    rw [hr]
    exact ⟨continues_trans h0 ⟨_, ht, rfl⟩, rfl⟩
  · have hready : ready = false := by
      cases ready
      · rfl
      · exact absurd (Or.inl rfl) h
    have hcause : cause = none := by
      cases cause
      · rfl
      · exact absurd (Or.inr rfl) h
    subst hready
    subst hcause
    obtain ⟨_, hr, hs⟩ := RoleUpdateStatus_panic w s role
    rw [hr, hs]
    exact ⟨h0, rfl⟩

/-- Whatever `ContentSelectorReconciler.updateStatus` does, it writes no record and leaves
the object metadata alone. -/
theorem ContentSelectorUpdateStatus_keeps {s0 : State} (w : World) (s : State) (cs : ContentSelector)
    (ready : Bool) (cause : Option GoError) (h0 : continuesWithoutWrite s0 s) :
    continuesWithoutWrite s0 (ContentSelectorReconciler.updateStatus w s cs ready cause).state ∧
    (ContentSelectorReconciler.updateStatus w s cs ready cause).record.ObjectMeta = cs.ObjectMeta := by
  by_cases h : ready = true ∨ cause.isSome = true
  · obtain ⟨hr, ht, _⟩ := ContentSelectorUpdateStatus_run w s cs ready cause h
    rw [hr]
    exact ⟨continues_trans h0 ⟨_, ht, rfl⟩, rfl⟩
  · have hready : ready = false := by
      cases ready
      · rfl
      · exact absurd (Or.inl rfl) h
    have hcause : cause = none := by
      cases cause
      · rfl
      · exact absurd (Or.inr rfl) h
    subst hready
    subst hcause
    obtain ⟨_, hr, hs⟩ := ContentSelectorUpdateStatus_panic w s cs
    rw [hr, hs]
    exact ⟨h0, rfl⟩

/-- The method `applyConfiguration` writes no record and leaves the object
metadata alone. -/
theorem applyConfiguration_keeps {s0 : State} (w : World) (s : State) (repo : Repository)
    (config : Config) (exists_ : Bool) (h0 : continuesWithoutWrite s0 s) :
    continuesWithoutWrite s0
      (RepositoryReconciler.applyConfiguration w s repo config exists_).state ∧
    (RepositoryReconciler.applyConfiguration w s repo config exists_).record.ObjectMeta =
      repo.ObjectMeta := by
  unfold RepositoryReconciler.applyConfiguration
  repeat' first | split | dsimp only
  all_goals
    first
      | refine RepositoryUpdateStatus_keeps _ _ _ _ _ (continues_trans h0 ?_)
      | refine ⟨continues_trans h0 ?_, rfl⟩
    repeat first
      | exact continues_refl _
      | exact GetClient_continues ‹_›
      | refine continues_trans ?_ (GetRepository_continues ‹_›)
      | refine continues_trans ?_ (CreateRepository_continues ‹_›)
      | refine continues_trans ?_ (UpdateRepository_continues ‹_›)
      | refine continues_trans ?_ (GetPrivilege_continues ‹_›)
      | refine continues_trans ?_ (PrivilegeExists_continues ‹_›)
      | refine continues_trans ?_ (CreatePrivilege_continues ‹_›)
      | refine continues_trans ?_ (UpdatePrivilege_continues ‹_›)
      | refine continues_trans ?_ (GetRole_continues ‹_›)
      | refine continues_trans ?_ (RoleExists_continues ‹_›)
      | refine continues_trans ?_ (CreateRole_continues ‹_›)
      | refine continues_trans ?_ (UpdateRole_continues ‹_›)
      | refine continues_trans ?_ (GetContentSelector_continues ‹_›)
      | refine continues_trans ?_ (ContentSelectorExists_continues ‹_›)
      | refine continues_trans ?_ (CreateContentSelector_continues ‹_›)
      | refine continues_trans ?_ (UpdateContentSelector_continues ‹_›)
      | exact GetClient_continues Prod.mk.eta.symm
      | refine continues_trans ?_ (GetRepository_continues Prod.mk.eta.symm)
      | refine continues_trans ?_ (CreateRepository_continues Prod.mk.eta.symm)
      | refine continues_trans ?_ (UpdateRepository_continues Prod.mk.eta.symm)
      | refine continues_trans ?_ (GetPrivilege_continues Prod.mk.eta.symm)
      | refine continues_trans ?_ (PrivilegeExists_continues Prod.mk.eta.symm)
      | refine continues_trans ?_ (CreatePrivilege_continues Prod.mk.eta.symm)
      | refine continues_trans ?_ (UpdatePrivilege_continues Prod.mk.eta.symm)
      | refine continues_trans ?_ (GetRole_continues Prod.mk.eta.symm)
      | refine continues_trans ?_ (RoleExists_continues Prod.mk.eta.symm)
      | refine continues_trans ?_ (CreateRole_continues Prod.mk.eta.symm)
      | refine continues_trans ?_ (UpdateRole_continues Prod.mk.eta.symm)
      | refine continues_trans ?_ (GetContentSelector_continues Prod.mk.eta.symm)
      | refine continues_trans ?_ (ContentSelectorExists_continues Prod.mk.eta.symm)
      | refine continues_trans ?_ (CreateContentSelector_continues Prod.mk.eta.symm)
      | refine continues_trans ?_ (UpdateContentSelector_continues Prod.mk.eta.symm)

/-- The sync path of the kind writes no record and leaves the object metadata
alone. -/
theorem syncRepository_keeps {s0 : State} (w : World) (s : State) (repo : Repository)
    (h0 : continuesWithoutWrite s0 s) :
    continuesWithoutWrite s0 (RepositoryReconciler.syncRepository w s repo).state ∧
    (RepositoryReconciler.syncRepository w s repo).record.ObjectMeta = repo.ObjectMeta := by
  unfold RepositoryReconciler.syncRepository
  repeat' first | split | dsimp only
  all_goals
    first
      | refine RepositoryUpdateStatus_keeps _ _ _ _ _ (continues_trans h0 ?_)
      | refine applyConfiguration_keeps _ _ _ _ _ (continues_trans h0 ?_)
      | refine ⟨continues_trans h0 ?_, rfl⟩
    repeat first
      | exact continues_refl _
      | exact GetClient_continues ‹_›
      | refine continues_trans ?_ (GetRepository_continues ‹_›)
      | refine continues_trans ?_ (CreateRepository_continues ‹_›)
      | refine continues_trans ?_ (UpdateRepository_continues ‹_›)
      | refine continues_trans ?_ (GetPrivilege_continues ‹_›)
      | refine continues_trans ?_ (PrivilegeExists_continues ‹_›)
      | refine continues_trans ?_ (CreatePrivilege_continues ‹_›)
      | refine continues_trans ?_ (UpdatePrivilege_continues ‹_›)
      | refine continues_trans ?_ (GetRole_continues ‹_›)
      | refine continues_trans ?_ (RoleExists_continues ‹_›)
      | refine continues_trans ?_ (CreateRole_continues ‹_›)
      | refine continues_trans ?_ (UpdateRole_continues ‹_›)
      | refine continues_trans ?_ (GetContentSelector_continues ‹_›)
      | refine continues_trans ?_ (ContentSelectorExists_continues ‹_›)
      | refine continues_trans ?_ (CreateContentSelector_continues ‹_›)
      | refine continues_trans ?_ (UpdateContentSelector_continues ‹_›)
      | exact GetClient_continues Prod.mk.eta.symm
      | refine continues_trans ?_ (GetRepository_continues Prod.mk.eta.symm)
      | refine continues_trans ?_ (CreateRepository_continues Prod.mk.eta.symm)
      | refine continues_trans ?_ (UpdateRepository_continues Prod.mk.eta.symm)
      | refine continues_trans ?_ (GetPrivilege_continues Prod.mk.eta.symm)
      | refine continues_trans ?_ (PrivilegeExists_continues Prod.mk.eta.symm)
      | refine continues_trans ?_ (CreatePrivilege_continues Prod.mk.eta.symm)
      | refine continues_trans ?_ (UpdatePrivilege_continues Prod.mk.eta.symm)
      | refine continues_trans ?_ (GetRole_continues Prod.mk.eta.symm)
      | refine continues_trans ?_ (RoleExists_continues Prod.mk.eta.symm)
      | refine continues_trans ?_ (CreateRole_continues Prod.mk.eta.symm)
      | refine continues_trans ?_ (UpdateRole_continues Prod.mk.eta.symm)
      | refine continues_trans ?_ (GetContentSelector_continues Prod.mk.eta.symm)
      | refine continues_trans ?_ (ContentSelectorExists_continues Prod.mk.eta.symm)
      | refine continues_trans ?_ (CreateContentSelector_continues Prod.mk.eta.symm)
      | refine continues_trans ?_ (UpdateContentSelector_continues Prod.mk.eta.symm)

/-- The sync path of the kind writes no record and leaves the object metadata
alone. -/
theorem syncPrivilege_keeps {s0 : State} (w : World) (s : State) (privilege : Privilege)
    (h0 : continuesWithoutWrite s0 s) :
    continuesWithoutWrite s0 (PrivilegeReconciler.syncPrivilege w s privilege).state ∧
    (PrivilegeReconciler.syncPrivilege w s privilege).record.ObjectMeta = privilege.ObjectMeta := by
  unfold PrivilegeReconciler.syncPrivilege
  repeat' first | split | dsimp only
  all_goals
    first
      | refine PrivilegeUpdateStatus_keeps _ _ _ _ _ (continues_trans h0 ?_)
      | refine ⟨continues_trans h0 ?_, rfl⟩
    repeat first
      | exact continues_refl _
      | exact GetClient_continues ‹_›
      | refine continues_trans ?_ (GetRepository_continues ‹_›)
      | refine continues_trans ?_ (CreateRepository_continues ‹_›)
      | refine continues_trans ?_ (UpdateRepository_continues ‹_›)
      | refine continues_trans ?_ (GetPrivilege_continues ‹_›)
      | refine continues_trans ?_ (PrivilegeExists_continues ‹_›)
      | refine continues_trans ?_ (CreatePrivilege_continues ‹_›)
      | refine continues_trans ?_ (UpdatePrivilege_continues ‹_›)
      | refine continues_trans ?_ (GetRole_continues ‹_›)
      | refine continues_trans ?_ (RoleExists_continues ‹_›)
      | refine continues_trans ?_ (CreateRole_continues ‹_›)
      | refine continues_trans ?_ (UpdateRole_continues ‹_›)
      | refine continues_trans ?_ (GetContentSelector_continues ‹_›)
      | refine continues_trans ?_ (ContentSelectorExists_continues ‹_›)
      | refine continues_trans ?_ (CreateContentSelector_continues ‹_›)
      | refine continues_trans ?_ (UpdateContentSelector_continues ‹_›)
      | exact GetClient_continues Prod.mk.eta.symm
      | refine continues_trans ?_ (GetRepository_continues Prod.mk.eta.symm)
      | refine continues_trans ?_ (CreateRepository_continues Prod.mk.eta.symm)
      | refine continues_trans ?_ (UpdateRepository_continues Prod.mk.eta.symm)
      | refine continues_trans ?_ (GetPrivilege_continues Prod.mk.eta.symm)
      | refine continues_trans ?_ (PrivilegeExists_continues Prod.mk.eta.symm)
      | refine continues_trans ?_ (CreatePrivilege_continues Prod.mk.eta.symm)
      | refine continues_trans ?_ (UpdatePrivilege_continues Prod.mk.eta.symm)
      | refine continues_trans ?_ (GetRole_continues Prod.mk.eta.symm)
      | refine continues_trans ?_ (RoleExists_continues Prod.mk.eta.symm)
      | refine continues_trans ?_ (CreateRole_continues Prod.mk.eta.symm)
      | refine continues_trans ?_ (UpdateRole_continues Prod.mk.eta.symm)
      | refine continues_trans ?_ (GetContentSelector_continues Prod.mk.eta.symm)
      | refine continues_trans ?_ (ContentSelectorExists_continues Prod.mk.eta.symm)
      | refine continues_trans ?_ (CreateContentSelector_continues Prod.mk.eta.symm)
      | refine continues_trans ?_ (UpdateContentSelector_continues Prod.mk.eta.symm)

/-- The sync path of the kind writes no record and leaves the object metadata
alone. -/
theorem syncRole_keeps {s0 : State} (w : World) (s : State) (role : RoleCR)
    (h0 : continuesWithoutWrite s0 s) :
    continuesWithoutWrite s0 (RoleReconciler.syncRole w s role).state ∧
    (RoleReconciler.syncRole w s role).record.ObjectMeta = role.ObjectMeta := by
  unfold RoleReconciler.syncRole
  repeat' first | split | dsimp only
  all_goals
    first
      | refine RoleUpdateStatus_keeps _ _ _ _ _ (continues_trans h0 ?_)
      | refine ⟨continues_trans h0 ?_, rfl⟩
    repeat first
      | exact continues_refl _
      | exact GetClient_continues ‹_›
      | refine continues_trans ?_ (GetRepository_continues ‹_›)
      | refine continues_trans ?_ (CreateRepository_continues ‹_›)
      | refine continues_trans ?_ (UpdateRepository_continues ‹_›)
      | refine continues_trans ?_ (GetPrivilege_continues ‹_›)
      | refine continues_trans ?_ (PrivilegeExists_continues ‹_›)
      | refine continues_trans ?_ (CreatePrivilege_continues ‹_›)
      | refine continues_trans ?_ (UpdatePrivilege_continues ‹_›)
      | refine continues_trans ?_ (GetRole_continues ‹_›)
      | refine continues_trans ?_ (RoleExists_continues ‹_›)
      | refine continues_trans ?_ (CreateRole_continues ‹_›)
      | refine continues_trans ?_ (UpdateRole_continues ‹_›)
      | refine continues_trans ?_ (GetContentSelector_continues ‹_›)
      | refine continues_trans ?_ (ContentSelectorExists_continues ‹_›)
      | refine continues_trans ?_ (CreateContentSelector_continues ‹_›)
      | refine continues_trans ?_ (UpdateContentSelector_continues ‹_›)
      | exact GetClient_continues Prod.mk.eta.symm
      | refine continues_trans ?_ (GetRepository_continues Prod.mk.eta.symm)
      | refine continues_trans ?_ (CreateRepository_continues Prod.mk.eta.symm)
      | refine continues_trans ?_ (UpdateRepository_continues Prod.mk.eta.symm)
      | refine continues_trans ?_ (GetPrivilege_continues Prod.mk.eta.symm)
      | refine continues_trans ?_ (PrivilegeExists_continues Prod.mk.eta.symm)
      | refine continues_trans ?_ (CreatePrivilege_continues Prod.mk.eta.symm)
      | refine continues_trans ?_ (UpdatePrivilege_continues Prod.mk.eta.symm)
      | refine continues_trans ?_ (GetRole_continues Prod.mk.eta.symm)
      | refine continues_trans ?_ (RoleExists_continues Prod.mk.eta.symm)
      | refine continues_trans ?_ (CreateRole_continues Prod.mk.eta.symm)
      | refine continues_trans ?_ (UpdateRole_continues Prod.mk.eta.symm)
      | refine continues_trans ?_ (GetContentSelector_continues Prod.mk.eta.symm)
      | refine continues_trans ?_ (ContentSelectorExists_continues Prod.mk.eta.symm)
      | refine continues_trans ?_ (CreateContentSelector_continues Prod.mk.eta.symm)
      | refine continues_trans ?_ (UpdateContentSelector_continues Prod.mk.eta.symm)

/-- The sync path of the kind writes no record and leaves the object metadata
alone. -/
theorem syncContentSelector_keeps {s0 : State} (w : World) (s : State) (cs : ContentSelector)
    (h0 : continuesWithoutWrite s0 s) :
    continuesWithoutWrite s0 (ContentSelectorReconciler.syncContentSelector w s cs).state ∧
    (ContentSelectorReconciler.syncContentSelector w s cs).record.ObjectMeta = cs.ObjectMeta := by
  unfold ContentSelectorReconciler.syncContentSelector
  repeat' first | split | dsimp only
  all_goals
    first
      | refine ContentSelectorUpdateStatus_keeps _ _ _ _ _ (continues_trans h0 ?_)
      | refine ⟨continues_trans h0 ?_, rfl⟩
    repeat first
      | exact continues_refl _
      | exact GetClient_continues ‹_›
      | refine continues_trans ?_ (GetRepository_continues ‹_›)
      | refine continues_trans ?_ (CreateRepository_continues ‹_›)
      | refine continues_trans ?_ (UpdateRepository_continues ‹_›)
      | refine continues_trans ?_ (GetPrivilege_continues ‹_›)
      | refine continues_trans ?_ (PrivilegeExists_continues ‹_›)
      | refine continues_trans ?_ (CreatePrivilege_continues ‹_›)
      | refine continues_trans ?_ (UpdatePrivilege_continues ‹_›)
      | refine continues_trans ?_ (GetRole_continues ‹_›)
      | refine continues_trans ?_ (RoleExists_continues ‹_›)
      | refine continues_trans ?_ (CreateRole_continues ‹_›)
      | refine continues_trans ?_ (UpdateRole_continues ‹_›)
      | refine continues_trans ?_ (GetContentSelector_continues ‹_›)
      | refine continues_trans ?_ (ContentSelectorExists_continues ‹_›)
      | refine continues_trans ?_ (CreateContentSelector_continues ‹_›)
      | refine continues_trans ?_ (UpdateContentSelector_continues ‹_›)
      | exact GetClient_continues Prod.mk.eta.symm
      | refine continues_trans ?_ (GetRepository_continues Prod.mk.eta.symm)
      | refine continues_trans ?_ (CreateRepository_continues Prod.mk.eta.symm)
      | refine continues_trans ?_ (UpdateRepository_continues Prod.mk.eta.symm)
      | refine continues_trans ?_ (GetPrivilege_continues Prod.mk.eta.symm)
      | refine continues_trans ?_ (PrivilegeExists_continues Prod.mk.eta.symm)
      | refine continues_trans ?_ (CreatePrivilege_continues Prod.mk.eta.symm)
      | refine continues_trans ?_ (UpdatePrivilege_continues Prod.mk.eta.symm)
      | refine continues_trans ?_ (GetRole_continues Prod.mk.eta.symm)
      | refine continues_trans ?_ (RoleExists_continues Prod.mk.eta.symm)
      | refine continues_trans ?_ (CreateRole_continues Prod.mk.eta.symm)
      | refine continues_trans ?_ (UpdateRole_continues Prod.mk.eta.symm)
      | refine continues_trans ?_ (GetContentSelector_continues Prod.mk.eta.symm)
      | refine continues_trans ?_ (ContentSelectorExists_continues Prod.mk.eta.symm)
      | refine continues_trans ?_ (CreateContentSelector_continues Prod.mk.eta.symm)
      | refine continues_trans ?_ (UpdateContentSelector_continues Prod.mk.eta.symm)

/-! ## Lemmas on the finalizer and the sync path -/

theorem containsString_append_self (l : List String) (x : String) :
    containsString (l ++ [x]) x = true := by
  induction l with
  | nil => simp [containsString]
  | cons a l ih =>
    by_cases h : a = x
    · simp [containsString, h]
    · simp [containsString, h, ih]

theorem finalizeRepository_no_create (w : World) (s : State) (repo : Repository) :
    ∃ new, (RepositoryReconciler.finalizeRepository w s repo).state.trace = s.trace ++ new ∧
      (remoteCalls new).any isCreateOrUpdate = false := by
  rcases finalizeRepository_cases w s repo with
    ⟨_, _, ht, _⟩ | ⟨_, _, _, _, ht, _⟩ | ⟨_, _, _, _, _, _, ht, _⟩ | ⟨_, _, _, _, ht, _⟩
  · exact ⟨_, ht, rfl⟩
  · exact ⟨[], by simp [ht], rfl⟩
  · exact ⟨_, ht, rfl⟩
  · exact ⟨_, ht, rfl⟩

theorem finalizePrivilege_no_create (w : World) (s : State) (privilege : Privilege) :
    ∃ new, (PrivilegeReconciler.finalizePrivilege w s privilege).state.trace = s.trace ++ new ∧
      (remoteCalls new).any isCreateOrUpdate = false := by
  rcases finalizePrivilege_cases w s privilege with
    ⟨_, _, _, ht, _⟩ | ⟨_, _, _, _, _, ht, _⟩ | ⟨_, _, _, ht, _⟩
  · exact ⟨[], by simp [ht], rfl⟩
  · exact ⟨_, ht, rfl⟩
  · exact ⟨_, ht, rfl⟩

theorem finalizeRole_no_create (w : World) (s : State) (role : RoleCR) :
    ∃ new, (RoleReconciler.finalizeRole w s role).state.trace = s.trace ++ new ∧
      (remoteCalls new).any isCreateOrUpdate = false := by
  rcases finalizeRole_cases w s role with
    ⟨_, _, _, ht, _⟩ | ⟨_, _, _, _, _, ht, _⟩ | ⟨_, _, _, ht, _⟩
  · exact ⟨[], by simp [ht], rfl⟩
  · exact ⟨_, ht, rfl⟩
  · exact ⟨_, ht, rfl⟩

theorem finalizeContentSelector_no_create (w : World) (s : State) (cs : ContentSelector) :
    ∃ new, (ContentSelectorReconciler.finalizeContentSelector w s cs).state.trace =
        s.trace ++ new ∧
      (remoteCalls new).any isCreateOrUpdate = false := by
  rcases finalizeContentSelector_cases w s cs with
    ⟨_, _, _, ht, _⟩ | ⟨_, _, _, _, _, ht, _⟩ | ⟨_, _, _, ht, _⟩
  · exact ⟨[], by simp [ht], rfl⟩
  · exact ⟨_, ht, rfl⟩
  · exact ⟨_, ht, rfl⟩

theorem RepositoryReconcile_with_finalizer (w : World) (s : State) (repo : Repository)
    (hdel : repo.ObjectMeta.deletionTimestampIsZero = true)
    (hfin : containsString repo.ObjectMeta.Finalizers finalizerName = true) :
    RepositoryReconciler.Reconcile w s (Except.ok repo) =
      (RepositoryReconciler.syncRepository w s repo).withRecord := by
  simp [RepositoryReconciler.Reconcile, hdel, hfin, utilsContainsString, Outcome.withRecord]

theorem RepositoryReconcile_adds_finalizer (w : World) (s : State) (repo : Repository)
    (hdel : repo.ObjectMeta.deletionTimestampIsZero = true)
    (hfin : containsString repo.ObjectMeta.Finalizers finalizerName = false)
    (hu : w.update s.trace = none) :
    RepositoryReconciler.Reconcile w s (Except.ok repo) =
      (RepositoryReconciler.syncRepository w (s.afterFinalizerWrite repo.ObjectMeta)
        repo.withFinalizer).withRecord := by
  simp [RepositoryReconciler.Reconcile, hdel, hfin, utilsContainsString, Outcome.withRecord, storeUpdate, hu,
    State.afterFinalizerWrite, Repository.withFinalizer, ObjectMeta.withFinalizer]

theorem RepositoryReconcile_add_fails (w : World) (s : State) (repo : Repository) (e : GoError)
    (hdel : repo.ObjectMeta.deletionTimestampIsZero = true)
    (hfin : containsString repo.ObjectMeta.Finalizers finalizerName = false)
    (hu : w.update s.trace = some e) :
    RepositoryReconciler.Reconcile w s (Except.ok repo) =
      { ending := Ending.returned Result.empty (some (e.wrap "не удалось добавить финализатор"))
        record := some repo.withFinalizer
        state := s.afterFinalizerWrite repo.ObjectMeta } := by
  simp [RepositoryReconciler.Reconcile, hdel, hfin, utilsContainsString, storeUpdate, hu,
    State.afterFinalizerWrite, Repository.withFinalizer, ObjectMeta.withFinalizer]

/-- The finalizer comes first in a pass of the kind. -/
theorem RepositoryReconcile_finalizer_first (w : World) (s : State) (repo : Repository) :
    ∃ new, (RepositoryReconciler.Reconcile w s (Except.ok repo)).state.trace = s.trace ++ new ∧
      ((remoteCalls new).any isCreateOrUpdate = true →
        finalizerInPlace repo.ObjectMeta.Finalizers (w.update s.trace) new = true ∧
        ∃ r, (RepositoryReconciler.Reconcile w s (Except.ok repo)).record = some r ∧
          containsString r.ObjectMeta.Finalizers finalizerName = true) ∧
      (repo.ObjectMeta.deletionTimestampIsZero = true →
        containsString repo.ObjectMeta.Finalizers finalizerName = false →
        ∀ e, w.update s.trace = some e →
          (RepositoryReconciler.Reconcile w s (Except.ok repo)).ending =
            Ending.returned Result.empty (some (e.wrap "не удалось добавить финализатор")) ∧
          new = [Event.update (repo.ObjectMeta.Finalizers ++ [finalizerName])]) := by
  cases hdel : repo.ObjectMeta.deletionTimestampIsZero
  · rw [RepositoryReconcile_deleting w s repo hdel]
    obtain ⟨new, ht, hn⟩ := finalizeRepository_no_create w s repo
    refine ⟨new, ht, fun h => ?_, fun h => ?_⟩
    · rw [hn] at h
      cases h
    · cases h
  · cases hfin : containsString repo.ObjectMeta.Finalizers finalizerName
    · cases hu : w.update s.trace with
      | some e =>
        rw [RepositoryReconcile_add_fails w s repo e hdel hfin hu]
        refine ⟨[Event.update (repo.ObjectMeta.Finalizers ++ [finalizerName])], rfl,
          fun h => ?_, fun _ _ e' he' => ?_⟩
        · cases h
        · cases he'
          exact ⟨rfl, rfl⟩
      | none =>
        rw [RepositoryReconcile_adds_finalizer w s repo hdel hfin hu]
        obtain ⟨⟨new, ht, hw⟩, hm⟩ := syncRepository_keeps w (s.afterFinalizerWrite repo.ObjectMeta)
          repo.withFinalizer (continues_refl _)
        refine ⟨Event.update (repo.ObjectMeta.Finalizers ++ [finalizerName]) :: new, ?_,
          fun _ => ⟨?_, ?_⟩, fun _ _ e' he' => by cases he'⟩
        · simp only [Outcome.withRecord]
          rw [ht]
          simp [State.afterFinalizerWrite]
        · simp [finalizerInPlace, hfin, hw]
        · refine ⟨(RepositoryReconciler.syncRepository w (s.afterFinalizerWrite repo.ObjectMeta)
            repo.withFinalizer).record, rfl, ?_⟩
          rw [hm]
          exact containsString_append_self _ _
    · rw [RepositoryReconcile_with_finalizer w s repo hdel hfin]
      obtain ⟨⟨new, ht, hw⟩, hm⟩ := syncRepository_keeps w s repo (continues_refl _)
      refine ⟨new, ht, fun _ => ⟨?_, ?_⟩, fun _ h => by cases h⟩
      · simp [finalizerInPlace, hfin, hw]
      · refine ⟨(RepositoryReconciler.syncRepository w s repo).record, rfl, ?_⟩
        rw [hm]
        exact hfin

theorem PrivilegeReconcile_with_finalizer (w : World) (s : State) (privilege : Privilege)
    (hdel : privilege.ObjectMeta.deletionTimestampIsZero = true)
    (hfin : containsString privilege.ObjectMeta.Finalizers finalizerName = true) :
    PrivilegeReconciler.Reconcile w s (Except.ok privilege) =
      (PrivilegeReconciler.syncPrivilege w s privilege).withRecord := by
  simp [PrivilegeReconciler.Reconcile, hdel, hfin, utilsContainsString, Outcome.withRecord]

theorem PrivilegeReconcile_adds_finalizer (w : World) (s : State) (privilege : Privilege)
    (hdel : privilege.ObjectMeta.deletionTimestampIsZero = true)
    (hfin : containsString privilege.ObjectMeta.Finalizers finalizerName = false)
    (hu : w.update s.trace = none) :
    PrivilegeReconciler.Reconcile w s (Except.ok privilege) =
      (PrivilegeReconciler.syncPrivilege w (s.afterFinalizerWrite privilege.ObjectMeta)
        privilege.withFinalizer).withRecord := by
  simp [PrivilegeReconciler.Reconcile, hdel, hfin, utilsContainsString, Outcome.withRecord, storeUpdate, hu,
    State.afterFinalizerWrite, Privilege.withFinalizer, ObjectMeta.withFinalizer]

theorem PrivilegeReconcile_add_fails (w : World) (s : State) (privilege : Privilege) (e : GoError)
    (hdel : privilege.ObjectMeta.deletionTimestampIsZero = true)
    (hfin : containsString privilege.ObjectMeta.Finalizers finalizerName = false)
    (hu : w.update s.trace = some e) :
    PrivilegeReconciler.Reconcile w s (Except.ok privilege) =
      { ending := Ending.returned Result.empty (some (e.wrap "ошибка при добавлении финализатора"))
        record := some privilege.withFinalizer
        state := s.afterFinalizerWrite privilege.ObjectMeta } := by
  simp [PrivilegeReconciler.Reconcile, hdel, hfin, utilsContainsString, storeUpdate, hu,
    State.afterFinalizerWrite, Privilege.withFinalizer, ObjectMeta.withFinalizer]

/-- The finalizer comes first in a pass of the kind. -/
theorem PrivilegeReconcile_finalizer_first (w : World) (s : State) (privilege : Privilege) :
    ∃ new, (PrivilegeReconciler.Reconcile w s (Except.ok privilege)).state.trace = s.trace ++ new ∧
      ((remoteCalls new).any isCreateOrUpdate = true →
        finalizerInPlace privilege.ObjectMeta.Finalizers (w.update s.trace) new = true ∧
        ∃ r, (PrivilegeReconciler.Reconcile w s (Except.ok privilege)).record = some r ∧
          containsString r.ObjectMeta.Finalizers finalizerName = true) ∧
      (privilege.ObjectMeta.deletionTimestampIsZero = true →
        containsString privilege.ObjectMeta.Finalizers finalizerName = false →
        ∀ e, w.update s.trace = some e →
          (PrivilegeReconciler.Reconcile w s (Except.ok privilege)).ending =
            Ending.returned Result.empty (some (e.wrap "ошибка при добавлении финализатора")) ∧
          new = [Event.update (privilege.ObjectMeta.Finalizers ++ [finalizerName])]) := by
  cases hdel : privilege.ObjectMeta.deletionTimestampIsZero
  · rw [PrivilegeReconcile_deleting w s privilege hdel]
    obtain ⟨new, ht, hn⟩ := finalizePrivilege_no_create w s privilege
    refine ⟨new, ht, fun h => ?_, fun h => ?_⟩
    · rw [hn] at h
      cases h
    · cases h
  · cases hfin : containsString privilege.ObjectMeta.Finalizers finalizerName
    · cases hu : w.update s.trace with
      | some e =>
        rw [PrivilegeReconcile_add_fails w s privilege e hdel hfin hu]
        refine ⟨[Event.update (privilege.ObjectMeta.Finalizers ++ [finalizerName])], rfl,
          fun h => ?_, fun _ _ e' he' => ?_⟩
        · cases h
        · cases he'
          exact ⟨rfl, rfl⟩
      | none =>
        rw [PrivilegeReconcile_adds_finalizer w s privilege hdel hfin hu]
        obtain ⟨⟨new, ht, hw⟩, hm⟩ := syncPrivilege_keeps w (s.afterFinalizerWrite privilege.ObjectMeta)
          privilege.withFinalizer (continues_refl _)
        refine ⟨Event.update (privilege.ObjectMeta.Finalizers ++ [finalizerName]) :: new, ?_,
          fun _ => ⟨?_, ?_⟩, fun _ _ e' he' => by cases he'⟩
        · simp only [Outcome.withRecord]
          rw [ht]
          simp [State.afterFinalizerWrite]
        · simp [finalizerInPlace, hfin, hw]
        · refine ⟨(PrivilegeReconciler.syncPrivilege w (s.afterFinalizerWrite privilege.ObjectMeta)
            privilege.withFinalizer).record, rfl, ?_⟩
          rw [hm]
          exact containsString_append_self _ _
    · rw [PrivilegeReconcile_with_finalizer w s privilege hdel hfin]
      obtain ⟨⟨new, ht, hw⟩, hm⟩ := syncPrivilege_keeps w s privilege (continues_refl _)
      refine ⟨new, ht, fun _ => ⟨?_, ?_⟩, fun _ h => by cases h⟩
      · simp [finalizerInPlace, hfin, hw]
      · refine ⟨(PrivilegeReconciler.syncPrivilege w s privilege).record, rfl, ?_⟩
        rw [hm]
        exact hfin

theorem RoleReconcile_with_finalizer (w : World) (s : State) (role : RoleCR)
    (hdel : role.ObjectMeta.deletionTimestampIsZero = true)
    (hfin : containsString role.ObjectMeta.Finalizers finalizerName = true) :
    RoleReconciler.Reconcile w s (Except.ok role) =
      (RoleReconciler.syncRole w s role).withRecord := by
  simp [RoleReconciler.Reconcile, hdel, hfin, Outcome.withRecord]

theorem RoleReconcile_adds_finalizer (w : World) (s : State) (role : RoleCR)
    (hdel : role.ObjectMeta.deletionTimestampIsZero = true)
    (hfin : containsString role.ObjectMeta.Finalizers finalizerName = false)
    (hu : w.update s.trace = none) :
    RoleReconciler.Reconcile w s (Except.ok role) =
      (RoleReconciler.syncRole w (s.afterFinalizerWrite role.ObjectMeta)
        role.withFinalizer).withRecord := by
  simp [RoleReconciler.Reconcile, hdel, hfin, Outcome.withRecord, storeUpdate, hu,
    State.afterFinalizerWrite, RoleCR.withFinalizer, ObjectMeta.withFinalizer]

theorem RoleReconcile_add_fails (w : World) (s : State) (role : RoleCR) (e : GoError)
    (hdel : role.ObjectMeta.deletionTimestampIsZero = true)
    (hfin : containsString role.ObjectMeta.Finalizers finalizerName = false)
    (hu : w.update s.trace = some e) :
    RoleReconciler.Reconcile w s (Except.ok role) =
      { ending := Ending.returned Result.empty (some (e.wrap "ошибка добавления финализатора"))
        record := some role.withFinalizer
        state := s.afterFinalizerWrite role.ObjectMeta } := by
  simp [RoleReconciler.Reconcile, hdel, hfin, storeUpdate, hu,
    State.afterFinalizerWrite, RoleCR.withFinalizer, ObjectMeta.withFinalizer]

/-- The finalizer comes first in a pass of the kind. -/
theorem RoleReconcile_finalizer_first (w : World) (s : State) (role : RoleCR) :
    ∃ new, (RoleReconciler.Reconcile w s (Except.ok role)).state.trace = s.trace ++ new ∧
      ((remoteCalls new).any isCreateOrUpdate = true →
        finalizerInPlace role.ObjectMeta.Finalizers (w.update s.trace) new = true ∧
        ∃ r, (RoleReconciler.Reconcile w s (Except.ok role)).record = some r ∧
          containsString r.ObjectMeta.Finalizers finalizerName = true) ∧
      (role.ObjectMeta.deletionTimestampIsZero = true →
        containsString role.ObjectMeta.Finalizers finalizerName = false →
        ∀ e, w.update s.trace = some e →
          (RoleReconciler.Reconcile w s (Except.ok role)).ending =
            Ending.returned Result.empty (some (e.wrap "ошибка добавления финализатора")) ∧
          new = [Event.update (role.ObjectMeta.Finalizers ++ [finalizerName])]) := by
  cases hdel : role.ObjectMeta.deletionTimestampIsZero
  · rw [RoleReconcile_deleting w s role hdel]
    obtain ⟨new, ht, hn⟩ := finalizeRole_no_create w s role
    refine ⟨new, ht, fun h => ?_, fun h => ?_⟩
    · rw [hn] at h
      cases h
    · cases h
  · cases hfin : containsString role.ObjectMeta.Finalizers finalizerName
    · cases hu : w.update s.trace with
      | some e =>
        rw [RoleReconcile_add_fails w s role e hdel hfin hu]
        refine ⟨[Event.update (role.ObjectMeta.Finalizers ++ [finalizerName])], rfl,
          fun h => ?_, fun _ _ e' he' => ?_⟩
        · cases h
        · cases he'
          exact ⟨rfl, rfl⟩
      | none =>
        rw [RoleReconcile_adds_finalizer w s role hdel hfin hu]
        obtain ⟨⟨new, ht, hw⟩, hm⟩ := syncRole_keeps w (s.afterFinalizerWrite role.ObjectMeta)
          role.withFinalizer (continues_refl _)
        refine ⟨Event.update (role.ObjectMeta.Finalizers ++ [finalizerName]) :: new, ?_,
          fun _ => ⟨?_, ?_⟩, fun _ _ e' he' => by cases he'⟩
        · simp only [Outcome.withRecord]
          rw [ht]
          simp [State.afterFinalizerWrite]
        · simp [finalizerInPlace, hfin, hw]
        · refine ⟨(RoleReconciler.syncRole w (s.afterFinalizerWrite role.ObjectMeta)
            role.withFinalizer).record, rfl, ?_⟩
          rw [hm]
          exact containsString_append_self _ _
    · rw [RoleReconcile_with_finalizer w s role hdel hfin]
      obtain ⟨⟨new, ht, hw⟩, hm⟩ := syncRole_keeps w s role (continues_refl _)
      refine ⟨new, ht, fun _ => ⟨?_, ?_⟩, fun _ h => by cases h⟩
      · simp [finalizerInPlace, hfin, hw]
      · refine ⟨(RoleReconciler.syncRole w s role).record, rfl, ?_⟩
        rw [hm]
        exact hfin

theorem ContentSelectorReconcile_with_finalizer (w : World) (s : State) (cs : ContentSelector)
    (hdel : cs.ObjectMeta.deletionTimestampIsZero = true)
    (hfin : containsString cs.ObjectMeta.Finalizers finalizerName = true) :
    ContentSelectorReconciler.Reconcile w s (Except.ok cs) =
      (ContentSelectorReconciler.syncContentSelector w s cs).withRecord := by
  simp [ContentSelectorReconciler.Reconcile, hdel, hfin, utilsContainsString, Outcome.withRecord]

theorem ContentSelectorReconcile_adds_finalizer (w : World) (s : State) (cs : ContentSelector)
    (hdel : cs.ObjectMeta.deletionTimestampIsZero = true)
    (hfin : containsString cs.ObjectMeta.Finalizers finalizerName = false)
    (hu : w.update s.trace = none) :
    ContentSelectorReconciler.Reconcile w s (Except.ok cs) =
      (ContentSelectorReconciler.syncContentSelector w (s.afterFinalizerWrite cs.ObjectMeta)
        cs.withFinalizer).withRecord := by
  simp [ContentSelectorReconciler.Reconcile, hdel, hfin, utilsContainsString, Outcome.withRecord, storeUpdate, hu,
    State.afterFinalizerWrite, ContentSelector.withFinalizer, ObjectMeta.withFinalizer]

theorem ContentSelectorReconcile_add_fails (w : World) (s : State) (cs : ContentSelector) (e : GoError)
    (hdel : cs.ObjectMeta.deletionTimestampIsZero = true)
    (hfin : containsString cs.ObjectMeta.Finalizers finalizerName = false)
    (hu : w.update s.trace = some e) :
    ContentSelectorReconciler.Reconcile w s (Except.ok cs) =
      { ending := Ending.returned Result.empty (some (e.wrap "ошибка при добавлении финализатора"))
        record := some cs.withFinalizer
        state := s.afterFinalizerWrite cs.ObjectMeta } := by
  simp [ContentSelectorReconciler.Reconcile, hdel, hfin, utilsContainsString, storeUpdate, hu,
    State.afterFinalizerWrite, ContentSelector.withFinalizer, ObjectMeta.withFinalizer]

/-- The finalizer comes first in a pass of the kind. -/
theorem ContentSelectorReconcile_finalizer_first (w : World) (s : State) (cs : ContentSelector) :
    ∃ new, (ContentSelectorReconciler.Reconcile w s (Except.ok cs)).state.trace = s.trace ++ new ∧
      ((remoteCalls new).any isCreateOrUpdate = true →
        finalizerInPlace cs.ObjectMeta.Finalizers (w.update s.trace) new = true ∧
        ∃ r, (ContentSelectorReconciler.Reconcile w s (Except.ok cs)).record = some r ∧
          containsString r.ObjectMeta.Finalizers finalizerName = true) ∧
      (cs.ObjectMeta.deletionTimestampIsZero = true →
        containsString cs.ObjectMeta.Finalizers finalizerName = false →
        ∀ e, w.update s.trace = some e →
          (ContentSelectorReconciler.Reconcile w s (Except.ok cs)).ending =
            Ending.returned Result.empty (some (e.wrap "ошибка при добавлении финализатора")) ∧
          new = [Event.update (cs.ObjectMeta.Finalizers ++ [finalizerName])]) := by
  cases hdel : cs.ObjectMeta.deletionTimestampIsZero
  · rw [ContentSelectorReconcile_deleting w s cs hdel]
    obtain ⟨new, ht, hn⟩ := finalizeContentSelector_no_create w s cs
    refine ⟨new, ht, fun h => ?_, fun h => ?_⟩
    · rw [hn] at h
      cases h
    · cases h
  · cases hfin : containsString cs.ObjectMeta.Finalizers finalizerName
    · cases hu : w.update s.trace with
      | some e =>
        rw [ContentSelectorReconcile_add_fails w s cs e hdel hfin hu]
        refine ⟨[Event.update (cs.ObjectMeta.Finalizers ++ [finalizerName])], rfl,
          fun h => ?_, fun _ _ e' he' => ?_⟩
        · cases h
        · cases he'
          exact ⟨rfl, rfl⟩
      | none =>
        rw [ContentSelectorReconcile_adds_finalizer w s cs hdel hfin hu]
        obtain ⟨⟨new, ht, hw⟩, hm⟩ := syncContentSelector_keeps w (s.afterFinalizerWrite cs.ObjectMeta)
          cs.withFinalizer (continues_refl _)
        refine ⟨Event.update (cs.ObjectMeta.Finalizers ++ [finalizerName]) :: new, ?_,
          fun _ => ⟨?_, ?_⟩, fun _ _ e' he' => by cases he'⟩
        · simp only [Outcome.withRecord]
          rw [ht]
          simp [State.afterFinalizerWrite]
        · simp [finalizerInPlace, hfin, hw]
        · refine ⟨(ContentSelectorReconciler.syncContentSelector w (s.afterFinalizerWrite cs.ObjectMeta)
            cs.withFinalizer).record, rfl, ?_⟩
          rw [hm]
          exact containsString_append_self _ _
    · rw [ContentSelectorReconcile_with_finalizer w s cs hdel hfin]
      obtain ⟨⟨new, ht, hw⟩, hm⟩ := syncContentSelector_keeps w s cs (continues_refl _)
      refine ⟨new, ht, fun _ => ⟨?_, ?_⟩, fun _ h => by cases h⟩
      · simp [finalizerInPlace, hfin, hw]
      · refine ⟨(ContentSelectorReconciler.syncContentSelector w s cs).record, rfl, ?_⟩
        rw [hm]
        exact hfin

/-- C11: in every pass of `Reconcile`, of any of the four kinds, whose new
events hold a remote create or update call (a POST or a PUT), the finalizer was
in place before the sync path began: either the stored record already carried it
and the pass writes no record, or the pass opens with the write of the record
with the finalizer appended and that write succeeded; the record the pass ends
with carries the finalizer. When the record lacks the finalizer and the write
that adds it fails, `Reconcile` returns that error, wrapped, and the pass consists
of the failed write alone, without any remote call. -/
theorem C11_finalizer_before_create_or_update (w : World) (s : State) :
    (∀ (repo : Repository),
      ∃ new, (RepositoryReconciler.Reconcile w s (Except.ok repo)).state.trace = s.trace ++ new ∧
        ((remoteCalls new).any isCreateOrUpdate = true →
          finalizerInPlace repo.ObjectMeta.Finalizers (w.update s.trace) new = true ∧
          ∃ r, (RepositoryReconciler.Reconcile w s (Except.ok repo)).record = some r ∧
            containsString r.ObjectMeta.Finalizers finalizerName = true) ∧
        (repo.ObjectMeta.deletionTimestampIsZero = true →
          containsString repo.ObjectMeta.Finalizers finalizerName = false →
          ∀ e, w.update s.trace = some e →
            (RepositoryReconciler.Reconcile w s (Except.ok repo)).ending =
              Ending.returned Result.empty (some (e.wrap "не удалось добавить финализатор")) ∧
            new = [Event.update (repo.ObjectMeta.Finalizers ++ [finalizerName])] ∧
            remoteCalls new = [])) ∧
    (∀ (privilege : Privilege),
      ∃ new, (PrivilegeReconciler.Reconcile w s (Except.ok privilege)).state.trace = s.trace ++ new ∧
        ((remoteCalls new).any isCreateOrUpdate = true →
          finalizerInPlace privilege.ObjectMeta.Finalizers (w.update s.trace) new = true ∧
          ∃ r, (PrivilegeReconciler.Reconcile w s (Except.ok privilege)).record = some r ∧
            containsString r.ObjectMeta.Finalizers finalizerName = true) ∧
        (privilege.ObjectMeta.deletionTimestampIsZero = true →
          containsString privilege.ObjectMeta.Finalizers finalizerName = false →
          ∀ e, w.update s.trace = some e →
            (PrivilegeReconciler.Reconcile w s (Except.ok privilege)).ending =
              Ending.returned Result.empty (some (e.wrap "ошибка при добавлении финализатора")) ∧
            new = [Event.update (privilege.ObjectMeta.Finalizers ++ [finalizerName])] ∧
            remoteCalls new = [])) ∧
    (∀ (role : RoleCR),
      ∃ new, (RoleReconciler.Reconcile w s (Except.ok role)).state.trace = s.trace ++ new ∧
        ((remoteCalls new).any isCreateOrUpdate = true →
          finalizerInPlace role.ObjectMeta.Finalizers (w.update s.trace) new = true ∧
          ∃ r, (RoleReconciler.Reconcile w s (Except.ok role)).record = some r ∧
            containsString r.ObjectMeta.Finalizers finalizerName = true) ∧
        (role.ObjectMeta.deletionTimestampIsZero = true →
          containsString role.ObjectMeta.Finalizers finalizerName = false →
          ∀ e, w.update s.trace = some e →
            (RoleReconciler.Reconcile w s (Except.ok role)).ending =
              Ending.returned Result.empty (some (e.wrap "ошибка добавления финализатора")) ∧
            new = [Event.update (role.ObjectMeta.Finalizers ++ [finalizerName])] ∧
            remoteCalls new = [])) ∧
    (∀ (cs : ContentSelector),
      ∃ new, (ContentSelectorReconciler.Reconcile w s (Except.ok cs)).state.trace = s.trace ++ new ∧
        ((remoteCalls new).any isCreateOrUpdate = true →
          finalizerInPlace cs.ObjectMeta.Finalizers (w.update s.trace) new = true ∧
          ∃ r, (ContentSelectorReconciler.Reconcile w s (Except.ok cs)).record = some r ∧
            containsString r.ObjectMeta.Finalizers finalizerName = true) ∧
        (cs.ObjectMeta.deletionTimestampIsZero = true →
          containsString cs.ObjectMeta.Finalizers finalizerName = false →
          ∀ e, w.update s.trace = some e →
            (ContentSelectorReconciler.Reconcile w s (Except.ok cs)).ending =
              Ending.returned Result.empty (some (e.wrap "ошибка при добавлении финализатора")) ∧
            new = [Event.update (cs.ObjectMeta.Finalizers ++ [finalizerName])] ∧
            remoteCalls new = [])) := by
  refine ⟨?_, ?_, ?_, ?_⟩
  · intro repo
    obtain ⟨new, ht, h1, h2⟩ := RepositoryReconcile_finalizer_first w s repo
    refine ⟨new, ht, h1, fun hd hf e he => ?_⟩
    obtain ⟨h3, h4⟩ := h2 hd hf e he
    exact ⟨h3, h4, by rw [h4]; rfl⟩
  · intro privilege
    obtain ⟨new, ht, h1, h2⟩ := PrivilegeReconcile_finalizer_first w s privilege
    refine ⟨new, ht, h1, fun hd hf e he => ?_⟩
    obtain ⟨h3, h4⟩ := h2 hd hf e he
    exact ⟨h3, h4, by rw [h4]; rfl⟩
  · intro role
    obtain ⟨new, ht, h1, h2⟩ := RoleReconcile_finalizer_first w s role
    refine ⟨new, ht, h1, fun hd hf e he => ?_⟩
    obtain ⟨h3, h4⟩ := h2 hd hf e he
    exact ⟨h3, h4, by rw [h4]; rfl⟩
  · intro cs
    obtain ⟨new, ht, h1, h2⟩ := ContentSelectorReconcile_finalizer_first w s cs
    refine ⟨new, ht, h1, fun hd hf e he => ?_⟩
    obtain ⟨h3, h4⟩ := h2 hd hf e he
    exact ⟨h3, h4, by rw [h4]; rfl⟩

/-- C11 at concrete passes: a fresh repository against a remote that answers 404
gets its finalizer persisted and then a create call; with a store that refuses
the write the pass ends with the wrapped error and no remote call. -/
theorem C11_finalizer_before_create_or_update_witness :
    (RepositoryReconciler.Reconcile notFoundWorld readyState
      (Except.ok freshRepository)).state.trace =
      [Event.update [finalizerName],
       Event.http { method := Method.GET, url := "/service/rest/v1/repositories/r1",
                    body := Body.empty },
       Event.http { method := Method.POST, url := "/service/rest/v1/repositories/maven/hosted",
                    body := Body.config scenarioDesired },
       Event.statusUpdate
         [{ Type_ := "Ready", Status := "False", ObservedGeneration := 1,
            LastTransitionTime := 100, Reason := "Error",
            Message := "ошибка создания: неожиданный статус ответа: статус 404, текст: not found" }]] ∧
    (∃ new, (RepositoryReconciler.Reconcile notFoundWorld readyState
        (Except.ok freshRepository)).state.trace = readyState.trace ++ new ∧
      ((remoteCalls new).any isCreateOrUpdate = true →
        finalizerInPlace freshRepository.ObjectMeta.Finalizers
          (notFoundWorld.update readyState.trace) new = true ∧
        ∃ r, (RepositoryReconciler.Reconcile notFoundWorld readyState
            (Except.ok freshRepository)).record = some r ∧
          containsString r.ObjectMeta.Finalizers finalizerName = true)) ∧
    (∃ new, (RoleReconciler.Reconcile refusedWriteWorld readyState
        (Except.ok freshRole)).state.trace = readyState.trace ++ new ∧
      (RoleReconciler.Reconcile refusedWriteWorld readyState (Except.ok freshRole)).ending =
        Ending.returned Result.empty
          (some (GoError.wrap "ошибка добавления финализатора"
            { msg := "admission webhook denied the request", sentinel := none,
              reason := none })) ∧
      new = [Event.update [finalizerName]] ∧ remoteCalls new = []) := by
  refine ⟨rfl, ?_, ?_⟩
  · obtain ⟨new, ht, h1, _⟩ :=
      (C11_finalizer_before_create_or_update notFoundWorld readyState).1 freshRepository
    exact ⟨new, ht, h1⟩
  · obtain ⟨new, ht, _, h2⟩ :=
      (C11_finalizer_before_create_or_update refusedWriteWorld readyState).2.2.1 freshRole
    obtain ⟨h3, h4, h5⟩ := h2 (by decide) (by decide) _ rfl
    exact ⟨new, ht, h3, h4, h5⟩

/-! ## Lemmas on the create path -/

theorem lookup_setKey_self (k : String) (v : GoValue) (c : Config) :
    lookup k (setKey k v c) = some v := by
  induction c with
  | nil => simp [setKey, lookup]
  | cons p c ih =>
    obtain ⟨k', v'⟩ := p
    by_cases h : k' = k
    · simp [setKey, lookup, h]
    · simp [setKey, lookup, h, ih]

theorem lookup_setKey_ne (k k' : String) (v : GoValue) (c : Config) (hne : k ≠ k') :
    lookup k (setKey k' v c) = lookup k c := by
  induction c with
  | nil =>
    have : ¬ k' = k := fun h => hne h.symm
    simp [setKey, lookup, this]
  | cons p c ih =>
    obtain ⟨k'', v''⟩ := p
    by_cases h : k'' = k'
    · have : ¬ k' = k := fun h => hne h.symm
      subst h
      simp [setKey, lookup, this]
    · by_cases h2 : k'' = k
      · subst h2
        simp [setKey, lookup, h]
      · simp [setKey, lookup, h, h2, ih]

theorem lookup_jsonEntries (k : String) (c : Config) :
    lookup k (jsonEntries c) = (lookup k c).map jsonRoundTrip := by
  induction c with
  | nil => simp [jsonEntries, lookup]
  | cons p c ih =>
    obtain ⟨k', v⟩ := p
    by_cases h : k' = k
    · simp [jsonEntries, jsonEntry, lookup, h]
    · simp [jsonEntries, jsonEntry, lookup, h, ih]

theorem commonConfig_lookups (spec : RepositorySpec) :
    lookup "name" (commonConfig spec) = some (GoValue.string spec.Name) ∧
    lookup "online" (commonConfig spec) = some (GoValue.bool spec.Online) ∧
    lookup "storage" (commonConfig spec) = some spec.Storage.toValue := by
  unfold commonConfig
  dsimp only
  repeat' split
  all_goals
    refine ⟨?_, ?_, ?_⟩ <;>
      simp [lookup_setKey_ne, lookup]

theorem wireBlobStoreName_of_struct (spec : RepositorySpec) (config : Config)
    (h : lookup "storage" config = some spec.Storage.toValue) :
    wireBlobStoreName config = some (GoValue.string spec.Storage.BlobStoreName) := by
  simp [wireBlobStoreName, lookup_jsonEntries, h, StorageConfig.toValue, StorageConfig.fields,
    jsonRoundTrip, jsonFields, jsonField, Field.omitEmpty, Field.jsonName, lookup]

theorem wireBlobStoreName_of_map (spec : RepositorySpec) (config : Config)
    (h : lookup "storage" config = some (storageMap spec.Storage)) :
    wireBlobStoreName config = some (GoValue.string spec.Storage.BlobStoreName) := by
  simp [wireBlobStoreName, lookup_jsonEntries, h, storageMap, jsonRoundTrip, jsonEntries,
    jsonEntry, lookup]

/-- What a successful translation puts under the identity keys of a repository
payload. -/
theorem BuildRepositoryConfig_identity (spec : RepositorySpec) (config : Config)
    (h : BuildRepositoryConfig spec = Except.ok config) :
    lookup "name" config = some (GoValue.string spec.Name) ∧
    lookup "online" config = some (GoValue.bool spec.Online) ∧
    wireBlobStoreName config = some (GoValue.string spec.Storage.BlobStoreName) := by
  obtain ⟨hn, ho, hs⟩ := commonConfig_lookups spec
  have key : lookup "name" config = some (GoValue.string spec.Name) ∧
      lookup "online" config = some (GoValue.bool spec.Online) ∧
      (lookup "storage" config = some spec.Storage.toValue ∨
        lookup "storage" config = some (storageMap spec.Storage)) := by
    unfold BuildRepositoryConfig at h
    by_cases h1 : spec.Type_ = "maven-proxy"
    · rw [if_pos h1] at h
      cases h
      simp [lookup_setKey_ne, lookup_setKey_self, hn, ho, hs]
    rw [if_neg h1] at h
    by_cases h2 : spec.Type_ = "maven-hosted"
    · rw [if_pos h2] at h
      cases h
      simp [lookup_setKey_ne, lookup_setKey_self, hn, ho, hs]
    rw [if_neg h2] at h
    by_cases h3 : spec.Type_ = "maven-group"
    · rw [if_pos h3] at h
      cases hx0 : spec.Maven <;>
        simp only [hx0, deref, bind, Except.bind] at h <;>
        (cases h; try simp [lookup_setKey_ne, lookup_setKey_self, hn, ho, hs])
    rw [if_neg h3] at h
    by_cases h4 : spec.Type_ = "npm-hosted"
    · rw [if_pos h4] at h
      cases h
      simp [lookup_setKey_ne, lookup_setKey_self, hn, ho, hs]
    rw [if_neg h4] at h
    by_cases h5 : spec.Type_ = "npm-proxy"
    · rw [if_pos h5] at h
      cases h
      simp [lookup_setKey_ne, lookup_setKey_self, hn, ho, hs]
    rw [if_neg h5] at h
    by_cases h6 : spec.Type_ = "npm-group"
    · rw [if_pos h6] at h
      cases hx0 : spec.Npm <;>
        simp only [hx0, deref, bind, Except.bind] at h <;>
        (cases h; try simp [lookup_setKey_ne, lookup_setKey_self, hn, ho, hs])
    rw [if_neg h6] at h
    by_cases h7 : spec.Type_ = "docker-proxy"
    · rw [if_pos h7] at h
      cases hx0 : spec.Docker <;> cases hx1 : spec.Proxy <;> cases hx2 : spec.HttpClient <;>
        simp only [hx0, hx1, hx2, deref, bind, Except.bind] at h <;>
        (cases h; try simp [lookup_setKey_ne, lookup_setKey_self, hn, ho, hs])
    rw [if_neg h7] at h
    by_cases h8 : spec.Type_ = "docker-group"
    · rw [if_pos h8] at h
      cases h
      simp [lookup_setKey_ne, lookup_setKey_self, hn, ho, hs]
    rw [if_neg h8] at h
    by_cases h9 : spec.Type_ = "docker-hosted"
    · rw [if_pos h9] at h
      cases hx0 : spec.Docker <;>
        simp only [hx0, deref, bind, Except.bind] at h <;>
        (cases h; try simp [lookup_setKey_ne, lookup_setKey_self, hn, ho, hs])
    rw [if_neg h9] at h
    by_cases h10 : spec.Type_ = "raw-hosted"
    · rw [if_pos h10] at h
      cases h
      simp [lookup_setKey_ne, lookup_setKey_self, hn, ho, hs]
    rw [if_neg h10] at h
    by_cases h11 : spec.Type_ = "raw-proxy"
    · rw [if_pos h11] at h
      cases hx0 : spec.Proxy <;> cases hx1 : spec.HttpClient <;>
        simp only [hx0, hx1, deref, bind, Except.bind] at h <;>
        (cases h; try simp [lookup_setKey_ne, lookup_setKey_self, hn, ho, hs])
    rw [if_neg h11] at h
    by_cases h12 : spec.Type_ = "raw-group"
    · rw [if_pos h12] at h
      cases hx0 : spec.Group <;>
        simp only [hx0, deref, bind, Except.bind] at h <;>
        (cases h; try simp [lookup_setKey_ne, lookup_setKey_self, hn, ho, hs])
    rw [if_neg h12] at h
    cases h
  obtain ⟨h1, h2, h3⟩ := key
  refine ⟨h1, h2, ?_⟩
  rcases h3 with h3 | h3
  · exact wireBlobStoreName_of_struct spec config h3
  · exact wireBlobStoreName_of_map spec config h3

theorem createRepositoryEndpoint_supported (repoType : String)
    (h : repoType ∈ supportedRepositoryTypes) :
    ∃ endpoint, createRepositoryEndpoint repoType = some endpoint := by
  simp only [supportedRepositoryTypes, List.mem_cons, List.mem_singleton, List.not_mem_nil,
    or_false] at h
  rcases h with h | h | h | h | h | h | h | h | h | h | h | h <;>
    (subst h; exact ⟨_, rfl⟩)

theorem GetClient_ok (w : World) (s : State) (h : (GetClient w s).1 = none) :
    (GetClient w s).2.initError = none ∧ (GetClient w s).2.clientInstance = true := by
  unfold GetClient at h ⊢
  cases hi : s.initError with
  | some e => simp [hi] at h
  | none =>
    by_cases hc : s.clientInstance = true
    · simp [hi, hc]
    · simp only [hi, hc] at h ⊢
      simp only [Bool.false_eq_true, if_false] at h ⊢
      unfold initClient at h ⊢
      split at h
      · simp at h
      · next hne => simp [hne, hi]

theorem GetClient_ready (w : World) (s : State) (hi : s.initError = none)
    (hc : s.clientInstance = true) : GetClient w s = (none, s) := by
  simp [GetClient, hi, hc]

theorem FindStatusCondition_replaceFirst (now : Nat) (new : Condition)
    (conditions : List Condition) (c : Condition)
    (h : FindStatusCondition conditions new.Type_ = some c) :
    ∃ c', FindStatusCondition (replaceFirst now new conditions) new.Type_ = some c' ∧
      c'.Status = new.Status ∧ c'.Reason = new.Reason ∧ c'.Message = new.Message := by
  induction conditions with
  | nil => simp [FindStatusCondition] at h
  | cons a rest ih =>
    by_cases ha : a.Type_ = new.Type_
    · refine ⟨mergeCondition now a new, ?_, rfl, rfl, rfl⟩
      simp [replaceFirst, ha, FindStatusCondition, mergeCondition]
    · have h' : FindStatusCondition rest new.Type_ = some c := by
        simpa [FindStatusCondition, ha] using h
      obtain ⟨c', h1, h2⟩ := ih h'
      refine ⟨c', ?_, h2⟩
      simpa [replaceFirst, ha, FindStatusCondition] using h1

theorem FindStatusCondition_append_none (conditions : List Condition) (t : String)
    (c : Condition) (h : FindStatusCondition conditions t = none) (hc : c.Type_ = t) :
    FindStatusCondition (conditions ++ [c]) t = some c := by
  induction conditions with
  | nil => simp [FindStatusCondition, hc]
  | cons a rest ih =>
    by_cases ha : a.Type_ = t
    · simp [FindStatusCondition, ha] at h
    · have h' : FindStatusCondition rest t = none := by
        simpa [FindStatusCondition, ha] using h
      simpa [FindStatusCondition, ha] using ih h'

/-- After `meta.SetStatusCondition` the condition of the new type carries the
new status, reason and message. -/
theorem FindStatusCondition_set (now : Nat) (conditions : List Condition) (new : Condition) :
    ∃ c, FindStatusCondition (SetStatusCondition now conditions new) new.Type_ = some c ∧
      c.Status = new.Status ∧ c.Reason = new.Reason ∧ c.Message = new.Message := by
  unfold SetStatusCondition
  cases h : FindStatusCondition conditions new.Type_ with
  | none =>
    exact ⟨_, FindStatusCondition_append_none _ _ _ h rfl, rfl, rfl, rfl⟩
  | some c => exact FindStatusCondition_replaceFirst now new conditions c h


/-- The create path of `syncRepository`, run step by step: the remote answers the
lookup 404 and the create call 201. -/
theorem syncRepository_create_run (w : World) (s : State) (repo : Repository)
    (config : Config) (endpoint : String)
    (hc : (GetClient w s).1 = none)
    (hb : BuildRepositoryConfig repo.Spec = Except.ok config)
    (he : createRepositoryEndpoint repo.Spec.Type_ = some endpoint)
    (h404 : (w.roundTrip s.trace (getRepositoryRequest repo.Spec.Name)).StatusCode = 404)
    (h201 : (w.roundTrip (s.trace ++ [Event.http (getRepositoryRequest repo.Spec.Name)])
        (createRepositoryRequest endpoint config)).err = none ∧
      (w.roundTrip (s.trace ++ [Event.http (getRepositoryRequest repo.Spec.Name)])
        (createRepositoryRequest endpoint config)).StatusCode = 201) :
    ∃ s3 : State,
      s3.trace = s.trace ++ [Event.http (getRepositoryRequest repo.Spec.Name),
        Event.http (createRepositoryRequest endpoint config)] ∧
      RepositoryReconciler.syncRepository w s repo =
        RepositoryReconciler.updateStatus w s3 repo true none := by
  obtain ⟨hi, hci⟩ := GetClient_ok w s hc
  have ht := GetClient_trace w s
  rcases hG : GetClient w s with ⟨ce, s1⟩
  rw [hG] at hc hi hci ht
  simp only at hc hi hci ht
  subst hc
  refine ⟨{ s1 with trace := s.trace ++ [Event.http (getRepositoryRequest repo.Spec.Name),
        Event.http (createRepositoryRequest endpoint config)] }, rfl, ?_⟩
  have hget : GetRepository w s1 repo.Spec.Name =
      (Except.error Sentinel.ErrRepositoryNotFound.toError,
        { s1 with trace := s.trace ++ [Event.http (getRepositoryRequest repo.Spec.Name)] }) := by
    simp only [getRepositoryRequest] at h404
    simp [GetRepository, send, ht, h404, getRepositoryRequest]
  have hclient : GetClient w
      { s1 with trace := s.trace ++ [Event.http (getRepositoryRequest repo.Spec.Name)] } =
      (none, { s1 with
        trace := s.trace ++ [Event.http (getRepositoryRequest repo.Spec.Name)] }) :=
    GetClient_ready w _ hi hci
  have hcreate : CreateRepository w
      { s1 with trace := s.trace ++ [Event.http (getRepositoryRequest repo.Spec.Name)] }
      repo.Spec.Type_ config =
      (none, { s1 with trace := s.trace ++ [Event.http (getRepositoryRequest repo.Spec.Name),
        Event.http (createRepositoryRequest endpoint config)] }) := by
    simp only [createRepositoryRequest] at h201
    simp [CreateRepository, he, send, h201.1, h201.2, createRepositoryRequest]
  simp only [RepositoryReconciler.syncRepository, hG, hget, notFound_is, if_true, hb,
    Bool.not_false, Bool.true_or, RepositoryReconciler.applyConfiguration, hclient,
    Bool.false_eq_true, if_false, hcreate]

/-- C17 in a world where the lookup is answered 404 and the create call 201 but
the status write conflicts: the spec is of a supported type, the translation
succeeds, the pass holds the lookup and one create call, and yet the pass ends
with an immediate requeue. -/
theorem C17_create_then_status_conflict_requeues :
    freshRepository.Spec.Type_ ∈ supportedRepositoryTypes ∧
    BuildRepositoryConfig freshRepository.Spec = Except.ok scenarioDesired ∧
    (conflictCreateWorld.roundTrip []
      (getRepositoryRequest "r1")).StatusCode = 404 ∧
    (conflictCreateWorld.roundTrip [Event.http (getRepositoryRequest "r1")]
      (createRepositoryRequest "/service/rest/v1/repositories/maven/hosted"
        scenarioDesired)).StatusCode = 201 ∧
    remoteCalls (RepositoryReconciler.syncRepository conflictCreateWorld readyState
      freshRepository).state.trace =
      [(Method.GET, "/service/rest/v1/repositories/r1"),
       (Method.POST, "/service/rest/v1/repositories/maven/hosted")] ∧
    (RepositoryReconciler.syncRepository conflictCreateWorld readyState
      freshRepository).ending =
      Ending.returned { Requeue := true, RequeueAfter := 0 } none := by
  refine ⟨by decide, rfl, by decide, by decide, by decide, by decide⟩

/-- C17 as amended: for a repository spec of a supported type on which the
translation succeeds, with a client available, the lookup answered 404 and the
create call answered 201, `syncRepository` makes the lookup and then exactly one
remote call, the create call to the endpoint of the type, and no update call;
the payload sent holds the spec's name, online flag and, on the wire,
`storage.blobStoreName`. Then either the record already carries Ready=True with
reason "Success" for its generation, nothing is written and the pass returns no
requeue and no error; or the pass writes, once, a status whose Ready condition
is True with reason "Success", and provided that write succeeds it returns no
requeue and no error. -/
theorem C17_create_when_absent (w : World) (s : State) (repo : Repository) (config : Config)
    (hc : (GetClient w s).1 = none)
    (ht : repo.Spec.Type_ ∈ supportedRepositoryTypes)
    (hb : BuildRepositoryConfig repo.Spec = Except.ok config)
    (h404 : (w.roundTrip s.trace (getRepositoryRequest repo.Spec.Name)).StatusCode = 404)
    (h201 : ∀ endpoint, createRepositoryEndpoint repo.Spec.Type_ = some endpoint →
      (w.roundTrip (s.trace ++ [Event.http (getRepositoryRequest repo.Spec.Name)])
        (createRepositoryRequest endpoint config)).err = none ∧
      (w.roundTrip (s.trace ++ [Event.http (getRepositoryRequest repo.Spec.Name)])
        (createRepositoryRequest endpoint config)).StatusCode = 201) :
    ∃ endpoint, createRepositoryEndpoint repo.Spec.Type_ = some endpoint ∧
      lookup "name" config = some (GoValue.string repo.Spec.Name) ∧
      lookup "online" config = some (GoValue.bool repo.Spec.Online) ∧
      wireBlobStoreName config = some (GoValue.string repo.Spec.Storage.BlobStoreName) ∧
      (((RepositoryReconciler.syncRepository w s repo).state.trace =
            s.trace ++ [Event.http (getRepositoryRequest repo.Spec.Name),
              Event.http (createRepositoryRequest endpoint config)] ∧
          readyConditionEquals repo.Status.Conditions
            (builtCondition repo.ObjectMeta.Generation true none repositorySuccessMessage) =
              true ∧
          readyIs repo.Status.Conditions "True" "Success" = true ∧
          (RepositoryReconciler.syncRepository w s repo).ending =
            Ending.returned { Requeue := false, RequeueAfter := 0 } none) ∨
        (∃ conditions,
          (RepositoryReconciler.syncRepository w s repo).state.trace =
            s.trace ++ [Event.http (getRepositoryRequest repo.Spec.Name),
              Event.http (createRepositoryRequest endpoint config),
              Event.statusUpdate conditions] ∧
          readyIs conditions "True" "Success" = true ∧
          (w.statusUpdate (s.trace ++ [Event.http (getRepositoryRequest repo.Spec.Name),
              Event.http (createRepositoryRequest endpoint config)]) = none →
            (RepositoryReconciler.syncRepository w s repo).ending =
              Ending.returned { Requeue := false, RequeueAfter := 0 } none))) := by
  obtain ⟨endpoint, he⟩ := createRepositoryEndpoint_supported _ ht
  obtain ⟨s3, hs3, hrun⟩ := syncRepository_create_run w s repo config endpoint hc hb he h404
    (h201 endpoint he)
  obtain ⟨hn, ho, hst⟩ := BuildRepositoryConfig_identity repo.Spec config hb
  rw [hrun]
  refine ⟨endpoint, he, hn, ho, hst, ?_⟩
  rcases RepositoryUpdateStatus_cases w s3 repo true none with
    ⟨heq, _, hs, hend⟩ | ⟨_, _, htr, hend⟩
  · left
    refine ⟨by rw [hs, hs3], heq, ?_, by rw [hend]; rfl⟩
    simp only [readyConditionEquals, builtCondition, if_true] at heq
    unfold readyIs
    cases hf : FindStatusCondition repo.Status.Conditions "Ready" with
    | none => simp [hf] at heq
    | some c =>
      simp only [hf, Bool.and_eq_true, beq_iff_eq] at heq
      simp [heq.1.1.1, heq.1.1.2]
  · right
    obtain ⟨c, hfc, h1, h2, _⟩ := FindStatusCondition_set w.now
      repo.Status.Conditions
      (builtCondition repo.ObjectMeta.Generation true none repositorySuccessMessage)
    have hty : (builtCondition repo.ObjectMeta.Generation true none
        repositorySuccessMessage).Type_ = "Ready" := rfl
    rw [hty] at hfc
    refine ⟨SetStatusCondition w.now repo.Status.Conditions
      (builtCondition repo.ObjectMeta.Generation true none repositorySuccessMessage),
      ?_, ?_, fun hw => ?_⟩
    · rw [htr, hs3]
      simp
    · simp only [readyIs, hfc, h1, h2]
      rfl
    · rw [hend, hs3, hw]
      rfl

/-- C17 as amended, at the spec's scenario: `r1`, maven-hosted, blob store
`default`, against a remote that holds nothing and a store whose writes
succeed. -/
theorem C17_create_when_absent_witness :
    (RepositoryReconciler.syncRepository createWorld readyState freshRepository).state.trace =
      [Event.http (getRepositoryRequest "r1"),
       Event.http (createRepositoryRequest "/service/rest/v1/repositories/maven/hosted"
         scenarioDesired),
       Event.statusUpdate
         [{ Type_ := "Ready", Status := "True", ObservedGeneration := 1,
            LastTransitionTime := 100, Reason := "Success",
            Message := repositorySuccessMessage }]] ∧
    (RepositoryReconciler.syncRepository createWorld readyState freshRepository).ending =
      Ending.returned { Requeue := false, RequeueAfter := 0 } none ∧
    ∃ endpoint, createRepositoryEndpoint freshRepository.Spec.Type_ = some endpoint ∧
      lookup "name" scenarioDesired = some (GoValue.string "r1") ∧
      lookup "online" scenarioDesired = some (GoValue.bool true) ∧
      wireBlobStoreName scenarioDesired = some (GoValue.string "default") ∧
      (((RepositoryReconciler.syncRepository createWorld readyState
            freshRepository).state.trace =
            readyState.trace ++ [Event.http (getRepositoryRequest "r1"),
              Event.http (createRepositoryRequest endpoint scenarioDesired)] ∧
          readyConditionEquals freshRepository.Status.Conditions
            (builtCondition freshRepository.ObjectMeta.Generation true none
              repositorySuccessMessage) = true ∧
          readyIs freshRepository.Status.Conditions "True" "Success" = true ∧
          (RepositoryReconciler.syncRepository createWorld readyState freshRepository).ending =
            Ending.returned { Requeue := false, RequeueAfter := 0 } none) ∨
        (∃ conditions,
          (RepositoryReconciler.syncRepository createWorld readyState
            freshRepository).state.trace =
            readyState.trace ++ [Event.http (getRepositoryRequest "r1"),
              Event.http (createRepositoryRequest endpoint scenarioDesired),
              Event.statusUpdate conditions] ∧
          readyIs conditions "True" "Success" = true ∧
          (createWorld.statusUpdate (readyState.trace ++ [Event.http (getRepositoryRequest "r1"),
              Event.http (createRepositoryRequest endpoint scenarioDesired)]) = none →
            (RepositoryReconciler.syncRepository createWorld readyState
              freshRepository).ending =
              Ending.returned { Requeue := false, RequeueAfter := 0 } none))) :=
  ⟨rfl, by decide,
   C17_create_when_absent createWorld readyState freshRepository scenarioDesired
     (by decide) (by decide) rfl (by decide) (fun _ _ => ⟨rfl, rfl⟩)⟩

/-- A supported privilege type whose sub-block is absent makes the translation
fail with that type's configuration-required error. -/
theorem BuildPrivilegeConfig_missing_block (spec : PrivilegeSpec)
    (ht : spec.Type_ ∈ supportedPrivilegeTypes) (hm : matchingBlockPresent spec = false) :
    ∃ e, configRequiredError spec.Type_ = some e ∧
      BuildPrivilegeConfig spec = Except.error e.toError := by
  obtain ⟨name, ty, desc, wc, app, rv, ra, rcs, sc⟩ := spec
  simp only [supportedPrivilegeTypes, List.mem_cons, List.mem_singleton, List.not_mem_nil,
    or_false, matchingBlockPresent, configRequiredError, BuildPrivilegeConfig] at ht hm ⊢
  by_cases h1 : ty = "wildcard"
  · subst h1
    cases wc <;> simp at hm ⊢
  by_cases h2 : ty = "application"
  · subst h2
    cases app <;> simp at hm ⊢
  by_cases h3 : ty = "repository-view"
  · subst h3
    cases rv <;> simp at hm ⊢
  by_cases h4 : ty = "repository-admin"
  · subst h4
    cases ra <;> simp at hm ⊢
  by_cases h5 : ty = "repository-content-selector"
  · subst h5
    cases rcs <;> simp at hm ⊢
  by_cases h6 : ty = "script"
  · subst h6
    cases sc <;> simp at hm ⊢
  simp [h1, h2, h3, h4, h5, h6] at ht

/-- The validation path of `syncPrivilege`, run step by step: the lookup comes
back, saying the privilege exists or not, and the translation fails. -/
theorem syncPrivilege_validation_run (w : World) (s : State) (privilege : Privilege)
    (e : GoError)
    (hc : (GetClient w s).1 = none)
    (hb : BuildPrivilegeConfig privilege.Spec = Except.error e)
    (hx : (w.roundTrip s.trace (getPrivilegeRequest privilege.Spec.Name)).StatusCode = 404 ∨
      ((w.roundTrip s.trace (getPrivilegeRequest privilege.Spec.Name)).err = none ∧
        ∃ m, (w.roundTrip s.trace (getPrivilegeRequest privilege.Spec.Name)).asMap =
          Except.ok m)) :
    ∃ s2 : State,
      s2.trace = s.trace ++ [Event.http (getPrivilegeRequest privilege.Spec.Name)] ∧
      PrivilegeReconciler.syncPrivilege w s privilege =
        PrivilegeReconciler.updateStatus w s2 privilege false
          (some (e.wrap "ошибка формирования конфигурации")) := by
  have ht := GetClient_trace w s
  rcases hG : GetClient w s with ⟨ce, s1⟩
  rw [hG] at hc ht
  simp only at hc ht
  subst hc
  refine ⟨{ s1 with trace := s.trace ++ [Event.http (getPrivilegeRequest privilege.Spec.Name)] },
    rfl, ?_⟩
  have hex : ∃ b, PrivilegeExists w s1 privilege.Spec.Name =
      (Except.ok b, { s1 with
        trace := s.trace ++ [Event.http (getPrivilegeRequest privilege.Spec.Name)] }) := by
    simp only [getPrivilegeRequest] at hx
    by_cases h404 : (w.roundTrip s.trace
        { method := Method.GET,
          url := "/service/rest/v1/security/privileges/" ++ privilege.Spec.Name,
          body := Body.empty }).StatusCode = 404
    · refine ⟨false, ?_⟩
      simp [PrivilegeExists, GetPrivilege, send, ht, h404, getPrivilegeRequest, notFound_is]
    · rcases hx with hx | ⟨herr, m, hm⟩
      · exact absurd hx h404
      · refine ⟨true, ?_⟩
        simp [PrivilegeExists, GetPrivilege, send, ht, h404, getPrivilegeRequest, herr, hm]
  obtain ⟨b, hex⟩ := hex
  simp only [PrivilegeReconciler.syncPrivilege, hG, hex, hb]

/-- Every run of `GetPrivilege` sends one request, the GET of the privilege. -/
theorem GetPrivilege_state (w : World) (s : State) (name : String) :
    ∃ r, GetPrivilege w s name =
      (r, { s with trace := s.trace ++ [Event.http (getPrivilegeRequest name)] }) := by
  unfold GetPrivilege send
  dsimp only
  split
  · exact ⟨_, rfl⟩
  · split
    · exact ⟨_, rfl⟩
    · split
      · exact ⟨_, rfl⟩
      · exact ⟨_, rfl⟩

/-- Every run of `PrivilegeExists` sends one request, the GET of the privilege. -/
theorem PrivilegeExists_state (w : World) (s : State) (name : String) :
    ∃ found, PrivilegeExists w s name =
      (found, { s with trace := s.trace ++ [Event.http (getPrivilegeRequest name)] }) := by
  obtain ⟨r, hr⟩ := GetPrivilege_state w s name
  unfold PrivilegeExists
  rw [hr]
  cases r with
  | error e =>
    dsimp only
    split
    · exact ⟨_, rfl⟩
    · exact ⟨_, rfl⟩
  | ok m => exact ⟨_, rfl⟩

/-- The pass of `syncPrivilege` on a spec whose translation fails: without a
client nothing is sent, with a client the lookup is sent, and in both cases the
pass ends in `updateStatus` with an error. -/
theorem syncPrivilege_invalid_run (w : World) (s : State) (privilege : Privilege)
    (e : GoError) (hb : BuildPrivilegeConfig privilege.Spec = Except.error e) :
    ∃ (s2 : State) (cause : GoError),
      ((GetClient w s).1 = none →
        s2.trace = s.trace ++ [Event.http (getPrivilegeRequest privilege.Spec.Name)]) ∧
      ((GetClient w s).1 ≠ none → s2.trace = s.trace) ∧
      PrivilegeReconciler.syncPrivilege w s privilege =
        PrivilegeReconciler.updateStatus w s2 privilege false (some cause) := by
  have ht := GetClient_trace w s
  rcases hG : GetClient w s with ⟨ce, s1⟩
  rw [hG] at ht
  simp only at ht
  cases ce with
  | some ce =>
    refine ⟨s1, ce.wrap "ошибка подключения к Nexus", fun h => by simp at h, fun _ => ht, ?_⟩
    simp only [PrivilegeReconciler.syncPrivilege, hG]
  | none =>
    obtain ⟨found, hex⟩ := PrivilegeExists_state w s1 privilege.Spec.Name
    have htr : ({ s1 with trace := s1.trace ++
        [Event.http (getPrivilegeRequest privilege.Spec.Name)] } : State).trace =
        s.trace ++ [Event.http (getPrivilegeRequest privilege.Spec.Name)] := by
      simp only [ht]
    cases found with
    | error fe =>
      refine ⟨_, fe.wrap "ошибка проверки привелегии", fun _ => htr, fun h => by simp at h, ?_⟩
      simp only [PrivilegeReconciler.syncPrivilege, hG, hex]
    | ok b =>
      refine ⟨_, e.wrap "ошибка формирования конфигурации", fun _ => htr,
        fun h => by simp at h, ?_⟩
      simp only [PrivilegeReconciler.syncPrivilege, hG, hex, hb]

/-- C18 at a privilege of type wildcard without its wildcard block: the pass
does make a remote call, the lookup of the privilege, before the translation
is tried; when that lookup fails the Ready message is the lookup's error and
not the validation error, and so it is the connection error when no client is
available; and when the status write fails the pass returns that error instead
of a requeue. -/
theorem C18_lookup_precedes_validation :
    blocklessPrivilege.Spec.Type_ ∈ supportedPrivilegeTypes ∧
    matchingBlockPresent blocklessPrivilege.Spec = false ∧
    remoteCalls (PrivilegeReconciler.syncPrivilege notFoundWorld readyState
      blocklessPrivilege).state.trace =
      [(Method.GET, "/service/rest/v1/security/privileges/p1")] ∧
    readyMessage (PrivilegeReconciler.syncPrivilege unreachableWorld readyState
      blocklessPrivilege).record.Conditions =
      "ошибка проверки привелегии: request failed: dial tcp: connection refused" ∧
    (PrivilegeReconciler.syncPrivilege unconfiguredWorld firstCallState
      blocklessPrivilege).state.trace =
      [Event.statusUpdate
        [{ Type_ := "Ready", Status := "False", ObservedGeneration := 3,
           LastTransitionTime := 100, Reason := "Error",
           Message := "ошибка подключения к Nexus: " ++ missingEnvVarsError.msg }]] ∧
    (PrivilegeReconciler.syncPrivilege conflictWorld readyState blocklessPrivilege).ending =
      Ending.returned Result.empty (some (conflictError.wrap "ошибка обновления статуса")) := by
  refine ⟨by decide, by decide, by decide, by decide, rfl, by decide⟩

/-- C18 as amended: for a privilege record whose spec names a supported type but
lacks that type's sub-block, `syncPrivilege` makes no create or update call.
With a client available its only remote call is the one lookup of the
privilege, whatever the remote answers, followed by one status write; without
a client it makes no remote call at all and only writes the status. The status
written has the Ready condition False with reason "Error"; its message is the
validation error's text when the client is available and the lookup is answered
(404, or a decodable body without transport error). Provided the status write
succeeds, the pass returns a requeue after 30 seconds and no error. -/
theorem C18_missing_block_only_looks_up (w : World) (s : State) (privilege : Privilege)
    (ht : privilege.Spec.Type_ ∈ supportedPrivilegeTypes)
    (hm : matchingBlockPresent privilege.Spec = false) :
    ∃ sentinel, configRequiredError privilege.Spec.Type_ = some sentinel ∧
      ((GetClient w s).1 = none →
        ∃ conditions,
          (PrivilegeReconciler.syncPrivilege w s privilege).state.trace =
            s.trace ++ [Event.http (getPrivilegeRequest privilege.Spec.Name),
              Event.statusUpdate conditions] ∧
          readyIs conditions "False" "Error" = true ∧
          (((w.roundTrip s.trace (getPrivilegeRequest privilege.Spec.Name)).StatusCode = 404 ∨
            ((w.roundTrip s.trace (getPrivilegeRequest privilege.Spec.Name)).err = none ∧
              ∃ m, (w.roundTrip s.trace (getPrivilegeRequest privilege.Spec.Name)).asMap =
                Except.ok m)) →
            readyMessage conditions =
              "ошибка формирования конфигурации: " ++ sentinel.text) ∧
          (w.statusUpdate (s.trace ++ [Event.http (getPrivilegeRequest privilege.Spec.Name)]) =
              none →
            (PrivilegeReconciler.syncPrivilege w s privilege).ending =
              Ending.returned { Requeue := false, RequeueAfter := 30 * timeSecond } none)) ∧
      ((GetClient w s).1 ≠ none →
        ∃ conditions,
          (PrivilegeReconciler.syncPrivilege w s privilege).state.trace =
            s.trace ++ [Event.statusUpdate conditions] ∧
          readyIs conditions "False" "Error" = true ∧
          (w.statusUpdate s.trace = none →
            (PrivilegeReconciler.syncPrivilege w s privilege).ending =
              Ending.returned { Requeue := false, RequeueAfter := 30 * timeSecond } none)) := by
  obtain ⟨sentinel, hs, hb⟩ := BuildPrivilegeConfig_missing_block privilege.Spec ht hm
  obtain ⟨s2, cause, hyes, hno, hrun⟩ := syncPrivilege_invalid_run w s privilege _ hb
  obtain ⟨_, htr, hend⟩ := PrivilegeUpdateStatus_run w s2 privilege false (some cause)
    (Or.inr rfl)
  obtain ⟨c, hfc, h1, h2, _⟩ := FindStatusCondition_set w.now privilege.Conditions
    (builtCondition privilege.ObjectMeta.Generation false (some cause) privilegeSuccessMessage)
  have hty : (builtCondition privilege.ObjectMeta.Generation false (some cause)
      privilegeSuccessMessage).Type_ = "Ready" := rfl
  rw [hty] at hfc
  have hready : readyIs (SetStatusCondition w.now privilege.Conditions
      (builtCondition privilege.ObjectMeta.Generation false (some cause)
        privilegeSuccessMessage)) "False" "Error" = true := by
    simp only [readyIs, hfc, h1, h2]
    rfl
  refine ⟨sentinel, hs, fun hc => ?_, fun hc => ?_⟩
  · refine ⟨_, ?_, hready, fun hx => ?_, fun hw => ?_⟩
    · rw [hrun, htr, hyes hc]
      simp
    · obtain ⟨s3, _, hrun3⟩ := syncPrivilege_validation_run w s privilege _ hc hb hx
      obtain ⟨_, htr3, _⟩ := PrivilegeUpdateStatus_run w s3 privilege false
        (some (sentinel.toError.wrap "ошибка формирования конфигурации")) (Or.inr rfl)
      have hsame := htr
      rw [← hrun, hrun3, htr3] at hsame
      have hcond := List.append_inj_right' hsame rfl
      simp only [List.cons.injEq, Event.statusUpdate.injEq, and_true] at hcond
      rw [← hcond]
      obtain ⟨c3, hfc3, _, _, h33⟩ := FindStatusCondition_set w.now privilege.Conditions
        (builtCondition privilege.ObjectMeta.Generation false
          (some (sentinel.toError.wrap "ошибка формирования конфигурации"))
          privilegeSuccessMessage)
      have hty3 : (builtCondition privilege.ObjectMeta.Generation false
          (some (sentinel.toError.wrap "ошибка формирования конфигурации"))
          privilegeSuccessMessage).Type_ = "Ready" := rfl
      rw [hty3] at hfc3
      simp only [readyMessage, hfc3, h33]
      rfl
    · rw [hrun, hend, hyes hc, hw]
      rfl
  · refine ⟨_, ?_, hready, fun hw => ?_⟩
    · rw [hrun, htr, hno hc]
    · rw [hrun, hend, hno hc, hw]
      rfl

/-- C18 as amended, at the wildcard privilege without its block, against a
remote that answers 404. -/
theorem C18_missing_block_only_looks_up_witness :
    (PrivilegeReconciler.syncPrivilege notFoundWorld readyState blocklessPrivilege).state.trace =
      [Event.http (getPrivilegeRequest "p1"),
       Event.statusUpdate
         [{ Type_ := "Ready", Status := "False", ObservedGeneration := 3,
            LastTransitionTime := 100, Reason := "Error",
            Message := "ошибка формирования конфигурации: " ++
              Sentinel.ErrWildcardConfigRequired.text }]] ∧
    ∃ sentinel, configRequiredError blocklessPrivilege.Spec.Type_ = some sentinel ∧
      ((GetClient notFoundWorld readyState).1 = none →
        ∃ conditions,
          (PrivilegeReconciler.syncPrivilege notFoundWorld readyState
            blocklessPrivilege).state.trace =
            readyState.trace ++ [Event.http (getPrivilegeRequest blocklessPrivilege.Spec.Name),
              Event.statusUpdate conditions] ∧
          readyIs conditions "False" "Error" = true ∧
          (((notFoundWorld.roundTrip readyState.trace
              (getPrivilegeRequest blocklessPrivilege.Spec.Name)).StatusCode = 404 ∨
            ((notFoundWorld.roundTrip readyState.trace
                (getPrivilegeRequest blocklessPrivilege.Spec.Name)).err = none ∧
              ∃ m, (notFoundWorld.roundTrip readyState.trace
                (getPrivilegeRequest blocklessPrivilege.Spec.Name)).asMap = Except.ok m)) →
            readyMessage conditions =
              "ошибка формирования конфигурации: " ++ sentinel.text) ∧
          (notFoundWorld.statusUpdate (readyState.trace ++
              [Event.http (getPrivilegeRequest blocklessPrivilege.Spec.Name)]) = none →
            (PrivilegeReconciler.syncPrivilege notFoundWorld readyState
              blocklessPrivilege).ending =
              Ending.returned { Requeue := false, RequeueAfter := 30 * timeSecond } none)) ∧
      ((GetClient notFoundWorld readyState).1 ≠ none →
        ∃ conditions,
          (PrivilegeReconciler.syncPrivilege notFoundWorld readyState
            blocklessPrivilege).state.trace =
            readyState.trace ++ [Event.statusUpdate conditions] ∧
          readyIs conditions "False" "Error" = true ∧
          (notFoundWorld.statusUpdate readyState.trace = none →
            (PrivilegeReconciler.syncPrivilege notFoundWorld readyState
              blocklessPrivilege).ending =
              Ending.returned { Requeue := false, RequeueAfter := 30 * timeSecond } none)) :=
  ⟨rfl, C18_missing_block_only_looks_up notFoundWorld readyState blocklessPrivilege
    (by decide) (by decide)⟩

/-- C19 at a lookup answered 500 with a JSON object as body and no transport
error: `GetRepository` and `GetPrivilege` return the decoded body and no
error, `PrivilegeExists` says the privilege exists, and the sync paths go on as
if the object existed, send an update call and end Ready=True; the sibling
`GetRole` and `GetContentSelector` reject the same answer with an
unexpected-response error. -/
theorem C19_get_accepts_any_status :
    (errorBodyWorld.roundTrip [] (getRepositoryRequest "r1")).StatusCode = 500 ∧
    (GetRepository errorBodyWorld readyState "r1").1 = Except.ok (some errorPayload) ∧
    (GetPrivilege errorBodyWorld readyState "p1").1 = Except.ok (some errorPayload) ∧
    (PrivilegeExists errorBodyWorld readyState "p1").1 = Except.ok true ∧
    remoteCalls (RepositoryReconciler.syncRepository errorBodyWorld readyState
      settledRepository).state.trace =
      [(Method.GET, "/service/rest/v1/repositories/r1"),
       (Method.PUT, "/service/rest/v1/repositories/maven/hosted/r1")] ∧
    readyIs (RepositoryReconciler.syncRepository errorBodyWorld readyState
      settledRepository).record.Status.Conditions "True" "Success" = true ∧
    remoteCalls (PrivilegeReconciler.syncPrivilege errorBodyWorld readyState
      settledPrivilege).state.trace =
      [(Method.GET, "/service/rest/v1/security/privileges/p1"),
       (Method.GET, "/service/rest/v1/security/privileges/p1"),
       (Method.PUT, "/service/rest/v1/security/privileges/wildcard/p1")] ∧
    readyIs (PrivilegeReconciler.syncPrivilege errorBodyWorld readyState
      settledPrivilege).record.Conditions "True" "Success" = true ∧
    (GetRole errorBodyWorld readyState "dev").1 =
      Except.error (NewUnexpectedResponseError 500 "\x7b\"error\":\"internal\"\x7d") ∧
    (GetContentSelector errorBodyWorld readyState "cs1").1 =
      Except.error (NewUnexpectedResponseError 500 "\x7b\"error\":\"internal\"\x7d") := by
  refine ⟨by decide, rfl, rfl, rfl, by decide, by decide, by decide, by decide, rfl, rfl⟩

/-- C20 at calls answered 500 with the body `boom`: the error of
`UpdateRepository` wraps the unexpected-response sentinel and holds the status
but not the body, while the other create, update and delete calls hold both;
a content-selector create answered 500 gives a Ready=False message that holds
500. -/
theorem C20_update_repository_drops_body :
    (UpdateRepository serverErrorWorld readyState "maven-hosted" "r1" scenarioDesired).1 =
      some { msg := "неожиданный статус ответа: 500"
             sentinel := some Sentinel.ErrUnexpectedResponse, reason := none } ∧
    containsText (errorMessage
      (UpdateRepository serverErrorWorld readyState "maven-hosted" "r1" scenarioDesired).1)
      "500" = true ∧
    containsText (errorMessage
      (UpdateRepository serverErrorWorld readyState "maven-hosted" "r1" scenarioDesired).1)
      "boom" = false ∧
    (CreateRepository serverErrorWorld readyState "maven-hosted" scenarioDesired).1 =
      some (NewUnexpectedResponseError 500 "boom") ∧
    (DeleteRepository serverErrorWorld readyState "r1").1 =
      some (NewUnexpectedResponseError 500 "boom") ∧
    (UpdatePrivilege serverErrorWorld readyState "p1"
      [("type", GoValue.string "wildcard")]).1 = some (NewUnexpectedResponseError 500 "boom") ∧
    (UpdateRole serverErrorWorld readyState "dev" devRole).1 =
      some (NewUnexpectedResponseError 500 "boom") ∧
    (UpdateContentSelector serverErrorWorld readyState "cs1" "" "format == \"raw\"").1 =
      some (NewUnexpectedResponseError 500 "boom") ∧
    (CreateContentSelector writeFailsWorld readyState "cs1" "" "format == \"raw\"").1 =
      some (NewUnexpectedResponseError 500 "boom") ∧
    containsText (NewUnexpectedResponseError 500 "boom").msg "500" = true ∧
    containsText (NewUnexpectedResponseError 500 "boom").msg "boom" = true ∧
    readyIs (ContentSelectorReconciler.syncContentSelector writeFailsWorld readyState
      settledContentSelector).record.Conditions "False" "Error" = true ∧
    readyMessage (ContentSelectorReconciler.syncContentSelector writeFailsWorld readyState
      settledContentSelector).record.Conditions =
      "ошибка создания Content Selector: неожиданный статус ответа: статус 500, текст: boom" := by
  refine ⟨by decide, by decide, by decide, by decide, by decide, by decide, by decide,
    by decide, by decide, by decide, by decide, by decide, by decide⟩

/-! ## Lemmas on the privilege and role diffs -/

theorem foldl_deleteKey_ignored (es : Config) :
    ["readOnly", "type", "id"].foldl (fun m field => deleteKey field m) es =
      es.filter (fun p => !privilegeIgnoredKey p.1) := by
  simp only [List.foldl, deleteKey, List.filter_filter]
  congr 1
  funext p
  simp only [privilegeIgnoredKey, Bool.not_or]
  cases (p.1 == "readOnly") <;> cases (p.1 == "type") <;> cases (p.1 == "id") <;> rfl

theorem lookup_filter_kept (keep : String → Bool) (k : String) (hk : keep k = true) :
    ∀ es : Config, lookup k (es.filter (fun p => keep p.1)) = lookup k es
  | [] => rfl
  | (k', v) :: rest => by
      have ih := lookup_filter_kept keep k hk rest
      by_cases e : k' = k
      · subst e
        simp [List.filter, hk, lookup]
      · cases hk' : keep k'
        · simp [List.filter, hk', lookup, e, ih]
        · simp [List.filter, hk', lookup, e, ih]

theorem lookup_filter_dropped (keep : String → Bool) (k : String) (hk : keep k = false) :
    ∀ es : Config, lookup k (es.filter (fun p => keep p.1)) = none
  | [] => rfl
  | (k', v) :: rest => by
      have ih := lookup_filter_dropped keep k hk rest
      by_cases e : k' = k
      · subst e
        simp [List.filter, hk, ih]
      · cases hk' : keep k'
        · simp [List.filter, hk', ih]
        · simp [List.filter, hk', lookup, e, ih]

/-- Two maps that read the same under every key are equal for `cmp.Equal`. -/
theorem cmpAny_map_of_same_lookup (o : Options) (path : List Field) (es fs : Config)
    (h : ∀ k, lookup k es = lookup k fs) :
    cmpAny o path (GoValue.map es) (GoValue.map fs) = true := by
  have h1 := cmpEntries_of_same o path fs es [] [] (by simp [keysOf]) (by
    intro k _
    simpa using h k)
  have h2 : fs.all (fun p => o.ignoreMapEntries p.1 || (keysOf es).contains p.1) = true := by
    rw [List.all_eq_true]
    intro p hp
    have hne : lookup p.1 fs ≠ none := lookup_of_mem p.1 p.2 fs hp
    rw [← h p.1] at hne
    have hmem : p.1 ∈ keysOf es := by
      by_contra hc
      exact hne ((lookup_eq_none_iff p.1 es).mpr hc)
    simp [hmem]
  simp only [cmpAny, h1, h2]
  rfl

/-- What a successful walk over the left map's entries says of a key not seen
before. -/
theorem cmpEntries_lookup (path : List Field) (fs : Config) (k : String) (v : GoValue) :
    ∀ (es : Config) (seen : List String), cmpEntries noOptions path seen es fs = true →
      k ∉ seen → lookup k es = some v →
      ∃ w, lookup k fs = some w ∧ cmpAny noOptions path v w = true
  | [], _, _, _, hl => by simp [lookup] at hl
  | (k', v') :: rest, seen, hc, hs, hl => by
      simp only [cmpEntries, Bool.and_eq_true] at hc
      obtain ⟨h1, h2⟩ := hc
      by_cases e : k' = k
      · subst e
        simp only [lookup, if_true, Option.some.injEq] at hl
        subst hl
        have hs' : seen.contains k' = false := by simpa using hs
        simp only [cmpEntry, hs', noOptions, Bool.false_or] at h1
        cases hf : lookup k' fs with
        | none => simp [hf] at h1
        | some w =>
          rw [hf] at h1
          exact ⟨w, rfl, h1⟩
      · simp only [lookup, e, if_false] at hl
        exact cmpEntries_lookup path fs k v rest (k' :: seen) h2 (by
          intro hm
          rcases List.mem_cons.mp hm with hm | hm
          · exact e hm.symm
          · exact hs hm) hl

/-- Two maps equal for plain `cmp.Equal` read alike under every key: absent from
both, or present in both with equal values. -/
theorem cmpAny_map_lookup (path : List Field) (es fs : Config)
    (h : cmpAny noOptions path (GoValue.map es) (GoValue.map fs) = true) (k : String) :
    (lookup k es = none ∧ lookup k fs = none) ∨
    ∃ v w, lookup k es = some v ∧ lookup k fs = some w ∧ cmpAny noOptions path v w = true := by
  simp only [cmpAny, Bool.and_eq_true, List.all_eq_true] at h
  obtain ⟨h1, h2⟩ := h
  cases he : lookup k es with
  | none =>
    left
    refine ⟨rfl, ?_⟩
    cases hf : lookup k fs with
    | none => rfl
    | some w =>
      exfalso
      have hk : k ∉ keysOf es := (lookup_eq_none_iff k es).mp he
      have hmem : ∃ p ∈ fs, p.1 = k := by
        by_contra hc
        have : k ∉ keysOf fs := by
          intro hm
          simp only [keysOf, List.mem_map] at hm
          exact hc hm
        rw [(lookup_eq_none_iff k fs).mpr this] at hf
        cases hf
      obtain ⟨p, hp, hpk⟩ := hmem
      have := h2 p hp
      rw [hpk] at this
      simp only [noOptions, Bool.false_or] at this
      exact hk (by simpa using this)
  | some v =>
    right
    obtain ⟨w, hw, hc⟩ := cmpEntries_lookup path fs k v es [] h1 (by simp) he
    exact ⟨v, w, rfl, hw, hc⟩

theorem privilegeNeedsUpdate_eq (c d : GoMap) :
    PrivilegeReconciler.needsUpdate c d =
      !cmpEqual noOptions (GoValue.map (withoutIgnoredKeys c))
        (GoValue.map (withoutIgnoredKeys d)) := by
  simp only [PrivilegeReconciler.needsUpdate, foldl_deleteKey_ignored, withoutIgnoredKeys]

theorem privilegeNeedsUpdate_iff (c d : GoMap) :
    PrivilegeReconciler.needsUpdate c d = false ↔
      DeepEqual noKey (GoValue.map (withoutIgnoredKeys c))
        (GoValue.map (withoutIgnoredKeys d)) := by
  rw [privilegeNeedsUpdate_eq, ← plainEqual_iff_deepEqual]
  simp

theorem lookup_withoutIgnoredKeys (m : GoMap) (k : String) (hk : privilegeIgnoredKey k = false) :
    lookup k (withoutIgnoredKeys m) = m.get k := by
  unfold withoutIgnoredKeys
  rw [lookup_filter_kept (fun k => !privilegeIgnoredKey k) k (by simp [hk])]
  cases m <;> rfl

theorem lookup_withoutIgnoredKeys_ignored (m : GoMap) (k : String)
    (hk : privilegeIgnoredKey k = true) : lookup k (withoutIgnoredKeys m) = none := by
  unfold withoutIgnoredKeys
  exact lookup_filter_dropped (fun k => !privilegeIgnoredKey k) k (by simp [hk]) _

theorem cmpEntries_of_lookup (path : List Field) (fs : Config) :
    ∀ (suf pre : Config) (seen : List String), (∀ k ∈ keysOf pre, k ∈ seen) →
      (∀ k v, lookup k (pre ++ suf) = some v →
        ∃ w, lookup k fs = some w ∧ cmpAny noOptions path v w = true) →
      cmpEntries noOptions path seen suf fs = true
  | [], _, _, _, _ => by simp [cmpEntries]
  | (k, v) :: rest, pre, seen, h, hsame => by
      have h2 := cmpEntries_of_lookup path fs rest (pre ++ [(k, v)]) (k :: seen) (by
        intro k' hk
        simp only [keysOf, List.map_append, List.map_cons, List.map_nil, List.mem_append,
          List.mem_singleton] at hk
        rcases hk with hk | hk
        · exact List.mem_cons_of_mem _ (h k' hk)
        · simp [hk]) (by
        intro k' v' hk'
        exact hsame k' v' (by simpa [List.append_assoc] using hk'))
      have h1 : cmpEntry noOptions path seen (k, v) fs = true := by
        by_cases hs : k ∈ seen
        · simp [cmpEntry, hs]
        · have hk : k ∉ keysOf pre := fun hk => hs (h k hk)
          obtain ⟨w, hw, hc⟩ := hsame k v (lookup_append_first k v pre rest hk)
          simp [cmpEntry, hw, hc]
      simp [cmpEntries, h1, h2]

/-- Two maps that read alike under every key, up to plain `cmp.Equal` of the
values, are equal for plain `cmp.Equal`. -/
theorem cmpAny_map_of_lookup (path : List Field) (es fs : Config)
    (h : ∀ k, (lookup k es = none ∧ lookup k fs = none) ∨
      ∃ v w, lookup k es = some v ∧ lookup k fs = some w ∧ cmpAny noOptions path v w = true) :
    cmpAny noOptions path (GoValue.map es) (GoValue.map fs) = true := by
  have h1 := cmpEntries_of_lookup path fs es [] [] (by simp [keysOf]) (by
    intro k v hl
    simp only [List.nil_append] at hl
    rcases h k with ⟨hn, _⟩ | ⟨v', w, hv, hw, hc⟩
    · rw [hn] at hl
      cases hl
    · rw [hv] at hl
      cases hl
      exact ⟨w, hw, hc⟩)
  have h2 : fs.all (fun p => noOptions.ignoreMapEntries p.1 || (keysOf es).contains p.1) =
      true := by
    rw [List.all_eq_true]
    intro p hp
    have hne : lookup p.1 fs ≠ none := lookup_of_mem p.1 p.2 fs hp
    have hmem : p.1 ∈ keysOf es := by
      by_contra hc
      have hn := (lookup_eq_none_iff p.1 es).mpr hc
      rcases h p.1 with ⟨_, hf⟩ | ⟨v, _, hv, _, _⟩
      · exact hne hf
      · rw [hn] at hv
        cases hv
    simp [hmem]
  simp only [cmpAny, h1, h2]
  rfl

/-- C21: `PrivilegeReconciler.needsUpdate(current, desired)` is false exactly
when the two payloads are deeply equal once the top-level keys readOnly, type
and id are removed from both (a nil map counting as the empty one); and it is
true exactly when the payloads differ under some other key, present in one
only or holding values that are not deeply equal, so that a difference confined
to the three keys never makes it true. -/
theorem C21_privilege_needsUpdate_ignores_three_keys (c d : GoMap) :
    (PrivilegeReconciler.needsUpdate c d = false ↔
      DeepEqual noKey (GoValue.map (withoutIgnoredKeys c))
        (GoValue.map (withoutIgnoredKeys d))) ∧
    (PrivilegeReconciler.needsUpdate c d = true ↔
      ∃ k, privilegeIgnoredKey k = false ∧ differsAt k c d) := by
  have hiff := privilegeNeedsUpdate_iff c d
  refine ⟨hiff, ?_⟩
  constructor
  · intro h
    by_contra hno
    have hde : DeepEqual noKey (GoValue.map (withoutIgnoredKeys c))
        (GoValue.map (withoutIgnoredKeys d)) := by
      refine DeepEqual.map _ _ ?_ ?_
      · intro k _
        cases hk : privilegeIgnoredKey k
        · rw [lookup_withoutIgnoredKeys c k hk, lookup_withoutIgnoredKeys d k hk]
          have hd : ¬ differsAt k c d := fun hd => hno ⟨k, hk, hd⟩
          unfold differsAt at hd
          cases hcg : c.get k <;> cases hdg : d.get k <;> simp [hcg, hdg] at hd ⊢
        · rw [lookup_withoutIgnoredKeys_ignored c k hk,
            lookup_withoutIgnoredKeys_ignored d k hk]
      · intro k v w _ hv hw
        cases hk : privilegeIgnoredKey k
        · rw [lookup_withoutIgnoredKeys c k hk] at hv
          rw [lookup_withoutIgnoredKeys d k hk] at hw
          have hd : ¬ differsAt k c d := fun hd => hno ⟨k, hk, hd⟩
          unfold differsAt at hd
          simp only [hv, hw, not_not] at hd
          exact hd
        · rw [lookup_withoutIgnoredKeys_ignored c k hk] at hv
          cases hv
    rw [hiff.mpr hde] at h
    cases h
  · rintro ⟨k, hk, hd⟩
    cases hn : PrivilegeReconciler.needsUpdate c d
    · exfalso
      have hl := deepEqual_map_lookup noKey _ _ (hiff.mp hn) k rfl
      rw [lookup_withoutIgnoredKeys c k hk, lookup_withoutIgnoredKeys d k hk] at hl
      unfold differsAt at hd
      rcases hl with ⟨h1, h2⟩ | ⟨v, w, h1, h2, h3⟩
      · simp [h1, h2] at hd
      · simp only [h1, h2] at hd
        exact hd h3
    · rfl

/-- C22 at a privilege of type application with the action list `["READ"]`: the
translation succeeds, the remote holds exactly the decoded JSON encoding of the
translated payload (with or without an added `readOnly`), and still
`needsUpdate` is true, because the translated `actions` is a `[]string` and the
decoded one a `[]interface{}`; the second pass over a stable remote therefore
sends a PUT. A payload without an action list, as of type wildcard, does
compare equal. -/
theorem C22_actions_list_always_needs_update :
    BuildPrivilegeConfig applicationSpec = Except.ok applicationDesired ∧
    lookup "actions" applicationDesired = some (GoValue.strings ["READ"]) ∧
    (decodeEncoded (some applicationDesired)).get "actions" =
      some (GoValue.slice [GoValue.string "READ"]) ∧
    PrivilegeReconciler.needsUpdate (decodeEncoded (some applicationDesired))
      (some applicationDesired) = true ∧
    PrivilegeReconciler.needsUpdate
      (some (jsonEntries applicationDesired ++ [("readOnly", GoValue.bool false)]))
      (some applicationDesired) = true ∧
    remoteCalls (PrivilegeReconciler.syncPrivilege (stablePrivilegeWorld applicationDesired)
      readyState applicationPrivilege).state.trace =
      [(Method.GET, "/service/rest/v1/security/privileges/p2"),
       (Method.GET, "/service/rest/v1/security/privileges/p2"),
       (Method.PUT, "/service/rest/v1/security/privileges/application/p2")] ∧
    BuildPrivilegeConfig settledPrivilege.Spec = Except.ok wildcardDesired ∧
    PrivilegeReconciler.needsUpdate
      (some (jsonEntries wildcardDesired ++ [("readOnly", GoValue.bool false)]))
      (some wildcardDesired) = false ∧
    remoteCalls (PrivilegeReconciler.syncPrivilege (stablePrivilegeWorld wildcardDesired)
      readyState settledPrivilege).state.trace =
      [(Method.GET, "/service/rest/v1/security/privileges/p1"),
       (Method.GET, "/service/rest/v1/security/privileges/p1")] := by
  refine ⟨rfl, rfl, rfl, by decide, by decide, by decide, rfl, by decide, by decide⟩

theorem zip_all_eq_iff : ∀ (xs ys : List String), xs.length = ys.length →
    ((List.zip xs ys).all (fun p => p.1 == p.2) = true ↔ xs = ys)
  | [], [], _ => by simp
  | [], _ :: _, h => by simp at h
  | _ :: _, [], h => by simp at h
  | x :: xs, y :: ys, h => by
      have ih := zip_all_eq_iff xs ys (by simpa using h)
      simp only [List.zip_cons_cons, List.all_cons, Bool.and_eq_true, beq_iff_eq, ih,
        List.cons.injEq]

/-- Function `equalStringSlices` says whether the two slices hold the same
elements in the same order, a nil slice counting as an empty one. -/
theorem equalStringSlices_iff (a b : Option (List String)) :
    equalStringSlices a b = true ↔ sliceElems a = sliceElems b := by
  have hl : ∀ x : Option (List String), sliceLen x = (sliceElems x).length := by
    intro x
    cases x <;> rfl
  unfold equalStringSlices
  rw [hl a, hl b]
  by_cases h : (sliceElems a).length = (sliceElems b).length
  · simp only [h, ne_eq, not_true_eq_false, if_false]
    exact zip_all_eq_iff _ _ h
  · simp only [ne_eq, h, not_false_eq_true, if_true]
    constructor
    · intro hf
      cases hf
    · intro he
      exact absurd (congrArg List.length he) h

/-- C23: for every role spec `s` and remote role `c`,
`RoleReconciler.needsUpdate(c, BuildRoleConfig(s))` is false exactly when the
name and description of `c` equal those of `s` and the privilege list and the
nested-role list of `c` equal those of `s` element by element in the same order,
an absent list counting as an empty one; the role id of neither side is looked
at; and a list of `c` that holds the elements of the list of `s` in another
order makes it true. -/
theorem C23_role_needsUpdate_compares_four_fields (s : RoleSpec) (c : Role) :
    (RoleReconciler.needsUpdate c (BuildRoleConfig s) = false ↔
      c.Name = s.Name ∧ c.Description = s.Description ∧
      sliceElems c.Privileges = sliceElems s.Privileges ∧
      sliceElems c.Roles = sliceElems s.Roles) ∧
    (∀ id id' : String,
      RoleReconciler.needsUpdate { c with ID := id } { BuildRoleConfig s with ID := id' } =
        RoleReconciler.needsUpdate c (BuildRoleConfig s)) ∧
    ((sliceElems c.Privileges).Perm (sliceElems s.Privileges) →
      sliceElems c.Privileges ≠ sliceElems s.Privileges →
      RoleReconciler.needsUpdate c (BuildRoleConfig s) = true) ∧
    ((sliceElems c.Roles).Perm (sliceElems s.Roles) →
      sliceElems c.Roles ≠ sliceElems s.Roles →
      RoleReconciler.needsUpdate c (BuildRoleConfig s) = true) := by
  have hp := equalStringSlices_iff c.Privileges s.Privileges
  have hr := equalStringSlices_iff c.Roles s.Roles
  have key : RoleReconciler.needsUpdate c (BuildRoleConfig s) = false ↔
      c.Name = s.Name ∧ c.Description = s.Description ∧
      sliceElems c.Privileges = sliceElems s.Privileges ∧
      sliceElems c.Roles = sliceElems s.Roles := by
    simp only [RoleReconciler.needsUpdate, BuildRoleConfig, Bool.or_eq_false_iff,
      bne_eq_false_iff_eq, Bool.not_eq_false', hp, hr]
    tauto
  refine ⟨key, fun _ _ => rfl, fun _ hne => ?_, fun _ hne => ?_⟩
  · cases h : RoleReconciler.needsUpdate c (BuildRoleConfig s)
    · exact absurd (key.mp h).2.2.1 hne
    · rfl
  · cases h : RoleReconciler.needsUpdate c (BuildRoleConfig s)
    · exact absurd (key.mp h).2.2.2 hne
    · rfl

/-- C23 at concrete roles: equal fields with another id and a nil list against
an empty one need no update; swapped privileges do. -/
theorem C23_role_needsUpdate_compares_four_fields_witness :
    RoleReconciler.needsUpdate
      { ID := "other", Name := "dev", Description := "d", Privileges := some ["a", "b"],
        Roles := some [] }
      (BuildRoleConfig
        { RoleID := "dev", Name := "dev", Description := "d", Privileges := some ["a", "b"],
          Roles := none, Source := none }) = false ∧
    RoleReconciler.needsUpdate
      { ID := "dev", Name := "dev", Description := "d", Privileges := some ["b", "a"],
        Roles := none }
      (BuildRoleConfig
        { RoleID := "dev", Name := "dev", Description := "d", Privileges := some ["a", "b"],
          Roles := none, Source := none }) = true :=
  ⟨(C23_role_needsUpdate_compares_four_fields
      { RoleID := "dev", Name := "dev", Description := "d", Privileges := some ["a", "b"],
        Roles := none, Source := none }
      { ID := "other", Name := "dev", Description := "d", Privileges := some ["a", "b"],
        Roles := some [] }).1.mpr ⟨rfl, rfl, rfl, rfl⟩,
   (C23_role_needsUpdate_compares_four_fields
      { RoleID := "dev", Name := "dev", Description := "d", Privileges := some ["a", "b"],
        Roles := none, Source := none }
      { ID := "dev", Name := "dev", Description := "d", Privileges := some ["b", "a"],
        Roles := none }).2.2.1 (List.Perm.swap "a" "b" []) (by decide)⟩

theorem commonConfig_proxy (spec : RepositorySpec) (p : ProxyConfig)
    (hp : spec.Proxy = some p) :
    lookup "proxy" (commonConfig spec) = some (GoValue.map (buildProxyConfig p)) := by
  unfold commonConfig
  simp only [hp]
  repeat' split
  all_goals simp [lookup_setKey_ne, lookup_setKey_self, setKey, lookup]

theorem commonConfig_group (spec : RepositorySpec) (g : GroupConfig)
    (hg : spec.Group = some g) :
    lookup "group" (commonConfig spec) = some (groupValue (some g)) := by
  unfold commonConfig
  simp only [hg]
  repeat' split
  all_goals simp [lookup_setKey_ne, lookup_setKey_self]

/-- With a proxy sub-block in the spec, a payload of a proxy type holds it under
`proxy`. -/
theorem BuildRepositoryConfig_proxy (spec : RepositorySpec) (p : ProxyConfig) (config : Config)
    (ht : spec.Type_ ∈ proxyRepositoryTypes) (hp : spec.Proxy = some p)
    (h : BuildRepositoryConfig spec = Except.ok config) :
    lookup "proxy" config = some (GoValue.map (buildProxyConfig p)) := by
  have hc := commonConfig_proxy spec p hp
  simp only [proxyRepositoryTypes, List.mem_cons, List.mem_singleton, List.not_mem_nil,
    or_false] at ht
  unfold BuildRepositoryConfig at h
  rcases ht with ht | ht | ht | ht
  · simp only [ht, if_true] at h
    cases h
    simp [lookup_setKey_ne, hc]
  · simp only [ht, String.reduceEq, if_false, if_true] at h
    cases h
    simp [lookup_setKey_ne, hc]
  · simp only [ht, String.reduceEq, if_false, if_true, hp] at h
    cases hd : spec.Docker <;> cases hh : spec.HttpClient <;>
      simp only [hd, hh, deref, bind, Except.bind] at h <;>
      (cases h; try simp [lookup_setKey_ne, hc])
  · simp only [ht, String.reduceEq, if_false, if_true, hp] at h
    cases hh : spec.HttpClient <;>
      simp only [hh, deref, bind, Except.bind] at h <;>
      (cases h; try simp [lookup_setKey_ne, lookup_setKey_self, buildProxyConfig])

theorem wireMemberNames_of_ptr (g : GroupConfig) (config : Config)
    (h : lookup "group" config = some (groupValue (some g))) :
    wireMemberNames config = some (jsonRoundTrip (stringsValue g.MemberNames)) := by
  simp [wireMemberNames, lookup_jsonEntries, h, groupValue, jsonRoundTrip, jsonFields,
    jsonField, Field.omitEmpty, Field.jsonName, lookup]

theorem wireMemberNames_of_map (g : GroupConfig) (config : Config)
    (h : lookup "group" config =
      some (GoValue.map [("memberNames", stringsValue g.MemberNames)])) :
    wireMemberNames config = some (jsonRoundTrip (stringsValue g.MemberNames)) := by
  simp [wireMemberNames, lookup_jsonEntries, h, jsonRoundTrip, jsonEntries, jsonEntry, lookup]

/-- With a group sub-block in the spec, a payload of a group type holds its
member names under `group`. -/
theorem BuildRepositoryConfig_group (spec : RepositorySpec) (g : GroupConfig) (config : Config)
    (ht : spec.Type_ ∈ groupRepositoryTypes) (hg : spec.Group = some g)
    (h : BuildRepositoryConfig spec = Except.ok config) :
    wireMemberNames config = some (jsonRoundTrip (stringsValue g.MemberNames)) := by
  have hc := commonConfig_group spec g hg
  simp only [groupRepositoryTypes, List.mem_cons, List.mem_singleton, List.not_mem_nil,
    or_false] at ht
  unfold BuildRepositoryConfig at h
  rcases ht with ht | ht | ht | ht
  · simp only [ht, String.reduceEq, if_false, if_true] at h
    cases hm : spec.Maven <;> simp only [hm] at h <;>
      (cases h; exact wireMemberNames_of_ptr g _ (by simp [lookup_setKey_ne, hc]))
  · simp only [ht, String.reduceEq, if_false, if_true, hg] at h
    cases hn : spec.Npm <;> simp only [hn] at h <;>
      (cases h
       exact wireMemberNames_of_ptr g _ (by simp [lookup_setKey_ne, lookup_setKey_self]))
  · simp only [ht, String.reduceEq, if_false, if_true, hg] at h
    cases h
    exact wireMemberNames_of_ptr g _ (by simp [lookup_setKey_self])
  · simp only [ht, String.reduceEq, if_false, if_true, hg, deref, bind, Except.bind] at h
    cases h
    exact wireMemberNames_of_map g _ (by simp [lookup_setKey_self])

/-- C24 at proxy-type specs without a proxy sub-block: for maven-proxy and
npm-proxy the translation succeeds and the payload has no proxy block; with the
sub-block present every proxy type that is translated carries the spec's
remoteUrl, contentMaxAge and metadataMaxAge under `proxy`. -/
theorem C24_proxy_block_missing_without_error :
    (∃ c, BuildRepositoryConfig (bareRepository "maven-proxy") = Except.ok c ∧
      lookup "proxy" c = none) ∧
    (∃ c, BuildRepositoryConfig (bareRepository "npm-proxy") = Except.ok c ∧
      lookup "proxy" c = none) ∧
    ∀ (spec : RepositorySpec) (p : ProxyConfig) (config : Config),
      spec.Type_ ∈ proxyRepositoryTypes → spec.Proxy = some p →
      BuildRepositoryConfig spec = Except.ok config →
        lookup "proxy" config = some (GoValue.map
          [("remoteUrl", GoValue.string p.RemoteUrl),
           ("contentMaxAge", GoValue.int p.ContentMaxAge),
           ("metadataMaxAge", GoValue.int p.MetadataMaxAge)]) := by
  refine ⟨⟨_, rfl, rfl⟩, ⟨_, rfl, rfl⟩, ?_⟩
  intro spec p config ht hp h
  exact BuildRepositoryConfig_proxy spec p config ht hp h

/-- C25 at group-type specs without a group sub-block: for maven-group the
translation succeeds and the payload has no group block, for npm-group and
docker-group it succeeds with a nil pointer under `group`, which goes over the
wire as `null`; with the sub-block present every group type that is translated
carries the spec's member names, in their order, under `group`. -/
theorem C25_group_block_missing_without_error :
    (∃ c, BuildRepositoryConfig (bareRepository "maven-group") = Except.ok c ∧
      lookup "group" c = none ∧ wireMemberNames c = none) ∧
    (∃ c, BuildRepositoryConfig (bareRepository "npm-group") = Except.ok c ∧
      lookup "group" c = some (GoValue.nilPtr StructType.GroupConfig) ∧
      wireMemberNames c = none) ∧
    (∃ c, BuildRepositoryConfig (bareRepository "docker-group") = Except.ok c ∧
      lookup "group" c = some (GoValue.nilPtr StructType.GroupConfig) ∧
      wireMemberNames c = none) ∧
    ∀ (spec : RepositorySpec) (members : List String) (config : Config),
      spec.Type_ ∈ groupRepositoryTypes → spec.Group = some { MemberNames := some members } →
      BuildRepositoryConfig spec = Except.ok config →
        wireMemberNames config = some (wireStrings members) := by
  refine ⟨⟨_, rfl, rfl, rfl⟩, ⟨_, rfl, rfl, rfl⟩, ⟨_, rfl, rfl, rfl⟩, ?_⟩
  intro spec members config ht hg h
  exact BuildRepositoryConfig_group spec _ config ht hg h

/-- C26 at a repository of generation 1 created on an empty remote: the pass
ends with Ready=True, the Ready condition carries observed generation 1, and
the record's `status.observedGeneration` is still 0; no run of
`RepositoryReconciler.updateStatus` ever changes that field. -/
theorem C26_observed_generation_never_written :
    freshRepository.ObjectMeta.Generation = 1 ∧
    readyIs (RepositoryReconciler.syncRepository createWorld readyState
      freshRepository).record.Status.Conditions "True" "Success" = true ∧
    (RepositoryReconciler.syncRepository createWorld readyState freshRepository).ending =
      Ending.returned Result.empty none ∧
    readyConditionEquals (RepositoryReconciler.syncRepository createWorld readyState
      freshRepository).record.Status.Conditions
      (builtCondition 1 true none repositorySuccessMessage) = true ∧
    (RepositoryReconciler.syncRepository createWorld readyState
      freshRepository).record.Status.ObservedGeneration = 0 ∧
    (RepositoryReconciler.syncRepository createWorld readyState
      freshRepository).record.ObjectMeta.Generation = 1 ∧
    ∀ (w : World) (s : State) (repo : Repository) (ready : Bool) (cause : Option GoError),
      (RepositoryReconciler.updateStatus w s repo ready cause).record.Status.ObservedGeneration =
        repo.Status.ObservedGeneration := by
  refine ⟨rfl, by decide, by decide, by decide, by decide, by decide, ?_⟩
  intro w s repo ready cause
  rcases RepositoryUpdateStatus_cases w s repo ready cause with ⟨_, hr, _⟩ | ⟨_, hr, _⟩
  · rw [hr]
  · rw [hr]
    rfl

/-! ## Lemmas on the condition list -/

theorem conditionTypes_replaceFirst (now : Nat) (new : Condition) :
    ∀ l : List Condition, conditionTypes (replaceFirst now new l) = conditionTypes l
  | [] => rfl
  | a :: rest => by
      have ih := conditionTypes_replaceFirst now new rest
      simp only [conditionTypes] at ih
      by_cases h : a.Type_ = new.Type_
      · simp [replaceFirst, h, conditionTypes, mergeCondition]
      · simp [replaceFirst, h, conditionTypes, ih]

theorem find_none_not_mem (t : String) :
    ∀ l : List Condition, FindStatusCondition l t = none → t ∉ conditionTypes l
  | [], _ => by simp [conditionTypes]
  | a :: rest, h => by
      by_cases ha : a.Type_ = t
      · simp [FindStatusCondition, ha] at h
      · have h' : FindStatusCondition rest t = none := by
          simpa [FindStatusCondition, ha] using h
        have ih := find_none_not_mem t rest h'
        simp only [conditionTypes] at ih
        have ha' : ¬ t = a.Type_ := fun e => ha e.symm
        simp [conditionTypes, ha', ih]

theorem filter_type_of_not_mem (t : String) :
    ∀ l : List Condition, t ∉ conditionTypes l → l.filter (fun x => x.Type_ == t) = []
  | [], _ => rfl
  | a :: rest, h => by
      simp only [conditionTypes, List.map_cons, List.mem_cons, not_or] at h
      have ih := filter_type_of_not_mem t rest (by simpa [conditionTypes] using h.2)
      have ha : ¬ a.Type_ = t := fun e => h.1 e.symm
      simp [List.filter_cons, ha, ih]

theorem conditionTypes_set_nodup (now : Nat) (l : List Condition) (new : Condition)
    (h : (conditionTypes l).Nodup) :
    (conditionTypes (SetStatusCondition now l new)).Nodup := by
  unfold SetStatusCondition
  cases hf : FindStatusCondition l new.Type_ with
  | none =>
    have hn := find_none_not_mem new.Type_ l hf
    simp only [conditionTypes, List.map_append, List.map_cons, List.map_nil] at hn ⊢
    rw [List.nodup_append]
    refine ⟨h, List.nodup_singleton _, ?_⟩
    intro x hx hy
    simp only [List.mem_singleton] at hy
    subst hy
    exact hn hx
  | some c =>
    simp only []
    rw [conditionTypes_replaceFirst]
    exact h

theorem filter_others_replaceFirst (now : Nat) (new : Condition) :
    ∀ l : List Condition,
      (replaceFirst now new l).filter (fun x => x.Type_ != new.Type_) =
        l.filter (fun x => x.Type_ != new.Type_)
  | [] => rfl
  | a :: rest => by
      have ih := filter_others_replaceFirst now new rest
      by_cases h : a.Type_ = new.Type_
      · simp [replaceFirst, h, List.filter_cons, mergeCondition]
      · simp [replaceFirst, h, List.filter_cons, ih]

theorem filter_others_set (now : Nat) (l : List Condition) (new : Condition) :
    (SetStatusCondition now l new).filter (fun x => x.Type_ != new.Type_) =
      l.filter (fun x => x.Type_ != new.Type_) := by
  unfold SetStatusCondition
  cases hf : FindStatusCondition l new.Type_ with
  | none => simp [List.filter_append, List.filter_cons]
  | some c => exact filter_others_replaceFirst now new l

theorem filter_type_of_find (t : String) (c : Condition) :
    ∀ l : List Condition, (conditionTypes l).Nodup → FindStatusCondition l t = some c →
      l.filter (fun x => x.Type_ == t) = [c]
  | [], _, h => by simp [FindStatusCondition] at h
  | a :: rest, hn, h => by
      simp only [conditionTypes, List.map_cons, List.nodup_cons] at hn
      by_cases ha : a.Type_ = t
      · have hc : a = c := by simpa [FindStatusCondition, ha] using h
        subst hc
        have hrest := filter_type_of_not_mem t rest (by
          rw [← ha]
          simpa [conditionTypes] using hn.1)
        simp [List.filter_cons, ha, hrest]
      · have h' : FindStatusCondition rest t = some c := by
          simpa [FindStatusCondition, ha] using h
        have ih := filter_type_of_find t c rest (by simpa [conditionTypes] using hn.2) h'
        simp [List.filter_cons, ha, ih]

theorem FindStatusCondition_replaceFirst_generation (now : Nat) (new : Condition)
    (conditions : List Condition) (c : Condition)
    (h : FindStatusCondition conditions new.Type_ = some c) :
    ∃ c', FindStatusCondition (replaceFirst now new conditions) new.Type_ = some c' ∧
      c'.Status = new.Status ∧ c'.Reason = new.Reason ∧ c'.Message = new.Message ∧
      c'.ObservedGeneration = new.ObservedGeneration := by
  induction conditions with
  | nil => simp [FindStatusCondition] at h
  | cons a rest ih =>
    by_cases ha : a.Type_ = new.Type_
    · refine ⟨mergeCondition now a new, ?_, rfl, rfl, rfl, rfl⟩
      simp [replaceFirst, ha, FindStatusCondition, mergeCondition]
    · have h' : FindStatusCondition rest new.Type_ = some c := by
        simpa [FindStatusCondition, ha] using h
      obtain ⟨c', h1, h2⟩ := ih h'
      refine ⟨c', ?_, h2⟩
      simpa [replaceFirst, ha, FindStatusCondition] using h1

/-- After `meta.SetStatusCondition` the condition of the new type carries the
new status, reason, message and observed generation. -/
theorem FindStatusCondition_set_generation (now : Nat) (conditions : List Condition)
    (new : Condition) :
    ∃ c, FindStatusCondition (SetStatusCondition now conditions new) new.Type_ = some c ∧
      c.Status = new.Status ∧ c.Reason = new.Reason ∧ c.Message = new.Message ∧
      c.ObservedGeneration = new.ObservedGeneration := by
  unfold SetStatusCondition
  cases h : FindStatusCondition conditions new.Type_ with
  | none =>
    exact ⟨_, FindStatusCondition_append_none _ _ _ h rfl, rfl, rfl, rfl, rfl⟩
  | some c => exact FindStatusCondition_replaceFirst_generation now new conditions c h

/-- The list after `meta.SetStatusCondition` of a Ready condition is as the spec
asks, when the list before had at most one entry per type. -/
theorem readyMaintained_set (now : Nat) (l : List Condition) (new : Condition)
    (hty : new.Type_ = "Ready") (h : (conditionTypes l).Nodup) :
    readyMaintained l (SetStatusCondition now l new) new := by
  have hn := conditionTypes_set_nodup now l new h
  obtain ⟨c, hf, h1, h2, h3, h4⟩ := FindStatusCondition_set_generation now l new
  have ho := filter_others_set now l new
  rw [hty] at hf ho
  exact ⟨hn, ⟨c, filter_type_of_find "Ready" c _ hn hf, h1, h2, h3, h4⟩, ho⟩

/-- C27: for every kind, when the record's condition list holds at most one
entry per condition type before `updateStatus`, the record's list afterwards
holds at most one entry per type, exactly one entry of type Ready, carrying the
status, reason, message and observed generation of the condition built from the
record's current generation, and every entry of another type as before. The
privilege, role and content-selector versions are taken where they do not panic
(ready, or a non-nil cause). -/
theorem C27_conditions_hold_one_ready (w : World) (s : State) :
    (∀ (repo : Repository) (ready : Bool) (cause : Option GoError),
      (conditionTypes repo.Status.Conditions).Nodup →
      readyMaintained repo.Status.Conditions
        (RepositoryReconciler.updateStatus w s repo ready cause).record.Status.Conditions
        (builtCondition repo.ObjectMeta.Generation ready cause repositorySuccessMessage)) ∧
    (∀ (privilege : Privilege) (ready : Bool) (cause : Option GoError),
      (conditionTypes privilege.Conditions).Nodup → ready = true ∨ cause.isSome = true →
      readyMaintained privilege.Conditions
        (PrivilegeReconciler.updateStatus w s privilege ready cause).record.Conditions
        (builtCondition privilege.ObjectMeta.Generation ready cause privilegeSuccessMessage)) ∧
    (∀ (role : RoleCR) (ready : Bool) (cause : Option GoError),
      (conditionTypes role.Conditions).Nodup → ready = true ∨ cause.isSome = true →
      readyMaintained role.Conditions
        (RoleReconciler.updateStatus w s role ready cause).record.Conditions
        (builtCondition role.ObjectMeta.Generation ready cause roleSuccessMessage)) ∧
    (∀ (cs : ContentSelector) (ready : Bool) (cause : Option GoError),
      (conditionTypes cs.Conditions).Nodup → ready = true ∨ cause.isSome = true →
      readyMaintained cs.Conditions
        (ContentSelectorReconciler.updateStatus w s cs ready cause).record.Conditions
        (builtCondition cs.ObjectMeta.Generation ready cause contentSelectorSuccessMessage)) := by
  have hty : ∀ (g : Int) (ready : Bool) (cause : Option GoError) (m : String),
      (builtCondition g ready cause m).Type_ = "Ready" := by
    intro g ready cause m
    cases ready <;> rfl
  refine ⟨?_, ?_, ?_, ?_⟩
  · intro repo ready cause hn
    rcases RepositoryUpdateStatus_cases w s repo ready cause with ⟨heq, hr, _⟩ | ⟨_, hr, _⟩
    · rw [hr]
      unfold readyConditionEquals at heq
      cases hf : FindStatusCondition repo.Status.Conditions "Ready" with
      | none => simp [hf] at heq
      | some c =>
        simp only [hf, Bool.and_eq_true, beq_iff_eq] at heq
        exact ⟨hn, ⟨c, filter_type_of_find "Ready" c _ hn hf, heq.1.1.1, heq.1.1.2, heq.1.2,
          heq.2⟩, rfl⟩
    · rw [hr]
      exact readyMaintained_set w.now _ _ (hty _ _ _ _) hn
  · intro privilege ready cause hn h
    rw [(PrivilegeUpdateStatus_run w s privilege ready cause h).1]
    exact readyMaintained_set w.now _ _ (hty _ _ _ _) hn
  · intro role ready cause hn h
    rw [(RoleUpdateStatus_run w s role ready cause h).1]
    exact readyMaintained_set w.now _ _ (hty _ _ _ _) hn
  · intro cs ready cause hn h
    rw [(ContentSelectorUpdateStatus_run w s cs ready cause h).1]
    exact readyMaintained_set w.now _ _ (hty _ _ _ _) hn

/-- C27 at a privilege whose list holds a foreign condition and a stale Ready
one: after a successful pass the foreign condition is untouched and the Ready
one is replaced in place. -/
theorem C27_conditions_hold_one_ready_witness :
    (conditionTypes mixedConditions).Nodup ∧
    (PrivilegeReconciler.updateStatus notFoundWorld readyState
      { settledPrivilege with Conditions := mixedConditions } true none).record.Conditions =
      [{ Type_ := "Synced", Status := "True", ObservedGeneration := 2, LastTransitionTime := 40,
         Reason := "Seen", Message := "" },
       { Type_ := "Ready", Status := "True", ObservedGeneration := 3, LastTransitionTime := 100,
         Reason := "Success", Message := privilegeSuccessMessage }] ∧
    readyMaintained mixedConditions
      (PrivilegeReconciler.updateStatus notFoundWorld readyState
        { settledPrivilege with Conditions := mixedConditions } true none).record.Conditions
      (builtCondition 3 true none privilegeSuccessMessage) :=
  ⟨by decide, by decide,
   (C27_conditions_hold_one_ready notFoundWorld readyState).2.1
     { settledPrivilege with Conditions := mixedConditions } true none (by decide)
     (Or.inl rfl)⟩

theorem createRepositoryEndpoint_unsupported (repoType : String)
    (h : repoType ∉ supportedRepositoryTypes) : createRepositoryEndpoint repoType = none := by
  simp only [supportedRepositoryTypes, List.mem_cons, List.mem_singleton, List.not_mem_nil,
    or_false, not_or] at h
  obtain ⟨h1, h2, h3, h4, h5, h6, h7, h8, h9, h10, h11, h12⟩ := h
  simp [createRepositoryEndpoint, h1, h2, h3, h4, h5, h6, h7, h8, h9, h10, h11, h12]

theorem updateRepositoryEndpoint_unsupported (repoType name : String)
    (h : repoType ∉ supportedRepositoryTypes) :
    updateRepositoryEndpoint repoType name = none := by
  simp only [supportedRepositoryTypes, List.mem_cons, List.mem_singleton, List.not_mem_nil,
    or_false, not_or] at h
  obtain ⟨h1, h2, h3, h4, h5, h6, h7, h8, h9, h10, h11, h12⟩ := h
  simp [updateRepositoryEndpoint, h1, h2, h3, h4, h5, h6, h7, h8, h9, h10, h11, h12]

theorem BuildRepositoryConfig_unsupported (spec : RepositorySpec)
    (h : spec.Type_ ∉ supportedRepositoryTypes) :
    BuildRepositoryConfig spec =
      Except.error (Failure.error (unsupportedRepoTypeError spec.Type_)) := by
  simp only [supportedRepositoryTypes, List.mem_cons, List.mem_singleton, List.not_mem_nil,
    or_false, not_or] at h
  obtain ⟨h1, h2, h3, h4, h5, h6, h7, h8, h9, h10, h11, h12⟩ := h
  unfold BuildRepositoryConfig
  rw [if_neg h2, if_neg h1, if_neg h3, if_neg h4, if_neg h5, if_neg h6, if_neg h8, if_neg h9,
    if_neg h7, if_neg h10, if_neg h11, if_neg h12]
  rfl

theorem updateRepositoryEndpoint_supported (repoType name : String)
    (h : repoType ∈ supportedRepositoryTypes) :
    ∃ endpoint, createRepositoryEndpoint repoType = some endpoint ∧
      updateRepositoryEndpoint repoType name = some (endpoint ++ "/" ++ name) := by
  simp only [supportedRepositoryTypes, List.mem_cons, List.mem_singleton, List.not_mem_nil,
    or_false] at h
  rcases h with h | h | h | h | h | h | h | h | h | h | h | h <;>
    (subst h
     refine ⟨_, rfl, ?_⟩
     simp only [updateRepositoryEndpoint, String.reduceEq, if_true, if_false,
       Option.some.injEq]
     rw [String.append_assoc]
     rfl)


/-- The only error `BuildRepositoryConfig` returns is the one for a type outside
the twelve. -/
theorem BuildRepositoryConfig_error_unsupported (spec : RepositorySpec) (e : GoError)
    (h : BuildRepositoryConfig spec = Except.error (Failure.error e)) :
    spec.Type_ ∉ supportedRepositoryTypes := by
  simp only [supportedRepositoryTypes, List.mem_cons, List.mem_singleton, List.not_mem_nil,
    or_false, not_or]
  unfold BuildRepositoryConfig at h
  by_cases h1 : spec.Type_ = "maven-proxy"
  · rw [if_pos h1] at h
    cases h
  rw [if_neg h1] at h
  by_cases h2 : spec.Type_ = "maven-hosted"
  · rw [if_pos h2] at h
    cases h
  rw [if_neg h2] at h
  by_cases h3 : spec.Type_ = "maven-group"
  · rw [if_pos h3] at h
    cases hx0 : spec.Maven <;>
      simp only [hx0, deref, bind, Except.bind] at h <;> cases h
  rw [if_neg h3] at h
  by_cases h4 : spec.Type_ = "npm-hosted"
  · rw [if_pos h4] at h
    cases h
  rw [if_neg h4] at h
  by_cases h5 : spec.Type_ = "npm-proxy"
  · rw [if_pos h5] at h
    cases h
  rw [if_neg h5] at h
  by_cases h6 : spec.Type_ = "npm-group"
  · rw [if_pos h6] at h
    cases hx0 : spec.Npm <;>
      simp only [hx0, deref, bind, Except.bind] at h <;> cases h
  rw [if_neg h6] at h
  by_cases h7 : spec.Type_ = "docker-proxy"
  · rw [if_pos h7] at h
    cases hx0 : spec.Docker <;> cases hx1 : spec.Proxy <;> cases hx2 : spec.HttpClient <;>
      simp only [hx0, hx1, hx2, deref, bind, Except.bind] at h <;> cases h
  rw [if_neg h7] at h
  by_cases h8 : spec.Type_ = "docker-group"
  · rw [if_pos h8] at h
    cases h
  rw [if_neg h8] at h
  by_cases h9 : spec.Type_ = "docker-hosted"
  · rw [if_pos h9] at h
    cases hx0 : spec.Docker <;>
      simp only [hx0, deref, bind, Except.bind] at h <;> cases h
  rw [if_neg h9] at h
  by_cases h10 : spec.Type_ = "raw-hosted"
  · rw [if_pos h10] at h
    cases h
  rw [if_neg h10] at h
  by_cases h11 : spec.Type_ = "raw-proxy"
  · rw [if_pos h11] at h
    cases hx0 : spec.Proxy <;> cases hx1 : spec.HttpClient <;>
      simp only [hx0, hx1, deref, bind, Except.bind] at h <;> cases h
  rw [if_neg h11] at h
  by_cases h12 : spec.Type_ = "raw-group"
  · rw [if_pos h12] at h
    cases hx0 : spec.Group <;>
      simp only [hx0, deref, bind, Except.bind] at h <;> cases h
  rw [if_neg h12] at h
  exact ⟨h2, h1, h3, h4, h5, h6, h9, h7, h8, h10, h11, h12⟩

/-- C28: `BuildRepositoryConfig`, `CreateRepository` and `UpdateRepository` accept
the same twelve repository types, the four formats crossed with the three
subtypes. For a type outside the twelve each returns the
unsupported-repository-type error, the two client operations without sending
anything; for a type among them the translation returns no error of that kind
and the client operations send their request, to
`/service/rest/v1/repositories/<format>/<subtype>` on create and to that path
followed by `/<name>` on update. Hence a type whose payload was built has both
endpoints. -/
theorem C28_same_twelve_repository_types :
    (∀ t, t ∈ supportedRepositoryTypes ↔
      ∃ format ∈ repositoryFormats, ∃ subtype ∈ repositorySubtypes,
        t = format ++ "-" ++ subtype) ∧
    (∀ format ∈ repositoryFormats, ∀ subtype ∈ repositorySubtypes, ∀ name : String,
      createRepositoryEndpoint (format ++ "-" ++ subtype) =
        some ("/service/rest/v1/repositories/" ++ format ++ "/" ++ subtype) ∧
      updateRepositoryEndpoint (format ++ "-" ++ subtype) name =
        some ("/service/rest/v1/repositories/" ++ format ++ "/" ++ subtype ++ "/" ++ name)) ∧
    (∀ spec : RepositorySpec,
      (spec.Type_ ∉ supportedRepositoryTypes ↔
        BuildRepositoryConfig spec =
          Except.error (Failure.error (unsupportedRepoTypeError spec.Type_))) ∧
      (∀ e, BuildRepositoryConfig spec = Except.error (Failure.error e) →
        e = unsupportedRepoTypeError spec.Type_)) ∧
    (∀ (w : World) (s : State) (t name : String) (config : Config),
      t ∉ supportedRepositoryTypes →
      CreateRepository w s t config = (some (unsupportedRepoTypeError t), s) ∧
      UpdateRepository w s t name config = (some (unsupportedRepoTypeError t), s)) ∧
    (∀ (w : World) (s : State) (t name : String) (config : Config),
      t ∈ supportedRepositoryTypes →
      ∃ endpoint, createRepositoryEndpoint t = some endpoint ∧
        (CreateRepository w s t config).2.trace =
          s.trace ++ [Event.http (createRepositoryRequest endpoint config)] ∧
        (UpdateRepository w s t name config).2.trace =
          s.trace ++ [Event.http { method := Method.PUT, url := endpoint ++ "/" ++ name,
                                   body := Body.config config }]) ∧
    (∀ (spec : RepositorySpec) (config : Config) (name : String),
      BuildRepositoryConfig spec = Except.ok config →
      ∃ endpoint, createRepositoryEndpoint spec.Type_ = some endpoint ∧
        updateRepositoryEndpoint spec.Type_ name = some (endpoint ++ "/" ++ name)) := by
  refine ⟨?_, ?_, ?_, ?_, ?_, ?_⟩
  · intro t
    simp only [supportedRepositoryTypes, repositoryFormats, repositorySubtypes, List.mem_cons,
      List.mem_singleton, List.not_mem_nil, or_false, exists_eq_or_imp, exists_eq_left]
    constructor
    · intro h
      rcases h with h | h | h | h | h | h | h | h | h | h | h | h <;> subst h <;> decide
    · intro h
      rcases h with (h | h | h) | (h | h | h) | (h | h | h) | (h | h | h) <;> subst h <;>
        decide
  · intro format hf subtype hs name
    have hmem : format ++ "-" ++ subtype ∈ supportedRepositoryTypes := by
      simp only [repositoryFormats, repositorySubtypes, List.mem_cons, List.mem_singleton,
        List.not_mem_nil, or_false] at hf hs
      rcases hf with hf | hf | hf | hf <;> rcases hs with hs | hs | hs <;> subst hf <;>
        subst hs <;> decide
    obtain ⟨endpoint, hc, hu⟩ := updateRepositoryEndpoint_supported _ name hmem
    have he : endpoint = "/service/rest/v1/repositories/" ++ format ++ "/" ++ subtype := by
      simp only [repositoryFormats, repositorySubtypes, List.mem_cons, List.mem_singleton,
        List.not_mem_nil, or_false] at hf hs
      rcases hf with hf | hf | hf | hf <;> rcases hs with hs | hs | hs <;> subst hf <;>
        subst hs <;> exact (Option.some.inj hc).symm
    rw [← he]
    exact ⟨hc, hu⟩
  · intro spec
    refine ⟨⟨BuildRepositoryConfig_unsupported spec, fun h => ?_⟩, fun e h => ?_⟩
    · exact BuildRepositoryConfig_error_unsupported spec _ h
    · have hn := BuildRepositoryConfig_error_unsupported spec e h
      rw [BuildRepositoryConfig_unsupported spec hn] at h
      simp only [Except.error.injEq, Failure.error.injEq] at h
      exact h.symm
  · intro w s t name config ht
    constructor
    · simp [CreateRepository, createRepositoryEndpoint_unsupported t ht]
    · simp [UpdateRepository, updateRepositoryEndpoint_unsupported t name ht]
  · intro w s t name config ht
    obtain ⟨endpoint, hc, hu⟩ := updateRepositoryEndpoint_supported t name ht
    refine ⟨endpoint, hc, ?_, ?_⟩
    · unfold CreateRepository send
      simp only [hc, createRepositoryRequest]
      repeat' split
      all_goals rfl
    · unfold UpdateRepository send
      simp only [hu]
      repeat' split
      all_goals rfl
  · intro spec config name h
    have hmem : spec.Type_ ∈ supportedRepositoryTypes := by
      by_contra hn
      rw [BuildRepositoryConfig_unsupported spec hn] at h
      cases h
    exact updateRepositoryEndpoint_supported spec.Type_ name hmem

/-- C29: two repository specs that differ only in their cleanup and raw
sub-blocks are translated alike, to the same payload, the same error or the
same panic, whatever the type: neither the cleanup policy names nor the raw
content disposition reach the payload. -/
theorem C29_cleanup_and_raw_never_reach_payload (a b : RepositorySpec)
    (h : { b with Cleanup := a.Cleanup, Raw := a.Raw } = a) :
    BuildRepositoryConfig a = BuildRepositoryConfig b := by
  rw [← h]
  rfl

/-- C29 at a raw-hosted spec with and without a cleanup policy and a raw
sub-block. -/
theorem C29_cleanup_and_raw_never_reach_payload_witness :
    rawSpecWithExtras ≠ bareRepository "raw-hosted" ∧
    BuildRepositoryConfig rawSpecWithExtras =
      BuildRepositoryConfig (bareRepository "raw-hosted") :=
  ⟨by decide,
   C29_cleanup_and_raw_never_reach_payload rawSpecWithExtras (bareRepository "raw-hosted") rfl⟩

theorem removeString_eq_filter (l : List String) (s : String) :
    removeString l s = l.filter (fun x => decide (x ≠ s)) := by
  induction l with
  | nil => rfl
  | cons a l ih =>
    by_cases h : a = s
    · simp [removeString, h, ih]
    · simp [removeString, h, ih]

theorem containsString_iff_mem (l : List String) (s : String) :
    containsString l s = true ↔ s ∈ l := by
  induction l with
  | nil => simp [containsString]
  | cons a l ih =>
    by_cases h : a = s
    · simp [containsString, h]
    · have h' : ¬ s = a := fun e => h e.symm
      simp [containsString, h, h', ih]

/-- C30: for every list `l` and string `s`, `removeString(l, s)` is `l` with
every occurrence of `s` removed and the other entries kept in their order; so
`containsString` finds `s` no more and finds every other string exactly when it
did before; applying it twice gives what applying it once gives; and
`finalizeRole` either leaves the record's finalizers alone or leaves on it
every finalizer but the controller's, in order, which is then the list it
writes. -/
theorem C30_removeString_keeps_the_others (l : List String) (s : String) :
    removeString l s = l.filter (fun x => decide (x ≠ s)) ∧
    containsString (removeString l s) s = false ∧
    (∀ x, x ≠ s → containsString (removeString l s) x = containsString l x) ∧
    (removeString l s).Sublist l ∧
    removeString (removeString l s) s = removeString l s ∧
    ∀ (w : World) (st : State) (role : RoleCR),
      ((RoleReconciler.finalizeRole w st role).record.ObjectMeta.Finalizers =
          role.ObjectMeta.Finalizers ∧
        recordWrites (RoleReconciler.finalizeRole w st role).state.trace =
          recordWrites st.trace) ∨
      ((RoleReconciler.finalizeRole w st role).record.ObjectMeta.Finalizers =
          role.ObjectMeta.Finalizers.filter (fun x => decide (x ≠ finalizerName)) ∧
        recordWrites (RoleReconciler.finalizeRole w st role).state.trace =
          recordWrites st.trace ++
            [role.ObjectMeta.Finalizers.filter (fun x => decide (x ≠ finalizerName))]) := by
  have hf := removeString_eq_filter l s
  refine ⟨hf, containsString_removeString l s, ?_, ?_, ?_, ?_⟩
  · intro x hx
    have h1 := containsString_iff_mem (removeString l s) x
    have h2 := containsString_iff_mem l x
    rw [hf] at h1 ⊢
    have h3 : x ∈ l.filter (fun y => decide (y ≠ s)) ↔ x ∈ l := by
      simp [List.mem_filter, hx]
    cases hc : containsString l x
    · cases hc' : containsString (l.filter (fun y => decide (y ≠ s))) x
      · rfl
      · have := h2.mpr (h3.mp (h1.mp hc'))
        rw [hc] at this
        cases this
    · exact h1.mpr (h3.mpr (h2.mp hc))
  · rw [hf]
    exact List.filter_sublist l
  · rw [hf, removeString_eq_filter, List.filter_filter]
    congr 1
    funext x
    simp
  · intro w st role
    rcases finalizeRole_cases w st role with
      ⟨_, _, hr, ht, _⟩ | ⟨_, _, _, _, hr, ht, _⟩ | ⟨_, _, hr, ht, _⟩
    · left
      rw [hr, ht]
      exact ⟨rfl, rfl⟩
    · left
      rw [hr, ht, recordWrites_append]
      exact ⟨rfl, by simp [recordWrites]⟩
    · right
      rw [hr, ht, recordWrites_append]
      refine ⟨?_, ?_⟩
      · exact removeString_eq_filter _ _
      · have hw : withoutFinalizer role.ObjectMeta =
            role.ObjectMeta.Finalizers.filter (fun x => decide (x ≠ finalizerName)) :=
          removeString_eq_filter _ _
        rw [hw]
        simp [recordWrites]

end NexusOperator
